import Mathlib

/-!
Lotus inference session: a shallow embedding.

A model of `InferenceSession::Impl` (lotus/core/framework/inference_session.cc).
Member functions become functions on an explicit `Impl` record.  C++ control
effects are explicit: a call either returns, lets an exception escape, or has
undefined behaviour (a null pointer is dereferenced).  Collaborators whose code
lives outside the modelled file (model loader, graph resolver, kernel
registries, planner, executor, tensor deserialisation) are fields of `Env`.
Log statements and the mutex have no effect on the modelled state and are left out, except in
`Run_with_prologue`, which lets the statements of `Run` that precede the increment of the run
counter throw.

A second, smaller part models the tensor slicer
(onnxruntime/core/framework/mlvalue_tensor_slicer.cc) as pure functions.
-/

set_option autoImplicit false

namespace Lotus

/-! ## Status -/

/-- Modelled from the spec: the status categories of core/common/status.h (not part of the sources at hand). -/
inductive StatusCategory
  | NONE | SYSTEM | LOTUS
  deriving DecidableEq, Repr

/-- Modelled from the spec: the status codes of core/common/status.h (not part of the sources at hand);
inference_session.cc itself uses FAIL, MODEL_LOADED, INVALID_PROTOBUF and RUNTIME_EXCEPTION. -/
inductive StatusCode
  | OK | FAIL | INVALID_ARGUMENT | NO_SUCHFILE | NO_MODEL | ENGINE_ERROR
  | RUNTIME_EXCEPTION | INVALID_PROTOBUF | MODEL_LOADED | NOT_IMPLEMENTED
  deriving DecidableEq, Repr

/-- Modelled from the spec: `Common::Status` of core/common/status.h, an error kind plus a
human-readable message. -/
structure Status where
  category : StatusCategory
  code : StatusCode
  msg : String
  deriving DecidableEq, Repr

namespace Status

/-- The value of `Status::OK()`. -/
def OK : Status := ⟨StatusCategory.NONE, StatusCode.OK, ""⟩

/-- The test `status.IsOK()`. -/
def IsOK (st : Status) : Bool := decide (st.code = StatusCode.OK)

end Status

/-! ## Control effects -/

/-- A C++ exception in flight: one derived from `std::exception` (caught by
`catch (const std::exception& ex)`, carrying `what()`), or anything else (caught by `catch (...)`). -/
inductive Thrown
  | std_exception (what : String)
  | unknown
  deriving DecidableEq, Repr

/-- Result of calling a collaborator: it returns a value or throws. -/
inductive Call (α : Type)
  | ret (a : α)
  | throw (e : Thrown)
  deriving DecidableEq, Repr

/-- Result of running a member function from state `σ`: it returns `a` leaving state `s`; an
exception escapes leaving state `s`; or the behaviour is undefined (null pointer dereference,
out-of-range vector index). -/
inductive Outcome (σ α : Type)
  | ret (a : α) (s : σ)
  | raise (e : Thrown) (s : σ)
  | undefined
  deriving DecidableEq, Repr

namespace Outcome

variable {σ α β : Type}

/-- Sequencing: run `k` on the returned value and state; exceptions and undefined behaviour propagate. -/
def andThen (o : Outcome σ α) (k : α → σ → Outcome σ β) : Outcome σ β :=
  match o with
  | ret a s => k a s
  | raise e s => raise e s
  | undefined => undefined

/-- Lift a collaborator call made in state `s`. -/
def ofCall (c : Call α) (s : σ) : Outcome σ α :=
  match c with
  | Call.ret a => ret a s
  | Call.throw e => raise e s

/-- The handlers `catch (const std::exception& ex) { return onStd(ex.what()); } catch (...) { return onOther; }`
around a function body. -/
def catchAll (o : Outcome σ Status) (onStd : String → Status) (onOther : Status) : Outcome σ Status :=
  match o with
  | ret a s => ret a s
  | raise (Thrown.std_exception w) s => ret (onStd w) s
  | raise Thrown.unknown s => ret onOther s
  | undefined => undefined

end Outcome

/-- Modelled from the spec: the macro `LOTUS_RETURN_IF_ERROR(expr)` of core/common/common.h (not part of
the sources at hand): evaluate `expr`; if its status is not OK return it from the enclosing function,
otherwise continue with `k`. -/
def LOTUS_RETURN_IF_ERROR {σ : Type} (o : Outcome σ Status) (k : σ → Outcome σ Status) : Outcome σ Status :=
  o.andThen fun st s => if st.IsOK then k s else Outcome.ret st s

/-! ## Graph and model data (LotusIR) -/

/-- Modelled from the spec: a `LotusIR::NodeArg` (core/graph/graph.h is not part of the sources at
hand), the name, type and shape of one end of a tensor-valued edge. -/
structure NodeArg where
  Name : String
  DataType : String
  Shape : Option (List Int)
  deriving DecidableEq, Repr

/-- Modelled from the spec: an `onnx::TensorProto` (the protobuf header is not part of the sources at
hand), the serialized payload of a weight. -/
structure TensorProto where
  dims : List Int
  raw_data : List Int
  deriving DecidableEq, Repr

/-- Modelled from the spec: a `LotusIR::Node` (core/graph/graph.h is not part of the sources at hand):
an operator node with its index, its assigned backend and its input and output edges. -/
structure Node where
  Index : Nat
  Name : String
  OpType : String
  ExecutionProvider : String
  InputDefs : List NodeArg
  OutputDefs : List NodeArg
  deriving DecidableEq, Repr

/-- Modelled from the spec: the `LotusIR::InitializedTensorSet` (core/graph/graph.h is not part of the
sources at hand), the map from weight name to tensor proto, listed in iteration order. -/
abbrev InitializedTensorSet := List (String × TensorProto)

/-- Modelled from the spec: the call `weights.count(name)` on that map (a standard container, not part of
the sources at hand), as a test for a weight of that name. -/
def InitializedTensorSet.count (weights : InitializedTensorSet) (name : String) : Bool :=
  weights.any fun entry => entry.1 == name

/-- Modelled from the spec: a `LotusIR::Graph` (core/graph/graph.h is not part of the sources at hand):
the nodes in iteration order with the synthetic source and sink markers, the declared inputs and
outputs (vectors of `const NodeArg*`, whose entries the session checks against null) and the weights. -/
structure Graph where
  Name : String
  Nodes : List Node
  source_node_index : Nat
  sink_node_index : Nat
  Inputs : List (Option NodeArg)
  Outputs : List (Option NodeArg)
  AllInitializedTensors : InitializedTensorSet
  deriving DecidableEq, Repr

namespace Graph

/-- Modelled from the spec: `Graph::IsSourceNode` (core/graph/graph.h is not part of the sources at
hand): whether the index is that of the synthetic source marker. -/
def IsSourceNode (g : Graph) (index : Nat) : Bool := decide (index = g.source_node_index)

/-- Modelled from the spec: `Graph::IsSinkNode` (core/graph/graph.h is not part of the sources at hand):
whether the index is that of the synthetic sink marker. -/
def IsSinkNode (g : Graph) (index : Nat) : Bool := decide (index = g.sink_node_index)

/-- Modelled from the spec: `Graph::NumberOfNodes` (core/graph/graph.h is not part of the sources at
hand): the number of nodes of the graph. -/
def NumberOfNodes (g : Graph) : Nat := g.Nodes.length

/-- Modelled from the spec: `Graph::CleanAllInitializedTensors` (core/graph/graph.h is not part of the
sources at hand): releases the graph's own copies of the weight data. -/
def CleanAllInitializedTensors (g : Graph) : Graph := { g with AllInitializedTensors := [] }

end Graph

/-- Modelled from the spec: a `LotusIR::Model` (core/graph/model.h is not part of the sources at hand):
producer, doc string, domain, version, custom metadata and the main graph. -/
structure Model where
  ProducerName : String
  DocString : String
  Domain : String
  ModelVersion : Int
  MetaData : List (String × String)
  MainGraph : Graph
  deriving DecidableEq, Repr

/-- Modelled from the spec: a parsed `ModelProto` message (the protobuf header is not part of the
sources at hand), kept as its payload. -/
structure ModelProto where
  payload : List Nat
  deriving DecidableEq, Repr

/-- Modelled from the spec: a `std::istream` holding a serialized model, the byte-stream source of
`Load` (a standard type, not part of the sources at hand). -/
structure IStream where
  bytes : List Nat
  deriving DecidableEq, Repr

/-- Modelled from the spec: the `ModelMetadata` record of core/framework/inference_session.h (not part
of the sources at hand), with the six members that `SaveModelMetadata` assigns. -/
structure ModelMetadata where
  producer_name : String
  graph_name : String
  domain : String
  description : String
  version : Int
  custom_metadata_map : List (String × String)
  deriving DecidableEq, Repr

/-! ## Providers, kernels, tensors -/

/-- Modelled from the spec: an `AllocatorInfo` (core/framework/allocator.h is not part of the sources at
hand), the identity of a memory location. -/
structure AllocatorInfo where
  name : String
  id : Nat
  deriving DecidableEq, Repr

/-- Modelled from the spec: an `IExecutionProvider` (core/framework/execution_provider.h is not part of
the sources at hand) taken as data: its `Type()` and the `Info()` of the allocator that
`GetAllocator()` returns (taken to be non-null, as the session does without a check). -/
structure IExecutionProvider where
  Type_ : String
  allocator_info : AllocatorInfo
  deriving DecidableEq, Repr

/-- Modelled from the spec: the constant `LotusIR::kCpuExecutionProvider` of core/graph/constants.h
(not part of the sources at hand), the name of the CPU backend. -/
def kCpuExecutionProvider : String := "CPUExecutionProvider"

/-- Modelled from the spec: the provider built by `std::make_unique<CPUExecutionProvider>(epi)` with
`epi` named "CPUExecutionProvider" (core/providers/cpu/cpu_execution_provider.h is not part of the
sources at hand): the default CPU backend with its CPU allocator. -/
def CPUExecutionProvider : IExecutionProvider :=
  { Type_ := kCpuExecutionProvider, allocator_info := { name := "Cpu", id := 0 } }

/-- Modelled from the spec: a constructed `OpKernel` (core/framework/op_kernel.h is not part of the
sources at hand), identified by the creator that built it and the node it was built for. -/
structure OpKernel where
  creator : String
  node_index : Nat
  deriving DecidableEq, Repr

/-- Modelled from the spec: a `Tensor` (core/framework/tensor.h is not part of the sources at hand): its
shape, its element values and where its buffer lives. -/
structure Tensor where
  shape : List Int
  data : List Int
  location : AllocatorInfo
  deriving DecidableEq, Repr

/-- Modelled from the spec: an `MLValue` (core/framework/ml_value.h is not part of the sources at hand)
after `Init(p, type, deleter)`: the tensor pointer it holds, possibly null. -/
structure MLValue where
  pData : Option Tensor
  deriving DecidableEq, Repr

/-- Modelled from the spec: the `NameMLValMap` of feeds (core/framework/inference_session.h is not part
of the sources at hand), a mapping from input name to value. -/
abbrev NameMLValMap := List (String × MLValue)

/-- A kernel creation callback handed to `KernelRegistry::Register`: the lambda built by
`RegisterCustomKernel`, capturing the caller's `IMLOpKernelCreateFn` (a function pointer, possibly null). -/
structure KernelCreateFn where
  abi_kernel_creator : Option String
  deriving DecidableEq, Repr

/-- Modelled from the spec: the `KernelDef` carried by a `KernelDefBuilder`
(core/framework/kernel_def_builder.h is not part of the sources at hand): operator identity, domain,
version and backend. -/
structure KernelDefBuilder where
  op_name : String
  op_domain : String
  since_version : Nat
  provider_type : String
  deriving DecidableEq, Repr

/-- Modelled from the spec: a `KernelRegistry` (core/framework/op_kernel.h is not part of the sources at
hand) as the list of its registered entries. -/
structure KernelRegistry where
  entries : List (KernelDefBuilder × KernelCreateFn)
  deriving DecidableEq, Repr

/-- Modelled from the spec: a `LotusIR::GraphTransformer` (core/graph/graph_transformer.h is not part of
the sources at hand), a graph-rewrite pass identified by its name. -/
structure GraphTransformer where
  Name : String
  deriving DecidableEq, Repr

/-- Modelled from the spec: the `LotusIR::GraphTransformerManager` (core/graph/graph_transformer.h is
not part of the sources at hand): the step bound it was built with and its registered passes. -/
structure GraphTransformerManager where
  steps : Nat
  transformers : List GraphTransformer
  deriving DecidableEq, Repr

/-- Modelled from the spec: one entry of `SequentialExecutionPlan::allocation_plan`
(core/framework/execution_plan.h is not part of the sources at hand): memory location and
lifetime class of a value. -/
structure AllocPlanPerValue where
  location : AllocatorInfo
  alloc_kind : Nat
  deriving DecidableEq, Repr

/-- Modelled from the spec: a `SequentialExecutionPlan` (core/framework/execution_plan.h is not part of
the sources at hand): the allocation-plan entry per value index and the node-execution order. -/
structure SequentialExecutionPlan where
  allocation_plan : List AllocPlanPerValue
  execution_plan : List Nat
  deriving DecidableEq, Repr

/-- Modelled from the spec: a `MemoryBlock` (core/framework/mem_pattern.h is not part of the sources at
hand): offset and size inside an arena. -/
structure MemoryBlock where
  offset : Nat
  size : Nat
  deriving DecidableEq, Repr

/-- Modelled from the spec: a `MemoryPattern` (core/framework/mem_pattern.h is not part of the sources
at hand): the blocks per value index and the peak size of the arena. -/
structure MemoryPattern where
  patterns : List (Int × MemoryBlock)
  peak_size_ : Nat
  deriving DecidableEq, Repr

namespace MemoryPattern

/-- Modelled from the spec: `MemoryPattern::peak_size` (core/framework/mem_pattern.h is not part of the
sources at hand), the peak packed size of the location. -/
def peak_size (p : MemoryPattern) : Nat := p.peak_size_

/-- Modelled from the spec: `MemoryPattern::GetBlock` (core/framework/mem_pattern.h is not part of the
sources at hand): the block of a value index, or null when the index was not traced. -/
def GetBlock (p : MemoryPattern) (idx : Int) : Option MemoryBlock :=
  (p.patterns.find? fun e => decide (e.1 = idx)).map Prod.snd

end MemoryPattern

/-- Modelled from the spec: a `MemoryPatternGroup` (core/framework/mem_pattern.h is not part of the
sources at hand): parallel vectors of locations and patterns. -/
structure MemoryPatternGroup where
  locations : List AllocatorInfo
  patterns : List MemoryPattern
  deriving DecidableEq, Repr

/-- Modelled from the spec: `MemoryPatternGroup::GetPatterns` (core/framework/mem_pattern.h is not part
of the sources at hand): the pattern stored at the position of `location` in `locations`, or null. -/
def MemoryPatternGroup.GetPatterns (g : MemoryPatternGroup) (location : AllocatorInfo) : Option MemoryPattern :=
  ((g.locations.zip g.patterns).find? fun e => decide (e.1 = location)).map Prod.snd

/-- Modelled from the spec: a `BufferUniquePtr` (core/framework/allocator.h is not part of the sources
at hand): the address returned by `Alloc` (null when `none`) and the owning allocator. -/
structure BufferUniquePtr where
  buffer : Option Nat
  alloc : AllocatorInfo
  deriving DecidableEq, Repr

/-- Modelled from the spec: an `Executor` (core/framework/executor.h is not part of the sources at hand)
built for one run. -/
structure Executor where
  id : Nat
  deriving DecidableEq, Repr

/-- Modelled from the spec: the `SessionOptions` of core/framework/inference_session.h (not part of the
sources at hand), with the members that inference_session.cc reads. -/
structure SessionOptions where
  enable_sequential_execution : Bool
  session_logid : String
  session_log_verbosity_level : Nat
  enable_mem_pattern : Bool
  max_num_graph_transformation_steps : Nat
  allocation_planner_type : Nat
  deriving DecidableEq, Repr

/-- Modelled from the spec: the `RunOptions` of core/framework/inference_session.h (not part of the
sources at hand), with the members that inference_session.cc reads. -/
structure RunOptions where
  run_log_verbosity_level : Nat
  run_tag : String
  deriving DecidableEq, Repr

/-- Modelled from the spec: the default-constructed `RunOptions run_options;` (the header is not part of
the sources at hand): no run tag and verbosity 0. -/
def RunOptions.default : RunOptions := { run_log_verbosity_level := 0, run_tag := "" }

/-! ## Session state -/

/-- Modelled from the spec: the `SessionState` aggregate of core/framework/session_state.h (not part of
the sources at hand): execution providers in registration order keyed by name, kernel instances keyed
by node, the value-name-to-index table, the execution plan and the initialized-tensor storage. -/
structure SessionState where
  exec_providers : List (String × IExecutionProvider)
  kernel_vector_size : Nat
  session_kernels_ : List (Nat × Option OpKernel)
  mlvalue_name_idx_map_ : List (String × Int)
  p_seq_exec_plan_ : Option SequentialExecutionPlan
  initialized_tensors_ : List (Int × MLValue)
  enable_mem_pattern_ : Bool
  p_graph_set : Bool
  deriving DecidableEq, Repr

namespace SessionState

/-- Modelled from the spec: a default-constructed `SessionState` (session_state.h is not part of the
sources at hand): nothing registered, nothing indexed, no plan. -/
def empty : SessionState :=
  { exec_providers := [], kernel_vector_size := 0, session_kernels_ := [], mlvalue_name_idx_map_ := [],
    p_seq_exec_plan_ := none, initialized_tensors_ := [], enable_mem_pattern_ := false,
    p_graph_set := false }

/-- Modelled from the spec: `SessionState::SetEnableMemoryPattern` (session_state.cc is not part of the
sources at hand): records the configured enable-memory-pattern option. -/
def SetEnableMemoryPattern (ss : SessionState) (flag : Bool) : SessionState :=
  { ss with enable_mem_pattern_ := flag }

/-- Modelled from the spec: `SessionState::GetEnableMemoryPattern` (session_state.cc is not part of the
sources at hand). -/
def GetEnableMemoryPattern (ss : SessionState) : Bool := ss.enable_mem_pattern_

/-- Modelled from the spec: `SessionState::GetExecutionProvider` (session_state.cc is not part of the
sources at hand): the registry maps provider name to instance; null when the name is not registered. -/
def GetExecutionProvider (ss : SessionState) (provider_id : String) : Option IExecutionProvider :=
  (ss.exec_providers.find? fun e => e.1 == provider_id).map Prod.snd

/-- Modelled from the spec: `SessionState::AddExecutionProvider` (session_state.cc is not part of the
sources at hand): the provider is appended to the owned providers under the given name. -/
def AddExecutionProvider (ss : SessionState) (provider_id : String) (p : IExecutionProvider) : SessionState :=
  { ss with exec_providers := ss.exec_providers ++ [(provider_id, p)] }

/-- Modelled from the spec: `SessionState::GetExecutionProviders` (session_state.cc is not part of the
sources at hand): every registered provider, in registration order. -/
def GetExecutionProviders (ss : SessionState) : List IExecutionProvider :=
  ss.exec_providers.map Prod.snd

/-- Modelled from the spec: `SessionState::GetAllocator(location)` (session_state.cc is not part of the
sources at hand): the allocator of a registered provider tied to that location, null when there is none. -/
def GetAllocator (ss : SessionState) (location : AllocatorInfo) : Option AllocatorInfo :=
  (ss.GetExecutionProviders.find? fun p => decide (p.allocator_info = location)).map
    IExecutionProvider.allocator_info

/-- Modelled from the spec: `SessionState::SetGraph` (session_state.cc is not part of the sources at
hand): the state keeps a pointer to the model's main graph. -/
def SetGraph (ss : SessionState) : SessionState := { ss with p_graph_set := true }

/-- Modelled from the spec: `SessionState::SetKernelVectorSize` (session_state.cc is not part of the
sources at hand): room for one kernel per graph node. -/
def SetKernelVectorSize (ss : SessionState) (size : Nat) : SessionState :=
  { ss with kernel_vector_size := size }

/-- Modelled from the spec: `SessionState::AddKernel` (session_state.cc is not part of the sources at
hand): stores the constructed kernel indexed by node identity. -/
def AddKernel (ss : SessionState) (node_id : Nat) (p_kernel : Option OpKernel) : SessionState :=
  { ss with session_kernels_ :=
      (ss.session_kernels_.filter fun e => !decide (e.1 = node_id)) ++ [(node_id, p_kernel)] }

/-- Modelled from the spec: `SessionState::GetMLValueIdx` (session_state.cc is not part of the sources
at hand): the index a name has in the value-name-to-index table, or a FAIL status when the name is
not indexed. -/
def GetMLValueIdx (ss : SessionState) (name : String) : Except Status Int :=
  match ss.mlvalue_name_idx_map_.find? fun e => e.1 == name with
  | some e => Except.ok e.2
  | none => Except.error ⟨StatusCategory.LOTUS, StatusCode.FAIL, "Could not find MLValue with name: " ++ name⟩

/-- Modelled from the spec: `SessionState::AddMLValueNameIdx` (session_state.cc is not part of the
sources at hand): enters `name` with index `idx` in the table; a name already present keeps its index. -/
def AddMLValueNameIdx (ss : SessionState) (name : String) (idx : Int) : SessionState :=
  if ss.mlvalue_name_idx_map_.any fun e => e.1 == name then ss
  else { ss with mlvalue_name_idx_map_ := ss.mlvalue_name_idx_map_ ++ [(name, idx)] }

/-- Modelled from the spec: `SessionState::GetNumMLValues` (session_state.cc is not part of the sources
at hand): the number of indexed values. -/
def GetNumMLValues (ss : SessionState) : Nat := ss.mlvalue_name_idx_map_.length

/-- Modelled from the spec: `SessionState::SetExecutionPlan` (session_state.cc is not part of the
sources at hand). -/
def SetExecutionPlan (ss : SessionState) (plan : SequentialExecutionPlan) : SessionState :=
  { ss with p_seq_exec_plan_ := some plan }

/-- Modelled from the spec: `SessionState::GetExecutionPlan` (session_state.cc is not part of the
sources at hand): the stored plan, null before planning. -/
def GetExecutionPlan (ss : SessionState) : Option SequentialExecutionPlan := ss.p_seq_exec_plan_

/-- Modelled from the spec: `SessionState::AddInitializedTensor` (session_state.cc is not part of the
sources at hand): stores the weight under its value index; an index already holding a tensor keeps it. -/
def AddInitializedTensor (ss : SessionState) (mlvalue_index : Int) (mlvalue : MLValue) : SessionState :=
  if ss.initialized_tensors_.any fun e => decide (e.1 = mlvalue_index) then ss
  else { ss with initialized_tensors_ := ss.initialized_tensors_ ++ [(mlvalue_index, mlvalue)] }

end SessionState

/-! ## Collaborators -/

/-- Calls the session makes on collaborators, recorded in order. -/
inductive CollaboratorCall
  | LocalCreateKernel (node_index : Nat)
  | GlobalCreateKernel (node_index : Nat)
  | Alloc (location : AllocatorInfo) (size : Nat)
  | NewSequentialExecutor
  | Execute (current_num_runs : Int)
  deriving DecidableEq, Repr

/-- The behaviour of the collaborators of the session, whose code is outside inference_session.cc.
A function that mutates the graph in place returns the graph it leaves behind next to its result. -/
structure Env where
  /-- The call `LotusIR::Model::Load(model_uri, &p_tmp_model)`: status and the pointer left in `p_tmp_model`. -/
  Model_Load_uri : String → Call (Status × Option Model)
  /-- The call `LotusIR::Model::Load(model_proto, &p_tmp_model)`. -/
  Model_Load_proto : ModelProto → Call (Status × Option Model)
  /-- The call `model_proto.ParseFromIstream(&model_istream)`: the parsed message, `none` when it returns false. -/
  ParseFromIstream : IStream → Call (Option ModelProto)
  /-- The call `graph_transformation_mgr_.Register(p)`. -/
  GraphTransformerManager_Register :
    GraphTransformerManager → GraphTransformer → GraphTransformerManager × Call Status
  /-- The call `graph_transformation_mgr_.ApplyAll(graph)`. -/
  GraphTransformerManager_ApplyAll : GraphTransformerManager → Graph → Graph × Call Status
  /-- The call `ep->GetTransformer().Apply(graph, &modified)`. -/
  Provider_Transformer_Apply : IExecutionProvider → Graph → Graph × Call Status
  /-- The call `p_graph->Resolve()`. -/
  Graph_Resolve : Graph → Graph × Call Status
  /-- The call `registry.Register(kernel_def_builder, creator)`. -/
  KernelRegistry_Register :
    KernelRegistry → KernelDefBuilder → KernelCreateFn → KernelRegistry × Call Status
  /-- The call `registry.CreateKernel(node, allocator_info, exec_provider, p_op_kernel)`: given what
  `*p_op_kernel` holds, the status and what `*p_op_kernel` holds afterwards. -/
  KernelRegistry_CreateKernel :
    KernelRegistry → Node → AllocatorInfo → IExecutionProvider → Option OpKernel →
      Call (Status × Option OpKernel)
  /-- The process-wide registry `KernelRegistry::Instance()`. -/
  KernelRegistry_Instance : KernelRegistry
  /-- The call `AllocationPlanner::CreatePlan(type, session_state_, plan)` over the session graph. -/
  AllocationPlanner_CreatePlan : Nat → SessionState → Graph → Call (Status × SequentialExecutionPlan)
  /-- The call `Utils::GetTensorFromTensorProto(tensor_proto, &p_tensor, alloc)`: status and `p_tensor`. -/
  GetTensorFromTensorProto : TensorProto → AllocatorInfo → Call (Status × Option Tensor)
  /-- The call `Utils::TraceTensorAllocFromTensorProto(idx, tensor_proto, &planner)` on a planner built
  over the session state that has traced the given weights so far. -/
  TraceTensorAllocFromTensorProto : SessionState → List (Int × TensorProto) → Int → TensorProto → Call Status
  /-- The call `planner.GeneratePatterns(&mem_patterns)` on a planner that traced the given weights. -/
  GeneratePatterns : SessionState → List (Int × TensorProto) → Call (Status × MemoryPatternGroup)
  /-- The call `alloc->Alloc(size)`: the address of the new buffer, possibly null. -/
  Alloc : AllocatorInfo → Nat → Call (Option Nat)
  /-- The call `Utils::GetTensorFromTensorProtoWithMemoryPattern(proto, location, buffer, &p_tensor, block)`. -/
  GetTensorFromTensorProtoWithMemoryPattern :
    TensorProto → AllocatorInfo → Option Nat → MemoryBlock → Call (Status × Option Tensor)
  /-- The call `Executor::NewSequentialExecutor(session_state_, feeds, output_names, *p_fetches, logger)`. -/
  NewSequentialExecutor : SessionState → NameMLValMap → List String → List MLValue → Call Executor
  /-- The call `p_exec->Execute(run_options, feeds, output_names, p_fetches)`: the fetches it leaves
  and its status. -/
  Execute : Executor → SessionState → RunOptions → NameMLValMap → List String → List MLValue →
    List MLValue × Call Status
  /-- The `what()` of the exception thrown by a failed `LOTUS_ENFORCE(condition)`. -/
  LOTUS_ENFORCE_what : String → String
  /-- The `what()` of the exception thrown by `LOTUS_NOT_IMPLEMENTED(message)`. -/
  LOTUS_NOT_IMPLEMENTED_what : String → String

/-- Modelled from the spec: the macro `LOTUS_ENFORCE(condition)` of core/common/common.h (not part of
the sources at hand): a violated condition is fatal, raised as an exception derived from `std::exception`. -/
def LOTUS_ENFORCE {σ α : Type} (env : Env) (condition : Bool) (text : String) (s : σ)
    (k : Outcome σ α) : Outcome σ α :=
  if condition then k else Outcome.raise (Thrown.std_exception (env.LOTUS_ENFORCE_what text)) s

/-- Modelled from the spec: the macro `LOTUS_NOT_IMPLEMENTED(message)` of core/common/common.h (not part
of the sources at hand): raises a not-implemented exception derived from `std::exception`. -/
def LOTUS_NOT_IMPLEMENTED {σ α : Type} (env : Env) (message : String) (s : σ) : Outcome σ α :=
  Outcome.raise (Thrown.std_exception (env.LOTUS_NOT_IMPLEMENTED_what message)) s

/-! ## The session -/

/-- The data members of `InferenceSession::Impl`, plus `calls_`, the record of collaborator calls made. -/
structure Impl where
  session_options_ : SessionOptions
  graph_transformation_mgr_ : GraphTransformerManager
  logging_manager_ : Bool
  model_ : Option Model
  session_state_ : SessionState
  model_metadata_ : ModelMetadata
  input_def_list_ : List NodeArg
  output_def_list_ : List NodeArg
  current_num_runs_ : Int
  is_model_loaded_ : Bool
  is_inited_ : Bool
  weights_buffers_ : List (AllocatorInfo × BufferUniquePtr)
  local_kernel_registry : KernelRegistry
  calls_ : List CollaboratorCall
  deriving DecidableEq, Repr

/-- Modelled from the spec: a `Notification` (core/platform/notification.h is not part of the sources at
hand), the signal an executor raises when it is done; the record counts the waits that completed on it. -/
structure Notification where
  waits : Nat
  deriving DecidableEq, Repr

/-- Modelled from the spec: `Notification::WaitForNotification()` (core/platform/notification.h is not
part of the sources at hand): an unbounded wait, which ends once the executor has notified. -/
def Notification.WaitForNotification (n : Notification) : Notification :=
  { n with waits := n.waits + 1 }

/-- The value an `int` takes after arithmetic on `std::atomic<int>`, which wraps around. -/
def wrapInt32 (x : Int) : Int := (x + 2 ^ 31) % 2 ^ 32 - 2 ^ 31

namespace Impl

/-- The constructor `Impl(session_options, logging_manager)`.  `current_num_runs_` has no initializer
in the class, so its starting value is whatever `indeterminate_num_runs` the memory holds. -/
def new (session_options : SessionOptions) (logging_manager : Bool) (indeterminate_num_runs : Int) : Impl :=
  { session_options_ := session_options
    graph_transformation_mgr_ :=
      { steps := session_options.max_num_graph_transformation_steps, transformers := [] }
    logging_manager_ := logging_manager
    model_ := none
    session_state_ := SessionState.empty.SetEnableMemoryPattern session_options.enable_mem_pattern
    model_metadata_ :=
      { producer_name := "", graph_name := "", domain := "", description := "", version := 0,
        custom_metadata_map := [] }
    input_def_list_ := []
    output_def_list_ := []
    current_num_runs_ := indeterminate_num_runs
    is_model_loaded_ := false
    is_inited_ := false
    weights_buffers_ := []
    local_kernel_registry := { entries := [] }
    calls_ := [] }

/-- Writing through `p_graph`, the pointer to the main graph of `model_`. -/
def withGraph (s : Impl) (g : Graph) : Impl :=
  { s with model_ := s.model_.map fun m => { m with MainGraph := g } }

/-- Appending to the record of collaborator calls. -/
def logCall (s : Impl) (c : CollaboratorCall) : Impl := { s with calls_ := s.calls_ ++ [c] }

def RegisterExecutionProvider (p_exec_provider : Option IExecutionProvider) (s : Impl) :
    Outcome Impl Status :=
  match p_exec_provider with
  | none => Outcome.ret ⟨StatusCategory.LOTUS, StatusCode.FAIL, "Received nullptr for exec provider"⟩ s
  | some p =>
    let provider_type := p.Type_
    Outcome.ret Status.OK
      { s with session_state_ := s.session_state_.AddExecutionProvider provider_type p }

def RegisterCustomKernel (env : Env) (kernel_def_builder : KernelDefBuilder)
    (kernel_creator : Option String) (s : Impl) : Outcome Impl Status :=
  let r := env.KernelRegistry_Register s.local_kernel_registry kernel_def_builder
    { abi_kernel_creator := kernel_creator }
  Outcome.ofCall r.2 { s with local_kernel_registry := r.1 }

def RegisterGraphTransformer (env : Env) (p_graph_transformer : Option GraphTransformer) (s : Impl) :
    Outcome Impl Status :=
  match p_graph_transformer with
  | none => Outcome.ret ⟨StatusCategory.LOTUS, StatusCode.FAIL, "Received nullptr for graph transformer"⟩ s
  | some t =>
    let r := env.GraphTransformerManager_Register s.graph_transformation_mgr_ t
    Outcome.ofCall r.2 { s with graph_transformation_mgr_ := r.1 }

/-- The first loop of `SaveModelMetadata`: appends the non-weight inputs to `input_def_list_`; the
flag is false when a null entry stopped the loop. -/
def SaveModelMetadata_inputs (weights : InitializedTensorSet) :
    List (Option NodeArg) → List NodeArg → Bool × List NodeArg
  | [], input_def_list => (true, input_def_list)
  | none :: _, input_def_list => (false, input_def_list)
  | some elem :: rest, input_def_list =>
    if weights.count elem.Name then SaveModelMetadata_inputs weights rest input_def_list
    else SaveModelMetadata_inputs weights rest (input_def_list ++ [elem])

/-- The second loop of `SaveModelMetadata`: appends the outputs to `output_def_list_`; the flag is
false when a null entry stopped the loop. -/
def SaveModelMetadata_outputs : List (Option NodeArg) → List NodeArg → Bool × List NodeArg
  | [], output_def_list => (true, output_def_list)
  | none :: _, output_def_list => (false, output_def_list)
  | some elem :: rest, output_def_list => SaveModelMetadata_outputs rest (output_def_list ++ [elem])

def SaveModelMetadata (model : Model) (s : Impl) : Status × Impl :=
  let p_graph := model.MainGraph
  let s := { s with model_metadata_ :=
    { producer_name := model.ProducerName
      description := model.DocString
      domain := model.Domain
      version := model.ModelVersion
      custom_metadata_map := model.MetaData
      graph_name := p_graph.Name } }
  let inputs := p_graph.Inputs
  let weights := p_graph.AllInitializedTensors
  let ri := SaveModelMetadata_inputs weights inputs s.input_def_list_
  let s := { s with input_def_list_ := ri.2 }
  if !ri.1 then (⟨StatusCategory.LOTUS, StatusCode.FAIL, "Got null input nodearg ptr"⟩, s)
  else
    let outputs := p_graph.Outputs
    let ro := SaveModelMetadata_outputs outputs s.output_def_list_
    let s := { s with output_def_list_ := ro.2 }
    if !ro.1 then (⟨StatusCategory.LOTUS, StatusCode.FAIL, "Got null output nodearg ptr"⟩, s)
    else (Status.OK, s)

def DoPostLoadProcessing (model : Model) (s : Impl) : Outcome Impl Status :=
  let r := SaveModelMetadata model s
  Outcome.ret r.1 r.2

/-- The status `Load` returns on a session that already holds a loaded model. -/
def Load_already_loaded : Status :=
  ⟨StatusCategory.LOTUS, StatusCode.MODEL_LOADED, "This session already contains a loaded model."⟩

/-- The two `catch` handlers shared by the four `Load` overloads. -/
def Load_catch (o : Outcome Impl Status) : Outcome Impl Status :=
  o.catchAll (fun what => ⟨StatusCategory.LOTUS, StatusCode.FAIL, "Exception during loading: " ++ what⟩)
    ⟨StatusCategory.LOTUS, StatusCode.RUNTIME_EXCEPTION, "Encountered unknown exception in Load()"⟩

/-- The statements shared by the four `Load` overloads once `model_` is assigned:
`DoPostLoadProcessing(*model_.get())`, then mark the model as loaded. -/
def Load_post (s : Impl) : Outcome Impl Status :=
  match s.model_ with
  | none => Outcome.undefined
  | some model =>
    LOTUS_RETURN_IF_ERROR (DoPostLoadProcessing model s) fun s =>
      Outcome.ret Status.OK { s with is_model_loaded_ := true }

/-- The overload `Load(const std::string& model_uri)`. -/
def Load_model_uri (env : Env) (model_uri : String) (s : Impl) : Outcome Impl Status :=
  Load_catch <|
    if s.is_model_loaded_ then Outcome.ret Load_already_loaded s
    else
      ((Outcome.ofCall (env.Model_Load_uri model_uri) s).andThen fun r s =>
        if r.1.IsOK then Load_post { s with model_ := r.2 } else Outcome.ret r.1 s)

/-- The overload `Load(const ModelProto& model_proto)`. -/
def Load_model_proto (env : Env) (model_proto : ModelProto) (s : Impl) : Outcome Impl Status :=
  Load_catch <|
    if s.is_model_loaded_ then Outcome.ret Load_already_loaded s
    else
      ((Outcome.ofCall (env.Model_Load_proto model_proto) s).andThen fun r s =>
        if r.1.IsOK then Load_post { s with model_ := r.2 } else Outcome.ret r.1 s)

/-- The overload `Load(std::istream& model_istream)`. -/
def Load_model_istream (env : Env) (model_istream : IStream) (s : Impl) : Outcome Impl Status :=
  Load_catch <|
    if s.is_model_loaded_ then Outcome.ret Load_already_loaded s
    else
      ((Outcome.ofCall (env.ParseFromIstream model_istream) s).andThen fun result s =>
        match result with
        | none =>
          Outcome.ret ⟨StatusCategory.LOTUS, StatusCode.INVALID_PROTOBUF,
            "Failed to load model because protobuf parsing failed."⟩ s
        | some model_proto =>
          ((Outcome.ofCall (env.Model_Load_proto model_proto) s).andThen fun r s =>
            if r.1.IsOK then Load_post { s with model_ := r.2 } else Outcome.ret r.1 s))

/-- The overload `Load(std::unique_ptr<LotusIR::Model> p_model)`. -/
def Load_p_model (p_model : Option Model) (s : Impl) : Outcome Impl Status :=
  Load_catch <|
    if s.is_model_loaded_ then Outcome.ret Load_already_loaded s
    else Load_post { s with model_ := p_model }

/-- The status the accessors and `Initialize` return while no model is loaded. -/
def Model_not_loaded : Status := ⟨StatusCategory.LOTUS, StatusCode.FAIL, "Model was not loaded."⟩

def GetModelMetadata (s : Impl) : Status × Option ModelMetadata :=
  if !s.is_model_loaded_ then (Model_not_loaded, none) else (Status.OK, some s.model_metadata_)

def GetInputs (s : Impl) : Status × Option (List NodeArg) :=
  if !s.is_model_loaded_ then (Model_not_loaded, none) else (Status.OK, some s.input_def_list_)

def GetOutputs (s : Impl) : Status × Option (List NodeArg) :=
  if !s.is_model_loaded_ then (Model_not_loaded, none) else (Status.OK, some s.output_def_list_)

def GetCurrentNumRuns (s : Impl) : Int := s.current_num_runs_

def ValidateOutputs (output_names : List String) (p_fetches : Option (List MLValue)) : Status :=
  match p_fetches with
  | none => ⟨StatusCategory.LOTUS, StatusCode.FAIL, "Output vector pointer is NULL"⟩
  | some fetches =>
    if !fetches.isEmpty && decide (output_names.length ≠ fetches.length) then
      ⟨StatusCategory.LOTUS, StatusCode.FAIL,
        "Output vector incorrectly sized: output_names.size(): " ++ toString output_names.length ++
          "p_fetches->size(): " ++ toString fetches.length⟩
    else Status.OK

/-- The loop of `TransformGraph` over the execution providers. -/
def TransformGraph_providers (env : Env) : List IExecutionProvider → Impl → Outcome Impl Status
  | [], s => Outcome.ret Status.OK s
  | ep :: rest, s =>
    match s.model_ with
    | none => Outcome.undefined
    | some model =>
      let r := env.Provider_Transformer_Apply ep model.MainGraph
      LOTUS_RETURN_IF_ERROR (Outcome.ofCall r.2 (s.withGraph r.1)) fun s =>
        TransformGraph_providers env rest s

def TransformGraph (env : Env) (s : Impl) : Outcome Impl Status :=
  match s.model_ with
  | none => Outcome.undefined
  | some model =>
    let r := env.GraphTransformerManager_ApplyAll s.graph_transformation_mgr_ model.MainGraph
    LOTUS_RETURN_IF_ERROR (Outcome.ofCall r.2 (s.withGraph r.1)) fun s =>
      TransformGraph_providers env s.session_state_.GetExecutionProviders s

def CreateOpKernelInternal (env : Env) (node : Node) (allocator_info : AllocatorInfo)
    (exec_provider : IExecutionProvider) (p_op_kernel : Option OpKernel) (s : Impl) :
    Outcome Impl (Status × Option OpKernel) :=
  (Outcome.ofCall
      (env.KernelRegistry_CreateKernel s.local_kernel_registry node allocator_info exec_provider p_op_kernel)
      (s.logCall (CollaboratorCall.LocalCreateKernel node.Index))).andThen fun r s =>
    if !r.1.IsOK then
      Outcome.ofCall
        (env.KernelRegistry_CreateKernel env.KernelRegistry_Instance node allocator_info exec_provider r.2)
        (s.logCall (CollaboratorCall.GlobalCreateKernel node.Index))
    else Outcome.ret r s

def CreateOpKernel (env : Env) (node : Node) (p_op_kernel : Option OpKernel) (s : Impl) :
    Outcome Impl (Status × Option OpKernel) :=
  let exec_provider_name := node.ExecutionProvider
  if exec_provider_name.isEmpty || (s.session_state_.GetExecutionProvider exec_provider_name).isNone then
    Outcome.ret
      (⟨StatusCategory.LOTUS, StatusCode.FAIL,
        "Could not create kernel for node: " ++ node.Name ++ " as there's no execution provider allocated."⟩,
        p_op_kernel) s
  else
    match s.session_state_.GetExecutionProvider exec_provider_name with
    | none => Outcome.undefined
    | some exec_provider =>
      let allocator_info := exec_provider.allocator_info
      CreateOpKernelInternal env node allocator_info exec_provider p_op_kernel s

/-- The two loops of `SaveKernelsAndMLValueNameIndexMapping` over the input and output definitions of
a node: a name without an index gets `curr_idx`, which is then incremented. -/
def SaveKernelsAndMLValueNameIndexMapping_defs :
    List NodeArg → Int → SessionState → Int × SessionState
  | [], curr_idx, ss => (curr_idx, ss)
  | def_ :: rest, curr_idx, ss =>
    match ss.GetMLValueIdx def_.Name with
    | Except.ok _ => SaveKernelsAndMLValueNameIndexMapping_defs rest curr_idx ss
    | Except.error _ =>
      SaveKernelsAndMLValueNameIndexMapping_defs rest (curr_idx + 1)
        (ss.AddMLValueNameIdx def_.Name curr_idx)

/-- The loop of `SaveKernelsAndMLValueNameIndexMapping` over the nodes of the graph. -/
def SaveKernelsAndMLValueNameIndexMapping_nodes (env : Env) (graph : Graph) :
    List Node → Int → Impl → Outcome Impl Status
  | [], _, s => Outcome.ret Status.OK s
  | node :: rest, curr_idx, s =>
    if graph.IsSourceNode node.Index || graph.IsSinkNode node.Index then
      SaveKernelsAndMLValueNameIndexMapping_nodes env graph rest curr_idx s
    else
      (CreateOpKernel env node none s).andThen fun r s =>
        if !r.1.IsOK then Outcome.ret r.1 s
        else
          let ss := s.session_state_.AddKernel node.Index r.2
          let ri := SaveKernelsAndMLValueNameIndexMapping_defs node.InputDefs curr_idx ss
          let ro := SaveKernelsAndMLValueNameIndexMapping_defs node.OutputDefs ri.1 ri.2
          SaveKernelsAndMLValueNameIndexMapping_nodes env graph rest ro.1 { s with session_state_ := ro.2 }

def SaveKernelsAndMLValueNameIndexMapping (env : Env) (s : Impl) : Outcome Impl Status :=
  match s.model_ with
  | none => Outcome.undefined
  | some model =>
    let graph := model.MainGraph
    let curr_idx : Int := 0
    let s := { s with session_state_ := s.session_state_.SetKernelVectorSize graph.NumberOfNodes }
    SaveKernelsAndMLValueNameIndexMapping_nodes env graph graph.Nodes curr_idx s

/-- The loop of `SaveInitializedTensorsWithSeperateBuffer` over the initialized tensors. -/
def SaveInitializedTensorsWithSeperateBuffer_entries (env : Env) (alloc : AllocatorInfo) :
    List (String × TensorProto) → Impl → Outcome Impl Status
  | [], s => Outcome.ret Status.OK s
  | entry :: rest, s =>
    let name := entry.1
    match s.session_state_.GetMLValueIdx name with
    | Except.error st => Outcome.ret st s
    | Except.ok mlvalue_index =>
      let tensor_proto := entry.2
      (Outcome.ofCall (env.GetTensorFromTensorProto tensor_proto alloc) s).andThen fun r s =>
        if !r.1.IsOK then Outcome.ret r.1 s
        else
          let mlvalue : MLValue := { pData := r.2 }
          SaveInitializedTensorsWithSeperateBuffer_entries env alloc rest
            { s with session_state_ := s.session_state_.AddInitializedTensor mlvalue_index mlvalue }

def SaveInitializedTensorsWithSeperateBuffer (env : Env) (s : Impl) : Outcome Impl Status :=
  match s.model_ with
  | none => Outcome.undefined
  | some model =>
    let graph := model.MainGraph
    LOTUS_ENFORCE env (decide (s.session_state_.GetNumMLValues > 0)) "session_state_.GetNumMLValues() > 0" s <|
      match s.session_state_.GetExecutionProvider kCpuExecutionProvider with
      | none => Outcome.raise (Thrown.std_exception (env.LOTUS_ENFORCE_what "cpu_provider")) s
      | some cpu_provider =>
        let alloc := cpu_provider.allocator_info
        SaveInitializedTensorsWithSeperateBuffer_entries env alloc graph.AllInitializedTensors s

/-- Step 1 of `SaveInitializedTensorsWithMemPattern`: trace every weight on the planner.  Returns
the status together with the weights the planner has traced. -/
def SaveInitializedTensorsWithMemPattern_trace (env : Env) :
    List (String × TensorProto) → List (Int × TensorProto) → Impl →
      Outcome Impl (Status × List (Int × TensorProto))
  | [], planner, s => Outcome.ret (Status.OK, planner) s
  | entry :: rest, planner, s =>
    let name := entry.1
    match s.session_state_.GetMLValueIdx name with
    | Except.error st => Outcome.ret (st, planner) s
    | Except.ok mlvalue_index =>
      let tensor_proto := entry.2
      (Outcome.ofCall
          (env.TraceTensorAllocFromTensorProto s.session_state_ planner mlvalue_index tensor_proto) s).andThen
        fun st s =>
          if !st.IsOK then Outcome.ret (st, planner) s
          else SaveInitializedTensorsWithMemPattern_trace env rest (planner ++ [(mlvalue_index, tensor_proto)]) s

/-- The assignment `weights_buffers_[location] = buffer`. -/
def weights_buffers_assign (m : List (AllocatorInfo × BufferUniquePtr)) (location : AllocatorInfo)
    (b : BufferUniquePtr) : List (AllocatorInfo × BufferUniquePtr) :=
  (m.filter fun e => !decide (e.1 = location)) ++ [(location, b)]

/-- The call `weights_buffers_.find(location)`, `none` standing for `end()`. -/
def weights_buffers_find (m : List (AllocatorInfo × BufferUniquePtr)) (location : AllocatorInfo) :
    Option BufferUniquePtr :=
  (m.find? fun e => decide (e.1 = location)).map Prod.snd

/-- Step 2 of `SaveInitializedTensorsWithMemPattern`: the loop `for i` over `mem_patterns.locations`,
here from position `i` on with the locations still to visit. -/
def SaveInitializedTensorsWithMemPattern_alloc (env : Env) (mem_patterns : MemoryPatternGroup) :
    Nat → List AllocatorInfo → Impl → Outcome Impl Status
  | _, [], s => Outcome.ret Status.OK s
  | i, location :: rest, s =>
    LOTUS_ENFORCE env (weights_buffers_find s.weights_buffers_ location).isNone
        "weights_buffers_.find(location) == weights_buffers_.end()" s <|
      match s.session_state_.GetAllocator location with
      | none =>
        Outcome.ret ⟨StatusCategory.LOTUS, StatusCode.FAIL,
          "Allocator for location: " ++ location.name ++ " not found."⟩ s
      | some alloc =>
        match mem_patterns.patterns[i]? with
        | none => Outcome.undefined
        | some pattern =>
          (Outcome.ofCall (env.Alloc alloc pattern.peak_size)
              (s.logCall (CollaboratorCall.Alloc alloc pattern.peak_size))).andThen fun buffer s =>
            SaveInitializedTensorsWithMemPattern_alloc env mem_patterns (i + 1) rest
              { s with weights_buffers_ :=
                  weights_buffers_assign s.weights_buffers_ location { buffer := buffer, alloc := alloc } }

/-- Step 3 of `SaveInitializedTensorsWithMemPattern`: create the weight tensors. -/
def SaveInitializedTensorsWithMemPattern_create (env : Env) (execution_plan : SequentialExecutionPlan)
    (mem_patterns : MemoryPatternGroup) : List (String × TensorProto) → Impl → Outcome Impl Status
  | [], s => Outcome.ret Status.OK s
  | entry :: rest, s =>
    let name := entry.1
    match s.session_state_.GetMLValueIdx name with
    | Except.error st => Outcome.ret st s
    | Except.ok mlvalue_index =>
      let tensor_proto := entry.2
      if mlvalue_index < 0 then Outcome.undefined
      else
        match execution_plan.allocation_plan[mlvalue_index.toNat]? with
        | none => Outcome.undefined
        | some per_value =>
          let location := per_value.location
          match weights_buffers_find s.weights_buffers_ location with
          | none => Outcome.ret ⟨StatusCategory.LOTUS, StatusCode.FAIL, "Weight buffer not found"⟩ s
          | some it =>
            match mem_patterns.GetPatterns location with
            | none => Outcome.undefined
            | some pattern =>
              let filled : Outcome Impl (Status × Option Tensor) :=
                match pattern.GetBlock mlvalue_index with
                | none =>
                  match s.session_state_.GetExecutionProvider kCpuExecutionProvider with
                  | none => Outcome.raise (Thrown.std_exception (env.LOTUS_ENFORCE_what "cpu_provider")) s
                  | some cpu_provider =>
                    let alloc := cpu_provider.allocator_info
                    (Outcome.ofCall (env.GetTensorFromTensorProto tensor_proto alloc) s).andThen fun r s =>
                      if !r.1.IsOK then Outcome.ret (r.1, r.2) s
                      else
                        -- the inner `mlvalue.Init(p_tensor.release(), ...)` takes the tensor and leaves
                        -- `p_tensor` null; the inner `mlvalue` ends with the block
                        let p_tensor : Option Tensor := none
                        Outcome.ret (r.1, p_tensor) s
                | some block =>
                  Outcome.ofCall
                    (env.GetTensorFromTensorProtoWithMemoryPattern tensor_proto location it.buffer block) s
              filled.andThen fun r s =>
                if !r.1.IsOK then Outcome.ret r.1 s
                else
                  let mlvalue : MLValue := { pData := r.2 }
                  SaveInitializedTensorsWithMemPattern_create env execution_plan mem_patterns rest
                    { s with session_state_ := s.session_state_.AddInitializedTensor mlvalue_index mlvalue }

def SaveInitializedTensorsWithMemPattern (env : Env) (s : Impl) : Outcome Impl Status :=
  match s.model_ with
  | none => Outcome.undefined
  | some model =>
    let graph := model.MainGraph
    LOTUS_ENFORCE env (decide (s.session_state_.GetNumMLValues > 0)) "session_state_.GetNumMLValues() > 0" s <|
      match s.session_state_.GetExecutionPlan with
      | none => Outcome.raise (Thrown.std_exception (env.LOTUS_ENFORCE_what "execution_plan")) s
      | some execution_plan =>
        let initialized_tensor_set := graph.AllInitializedTensors
        (SaveInitializedTensorsWithMemPattern_trace env initialized_tensor_set [] s).andThen fun t s =>
          if !t.1.IsOK then Outcome.ret t.1 s
          else
            (Outcome.ofCall (env.GeneratePatterns s.session_state_ t.2) s).andThen fun g s =>
              if !g.1.IsOK then Outcome.ret g.1 s
              else
                let mem_patterns := g.2
                LOTUS_RETURN_IF_ERROR
                  (SaveInitializedTensorsWithMemPattern_alloc env mem_patterns 0 mem_patterns.locations s)
                  fun s =>
                    SaveInitializedTensorsWithMemPattern_create env execution_plan mem_patterns
                      initialized_tensor_set s

def SaveInitializedTensors (env : Env) (s : Impl) : Outcome Impl Status :=
  let execution_plan := s.session_state_.GetExecutionPlan
  if s.session_state_.GetEnableMemoryPattern && execution_plan.isSome then
    SaveInitializedTensorsWithMemPattern env s
  else SaveInitializedTensorsWithSeperateBuffer env s

/-- The end of the `try` block of `Initialize`, from `SaveInitializedTensors` on. -/
def Initialize_materialize (env : Env) (s : Impl) : Outcome Impl Status :=
  LOTUS_RETURN_IF_ERROR (SaveInitializedTensors env s) fun s =>
    match s.model_ with
    | none => Outcome.undefined
    | some model =>
      Outcome.ret Status.OK
        { s.withGraph model.MainGraph.CleanAllInitializedTensors with is_inited_ := true }

/-- The part of the `try` block of `Initialize` that gets the execution plan and materializes weights. -/
def Initialize_plan (env : Env) (s : Impl) : Outcome Impl Status :=
  if s.session_options_.enable_sequential_execution then
    match s.model_ with
    | none => Outcome.undefined
    | some model =>
      (Outcome.ofCall
          (env.AllocationPlanner_CreatePlan s.session_options_.allocation_planner_type s.session_state_
            model.MainGraph) s).andThen fun r s =>
        if !r.1.IsOK then Outcome.ret r.1 s
        else Initialize_materialize env { s with session_state_ := s.session_state_.SetExecutionPlan r.2 }
  else LOTUS_NOT_IMPLEMENTED env "non sequential execution is not implemented" s

/-- The part of the `try` block of `Initialize` from `SaveKernelsAndMLValueNameIndexMapping` on. -/
def Initialize_kernels (env : Env) (s : Impl) : Outcome Impl Status :=
  LOTUS_RETURN_IF_ERROR (SaveKernelsAndMLValueNameIndexMapping env s) fun s => Initialize_plan env s

/-- The part of the `try` block of `Initialize` from `p_graph->Resolve()` on. -/
def Initialize_resolve (env : Env) (s : Impl) : Outcome Impl Status :=
  match s.model_ with
  | none => Outcome.undefined
  | some model =>
    let r := env.Graph_Resolve model.MainGraph
    LOTUS_RETURN_IF_ERROR (Outcome.ofCall r.2 (s.withGraph r.1)) fun s => Initialize_kernels env s

/-- The part of the `try` block of `Initialize` from `TransformGraph(p_graph)` on. -/
def Initialize_transform (env : Env) (s : Impl) : Outcome Impl Status :=
  LOTUS_RETURN_IF_ERROR (TransformGraph env s) fun s => Initialize_resolve env s

/-- The session once `Initialize` has passed its two flag tests: a default CPU provider is registered
if none was, and the session state points to the main graph. -/
def Initialize_entry (s : Impl) : Impl :=
  let s :=
    if (s.session_state_.GetExecutionProvider kCpuExecutionProvider).isNone then
      { s with session_state_ :=
          s.session_state_.AddExecutionProvider kCpuExecutionProvider CPUExecutionProvider }
    else s
  { s with session_state_ := s.session_state_.SetGraph }

/-- The `try` block of `Initialize`. -/
def Initialize_try (env : Env) (s : Impl) : Outcome Impl Status :=
  if !s.is_model_loaded_ then Outcome.ret Model_not_loaded s
  else if s.is_inited_ then Outcome.ret Status.OK s
  else
    match s.model_ with
    | none => Outcome.undefined
    | some _ => Initialize_transform env (Initialize_entry s)

/-- The two `catch` handlers of `Initialize`. -/
def Initialize_catch (o : Outcome Impl Status) : Outcome Impl Status :=
  o.catchAll
    (fun what => ⟨StatusCategory.LOTUS, StatusCode.FAIL, "Exception during initialization: " ++ what⟩)
    ⟨StatusCategory.LOTUS, StatusCode.RUNTIME_EXCEPTION, "Encountered unknown exception in Initialize()"⟩

def Initialize (env : Env) (s : Impl) : Outcome Impl Status :=
  Initialize_catch (Initialize_try env s)

/-- The status `Run` returns on a session that is not initialized. -/
def Session_not_initialized : Status :=
  ⟨StatusCategory.LOTUS, StatusCode.FAIL, "Session not initialized."⟩

/-- The part of the `try` block of `Run` after `++current_num_runs_`: build the executor and execute.
The state is the session together with the caller-owned fetch vector. -/
def Run_execute (env : Env) (run_options : RunOptions) (feeds : NameMLValMap)
    (output_names : List String) (fetches : List MLValue) (s : Impl) :
    Outcome (Impl × Option (List MLValue)) Status :=
  if s.session_options_.enable_sequential_execution then
    (Outcome.ofCall (env.NewSequentialExecutor s.session_state_ feeds output_names fetches)
        (s.logCall CollaboratorCall.NewSequentialExecutor, some fetches)).andThen fun p_exec st =>
      let r := env.Execute p_exec st.1.session_state_ run_options feeds output_names fetches
      Outcome.ofCall r.2 (st.1.logCall (CollaboratorCall.Execute st.1.current_num_runs_), some r.1)
  else LOTUS_NOT_IMPLEMENTED env "non sequential execution is not implemented" (s, some fetches)

/-- The overload `Run(run_options, feeds, output_names, p_fetches)`.  It returns the status, the
session and what the caller-owned fetch vector holds afterwards.  The statements of the `try` block
that come before `++current_num_runs_` and touch no modelled state (the constructor of the
`lock_guard`, the `LOGS` statements, the construction of the message of an error status) are taken
to complete; `Run_with_prologue` below is the same function with these statements free to throw,
and agrees with `Run` when they complete. -/
def Run (env : Env) (run_options : RunOptions) (feeds : NameMLValMap) (output_names : List String)
    (p_fetches : Option (List MLValue)) (s : Impl) : Outcome (Impl × Option (List MLValue)) Status :=
  if !s.is_inited_ then Outcome.ret Session_not_initialized (s, p_fetches)
  else if !(ValidateOutputs output_names p_fetches).IsOK then
    Outcome.ret (ValidateOutputs output_names p_fetches) (s, p_fetches)
  else
    match p_fetches with
    | none => Outcome.undefined
    | some fetches =>
      let s := { s with current_num_runs_ := wrapInt32 (s.current_num_runs_ + 1) }
      ((Run_execute env run_options feeds output_names fetches s).catchAll
          (fun what => ⟨StatusCategory.LOTUS, StatusCode.FAIL, what⟩)
          ⟨StatusCategory.LOTUS, StatusCode.RUNTIME_EXCEPTION, "Encountered unknown exception in Run()"⟩).andThen
        fun retval st =>
          Outcome.ret retval
            ({ st.1 with current_num_runs_ := wrapInt32 (st.1.current_num_runs_ - 1) }, st.2)

/-- The overload `Run(feeds, output_names, p_fetches)`, with default run options. -/
def Run_feeds_output_names (env : Env) (feeds : NameMLValMap) (output_names : List String)
    (p_fetches : Option (List MLValue)) (s : Impl) : Outcome (Impl × Option (List MLValue)) Status :=
  let run_options := RunOptions.default
  Run env run_options feeds output_names p_fetches s

/-- The loop of `Run(feeds, p_fetches)` collecting `arg->Name()` of the graph outputs; `none` when an
entry is null and so cannot be dereferenced. -/
def Run_feeds_output_names_of : List (Option NodeArg) → Option (List String)
  | [] => some []
  | none :: _ => none
  | some arg :: rest => (Run_feeds_output_names_of rest).map fun names => arg.Name :: names

/-- The overload `Run(feeds, p_fetches)`, whose output names are the outputs of the graph. -/
def Run_feeds (env : Env) (feeds : NameMLValMap) (p_fetches : Option (List MLValue)) (s : Impl) :
    Outcome (Impl × Option (List MLValue)) Status :=
  let run_options := RunOptions.default
  match s.model_ with
  | none => Outcome.undefined
  | some model =>
    let p_graph := model.MainGraph
    match Run_feeds_output_names_of p_graph.Outputs with
    | none => Outcome.undefined
    | some output_names => Run env run_options feeds output_names p_fetches s

/-- The private helper `WaitForNotification(p_executor_done, timeout_in_ms)`.  The state is the session
together with the notification pointed to. -/
def WaitForNotification (env : Env) (p_executor_done : Option Notification) (timeout_in_ms : Int)
    (s : Impl) : Outcome (Impl × Option Notification) Status :=
  if timeout_in_ms > 0 then
    LOTUS_NOT_IMPLEMENTED env "WaitForNotificationtimeout_in_ms >0 is not supported" (s, p_executor_done)
  else
    match p_executor_done with
    | none => Outcome.undefined
    | some notification => Outcome.ret Status.OK (s, some notification.WaitForNotification)

/-- The statements inside the `try` block of `Run` that come before `++current_num_runs_` and
whose code is outside the modelled file: each completes or throws. -/
structure RunPrologue where
  /-- The constructor of `std::lock_guard<std::mutex> l(session_mutex_)`, which locks the mutex. -/
  lock_guard : Call Unit
  /-- A statement `LOGS(*session_logger_, severity) << text`, given the text. -/
  LOGS : String → Call Unit
  /-- The construction of a `Common::Status(Common::LOTUS, Common::FAIL, message)`, in
  `ValidateOutputs` together with the `std::ostringstream` that builds the message. -/
  Status_message : String → Call Unit

/-- The statements before the increment all complete. -/
def RunPrologue.completes : RunPrologue :=
  { lock_guard := Call.ret (), LOGS := fun _ => Call.ret (), Status_message := fun _ => Call.ret () }

/-- The call `ValidateOutputs(output_names, p_fetches)` when building an error status may throw. -/
def ValidateOutputs_call (prologue : RunPrologue) (output_names : List String)
    (p_fetches : Option (List MLValue)) : Call Status :=
  let status := ValidateOutputs output_names p_fetches
  if status.IsOK then Call.ret status
  else
    match prologue.Status_message status.msg with
    | Call.ret _ => Call.ret status
    | Call.throw e => Call.throw e

/-- The `try` block of `Run(run_options, feeds, output_names, p_fetches)`, statement by statement.
The Boolean of the result tells whether the block left the function by one of its `return`
statements (`true`) or ran to its end, having assigned `retval` (`false`). -/
def Run_try (prologue : RunPrologue) (env : Env) (run_options : RunOptions) (feeds : NameMLValMap)
    (output_names : List String) (p_fetches : Option (List MLValue)) (s : Impl) :
    Outcome (Impl × Option (List MLValue)) (Bool × Status) :=
  (Outcome.ofCall prologue.lock_guard (s, p_fetches)).andThen fun _ st =>
    if !s.is_inited_ then
      (Outcome.ofCall (prologue.LOGS "Session was not initialized") st).andThen fun _ st =>
        (Outcome.ofCall (prologue.Status_message "Session not initialized.") st).andThen fun _ st =>
          Outcome.ret (true, Session_not_initialized) st
    else
      (Outcome.ofCall (ValidateOutputs_call prologue output_names p_fetches) st).andThen fun status st =>
        if !status.IsOK then Outcome.ret (true, status) st
        else
          (if run_options.run_tag.isEmpty then Outcome.ret () st
            else Outcome.ofCall (prologue.LOGS ("Running with tag: " ++ run_options.run_tag)) st).andThen
            fun _ _ =>
              match p_fetches with
              | none => Outcome.undefined
              | some fetches =>
                let s := { s with current_num_runs_ := wrapInt32 (s.current_num_runs_ + 1) }
                (Run_execute env run_options feeds output_names fetches s).andThen fun retval st =>
                  Outcome.ret (false, retval) st

/-- The overload `Run(run_options, feeds, output_names, p_fetches)` with the statements before the
increment free to throw: the `try` block, the two `catch` handlers, which assign `retval`, and,
unless the block returned, `--current_num_runs_; return retval;`. -/
def Run_with_prologue (prologue : RunPrologue) (env : Env) (run_options : RunOptions)
    (feeds : NameMLValMap) (output_names : List String) (p_fetches : Option (List MLValue))
    (s : Impl) : Outcome (Impl × Option (List MLValue)) Status :=
  let handled : Outcome (Impl × Option (List MLValue)) (Bool × Status) :=
    match Run_try prologue env run_options feeds output_names p_fetches s with
    | Outcome.ret r st => Outcome.ret r st
    | Outcome.raise (Thrown.std_exception what) st =>
      Outcome.ret (false, ⟨StatusCategory.LOTUS, StatusCode.FAIL, what⟩) st
    | Outcome.raise Thrown.unknown st =>
      Outcome.ret
        (false,
          ⟨StatusCategory.LOTUS, StatusCode.RUNTIME_EXCEPTION, "Encountered unknown exception in Run()"⟩)
        st
    | Outcome.undefined => Outcome.undefined
  handled.andThen fun r st =>
    if r.1 then Outcome.ret r.2 st
    else
      Outcome.ret r.2 ({ st.1 with current_num_runs_ := wrapInt32 (st.1.current_num_runs_ - 1) }, st.2)

end Impl

/-! ## A concrete session: the model testdata/mul_1.pb of the tests -/

namespace Fixture

def X : NodeArg := { Name := "X", DataType := "tensor(float)", Shape := some [3, 2] }

def W : NodeArg := { Name := "W", DataType := "tensor(float)", Shape := some [3, 2] }

def Y : NodeArg := { Name := "Y", DataType := "tensor(float)", Shape := some [3, 2] }

def mul_node : Node :=
  { Index := 1, Name := "mul_1", OpType := "Mul", ExecutionProvider := kCpuExecutionProvider,
    InputDefs := [X, W], OutputDefs := [Y] }

def source_node : Node :=
  { Index := 0, Name := "_Graph_Source", OpType := "_NoOp", ExecutionProvider := "",
    InputDefs := [], OutputDefs := [] }

def sink_node : Node :=
  { Index := 2, Name := "_Graph_Sink", OpType := "_NoOp", ExecutionProvider := "",
    InputDefs := [], OutputDefs := [] }

def W_proto : TensorProto := { dims := [3, 2], raw_data := [1, 2, 3, 4, 5, 6] }

def mul_1_graph : Graph :=
  { Name := "mul test", Nodes := [source_node, mul_node, sink_node], source_node_index := 0,
    sink_node_index := 2, Inputs := [some X, some W], Outputs := [some Y],
    AllInitializedTensors := [("W", W_proto)] }

def mul_1 : Model :=
  { ProducerName := "chenta", DocString := "", Domain := "", ModelVersion := 0, MetaData := [],
    MainGraph := mul_1_graph }

def mul_1_proto : ModelProto := { payload := [1] }

def mul_1_stream : IStream := { bytes := [1] }

def cpu_location : AllocatorInfo := CPUExecutionProvider.allocator_info

def Mul_def : KernelDefBuilder :=
  { op_name := "Mul", op_domain := "", since_version := 6, provider_type := kCpuExecutionProvider }

/-- A registry lookup by operator name and provider type. -/
def createKernel (registry : KernelRegistry) (node : Node) (provider : IExecutionProvider)
    (p_op_kernel : Option OpKernel) : Call (Status × Option OpKernel) :=
  match registry.entries.find? fun e => e.1.op_name == node.OpType && e.1.provider_type == provider.Type_ with
  | some e =>
    Call.ret (Status.OK, some { creator := (e.2.abi_kernel_creator.getD "builtin"), node_index := node.Index })
  | none => Call.ret (⟨StatusCategory.LOTUS, StatusCode.FAIL, "Kernel not found"⟩, p_op_kernel)

/-- Collaborators that behave as in the tests: the loader knows the model mul_1, graph passes leave
the graph as it is, the global registry implements Mul on the CPU backend. -/
def env : Env :=
  { Model_Load_uri := fun uri =>
      if uri == "testdata/mul_1.pb" then Call.ret (Status.OK, some mul_1)
      else Call.ret (⟨StatusCategory.LOTUS, StatusCode.NO_SUCHFILE, "Load model failed"⟩, none)
    Model_Load_proto := fun proto =>
      if proto == mul_1_proto then Call.ret (Status.OK, some mul_1)
      else Call.ret (⟨StatusCategory.LOTUS, StatusCode.INVALID_PROTOBUF, "Load model failed"⟩, none)
    ParseFromIstream := fun stream =>
      if stream == mul_1_stream then Call.ret (some mul_1_proto) else Call.ret none
    GraphTransformerManager_Register := fun mgr t =>
      ({ mgr with transformers := mgr.transformers ++ [t] }, Call.ret Status.OK)
    GraphTransformerManager_ApplyAll := fun _ g => (g, Call.ret Status.OK)
    Provider_Transformer_Apply := fun _ g => (g, Call.ret Status.OK)
    Graph_Resolve := fun g => (g, Call.ret Status.OK)
    KernelRegistry_Register := fun registry builder creator =>
      ({ entries := registry.entries ++ [(builder, creator)] }, Call.ret Status.OK)
    KernelRegistry_CreateKernel := fun registry node _ provider p_op_kernel =>
      createKernel registry node provider p_op_kernel
    KernelRegistry_Instance := { entries := [(Mul_def, { abi_kernel_creator := none })] }
    AllocationPlanner_CreatePlan := fun _ ss _ =>
      Call.ret (Status.OK,
        { allocation_plan := List.replicate ss.GetNumMLValues { location := cpu_location, alloc_kind := 0 },
          execution_plan := [1] })
    GetTensorFromTensorProto := fun proto alloc =>
      Call.ret (Status.OK, some { shape := proto.dims, data := proto.raw_data, location := alloc })
    TraceTensorAllocFromTensorProto := fun _ _ _ _ => Call.ret Status.OK
    GeneratePatterns := fun _ traced =>
      Call.ret (Status.OK,
        { locations := [cpu_location],
          patterns := [{ patterns := traced.map fun t => (t.1, { offset := 0, size := t.2.raw_data.length }),
                         peak_size_ := (traced.map fun t => t.2.raw_data.length).sum }] })
    Alloc := fun _ _ => Call.ret (some 4096)
    GetTensorFromTensorProtoWithMemoryPattern := fun proto location _ _ =>
      Call.ret (Status.OK, some { shape := proto.dims, data := proto.raw_data, location := location })
    NewSequentialExecutor := fun _ _ _ _ => Call.ret { id := 0 }
    Execute := fun _ _ _ feeds output_names _ =>
      (output_names.map fun _ =>
          { pData := (feeds.head?.bind fun f => f.2.pData).map fun t =>
              { t with data := t.data.map fun v => v * v } },
        Call.ret Status.OK)
    LOTUS_ENFORCE_what := fun text => text ++ " was false."
    LOTUS_NOT_IMPLEMENTED_what := fun message => message }

def options : SessionOptions :=
  { enable_sequential_execution := true, session_logid := "InferenceSessionTests",
    session_log_verbosity_level := 0, enable_mem_pattern := true,
    max_num_graph_transformation_steps := 5, allocation_planner_type := 0 }

/-- A freshly constructed session. -/
def fresh : Impl := Impl.new options true 0

/-- The state in which an operation leaves the session (the starting state when it does not return). -/
def stateAfter {α : Type} (o : Outcome Impl α) (s : Impl) : Impl :=
  match o with
  | Outcome.ret _ s' => s'
  | Outcome.raise _ s' => s'
  | Outcome.undefined => s

/-- The session after `Load(model_proto)` of mul_1. -/
def loaded : Impl := stateAfter (Impl.Load_model_proto env mul_1_proto fresh) fresh

/-- The session after `Load` and `Initialize`. -/
def initialized : Impl := stateAfter (Impl.Initialize env loaded) loaded

def X_value : MLValue :=
  { pData := some { shape := [3, 2], data := [1, 2, 3, 4, 5, 6], location := cpu_location } }

def feeds : NameMLValMap := [("X", X_value)]

/-- The session after a custom kernel for Mul was registered and mul_1 was loaded. -/
def custom_loaded : Impl :=
  stateAfter
    (Impl.Load_model_proto env mul_1_proto
      (stateAfter (Impl.RegisterCustomKernel env Mul_def (some "CreateABIMulFP16Kernel") fresh) fresh))
    fresh

def mul16_node : Node := { mul_node with OpType := "Mul16" }

/-- The model of mul_1 with the operator renamed to Mul16, which no registry implements unless a
custom kernel is registered. -/
def mul_16 : Model :=
  { mul_1 with MainGraph := { mul_1_graph with Nodes := [source_node, mul16_node, sink_node] } }

/-- The session after `Load` of the model handle mul_16. -/
def loaded_16 : Impl := stateAfter (Impl.Load_p_model (some mul_16) fresh) fresh

/-- The status of a registry that has no kernel for a node. -/
def kernel_not_found : Status := ⟨StatusCategory.LOTUS, StatusCode.FAIL, "Kernel not found"⟩

/-- The node of mul_1 with no execution provider assigned. -/
def unassigned_node : Node := { mul_node with ExecutionProvider := "" }

def mul_unassigned : Model :=
  { mul_1 with MainGraph := { mul_1_graph with Nodes := [source_node, unassigned_node, sink_node] } }

/-- The session after `Load` of the model handle mul_unassigned. -/
def loaded_unassigned : Impl := stateAfter (Impl.Load_p_model (some mul_unassigned) fresh) fresh

/-- The node of mul_1 assigned to a provider that the session does not have. -/
def cuda_node : Node := { mul_node with ExecutionProvider := "CUDAExecutionProvider" }

def mul_cuda : Model :=
  { mul_1 with MainGraph := { mul_1_graph with Nodes := [source_node, cuda_node, sink_node] } }

/-- The session after `Load` of the model handle mul_cuda. -/
def loaded_cuda : Impl := stateAfter (Impl.Load_p_model (some mul_cuda) fresh) fresh

/-- The status of `CreateOpKernel` for a node without a usable execution provider. -/
def no_provider (node : Node) : Status :=
  ⟨StatusCategory.LOTUS, StatusCode.FAIL,
    "Could not create kernel for node: " ++ node.Name ++ " as there's no execution provider allocated."⟩

/-- Options asking for a mode of execution other than the sequential one. -/
def options_nonseq : SessionOptions := { options with enable_sequential_execution := false }

/-- The session built with `options_nonseq` after `Load` of mul_1. -/
def loaded_nonseq : Impl :=
  stateAfter (Impl.Load_model_proto env mul_1_proto (Impl.new options_nonseq true 0))
    (Impl.new options_nonseq true 0)

/-- The session built with `options_nonseq` after `Load` of the model handle mul_16. -/
def loaded_16_nonseq : Impl :=
  stateAfter (Impl.Load_p_model (some mul_16) (Impl.new options_nonseq true 0))
    (Impl.new options_nonseq true 0)

/-- The status `Initialize` makes of the exception of `LOTUS_NOT_IMPLEMENTED`. -/
def not_implemented (env : Env) : Status :=
  ⟨StatusCategory.LOTUS, StatusCode.FAIL,
    "Exception during initialization: " ++
      env.LOTUS_NOT_IMPLEMENTED_what "non sequential execution is not implemented"⟩

/-- Collaborators as in `env`, except that the pattern planner reports an arena for the CPU location
whose pattern has no block for any value index. -/
def env_no_block : Env :=
  { env with
    GeneratePatterns := fun _ _ =>
      Call.ret (Status.OK,
        { locations := [cpu_location], patterns := [{ patterns := [], peak_size_ := 0 }] }) }

/-- Options selecting the separate-buffer strategy for the weights. -/
def options_separate : SessionOptions := { options with enable_mem_pattern := false }

/-- The session built with `options_separate` after `Load` of mul_1. -/
def loaded_separate : Impl :=
  stateAfter (Impl.Load_model_proto env mul_1_proto (Impl.new options_separate true 0))
    (Impl.new options_separate true 0)

/-- The tensor deserialized from the payload of the weight W into a CPU buffer. -/
def W_tensor : Tensor := { shape := [3, 2], data := [1, 2, 3, 4, 5, 6], location := cpu_location }

/-- Collaborators as in `env`, except that no weight can be deserialized into an arena. -/
def env_failing_weights : Env :=
  { env with
    GetTensorFromTensorProtoWithMemoryPattern := fun _ _ _ _ =>
      Call.ret (⟨StatusCategory.LOTUS, StatusCode.FAIL, "Failed to deserialize the weight"⟩, none) }

/-- The session after `Load` of mul_1 and an `Initialize` that failed once the arena was allocated. -/
def failed_after_alloc : Impl := stateAfter (Impl.Initialize env_failing_weights loaded) loaded

/-- The status `Initialize` makes of the violated check that a location has no arena yet. -/
def allocation_conflict (env : Env) : Status :=
  ⟨StatusCategory.LOTUS, StatusCode.FAIL,
    "Exception during initialization: " ++
      env.LOTUS_ENFORCE_what "weights_buffers_.find(location) == weights_buffers_.end()"⟩

def V : NodeArg := { Name := "V", DataType := "tensor(float)", Shape := some [3, 2] }

def Z : NodeArg := { Name := "Z", DataType := "tensor(float)", Shape := some [3, 2] }

/-- A second operator node, of the operator Mul16, fed by the output of the first. -/
def mul16_second : Node :=
  { Index := 2, Name := "mul_2", OpType := "Mul16", ExecutionProvider := kCpuExecutionProvider,
    InputDefs := [Y, V], OutputDefs := [Z] }

def sink_node_3 : Node :=
  { Index := 3, Name := "_Graph_Sink", OpType := "_NoOp", ExecutionProvider := "",
    InputDefs := [], OutputDefs := [] }

/-- A model of two operator nodes: Mul, which the global registry implements, followed by Mul16,
which no registry implements unless a custom kernel is registered. -/
def two_ops : Model :=
  { mul_1 with
    MainGraph :=
      { Name := "two ops", Nodes := [source_node, mul_node, mul16_second, sink_node_3],
        source_node_index := 0, sink_node_index := 3, Inputs := [some X, some W, some V],
        Outputs := [some Z], AllInitializedTensors := [("W", W_proto)] } }

def Mul16_def : KernelDefBuilder :=
  { op_name := "Mul16", op_domain := "", since_version := 6, provider_type := kCpuExecutionProvider }

/-- The session after `Load` of the model handle two_ops. -/
def loaded_two_ops : Impl := stateAfter (Impl.Load_p_model (some two_ops) fresh) fresh

/-- The session after `Load` of two_ops and a first `Initialize`, which finds no kernel for Mul16. -/
def two_ops_failed : Impl := stateAfter (Impl.Initialize env loaded_two_ops) loaded_two_ops

/-- The session after a custom kernel for Mul16 was registered following the failed `Initialize`. -/
def two_ops_registered : Impl :=
  stateAfter (Impl.RegisterCustomKernel env Mul16_def (some "CreateABIMul16Kernel") two_ops_failed)
    two_ops_failed

/-- A model like mul_1 whose graph lists a null entry after its output. -/
def mul_1_null_output : Model :=
  { mul_1 with MainGraph := { mul_1_graph with Outputs := [some Y, none] } }

/-- The session after a `Load` of mul_1_null_output, which fails on the null entry. -/
def load_failed : Impl := stateAfter (Impl.Load_p_model (some mul_1_null_output) fresh) fresh

/-- Collaborators as in `env`, except that the registrations of kernels and of graph transformers
throw. -/
def env_throwing_register : Env :=
  { env with
    KernelRegistry_Register := fun registry _ _ =>
      (registry, Call.throw (Thrown.std_exception "std::bad_alloc"))
    GraphTransformerManager_Register := fun mgr _ => (mgr, Call.throw Thrown.unknown) }

/-- The session `loaded_separate` as `Initialize` has it when it materializes the weights: default CPU
provider registered, kernels and value indices built, execution plan stored. -/
def planned_separate : Impl :=
  let indexed :=
    stateAfter (Impl.SaveKernelsAndMLValueNameIndexMapping env (Impl.Initialize_entry loaded_separate))
      loaded_separate
  { indexed with
    session_state_ :=
      indexed.session_state_.SetExecutionPlan
        { allocation_plan := List.replicate 3 { location := cpu_location, alloc_kind := 0 },
          execution_plan := [1] } }

/-- The graph of mul_1 with a second weight, named U, that no node refers to. -/
def mul_1_unreferenced : Model :=
  { mul_1 with
    MainGraph := { mul_1_graph with AllInitializedTensors := [("W", W_proto), ("U", W_proto)] } }

/-- The session built with `options_separate` after `Load` of `mul_1_unreferenced`. -/
def loaded_unreferenced : Impl :=
  stateAfter (Impl.Load_p_model (some mul_1_unreferenced) (Impl.new options_separate true 0))
    (Impl.new options_separate true 0)

/-- The statements before the increment complete, except that locking the session mutex throws
`std::system_error`. -/
def lock_throws : Impl.RunPrologue :=
  { Impl.RunPrologue.completes with
    lock_guard := Call.throw (Thrown.std_exception "Resource deadlock avoided") }

/-- The statements before the increment complete, except that a `LOGS` statement throws. -/
def log_throws : Impl.RunPrologue :=
  { Impl.RunPrologue.completes with LOGS := fun _ => Call.throw (Thrown.std_exception "std::bad_alloc") }

/-- The statements before the increment complete, except that building an error status throws. -/
def message_throws : Impl.RunPrologue :=
  { Impl.RunPrologue.completes with
    Status_message := fun _ => Call.throw (Thrown.std_exception "std::bad_alloc") }

/-- Run options with a run tag, as in the tests. -/
def tagged : RunOptions := { RunOptions.default with run_tag := "one session/one tag" }

/-- A device location for which the session of the tests has no allocator. -/
def gpu_location : AllocatorInfo := { name := "Gpu", id := 0 }

/-- Collaborators as in `env`, except that the generated pattern group lists the device location
before the CPU location. -/
def env_gpu_first : Env :=
  { env with
    GeneratePatterns := fun _ traced =>
      Call.ret (Status.OK,
        { locations := [gpu_location, cpu_location],
          patterns :=
            [{ patterns := [], peak_size_ := 0 },
             { patterns := traced.map fun t => (t.1, { offset := 0, size := t.2.raw_data.length }),
               peak_size_ := (traced.map fun t => t.2.raw_data.length).sum }] }) }

/-- The status returned for a location without allocator. -/
def allocator_not_found (location : AllocatorInfo) : Status :=
  ⟨StatusCategory.LOTUS, StatusCode.FAIL, "Allocator for location: " ++ location.name ++ " not found."⟩

/-- The pattern group that `env_gpu_first` generates for the weight W of mul_1. -/
def gpu_first_group : MemoryPatternGroup :=
  { locations := [gpu_location, cpu_location],
    patterns :=
      [{ patterns := [], peak_size_ := 0 },
       { patterns := [(1, { offset := 0, size := 6 })], peak_size_ := 6 }] }

end Fixture

end Lotus

/-! ## Vocabulary for stating what an operation leaves alone -/

namespace Lotus

/-- The configuration held in the session state: the registered providers and the memory-pattern
option. -/
def SessionState.config (ss : SessionState) : List (String × IExecutionProvider) × Bool :=
  (ss.exec_providers, ss.enable_mem_pattern_)

/-- The members that only the public entry points themselves may change: state `s'` agrees with `s`
on the two lifecycle flags, the options, the run counter, the local kernel registry, the registered
providers and the memory-pattern option, and holds a model exactly if `s` did. -/
structure Frame (s s' : Impl) : Prop where
  is_inited_ : s'.is_inited_ = s.is_inited_
  is_model_loaded_ : s'.is_model_loaded_ = s.is_model_loaded_
  session_options_ : s'.session_options_ = s.session_options_
  current_num_runs_ : s'.current_num_runs_ = s.current_num_runs_
  local_kernel_registry : s'.local_kernel_registry = s.local_kernel_registry
  config : s'.session_state_.config = s.session_state_.config
  model_isSome : s'.model_.isSome = s.model_.isSome

/-- An outcome started from `s` is framed when the state it leaves, by return or by exception,
agrees with `s` in the sense of `Frame`. -/
def Framed {α : Type} (s : Impl) (o : Outcome Impl α) : Prop :=
  match o with
  | Outcome.ret _ s' => Frame s s'
  | Outcome.raise _ s' => Frame s s'
  | Outcome.undefined => True

/-- How the body of `Initialize` may end when it starts on a session `s` that is not initialized:
it returns `Status::OK()` with the initialized flag set, or it returns an error or raises with the
flag still unset; the loaded flag and the presence of a model are as in `s`. -/
def InitializeEnds (s : Impl) (o : Outcome Impl Status) : Prop :=
  match o with
  | Outcome.ret st s' =>
    ((st = Status.OK ∧ s'.is_inited_ = true) ∨ (st.IsOK = false ∧ s'.is_inited_ = false)) ∧
      s'.is_model_loaded_ = s.is_model_loaded_ ∧ s'.model_.isSome = s.model_.isSome
  | Outcome.raise _ s' =>
    s'.is_inited_ = false ∧ s'.is_model_loaded_ = s.is_model_loaded_ ∧ s'.model_.isSome = s.model_.isSome
  | Outcome.undefined => True

/-- In state `s`, the kernel loop over `graph` passes `node`: it is the source or the sink node, which
the loop skips, or `CreateOpKernel` returns success for it. -/
def NodeBinds (env : Env) (graph : Graph) (s : Impl) (node : Node) : Prop :=
  (graph.IsSourceNode node.Index || graph.IsSinkNode node.Index) = true ∨
  ∃ st kernel s', Impl.CreateOpKernel env node none s = Outcome.ret (st, kernel) s' ∧ st.IsOK = true

/-- An outcome started from `s` keeps the relation `R` when the state it leaves, by return or by
exception, is related to `s`. -/
def Keeps {α : Type} (R : Impl → Impl → Prop) (s : Impl) (o : Outcome Impl α) : Prop :=
  match o with
  | Outcome.ret _ s' => R s s'
  | Outcome.raise _ s' => R s s'
  | Outcome.undefined => True

/-- State `s'` differs from `s` at most in the graph of the model held. -/
def OnlyGraph (s s' : Impl) : Prop :=
  s' = { s with model_ := s'.model_ } ∧ s'.model_.isSome = s.model_.isSome

/-- A lookup in a kernel registry. -/
def KernelCall (c : CollaboratorCall) : Prop :=
  ∃ n, c = CollaboratorCall.LocalCreateKernel n ∨ c = CollaboratorCall.GlobalCreateKernel n

/-- State `s'` differs from `s` at most in the kernel table, its size, the value-name-to-index table
and by registry lookups added to the record of collaborator calls. -/
def OnlyKernels (s s' : Impl) : Prop :=
  s' = { s with
          session_state_ :=
            { s.session_state_ with
              kernel_vector_size := s'.session_state_.kernel_vector_size
              session_kernels_ := s'.session_state_.session_kernels_
              mlvalue_name_idx_map_ := s'.session_state_.mlvalue_name_idx_map_ }
          calls_ := s'.calls_ } ∧
  ∃ new, s'.calls_ = s.calls_ ++ new ∧ ∀ c ∈ new, KernelCall c

/-- State `s'` differs from `s` at most in the stored weights, the weight buffers and by allocations
added to the record of collaborator calls. -/
def OnlyWeights (s s' : Impl) : Prop :=
  s' = { s with
          session_state_ :=
            { s.session_state_ with initialized_tensors_ := s'.session_state_.initialized_tensors_ }
          weights_buffers_ := s'.weights_buffers_
          calls_ := s'.calls_ } ∧
  ∃ new, s'.calls_ = s.calls_ ++ new ∧ ∀ c ∈ new, ∃ location size, c = CollaboratorCall.Alloc location size

/-- The arena of location `L` is left alone between `s` and `s'`: the buffer recorded for `L` is the
same, and no `Alloc` on `L` is among the collaborator calls made in between. -/
def ArenaKept (L : AllocatorInfo) (s s' : Impl) : Prop :=
  Impl.weights_buffers_find s'.weights_buffers_ L = Impl.weights_buffers_find s.weights_buffers_ L ∧
  ∃ new, s'.calls_ = s.calls_ ++ new ∧ ∀ size, CollaboratorCall.Alloc L size ∉ new

/-- State `s'` has the weight buffers and the record of collaborator calls of `s`. -/
def SameBuffers (s s' : Impl) : Prop :=
  s'.weights_buffers_ = s.weights_buffers_ ∧ s'.calls_ = s.calls_

/-- Spec side: the distinct names of a list, in the order in which they first occur. -/
def firstOccurrences : List String → List String
  | [] => []
  | n :: rest => n :: (firstOccurrences rest).filter fun m => m != n

/-- Spec side: the names of a list paired with consecutive indices from `k` on. -/
def indexFrom : Int → List String → List (String × Int)
  | _, [] => []
  | k, n :: rest => (n, k) :: indexFrom (k + 1) rest

/-- Spec side: the first-seen table of a sequence of names: the k-th distinct name, counting from 0,
is paired with the index k. -/
def firstSeenTable (names : List String) : List (String × Int) :=
  indexFrom 0 (firstOccurrences names)

/-- Spec side: the value names met when the nodes are traversed in graph order, source and sink
nodes left out: per node its input names, then its output names. -/
def traversedNames (graph : Graph) : List Node → List String
  | [] => []
  | node :: rest =>
    if graph.IsSourceNode node.Index || graph.IsSinkNode node.Index then traversedNames graph rest
    else node.InputDefs.map NodeArg.Name ++ (node.OutputDefs.map NodeArg.Name ++ traversedNames graph rest)

/-- The two loops of `SaveKernelsAndMLValueNameIndexMapping` over the definitions of a node, seen on
the names and the table alone: a name not in the table is entered with `curr_idx`, which is then
incremented. -/
def indexNames : List String → Int → List (String × Int) → Int × List (String × Int)
  | [], curr_idx, table => (curr_idx, table)
  | n :: rest, curr_idx, table =>
    if table.any (fun e => e.1 == n) then indexNames rest curr_idx table
    else indexNames rest (curr_idx + 1) (table ++ [(n, curr_idx)])

/-- One call of a public operation on the session `s` leaves the session `s'`: a `Load` of any form,
`Initialize`, a `Run` of any form, a registration (which may also end by an exception) or an accessor,
which leaves the session as it is.  The collaborators may behave differently at every call. -/
inductive Step : Impl → Impl → Prop
  | Load_model_uri (env : Env) (model_uri : String) (s : Impl) (st : Status) (s' : Impl) :
      Impl.Load_model_uri env model_uri s = Outcome.ret st s' → Step s s'
  | Load_model_proto (env : Env) (model_proto : ModelProto) (s : Impl) (st : Status) (s' : Impl) :
      Impl.Load_model_proto env model_proto s = Outcome.ret st s' → Step s s'
  | Load_model_istream (env : Env) (model_istream : IStream) (s : Impl) (st : Status) (s' : Impl) :
      Impl.Load_model_istream env model_istream s = Outcome.ret st s' → Step s s'
  | Load_p_model (p_model : Option Model) (s : Impl) (st : Status) (s' : Impl) :
      Impl.Load_p_model p_model s = Outcome.ret st s' → Step s s'
  | Initialize (env : Env) (s : Impl) (st : Status) (s' : Impl) :
      Impl.Initialize env s = Outcome.ret st s' → Step s s'
  | Run (env : Env) (run_options : RunOptions) (feeds : NameMLValMap) (output_names : List String)
      (p_fetches : Option (List MLValue)) (s : Impl) (st : Status)
      (after : Impl × Option (List MLValue)) :
      Impl.Run env run_options feeds output_names p_fetches s = Outcome.ret st after → Step s after.1
  | Run_feeds_output_names (env : Env) (feeds : NameMLValMap) (output_names : List String)
      (p_fetches : Option (List MLValue)) (s : Impl) (st : Status)
      (after : Impl × Option (List MLValue)) :
      Impl.Run_feeds_output_names env feeds output_names p_fetches s = Outcome.ret st after →
      Step s after.1
  | Run_feeds (env : Env) (feeds : NameMLValMap) (p_fetches : Option (List MLValue)) (s : Impl)
      (st : Status) (after : Impl × Option (List MLValue)) :
      Impl.Run_feeds env feeds p_fetches s = Outcome.ret st after → Step s after.1
  | RegisterExecutionProvider (p_exec_provider : Option IExecutionProvider) (s : Impl) (s' : Impl) :
      ((∃ st, Impl.RegisterExecutionProvider p_exec_provider s = Outcome.ret st s') ∨
        (∃ e, Impl.RegisterExecutionProvider p_exec_provider s = Outcome.raise e s')) → Step s s'
  | RegisterCustomKernel (env : Env) (kernel_def_builder : KernelDefBuilder)
      (kernel_creator : Option String) (s : Impl) (s' : Impl) :
      ((∃ st, Impl.RegisterCustomKernel env kernel_def_builder kernel_creator s = Outcome.ret st s') ∨
        (∃ e, Impl.RegisterCustomKernel env kernel_def_builder kernel_creator s = Outcome.raise e s')) →
      Step s s'
  | RegisterGraphTransformer (env : Env) (p_graph_transformer : Option GraphTransformer) (s : Impl)
      (s' : Impl) :
      ((∃ st, Impl.RegisterGraphTransformer env p_graph_transformer s = Outcome.ret st s') ∨
        (∃ e, Impl.RegisterGraphTransformer env p_graph_transformer s = Outcome.raise e s')) →
      Step s s'
  | accessor (s : Impl) : Step s s

/-- The sessions reachable from a freshly constructed one by calls of public operations. -/
inductive Reachable : Impl → Prop
  | fresh (session_options : SessionOptions) (logging_manager : Bool) (indeterminate_num_runs : Int) :
      Reachable (Impl.new session_options logging_manager indeterminate_num_runs)
  | step (s s' : Impl) : Reachable s → Step s s' → Reachable s'

/-- The arena stored for a location of a pattern group, given the location with its pattern: the
location has an allocator of its own, `Alloc` on it with the peak size of the pattern returned the
buffer, and the entry is keyed by the location and owned by that allocator. -/
def ArenaFor (env : Env) (ss : SessionState) (lp : AllocatorInfo × MemoryPattern)
    (e : AllocatorInfo × BufferUniquePtr) : Prop :=
  ss.GetAllocator lp.1 = some lp.1 ∧
  env.Alloc lp.1 lp.2.peak_size = Call.ret e.2.buffer ∧
  e = (lp.1, { buffer := e.2.buffer, alloc := lp.1 })

/-- The tensor stored for an initializer, given the entry of the graph's weights: it is stored under
the value index of the initializer's name and holds the tensor that the deserialization of the
entry's proto returned with success. -/
def StoredWeight (env : Env) (ss : SessionState) (alloc : AllocatorInfo)
    (entry : String × TensorProto) (stored : Int × MLValue) : Prop :=
  ss.GetMLValueIdx entry.1 = Except.ok stored.1 ∧
  ∃ st, env.GetTensorFromTensorProto entry.2 alloc = Call.ret (st, stored.2.pData) ∧ st.IsOK = true

end Lotus

/-! ## The tensor slicer

A model of `MLValueTensorSlicer<T>` (onnxruntime/core/framework/mlvalue_tensor_slicer.cc): the factory
`Create`, the constructor of its `Iterator` and `Iterator::MaterializeMLValue`.  Values of type
`int64_t` are integers, values of type `size_t` are naturals below `2 ^ 64`, and an address is the
natural number the pointer arithmetic gives.
-/

namespace onnxruntime

/-- Result of a call: it returns, an exception escapes carrying its `what()`, or the behaviour is
undefined (out-of-range vector index, null pointer dereference, signed overflow). -/
inductive Result (α : Type)
  | ret (a : α)
  | throw (what : String)
  | undefined
  deriving DecidableEq, Repr

namespace Result

variable {α β : Type}

def andThen (r : Result α) (k : α → Result β) : Result β :=
  match r with
  | ret a => k a
  | throw what => throw what
  | undefined => undefined

/-- What a call returned, seen through `f`; exceptions and undefined behaviour are kept. -/
def map (f : α → β) (r : Result α) : Result β :=
  match r with
  | ret a => ret (f a)
  | throw what => throw what
  | undefined => undefined

end Result

/-- The macro `ONNXRUNTIME_ENFORCE(condition, ...)`: continue when the condition holds, else throw
the exception whose text names the condition. -/
def ONNXRUNTIME_ENFORCE {α : Type} (condition : Bool) (text : String) (k : Result α) : Result α :=
  if condition then k else Result.throw text

/-- The conversion of an `int64_t` to `size_t`. -/
def to_size_t (x : Int) : Nat := (x % 2 ^ 64).toNat

/-- The call `gsl::narrow_cast<int64_t>(n)` on a `size_t`. -/
def narrow_cast_int64 (n : Nat) : Int := ((n : Int) + 2 ^ 63) % 2 ^ 64 - 2 ^ 63

/-- Modelled from the spec: `IAllocator::CalcMemSizeForArray(nmemb, size, &out)`
(core/framework/allocator.h is not part of the sources at hand): the product of the two sizes, or
failure (`none`) when the product does not fit a `size_t`. -/
def CalcMemSizeForArray (nmemb size : Nat) : Option Nat :=
  if nmemb * size < 2 ^ 64 then some (nmemb * size) else none

/-- Modelled from the spec: a `TensorShape` (core/framework/tensor_shape.h is not part of the sources at
hand): the vector of dimension sizes. -/
structure TensorShape where
  dims : List Int
  deriving DecidableEq, Repr

namespace TensorShape

/-- Modelled from the spec: `TensorShape::NumDimensions` (core/framework/tensor_shape.h is not part of
the sources at hand). -/
def NumDimensions (shape : TensorShape) : Nat := shape.dims.length

/-- Modelled from the spec: the loop of `TensorShape::SizeHelper` (core/framework/tensor_shape.cc is not
part of the sources at hand): multiply the dimensions onto `size`, returning -1 at a negative
dimension; `none` when the `int64_t` product overflows. -/
def SizeHelper : List Int → Int → Option Int
  | [], size => some size
  | d :: rest, size =>
    if d < 0 then some (-1)
    else if size * d < 2 ^ 63 then SizeHelper rest (size * d) else none

/-- Modelled from the spec: `TensorShape::Size` (core/framework/tensor_shape.cc is not part of the
sources at hand): the number of elements, 1 for the empty shape. -/
def Size (shape : TensorShape) : Option Int := SizeHelper shape.dims 1

/-- Modelled from the spec: `TensorShape::Slice(dimstart)` (core/framework/tensor_shape.cc is not part
of the sources at hand): the dimensions from `dimstart` on, an enforce failure when `dimstart`
exceeds the rank. -/
def Slice (shape : TensorShape) (dimstart : Nat) : Result TensorShape :=
  ONNXRUNTIME_ENFORCE (decide (dimstart ≤ shape.dims.length)) "Invalid tensor shape slice argument."
    (Result.ret { dims := shape.dims.drop dimstart })

end TensorShape

/-- Modelled from the spec: a `DataTypeImpl` (core/framework/data_types.h is not part of the sources at
hand): the element type of a tensor, of which the slicer uses the size in bytes. -/
structure DataTypeImpl where
  Size : Nat
  deriving DecidableEq, Repr

/-- Modelled from the spec: a `Tensor` (core/framework/tensor.h is not part of the sources at hand) built
by `Tensor(type, shape, p_data, location)`: element type, shape, address of the data and location. -/
structure Tensor where
  DataType : DataTypeImpl
  Shape : TensorShape
  DataRaw : Nat
  Location : String
  deriving DecidableEq, Repr

/-- Modelled from the spec: an `MLValue` (core/framework/ml_value.h is not part of the sources at hand):
whether its type is the tensor type, and the tensor it holds, if it holds one. -/
structure MLValue where
  type_is_tensor : Bool
  data_ : Option Tensor
  deriving DecidableEq, Repr

namespace MLValue

/-- Modelled from the spec: `MLValue::IsTensor` (core/framework/ml_value.h is not part of the sources at
hand). -/
def IsTensor (mlvalue : MLValue) : Bool := mlvalue.type_is_tensor

/-- Modelled from the spec: `MLValue::IsAllocated` (core/framework/ml_value.h is not part of the sources
at hand). -/
def IsAllocated (mlvalue : MLValue) : Bool := mlvalue.data_.isSome

end MLValue

/-- The slicer that the constructor `MLValueTensorSlicer{mlvalue, slice_dimension, dim0_offset}`
builds; the constructor (core/framework/mlvalue_tensor_slicer.h is not part of the sources at hand)
is modelled from the spec as storing its arguments. -/
structure MLValueTensorSlicer where
  mlvalue_ : MLValue
  slice_dimension_ : Int
  dim0_offset_ : Int
  deriving DecidableEq, Repr

namespace MLValueTensorSlicer

/-- The factory `MLValueTensorSlicer<T>::Create(mlvalue, slice_dimension, dim0_offset)`. -/
def Create (mlvalue : MLValue) (slice_dimension : Int) (dim0_offset : Int) :
    Result MLValueTensorSlicer :=
  ONNXRUNTIME_ENFORCE mlvalue.IsTensor "mlvalue.IsTensor()" <|
  ONNXRUNTIME_ENFORCE mlvalue.IsAllocated "mlvalue.IsAllocated()" <|
    match mlvalue.data_ with
    | none => Result.undefined
    | some tensor =>
      let tensor_shape := tensor.Shape
      ONNXRUNTIME_ENFORCE (decide (narrow_cast_int64 tensor_shape.NumDimensions > slice_dimension))
          "gsl::narrow_cast<int64_t>(tensor_shape.NumDimensions()) > slice_dimension" <|
        match tensor_shape.dims[0]? with
        | none => Result.undefined
        | some dim0_size =>
          ONNXRUNTIME_ENFORCE (decide (dim0_offset < dim0_size)) "dim0_offset < dim0_size" <|
            Result.ret
              { mlvalue_ := mlvalue, slice_dimension_ := slice_dimension, dim0_offset_ := dim0_offset }

/-- The enumeration `Iterator::Direction`. -/
inductive Direction
  | kForward | kReverse
  deriving DecidableEq, Repr

/-- The members of `MLValueTensorSlicer<T>::Iterator`. -/
structure Iterator where
  mlvalue_ : MLValue
  position_ : Int
  increment_by_ : Int
  position_materialized_ : Int
  tensor_data_type_ : DataTypeImpl
  tensor_location_ : String
  sequence_length_ : Int
  per_iteration_shape_ : TensorShape
  per_iteration_offset_ : Nat
  tensor_data_raw_ : Nat
  current_ : Option MLValue
  deriving DecidableEq, Repr

namespace Iterator

/-- The constructor `Iterator(mlvalue, slice_dimension, dim0_offset, position, direction)`.  The two
`assert`s on the element counts, which a release build compiles out, are left out. -/
def new (mlvalue : MLValue) (slice_dimension : Nat) (dim0_offset : Nat) (position : Int)
    (direction : Direction) : Result Iterator :=
  match mlvalue.data_ with
  | none => Result.undefined
  | some tensor =>
    let shape := tensor.Shape
    match shape.dims[slice_dimension]? with
    | none => Result.undefined
    | some sequence_length_ =>
      (shape.Slice ((slice_dimension + 1) % 2 ^ 64)).andThen fun per_iteration_shape_ =>
        match per_iteration_shape_.Size with
        | none => Result.undefined
        | some per_iteration_shape_size =>
          match CalcMemSizeForArray (to_size_t per_iteration_shape_size) tensor.DataType.Size with
          | none => Result.throw "size overflow"
          | some per_iteration_offset_ =>
            (shape.Slice slice_dimension).andThen fun sliced =>
              match sliced.Size with
              | none => Result.undefined
              | some slice_dimension_size =>
                match CalcMemSizeForArray (to_size_t slice_dimension_size) tensor.DataType.Size with
                | none => Result.throw "size overflow"
                | some total_len =>
                  match CalcMemSizeForArray dim0_offset total_len with
                  | none => Result.throw "size overflow"
                  | some total_len =>
                    let tensor_data_raw_ := tensor.DataRaw + total_len
                    let position_ :=
                      if direction = Direction.kForward then
                        if position > sequence_length_ then sequence_length_ else position
                      else
                        let position_ :=
                          if position ≥ sequence_length_ then sequence_length_ - 1 else position
                        if position_ < -1 then -1 else position_
                    Result.ret
                      { mlvalue_ := mlvalue
                        position_ := position_
                        increment_by_ := if direction = Direction.kForward then 1 else -1
                        position_materialized_ := -1
                        tensor_data_type_ := tensor.DataType
                        tensor_location_ := tensor.Location
                        sequence_length_ := sequence_length_
                        per_iteration_shape_ := per_iteration_shape_
                        per_iteration_offset_ := per_iteration_offset_
                        tensor_data_raw_ := tensor_data_raw_
                        current_ := none }

/-- The member function `Iterator::MaterializeMLValue`, which sets the mutable members
`position_materialized_` and `current_`. -/
def MaterializeMLValue (it : Iterator) : Iterator :=
  let tensor_slice_data_raw :=
    it.tensor_data_raw_ + (to_size_t it.position_ * it.per_iteration_offset_) % 2 ^ 64
  let sub_tensor : Tensor :=
    { DataType := it.tensor_data_type_
      Shape := it.per_iteration_shape_
      DataRaw := tensor_slice_data_raw
      Location := it.tensor_location_ }
  { it with
    position_materialized_ := it.position_
    current_ := some { type_is_tensor := true, data_ := some sub_tensor } }

end Iterator

end MLValueTensorSlicer

namespace Fixture

/-- A tensor of 2 x 3 x 4 elements of 4 bytes each at address 4096. -/
def tensor_2_3_4 : Tensor :=
  { DataType := { Size := 4 }, Shape := { dims := [2, 3, 4] }, DataRaw := 4096, Location := "Cpu" }

def value_2_3_4 : MLValue := { type_is_tensor := true, data_ := some tensor_2_3_4 }

end Fixture

end onnxruntime

/-! ## Theorems -/

namespace Lotus

open Impl

/-! ### Control-flow lemmas -/

theorem LOTUS_RETURN_IF_ERROR_ret {σ : Type} (st : Status) (s : σ) (k : σ → Outcome σ Status) :
    LOTUS_RETURN_IF_ERROR (Outcome.ret st s) k = if st.IsOK then k s else Outcome.ret st s := rfl

theorem LOTUS_RETURN_IF_ERROR_raise {σ : Type} (e : Thrown) (s : σ) (k : σ → Outcome σ Status) :
    LOTUS_RETURN_IF_ERROR (Outcome.raise e s) k = Outcome.raise e s := rfl

theorem LOTUS_RETURN_IF_ERROR_undefined {σ : Type} (k : σ → Outcome σ Status) :
    LOTUS_RETURN_IF_ERROR (Outcome.undefined : Outcome σ Status) k = Outcome.undefined := rfl

/-- A `Load` that found the session already loaded returns before anything else happens. -/
theorem Load_catch_ret (st : Status) (s : Impl) :
    Load_catch (Outcome.ret st s) = Outcome.ret st s := rfl

/-! ### Loading -/

/-- When the input loop of `SaveModelMetadata` completes, no entry was null and the list has grown
by the inputs that are not weights, in order. -/
theorem SaveModelMetadata_inputs_complete (weights : InitializedTensorSet) (l : List (Option NodeArg))
    (acc : List NodeArg) (h : (SaveModelMetadata_inputs weights l acc).1 = true) :
    ∃ inputs : List NodeArg, l = inputs.map some ∧
      (SaveModelMetadata_inputs weights l acc).2 = acc ++ inputs.filter fun a => !weights.count a.Name := by
  induction l generalizing acc with
  | nil => exact ⟨[], rfl, by simp [SaveModelMetadata_inputs]⟩
  | cons x rest ih =>
    cases x with
    | none => simp [SaveModelMetadata_inputs] at h
    | some elem =>
      by_cases hw : weights.count elem.Name = true
      · simp only [SaveModelMetadata_inputs, hw, if_true] at h ⊢
        obtain ⟨inputs, hl, hr⟩ := ih acc h
        exact ⟨elem :: inputs, by simp [hl], by simp [hr, List.filter, hw]⟩
      · simp only [SaveModelMetadata_inputs, hw] at h ⊢
        obtain ⟨inputs, hl, hr⟩ := ih (acc ++ [elem]) h
        refine ⟨elem :: inputs, by simp [hl], ?_⟩
        simp only [Bool.not_eq_true] at hw
        simp [hr, List.filter, hw]

/-- When the output loop of `SaveModelMetadata` completes, no entry was null and the list has grown
by all the outputs, in order. -/
theorem SaveModelMetadata_outputs_complete (l : List (Option NodeArg)) (acc : List NodeArg)
    (h : (SaveModelMetadata_outputs l acc).1 = true) :
    ∃ outputs : List NodeArg, l = outputs.map some ∧ (SaveModelMetadata_outputs l acc).2 = acc ++ outputs := by
  induction l generalizing acc with
  | nil => exact ⟨[], rfl, by simp [SaveModelMetadata_outputs]⟩
  | cons x rest ih =>
    cases x with
    | none => simp [SaveModelMetadata_outputs] at h
    | some elem =>
      simp only [SaveModelMetadata_outputs] at h ⊢
      obtain ⟨outputs, hl, hr⟩ := ih (acc ++ [elem]) h
      exact ⟨elem :: outputs, by simp [hl], by simp [hr]⟩

/-- What `SaveModelMetadata` leaves alone. -/
theorem SaveModelMetadata_frame (model : Model) (s : Impl) :
    (SaveModelMetadata model s).2.is_model_loaded_ = s.is_model_loaded_ ∧
    (SaveModelMetadata model s).2.is_inited_ = s.is_inited_ ∧
    (SaveModelMetadata model s).2.model_ = s.model_ := by
  unfold SaveModelMetadata
  simp only []
  split <;> [skip; split] <;> simp

/-- A successful `SaveModelMetadata` found no null entry and appended the non-weight inputs and all
the outputs of the graph to the lists of the session. -/
theorem SaveModelMetadata_ok (model : Model) (s : Impl) (h : (SaveModelMetadata model s).1.IsOK = true) :
    ∃ inputs outputs : List NodeArg, model.MainGraph.Inputs = inputs.map some ∧
      model.MainGraph.Outputs = outputs.map some ∧
      (SaveModelMetadata model s).2.input_def_list_ = s.input_def_list_ ++
        inputs.filter (fun a => !model.MainGraph.AllInitializedTensors.count a.Name) ∧
      (SaveModelMetadata model s).2.output_def_list_ = s.output_def_list_ ++ outputs := by
  unfold SaveModelMetadata at h ⊢
  simp only [] at h ⊢
  split at h
  · simp [Status.IsOK] at h
  · rename_i hi
    split at h
    · simp [Status.IsOK] at h
    · rename_i ho
      have hi2 : (SaveModelMetadata_inputs model.MainGraph.AllInitializedTensors model.MainGraph.Inputs
          s.input_def_list_).1 = true := by simpa using hi
      have ho2 : (SaveModelMetadata_outputs model.MainGraph.Outputs s.output_def_list_).1 = true := by
        simpa using ho
      obtain ⟨inputs, hil, hir⟩ := SaveModelMetadata_inputs_complete _ _ _ hi2
      obtain ⟨outputs, hol, hor⟩ := SaveModelMetadata_outputs_complete _ _ ho2
      refine ⟨inputs, outputs, hil, hol, ?_, ?_⟩
      · simp [hi2, ho2, hir]
      · simp [hi2, ho2, hor]

/-- The two ways `Load_post` ends when a model is held: metadata saved and the flag set, or the status
of `SaveModelMetadata` returned with the flag untouched. -/
theorem Load_post_some (s : Impl) (model : Model) (hm : s.model_ = some model) :
    Load_post s =
      if (SaveModelMetadata model s).1.IsOK then
        Outcome.ret Status.OK { (SaveModelMetadata model s).2 with is_model_loaded_ := true }
      else Outcome.ret (SaveModelMetadata model s).1 (SaveModelMetadata model s).2 := by
  simp [Load_post, hm, DoPostLoadProcessing, LOTUS_RETURN_IF_ERROR_ret]

/-- In `Load_post`, no exception escapes, so the handlers of `Load` leave its result as it is. -/
theorem Load_catch_Load_post (s : Impl) : Load_catch (Load_post s) = Load_post s := by
  cases hm : s.model_ with
  | none => simp [Load_post, hm, Load_catch, Outcome.catchAll]
  | some model =>
    rw [Load_post_some s model hm]
    split <;> rfl

/-- The statuses the handlers of `Load` produce are errors. -/
theorem Load_catch_cases (o : Outcome Impl Status) :
    Load_catch o = o ∨ ∃ e s st, o = Outcome.raise e s ∧ st.IsOK = false ∧ Load_catch o = Outcome.ret st s := by
  cases o with
  | ret a s => exact Or.inl rfl
  | undefined => exact Or.inl rfl
  | raise e s =>
    cases e with
    | std_exception w => exact Or.inr ⟨_, s, _, rfl, by rfl, rfl⟩
    | unknown => exact Or.inr ⟨_, s, _, rfl, by rfl, rfl⟩

/-- Every `Load` overload on a session without a loaded model either returns an error leaving the
session as it was, or assigns the obtained model pointer to `model_` and goes on as `Load_post`. -/
theorem Load_unloaded_cases (env : Env) (s : Impl) (h : s.is_model_loaded_ = false)
    (model_uri : String) (model_proto : ModelProto) (model_istream : IStream) (p_model : Option Model) :
    ∀ o, (o = Load_model_uri env model_uri s ∨ o = Load_model_proto env model_proto s ∨
        o = Load_model_istream env model_istream s ∨ o = Load_p_model p_model s) →
      (∃ st, st.IsOK = false ∧ o = Outcome.ret st s) ∨
      (∃ pm, o = Load_post { s with model_ := pm }) := by
  have key : ∀ c : Call (Status × Option Model),
      (∃ st, st.IsOK = false ∧ Load_catch ((Outcome.ofCall c s).andThen fun r s =>
          if r.1.IsOK then Load_post { s with model_ := r.2 } else Outcome.ret r.1 s) = Outcome.ret st s) ∨
      (∃ pm, Load_catch ((Outcome.ofCall c s).andThen fun r s =>
          if r.1.IsOK then Load_post { s with model_ := r.2 } else Outcome.ret r.1 s)
        = Load_post { s with model_ := pm }) := by
    intro c
    cases c with
    | throw e => cases e <;> exact Or.inl ⟨_, by rfl, rfl⟩
    | ret r =>
      by_cases hr : r.1.IsOK = true
      · right
        refine ⟨r.2, ?_⟩
        simp only [Outcome.ofCall, Outcome.andThen, hr, if_true]
        exact Load_catch_Load_post _
      · left
        refine ⟨r.1, by simpa using hr, ?_⟩
        simp [Outcome.ofCall, Outcome.andThen, hr, Load_catch_ret]
  intro o ho
  rcases ho with rfl | rfl | rfl | rfl
  · simpa [Load_model_uri, h] using key (env.Model_Load_uri model_uri)
  · simpa [Load_model_proto, h] using key (env.Model_Load_proto model_proto)
  · unfold Load_model_istream
    rw [if_neg (by simp [h])]
    cases hp : env.ParseFromIstream model_istream with
    | throw e => cases e <;> exact Or.inl ⟨_, by rfl, rfl⟩
    | ret result =>
      cases result with
      | none => exact Or.inl ⟨_, by rfl, rfl⟩
      | some proto => exact key (env.Model_Load_proto proto)
  · right
    exact ⟨p_model, by simp [Load_p_model, h, Load_catch_Load_post]⟩

/-- On a session that already holds a loaded model every `Load` overload returns at once. -/
theorem Load_loaded_eq (env : Env) (s : Impl) (h : s.is_model_loaded_ = true)
    (model_uri : String) (model_proto : ModelProto) (model_istream : IStream) (p_model : Option Model) :
    Load_model_uri env model_uri s = Outcome.ret Load_already_loaded s ∧
    Load_model_proto env model_proto s = Outcome.ret Load_already_loaded s ∧
    Load_model_istream env model_istream s = Outcome.ret Load_already_loaded s ∧
    Load_p_model p_model s = Outcome.ret Load_already_loaded s := by
  refine ⟨?_, ?_, ?_, ?_⟩ <;>
    simp [Load_model_uri, Load_model_proto, Load_model_istream, Load_p_model, h, Load_catch_ret]

/-- C1: on a session that already holds a loaded model, each of the four `Load` overloads returns
the MODEL_LOADED status and leaves every member of the session as it was. -/
theorem Load_when_loaded_returns_MODEL_LOADED (env : Env) (s : Impl) (h : s.is_model_loaded_ = true)
    (model_uri : String) (model_proto : ModelProto) (model_istream : IStream) (p_model : Option Model) :
    Load_model_uri env model_uri s = Outcome.ret Load_already_loaded s ∧
    Load_model_proto env model_proto s = Outcome.ret Load_already_loaded s ∧
    Load_model_istream env model_istream s = Outcome.ret Load_already_loaded s ∧
    Load_p_model p_model s = Outcome.ret Load_already_loaded s ∧
    Load_already_loaded.code = StatusCode.MODEL_LOADED ∧ Load_already_loaded.IsOK = false := by
  obtain ⟨h1, h2, h3, h4⟩ := Load_loaded_eq env s h model_uri model_proto model_istream p_model
  exact ⟨h1, h2, h3, h4, rfl, rfl⟩

/-- C1 at the session of the tests: after `Load(model_proto)` succeeded, a further `Load` of any
form is refused and the session is unchanged. -/
theorem Load_when_loaded_returns_MODEL_LOADED_witness :
    Fixture.loaded.is_model_loaded_ = true ∧
    Load_model_uri Fixture.env "testdata/mul_1.pb" Fixture.loaded
      = Outcome.ret Load_already_loaded Fixture.loaded ∧
    Load_model_proto Fixture.env Fixture.mul_1_proto Fixture.loaded
      = Outcome.ret Load_already_loaded Fixture.loaded ∧
    Load_model_istream Fixture.env Fixture.mul_1_stream Fixture.loaded
      = Outcome.ret Load_already_loaded Fixture.loaded ∧
    Load_p_model (some Fixture.mul_1) Fixture.loaded = Outcome.ret Load_already_loaded Fixture.loaded ∧
    Load_already_loaded.code = StatusCode.MODEL_LOADED ∧ Load_already_loaded.IsOK = false :=
  ⟨rfl, Load_when_loaded_returns_MODEL_LOADED Fixture.env Fixture.loaded rfl "testdata/mul_1.pb"
    Fixture.mul_1_proto Fixture.mul_1_stream (some Fixture.mul_1)⟩

/-- C5: `ValidateOutputs` returns success exactly when the fetch pointer is non-null and the vector
it points to is empty or as long as the list of output names; then the status is `Status::OK()`. -/
theorem ValidateOutputs_ok_iff (output_names : List String) (p_fetches : Option (List MLValue)) :
    ((ValidateOutputs output_names p_fetches).IsOK = true ↔
      ∃ fetches, p_fetches = some fetches ∧ (fetches = [] ∨ fetches.length = output_names.length)) ∧
    ((ValidateOutputs output_names p_fetches).IsOK = true →
      ValidateOutputs output_names p_fetches = Status.OK) := by
  cases p_fetches with
  | none => simp [ValidateOutputs, Status.IsOK]
  | some fetches =>
    by_cases hlen : fetches.length = output_names.length
    · simp [ValidateOutputs, Status.IsOK, Status.OK, hlen]
    · have hlen2 : ¬ output_names.length = fetches.length := fun h => hlen h.symm
      cases fetches with
      | nil => simp [ValidateOutputs, Status.IsOK, Status.OK]
      | cons a l =>
        simp only [List.length_cons] at hlen hlen2
        simp [ValidateOutputs, Status.IsOK, hlen, hlen2]

/-- When `Load_post` returns, a success has set the loaded flag and saved the lists of the held
model; an error has left the flag as it was. -/
theorem Load_post_ret (s : Impl) (st : Status) (s' : Impl) (h : Load_post s = Outcome.ret st s') :
    (st.IsOK = true → st = Status.OK ∧ s'.is_model_loaded_ = true ∧ s'.model_ = s.model_ ∧
      ∃ model, s.model_ = some model ∧ (SaveModelMetadata model s).1.IsOK = true ∧
        s'.input_def_list_ = (SaveModelMetadata model s).2.input_def_list_ ∧
        s'.output_def_list_ = (SaveModelMetadata model s).2.output_def_list_ ∧
        s'.model_metadata_ = (SaveModelMetadata model s).2.model_metadata_) ∧
    (st.IsOK = false → s'.is_model_loaded_ = s.is_model_loaded_) := by
  cases hm : s.model_ with
  | none => simp [Load_post, hm] at h
  | some model =>
    rw [Load_post_some s model hm] at h
    by_cases hok : (SaveModelMetadata model s).1.IsOK = true
    · rw [if_pos hok] at h
      injection h with h1 h2
      subst h1 h2
      refine ⟨fun _ => ⟨rfl, rfl, ?_, model, rfl, hok, rfl, rfl, rfl⟩, fun hc => ?_⟩
      · simp [(SaveModelMetadata_frame model s).2.2, hm]
      · simp [Status.IsOK, Status.OK] at hc
    · rw [if_neg hok] at h
      injection h with h1 h2
      subst h1 h2
      exact ⟨fun hc => absurd hc hok, fun _ => (SaveModelMetadata_frame model s).1⟩

/-- A `Load` of any form that returns success leaves the loaded flag set; one that returns an error
leaves the flag as it found it. -/
theorem Load_ret_flag (env : Env) (s : Impl) (model_uri : String) (model_proto : ModelProto)
    (model_istream : IStream) (p_model : Option Model) (o : Outcome Impl Status) (st : Status) (s' : Impl)
    (ho : o = Load_model_uri env model_uri s ∨ o = Load_model_proto env model_proto s ∨
      o = Load_model_istream env model_istream s ∨ o = Load_p_model p_model s)
    (hr : o = Outcome.ret st s') :
    (st.IsOK = true → s'.is_model_loaded_ = true) ∧
    (st.IsOK = false → s'.is_model_loaded_ = s.is_model_loaded_) := by
  cases hl : s.is_model_loaded_ with
  | true =>
    have h1 := Load_loaded_eq env s hl model_uri model_proto model_istream p_model
    have : o = Outcome.ret Load_already_loaded s := by
      rcases ho with rfl | rfl | rfl | rfl
      · exact h1.1
      · exact h1.2.1
      · exact h1.2.2.1
      · exact h1.2.2.2
    rw [this] at hr
    injection hr with h2 h3
    subst h2 h3
    exact ⟨fun hc => by simp [Load_already_loaded, Status.IsOK] at hc, fun _ => hl⟩
  | false =>
    rcases Load_unloaded_cases env s hl model_uri model_proto model_istream p_model o ho with
      ⟨st2, hst2, ho2⟩ | ⟨pm, ho2⟩
    · rw [ho2] at hr
      injection hr with h2 h3
      subst h2 h3
      exact ⟨fun hc => by simp [hst2] at hc, fun _ => hl⟩
    · rw [ho2] at hr
      have h4 := Load_post_ret _ st s' hr
      exact ⟨fun hc => (h4.1 hc).2.1, fun hc => by simpa [hl] using h4.2 hc⟩

/-- C7: after a `Load` of any form has succeeded on a freshly constructed session, the session holds
a model without null input or output entries, `GetInputs` returns the inputs of its graph with those
named like an initializer removed, in graph order, and `GetOutputs` returns all outputs of its graph
in order; for the model-handle form the model held is the one passed in. -/
theorem Load_fresh_snapshots_inputs_outputs (env : Env) (session_options : SessionOptions)
    (logging_manager : Bool) (indeterminate_num_runs : Int) (model_uri : String)
    (model_proto : ModelProto) (model_istream : IStream) (p_model : Option Model)
    (o : Outcome Impl Status) (st : Status) (s' : Impl)
    (ho : o = Load_model_uri env model_uri (Impl.new session_options logging_manager indeterminate_num_runs) ∨
      o = Load_model_proto env model_proto (Impl.new session_options logging_manager indeterminate_num_runs) ∨
      o = Load_model_istream env model_istream (Impl.new session_options logging_manager indeterminate_num_runs) ∨
      o = Load_p_model p_model (Impl.new session_options logging_manager indeterminate_num_runs))
    (hr : o = Outcome.ret st s') (hok : st.IsOK = true) :
    ∃ (model : Model) (inputs outputs : List NodeArg),
      s'.model_ = some model ∧
      (o = Load_p_model p_model (Impl.new session_options logging_manager indeterminate_num_runs) →
        p_model = some model) ∧
      model.MainGraph.Inputs = inputs.map some ∧
      model.MainGraph.Outputs = outputs.map some ∧
      GetInputs s' = (Status.OK,
        some (inputs.filter fun a => !model.MainGraph.AllInitializedTensors.count a.Name)) ∧
      GetOutputs s' = (Status.OK, some outputs) := by
  have hflag := (Load_ret_flag env _ model_uri model_proto model_istream p_model o st s' ho hr).1 hok
  have hfresh : (Impl.new session_options logging_manager indeterminate_num_runs).is_model_loaded_ = false := rfl
  rcases Load_unloaded_cases env _ hfresh model_uri model_proto model_istream p_model o ho with
    ⟨st2, hst2, ho2⟩ | ⟨pm, ho2⟩
  · rw [ho2] at hr
    injection hr with h2 h3
    subst h2
    simp [hst2] at hok
  · have hr2 := hr
    rw [ho2] at hr2
    obtain ⟨_, _, hmodel, model, hm, hsave, hin, hout, _⟩ := (Load_post_ret _ st s' hr2).1 hok
    obtain ⟨inputs, outputs, hgi, hgo, hli, hlo⟩ := SaveModelMetadata_ok model _ hsave
    have hsm : s'.model_ = some model := by rw [hmodel]; exact hm
    refine ⟨model, inputs, outputs, hsm, ?_, hgi, hgo, ?_, ?_⟩
    · intro hp
      have h5 : Load_p_model p_model (Impl.new session_options logging_manager indeterminate_num_runs)
          = Load_post { Impl.new session_options logging_manager indeterminate_num_runs with
              model_ := p_model } := by
        unfold Load_p_model
        rw [if_neg (by simp [hfresh])]
        exact Load_catch_Load_post _
      rw [hp, h5] at hr
      obtain ⟨_, _, hmodel2, _⟩ := (Load_post_ret _ st s' hr).1 hok
      have h6 : s'.model_ = p_model := hmodel2
      rw [← h6]
      exact hsm
    · have h7 : s'.input_def_list_ =
          inputs.filter fun a => !model.MainGraph.AllInitializedTensors.count a.Name := by
        rw [hin, hli]
        exact List.nil_append _
      simp [GetInputs, hflag, h7]
    · have h8 : s'.output_def_list_ = outputs := by
        rw [hout, hlo]
        exact List.nil_append _
      simp [GetOutputs, hflag, h8]

/-! ### Frame lemmas -/

theorem Frame.refl (s : Impl) : Frame s s := ⟨rfl, rfl, rfl, rfl, rfl, rfl, rfl⟩

theorem Frame.trans {s1 s2 s3 : Impl} (h12 : Frame s1 s2) (h23 : Frame s2 s3) : Frame s1 s3 :=
  ⟨h23.1.trans h12.1, h23.2.trans h12.2, h23.3.trans h12.3, h23.4.trans h12.4, h23.5.trans h12.5,
    h23.6.trans h12.6, h23.7.trans h12.7⟩

theorem Frame.withGraph (s : Impl) (g : Graph) : Frame s (s.withGraph g) :=
  ⟨rfl, rfl, rfl, rfl, rfl, rfl, by cases h : s.model_ <;> simp [Impl.withGraph, h]⟩

theorem Frame.logCall (s : Impl) (c : CollaboratorCall) : Frame s (s.logCall c) :=
  ⟨rfl, rfl, rfl, rfl, rfl, rfl, rfl⟩

theorem Frame.exec_providers {s s' : Impl} (h : Frame s s') :
    s'.session_state_.exec_providers = s.session_state_.exec_providers :=
  congrArg Prod.fst h.config

theorem Frame.enable_mem_pattern_ {s s' : Impl} (h : Frame s s') :
    s'.session_state_.enable_mem_pattern_ = s.session_state_.enable_mem_pattern_ :=
  congrArg Prod.snd h.config

/-- Replacing the session state by one with the same configuration stays within the frame. -/
theorem Frame.session_state (s : Impl) (ss : SessionState)
    (h : ss.config = s.session_state_.config) :
    Frame s { s with session_state_ := ss } :=
  ⟨rfl, rfl, rfl, rfl, rfl, h, rfl⟩

theorem Framed.of_frame {α : Type} {s s1 : Impl} {o : Outcome Impl α} (h : Frame s s1)
    (ho : Framed s1 o) : Framed s o := by
  cases o with
  | ret a s' => exact h.trans ho
  | raise e s' => exact h.trans ho
  | undefined => trivial

theorem Framed.ofCall {α : Type} (s s1 : Impl) (c : Call α) (h : Frame s s1) :
    Framed s (Outcome.ofCall c s1) := by
  cases c <;> exact h

theorem Framed.andThen {α β : Type} {s : Impl} {o : Outcome Impl α} {k : α → Impl → Outcome Impl β}
    (ho : Framed s o) (hk : ∀ a s1, Frame s s1 → Framed s (k a s1)) : Framed s (o.andThen k) := by
  cases o with
  | ret a s' => exact hk a s' ho
  | raise e s' => exact ho
  | undefined => trivial

theorem Framed.RETURN_IF_ERROR {s : Impl} {o : Outcome Impl Status} {k : Impl → Outcome Impl Status}
    (ho : Framed s o) (hk : ∀ s1, Frame s s1 → Framed s (k s1)) :
    Framed s (LOTUS_RETURN_IF_ERROR o k) := by
  unfold LOTUS_RETURN_IF_ERROR
  refine Framed.andThen ho fun st s1 h1 => ?_
  split
  · exact hk s1 h1
  · exact h1

theorem Framed.ENFORCE {α : Type} {env : Env} {s s1 : Impl} {c : Bool} {text : String}
    {k : Outcome Impl α} (h1 : Frame s s1) (hk : Framed s k) :
    Framed s (LOTUS_ENFORCE env c text s1 k) := by
  unfold LOTUS_ENFORCE
  split
  · exact hk
  · exact h1

theorem TransformGraph_providers_framed (env : Env) (eps : List IExecutionProvider) (s : Impl) :
    Framed s (TransformGraph_providers env eps s) := by
  induction eps generalizing s with
  | nil => exact Frame.refl s
  | cons ep rest ih =>
    unfold TransformGraph_providers
    cases hm : s.model_ with
    | none => trivial
    | some model =>
      simp only []
      exact Framed.RETURN_IF_ERROR (Framed.ofCall _ _ _ (Frame.withGraph s _))
        fun s1 h1 => Framed.of_frame h1 (ih s1)

theorem TransformGraph_framed (env : Env) (s : Impl) : Framed s (TransformGraph env s) := by
  unfold TransformGraph
  cases hm : s.model_ with
  | none => trivial
  | some model =>
    simp only []
    exact Framed.RETURN_IF_ERROR (Framed.ofCall _ _ _ (Frame.withGraph s _))
      fun s1 h1 => Framed.of_frame h1 (TransformGraph_providers_framed env _ s1)

theorem CreateOpKernelInternal_framed (env : Env) (node : Node) (allocator_info : AllocatorInfo)
    (exec_provider : IExecutionProvider) (p_op_kernel : Option OpKernel) (s : Impl) :
    Framed s (CreateOpKernelInternal env node allocator_info exec_provider p_op_kernel s) := by
  unfold CreateOpKernelInternal
  refine Framed.andThen (Framed.ofCall _ _ _ (Frame.logCall s _)) fun r s1 h1 => ?_
  split
  · exact Framed.ofCall _ _ _ (h1.trans (Frame.logCall s1 _))
  · exact h1

theorem CreateOpKernel_framed (env : Env) (node : Node) (p_op_kernel : Option OpKernel) (s : Impl) :
    Framed s (CreateOpKernel env node p_op_kernel s) := by
  unfold CreateOpKernel
  simp only []
  split
  · exact Frame.refl s
  · split
    · trivial
    · exact CreateOpKernelInternal_framed env node _ _ p_op_kernel s

theorem AddMLValueNameIdx_config (ss : SessionState) (name : String) (idx : Int) :
    (ss.AddMLValueNameIdx name idx).config = ss.config := by
  unfold SessionState.AddMLValueNameIdx
  split <;> rfl

theorem SaveKernelsAndMLValueNameIndexMapping_defs_config (defs : List NodeArg) (curr_idx : Int)
    (ss : SessionState) :
    (SaveKernelsAndMLValueNameIndexMapping_defs defs curr_idx ss).2.config = ss.config := by
  induction defs generalizing curr_idx ss with
  | nil => rfl
  | cons d rest ih =>
    unfold SaveKernelsAndMLValueNameIndexMapping_defs
    split
    · exact ih _ _
    · rw [ih]
      exact AddMLValueNameIdx_config _ _ _

theorem SaveKernelsAndMLValueNameIndexMapping_nodes_framed (env : Env) (graph : Graph)
    (nodes : List Node) (curr_idx : Int) (s : Impl) :
    Framed s (SaveKernelsAndMLValueNameIndexMapping_nodes env graph nodes curr_idx s) := by
  induction nodes generalizing curr_idx s with
  | nil => exact Frame.refl s
  | cons node rest ih =>
    unfold SaveKernelsAndMLValueNameIndexMapping_nodes
    split
    · exact ih _ _
    · refine Framed.andThen (CreateOpKernel_framed env node none s) fun r s1 h1 => ?_
      split
      · exact h1
      · refine Framed.of_frame (h1.trans (Frame.session_state s1 _ ?_)) (ih _ _)
        rw [SaveKernelsAndMLValueNameIndexMapping_defs_config,
          SaveKernelsAndMLValueNameIndexMapping_defs_config]
        rfl

theorem SaveKernelsAndMLValueNameIndexMapping_framed (env : Env) (s : Impl) :
    Framed s (SaveKernelsAndMLValueNameIndexMapping env s) := by
  unfold SaveKernelsAndMLValueNameIndexMapping
  cases hm : s.model_ with
  | none => trivial
  | some model =>
    simp only []
    refine Framed.of_frame ?_ (SaveKernelsAndMLValueNameIndexMapping_nodes_framed env _ _ _ _)
    exact ⟨rfl, rfl, rfl, rfl, rfl, rfl, by simp [hm]⟩

theorem AddInitializedTensor_config (ss : SessionState) (idx : Int) (v : MLValue) :
    (ss.AddInitializedTensor idx v).config = ss.config := by
  unfold SessionState.AddInitializedTensor
  split <;> rfl

theorem SaveInitializedTensorsWithSeperateBuffer_entries_framed (env : Env) (alloc : AllocatorInfo)
    (entries : List (String × TensorProto)) (s : Impl) :
    Framed s (SaveInitializedTensorsWithSeperateBuffer_entries env alloc entries s) := by
  induction entries generalizing s with
  | nil => exact Frame.refl s
  | cons entry rest ih =>
    unfold SaveInitializedTensorsWithSeperateBuffer_entries
    simp only []
    split
    · exact Frame.refl s
    · refine Framed.andThen (Framed.ofCall _ _ _ (Frame.refl s)) fun r s1 h1 => ?_
      split
      · exact h1
      · exact Framed.of_frame
          (h1.trans (Frame.session_state s1 _ (AddInitializedTensor_config _ _ _))) (ih _)

theorem SaveInitializedTensorsWithSeperateBuffer_framed (env : Env) (s : Impl) :
    Framed s (SaveInitializedTensorsWithSeperateBuffer env s) := by
  unfold SaveInitializedTensorsWithSeperateBuffer
  split
  · trivial
  · simp only []
    refine Framed.ENFORCE (Frame.refl s) ?_
    split
    · exact Frame.refl s
    · exact SaveInitializedTensorsWithSeperateBuffer_entries_framed env _ _ s

theorem SaveInitializedTensorsWithMemPattern_trace_framed (env : Env)
    (entries : List (String × TensorProto)) (planner : List (Int × TensorProto)) (s : Impl) :
    Framed s (SaveInitializedTensorsWithMemPattern_trace env entries planner s) := by
  induction entries generalizing planner s with
  | nil => exact Frame.refl s
  | cons entry rest ih =>
    unfold SaveInitializedTensorsWithMemPattern_trace
    simp only []
    split
    · exact Frame.refl s
    · refine Framed.andThen (Framed.ofCall _ _ _ (Frame.refl s)) fun r s1 h1 => ?_
      split
      · exact h1
      · exact Framed.of_frame h1 (ih _ _)

theorem SaveInitializedTensorsWithMemPattern_alloc_framed (env : Env) (mem_patterns : MemoryPatternGroup)
    (i : Nat) (locations : List AllocatorInfo) (s : Impl) :
    Framed s (SaveInitializedTensorsWithMemPattern_alloc env mem_patterns i locations s) := by
  induction locations generalizing i s with
  | nil => exact Frame.refl s
  | cons location rest ih =>
    unfold SaveInitializedTensorsWithMemPattern_alloc
    refine Framed.ENFORCE (Frame.refl s) ?_
    split
    · exact Frame.refl s
    · split
      · trivial
      · refine Framed.andThen (Framed.ofCall _ _ _ (Frame.logCall s _)) fun buffer s1 h1 => ?_
        refine Framed.of_frame (h1.trans ?_) (ih _ _)
        exact ⟨rfl, rfl, rfl, rfl, rfl, rfl, rfl⟩

theorem SaveInitializedTensorsWithMemPattern_create_framed (env : Env)
    (execution_plan : SequentialExecutionPlan) (mem_patterns : MemoryPatternGroup)
    (entries : List (String × TensorProto)) (s : Impl) :
    Framed s (SaveInitializedTensorsWithMemPattern_create env execution_plan mem_patterns entries s) := by
  induction entries generalizing s with
  | nil => exact Frame.refl s
  | cons entry rest ih =>
    unfold SaveInitializedTensorsWithMemPattern_create
    simp only []
    split
    · exact Frame.refl s
    · split
      · trivial
      · split
        · trivial
        · split
          · exact Frame.refl s
          · split
            · trivial
            · refine Framed.andThen ?_ fun r s1 h1 => ?_
              · split
                · split
                  · exact Frame.refl s
                  · refine Framed.andThen (Framed.ofCall _ _ _ (Frame.refl s)) fun r s1 h1 => ?_
                    split <;> exact h1
                · exact Framed.ofCall _ _ _ (Frame.refl s)
              · split
                · exact h1
                · exact Framed.of_frame
                    (h1.trans (Frame.session_state s1 _ (AddInitializedTensor_config _ _ _)))
                    (ih _)

theorem SaveInitializedTensorsWithMemPattern_framed (env : Env) (s : Impl) :
    Framed s (SaveInitializedTensorsWithMemPattern env s) := by
  unfold SaveInitializedTensorsWithMemPattern
  split
  · trivial
  · simp only []
    refine Framed.ENFORCE (Frame.refl s) ?_
    split
    · exact Frame.refl s
    · refine Framed.andThen (SaveInitializedTensorsWithMemPattern_trace_framed env _ _ s)
        fun t s1 h1 => ?_
      split
      · exact h1
      · refine Framed.andThen (Framed.ofCall _ _ _ h1) fun g s2 h2 => ?_
        split
        · exact h2
        · exact Framed.RETURN_IF_ERROR
            (Framed.of_frame h2 (SaveInitializedTensorsWithMemPattern_alloc_framed env _ _ _ s2))
            fun s3 h3 =>
              Framed.of_frame h3 (SaveInitializedTensorsWithMemPattern_create_framed env _ _ _ s3)

theorem SaveInitializedTensors_framed (env : Env) (s : Impl) :
    Framed s (SaveInitializedTensors env s) := by
  unfold SaveInitializedTensors
  simp only []
  split
  · exact SaveInitializedTensorsWithMemPattern_framed env s
  · exact SaveInitializedTensorsWithSeperateBuffer_framed env s

/-! ### How Initialize ends -/

theorem InitializeEnds.weaken {s s1 : Impl} {o : Outcome Impl Status} (h : Frame s s1)
    (ho : InitializeEnds s1 o) : InitializeEnds s o := by
  cases o with
  | ret st s' => exact ⟨ho.1, ho.2.1.trans h.is_model_loaded_, ho.2.2.trans h.model_isSome⟩
  | raise e s' => exact ⟨ho.1, ho.2.1.trans h.is_model_loaded_, ho.2.2.trans h.model_isSome⟩
  | undefined => trivial

/-- An exception that leaves a framed state ends `Initialize` without the initialized flag. -/
theorem InitializeEnds.raise {s s1 : Impl} (hs : s.is_inited_ = false) (h : Frame s s1) (e : Thrown) :
    InitializeEnds s (Outcome.raise e s1) :=
  ⟨h.is_inited_.trans hs, h.is_model_loaded_, h.model_isSome⟩

/-- An error status returned in a framed state ends `Initialize` without the initialized flag. -/
theorem InitializeEnds.error {s s1 : Impl} (hs : s.is_inited_ = false) (h : Frame s s1) (st : Status)
    (hst : st.IsOK = false) : InitializeEnds s (Outcome.ret st s1) :=
  ⟨Or.inr ⟨hst, h.is_inited_.trans hs⟩, h.is_model_loaded_, h.model_isSome⟩

theorem InitializeEnds.step {s : Impl} {o : Outcome Impl Status}
    {k : Impl → Outcome Impl Status} (hs : s.is_inited_ = false) (ho : Framed s o)
    (hk : ∀ s1, Frame s s1 → InitializeEnds s (k s1)) :
    InitializeEnds s (LOTUS_RETURN_IF_ERROR o k) := by
  cases o with
  | ret st s1 =>
    rw [LOTUS_RETURN_IF_ERROR_ret]
    split
    · exact hk s1 ho
    · rename_i hst
      exact InitializeEnds.error hs ho st (by simpa using hst)
  | raise e s1 => exact InitializeEnds.raise hs ho e
  | undefined => trivial

theorem Initialize_materialize_ends (env : Env) (s : Impl) (hs : s.is_inited_ = false) :
    InitializeEnds s (Initialize_materialize env s) := by
  unfold Initialize_materialize
  refine InitializeEnds.step hs (SaveInitializedTensors_framed env s) fun s1 h1 => ?_
  cases hm : s1.model_ with
  | none => trivial
  | some model =>
    refine ⟨Or.inl ⟨rfl, rfl⟩, h1.is_model_loaded_, ?_⟩
    rw [← h1.model_isSome]
    simp [Impl.withGraph, hm]

theorem Initialize_plan_ends (env : Env) (s : Impl) (hs : s.is_inited_ = false) :
    InitializeEnds s (Initialize_plan env s) := by
  unfold Initialize_plan
  split
  · cases hm : s.model_ with
    | none => trivial
    | some model =>
      simp only []
      cases env.AllocationPlanner_CreatePlan s.session_options_.allocation_planner_type s.session_state_
          model.MainGraph with
      | throw e => exact InitializeEnds.raise hs (Frame.refl s) e
      | ret r =>
        simp only [Outcome.ofCall, Outcome.andThen]
        split
        · rename_i hst
          exact InitializeEnds.error hs (Frame.refl s) r.1 (by simpa using hst)
        · exact InitializeEnds.weaken (Frame.session_state s _ rfl)
            (Initialize_materialize_ends env _ hs)
  · exact InitializeEnds.raise hs (Frame.refl s) _

theorem Initialize_kernels_ends (env : Env) (s : Impl) (hs : s.is_inited_ = false) :
    InitializeEnds s (Initialize_kernels env s) := by
  unfold Initialize_kernels
  exact InitializeEnds.step hs (SaveKernelsAndMLValueNameIndexMapping_framed env s)
    fun s1 h1 => InitializeEnds.weaken h1 (Initialize_plan_ends env s1 (h1.is_inited_.trans hs))

theorem Initialize_resolve_ends (env : Env) (s : Impl) (hs : s.is_inited_ = false) :
    InitializeEnds s (Initialize_resolve env s) := by
  unfold Initialize_resolve
  cases hm : s.model_ with
  | none => trivial
  | some model =>
    simp only []
    exact InitializeEnds.step hs (Framed.ofCall _ _ _ (Frame.withGraph s _))
      fun s1 h1 => InitializeEnds.weaken h1 (Initialize_kernels_ends env s1 (h1.is_inited_.trans hs))

theorem Initialize_transform_ends (env : Env) (s : Impl) (hs : s.is_inited_ = false) :
    InitializeEnds s (Initialize_transform env s) := by
  unfold Initialize_transform
  exact InitializeEnds.step hs (TransformGraph_framed env s)
    fun s1 h1 => InitializeEnds.weaken h1 (Initialize_resolve_ends env s1 (h1.is_inited_.trans hs))

/-- What `Initialize_entry` leaves alone: everything in the frame except the registered providers. -/
theorem Initialize_entry_frame (s : Impl) :
    (Initialize_entry s).is_inited_ = s.is_inited_ ∧
    (Initialize_entry s).is_model_loaded_ = s.is_model_loaded_ ∧
    (Initialize_entry s).model_ = s.model_ ∧
    (Initialize_entry s).session_options_ = s.session_options_ ∧
    (Initialize_entry s).current_num_runs_ = s.current_num_runs_ ∧
    (Initialize_entry s).local_kernel_registry = s.local_kernel_registry ∧
    (Initialize_entry s).calls_ = s.calls_ := by
  unfold Initialize_entry
  simp only []
  split <;> exact ⟨rfl, rfl, rfl, rfl, rfl, rfl, rfl⟩

theorem Initialize_try_ends (env : Env) (s : Impl) (hl : s.is_model_loaded_ = true)
    (hs : s.is_inited_ = false) : InitializeEnds s (Initialize_try env s) := by
  unfold Initialize_try
  rw [if_neg (by simp [hl]), if_neg (by simp [hs])]
  cases hm : s.model_ with
  | none => trivial
  | some model =>
    simp only []
    have hf := Initialize_entry_frame s
    have h := Initialize_transform_ends env (Initialize_entry s) (hf.1.trans hs)
    cases ho : Initialize_transform env (Initialize_entry s) with
    | ret st s' =>
      rw [ho] at h
      exact ⟨h.1, h.2.1.trans hf.2.1, by rw [h.2.2, hf.2.2.1, hm]⟩
    | raise e s' =>
      rw [ho] at h
      exact ⟨h.1, h.2.1.trans hf.2.1, by rw [h.2.2, hf.2.2.1, hm]⟩
    | undefined => trivial

/-- On a loaded session that is not initialized, `Initialize` lets no exception escape, and when it
returns, it returns `Status::OK()` with the initialized flag set or an error with the flag unset. -/
theorem Initialize_ends (env : Env) (s : Impl) (hl : s.is_model_loaded_ = true)
    (hs : s.is_inited_ = false) :
    (∀ e s', Initialize env s ≠ Outcome.raise e s') ∧
    (∀ st s', Initialize env s = Outcome.ret st s' →
      ((st = Status.OK ∧ s'.is_inited_ = true) ∨ (st.IsOK = false ∧ s'.is_inited_ = false)) ∧
        s'.is_model_loaded_ = true ∧ s'.model_.isSome = true ∧ s.model_.isSome = true) := by
  have h := Initialize_try_ends env s hl hs
  unfold Initialize Initialize_catch
  cases ho : Initialize_try env s with
  | ret st s' =>
    rw [ho] at h
    refine ⟨fun e s2 hc => by simp [Outcome.catchAll] at hc, fun st2 s2 hr => ?_⟩
    simp only [Outcome.catchAll] at hr
    injection hr with h1 h2
    subst h1 h2
    have hm : s.model_.isSome = true := by
      cases hm : s.model_ with
      | none => simp [Initialize_try, hl, hs, hm] at ho
      | some m => rfl
    exact ⟨h.1, h.2.1.trans hl, h.2.2.trans hm, hm⟩
  | raise e s' =>
    rw [ho] at h
    have hm : s.model_.isSome = true := by
      cases hm : s.model_ with
      | none => simp [Initialize_try, hl, hs, hm] at ho
      | some m => rfl
    cases e with
    | std_exception w =>
      refine ⟨fun e s2 hc => by simp [Outcome.catchAll] at hc, fun st2 s2 hr => ?_⟩
      simp only [Outcome.catchAll] at hr
      injection hr with h1 h2
      subst h1 h2
      exact ⟨Or.inr ⟨rfl, h.1⟩, h.2.1.trans hl, h.2.2.trans hm, hm⟩
    | unknown =>
      refine ⟨fun e s2 hc => by simp [Outcome.catchAll] at hc, fun st2 s2 hr => ?_⟩
      simp only [Outcome.catchAll] at hr
      injection hr with h1 h2
      subst h1 h2
      exact ⟨Or.inr ⟨rfl, h.1⟩, h.2.1.trans hl, h.2.2.trans hm, hm⟩
  | undefined =>
    exact ⟨fun e s2 hc => by simp [Outcome.catchAll] at hc, fun st2 s2 hr => by
      simp [Outcome.catchAll] at hr⟩

/-! ### Lifecycle claims -/

/-- `Initialize` on a session that is loaded and initialized returns success at once. -/
theorem Initialize_when_inited (env : Env) (s : Impl) (hl : s.is_model_loaded_ = true)
    (hi : s.is_inited_ = true) : Initialize env s = Outcome.ret Status.OK s := by
  simp [Initialize, Initialize_try, Initialize_catch, hl, hi, Outcome.catchAll]

/-- `Initialize` on a session without a loaded model returns the not-loaded status at once. -/
theorem Initialize_when_not_loaded (env : Env) (s : Impl) (hl : s.is_model_loaded_ = false) :
    Initialize env s = Outcome.ret Model_not_loaded s := by
  simp [Initialize, Initialize_try, Initialize_catch, hl, Outcome.catchAll]

/-- After any `Initialize` that returned success the session is loaded and initialized. -/
theorem Initialize_ok_flags (env : Env) (s : Impl) (st : Status) (s' : Impl)
    (h : Initialize env s = Outcome.ret st s') (hok : st.IsOK = true) :
    s'.is_model_loaded_ = true ∧ s'.is_inited_ = true := by
  cases hl : s.is_model_loaded_ with
  | false =>
    rw [Initialize_when_not_loaded env s hl] at h
    injection h with h1 h2
    subst h1
    simp [Model_not_loaded, Status.IsOK] at hok
  | true =>
    cases hi : s.is_inited_ with
    | true =>
      rw [Initialize_when_inited env s hl hi] at h
      injection h with h1 h2
      subst h2
      exact ⟨hl, hi⟩
    | false =>
      obtain ⟨hflag, hl2, _⟩ := (Initialize_ends env s hl hi).2 st s' h
      rcases hflag with ⟨_, h3⟩ | ⟨h3, _⟩
      · exact ⟨hl2, h3⟩
      · simp [h3] at hok

/-- C2: `Initialize` is idempotent.  On a session on which `Initialize` has returned success, a
further `Initialize` (whatever the collaborators would do) returns `Status::OK()` and leaves every
member of the session as it was. -/
theorem Initialize_idempotent (env env2 : Env) (s : Impl) (st : Status) (s' : Impl)
    (h : Initialize env s = Outcome.ret st s') (hok : st.IsOK = true) :
    Initialize env2 s' = Outcome.ret Status.OK s' := by
  obtain ⟨hl, hi⟩ := Initialize_ok_flags env s st s' h hok
  exact Initialize_when_inited env2 s' hl hi

/-- C2 at the session of the tests: `Initialize` succeeds after `Load`, and succeeds again without
changing the session. -/
theorem Initialize_idempotent_witness :
    Initialize Fixture.env Fixture.loaded = Outcome.ret Status.OK Fixture.initialized ∧
    Status.OK.IsOK = true ∧
    Initialize Fixture.env Fixture.initialized = Outcome.ret Status.OK Fixture.initialized :=
  ⟨rfl, rfl, Initialize_idempotent Fixture.env Fixture.env Fixture.loaded Status.OK Fixture.initialized
    rfl rfl⟩

/-- On a session whose initialized flag is unset, the `Run` overloads that take the output names
return the not-initialized status, touching neither the session nor the fetches. -/
theorem Run_when_not_inited (env : Env) (run_options : RunOptions) (feeds : NameMLValMap)
    (output_names : List String) (p_fetches : Option (List MLValue)) (s : Impl)
    (hi : s.is_inited_ = false) :
    Run env run_options feeds output_names p_fetches s
      = Outcome.ret Session_not_initialized (s, p_fetches) ∧
    Run_feeds_output_names env feeds output_names p_fetches s
      = Outcome.ret Session_not_initialized (s, p_fetches) := by
  simp [Run, Run_feeds_output_names, hi]

/-- C3, at the failing input: on a freshly constructed session (no model was ever loaded) the
overload `Run(feeds, p_fetches)` dereferences the null `model_` before the initialized flag is
tested, so its behaviour is undefined instead of returning the not-initialized status, which the
two overloads taking output names do return there. -/
theorem Run_feeds_before_Load_undefined (env : Env) (session_options : SessionOptions)
    (logging_manager : Bool) (indeterminate_num_runs : Int) (feeds : NameMLValMap)
    (output_names : List String) (p_fetches : Option (List MLValue)) :
    Run_feeds env feeds p_fetches (Impl.new session_options logging_manager indeterminate_num_runs)
      = Outcome.undefined ∧
    Run_feeds env feeds p_fetches (Impl.new session_options logging_manager indeterminate_num_runs)
      ≠ Outcome.ret Session_not_initialized
          (Impl.new session_options logging_manager indeterminate_num_runs, p_fetches) ∧
    Run env RunOptions.default feeds output_names p_fetches
        (Impl.new session_options logging_manager indeterminate_num_runs)
      = Outcome.ret Session_not_initialized
          (Impl.new session_options logging_manager indeterminate_num_runs, p_fetches) ∧
    Run_feeds_output_names env feeds output_names p_fetches
        (Impl.new session_options logging_manager indeterminate_num_runs)
      = Outcome.ret Session_not_initialized
          (Impl.new session_options logging_manager indeterminate_num_runs, p_fetches) := by
  have h := Run_when_not_inited env RunOptions.default feeds output_names p_fetches
    (Impl.new session_options logging_manager indeterminate_num_runs) rfl
  refine ⟨rfl, ?_, h.1, h.2⟩
  intro hc
  have h0 : Run_feeds env feeds p_fetches
      (Impl.new session_options logging_manager indeterminate_num_runs) = Outcome.undefined := rfl
  rw [h0] at hc
  cases hc

/-- The status `ValidateOutputs` returns for a non-empty fetch vector of the wrong length. -/
theorem ValidateOutputs_mismatch (output_names : List String) (fetches : List MLValue)
    (hne : fetches ≠ []) (hlen : fetches.length ≠ output_names.length) :
    ValidateOutputs output_names (some fetches) =
      ⟨StatusCategory.LOTUS, StatusCode.FAIL,
        "Output vector incorrectly sized: output_names.size(): " ++ toString output_names.length ++
          "p_fetches->size(): " ++ toString fetches.length⟩ := by
  have hlen2 : ¬ output_names.length = fetches.length := fun h => hlen h.symm
  cases fetches with
  | nil => exact absurd rfl hne
  | cons a l =>
    simp only [List.length_cons] at hlen2
    simp [ValidateOutputs, hlen2]

/-- C4: on an initialized session, `Run` given a non-empty fetch vector whose length differs from
the number of output names returns the FAIL status "Output vector incorrectly sized ...".  The session
is returned as it was (run counter and record of collaborator calls included, so no executor was
built or invoked) and the fetch vector is as given.  This holds for the overload with run options,
the one with default options, and the one taking the names from the graph outputs. -/
theorem Run_size_mismatch_no_execution (env : Env) (run_options : RunOptions) (feeds : NameMLValMap)
    (output_names : List String) (fetches : List MLValue) (s : Impl)
    (hi : s.is_inited_ = true) (hne : fetches ≠ []) (hlen : fetches.length ≠ output_names.length) :
    Run env run_options feeds output_names (some fetches) s
      = Outcome.ret (ValidateOutputs output_names (some fetches)) (s, some fetches) ∧
    Run_feeds_output_names env feeds output_names (some fetches) s
      = Outcome.ret (ValidateOutputs output_names (some fetches)) (s, some fetches) ∧
    (∀ model, s.model_ = some model →
      Run_feeds_output_names_of model.MainGraph.Outputs = some output_names →
      Run_feeds env feeds (some fetches) s
        = Outcome.ret (ValidateOutputs output_names (some fetches)) (s, some fetches)) ∧
    ValidateOutputs output_names (some fetches) =
      ⟨StatusCategory.LOTUS, StatusCode.FAIL,
        "Output vector incorrectly sized: output_names.size(): " ++ toString output_names.length ++
          "p_fetches->size(): " ++ toString fetches.length⟩ := by
  have hv := ValidateOutputs_mismatch output_names fetches hne hlen
  have hnok : (ValidateOutputs output_names (some fetches)).IsOK = false := by
    rw [hv]
    rfl
  have hrun : ∀ ro, Run env ro feeds output_names (some fetches) s
      = Outcome.ret (ValidateOutputs output_names (some fetches)) (s, some fetches) := by
    intro ro
    unfold Run
    rw [if_neg (by simp [hi]), if_pos (by simp [hnok])]
  refine ⟨hrun run_options, hrun RunOptions.default, ?_, hv⟩
  intro model hm hnames
  unfold Run_feeds
  simp only [hm, hnames]
  exact hrun RunOptions.default

/-- C4 at the session of the tests: two pre-allocated fetches for the single output "Y". -/
theorem Run_size_mismatch_no_execution_witness :
    Fixture.initialized.is_inited_ = true ∧ [Fixture.X_value, Fixture.X_value] ≠ [] ∧
    [Fixture.X_value, Fixture.X_value].length ≠ ["Y"].length ∧
    Run Fixture.env RunOptions.default Fixture.feeds ["Y"] (some [Fixture.X_value, Fixture.X_value])
        Fixture.initialized
      = Outcome.ret (ValidateOutputs ["Y"] (some [Fixture.X_value, Fixture.X_value]))
          (Fixture.initialized, some [Fixture.X_value, Fixture.X_value]) :=
  ⟨rfl, by decide, by decide,
    (Run_size_mismatch_no_execution Fixture.env RunOptions.default Fixture.feeds ["Y"]
      [Fixture.X_value, Fixture.X_value] Fixture.initialized rfl (by decide) (by decide)).1⟩

/-- C7 at the session of the tests: after `Load(model_proto)` of mul_1 on a fresh session, the
inputs are those of the graph without the weight W and the outputs are those of the graph. -/
theorem Load_fresh_snapshots_inputs_outputs_witness :
    (Load_model_proto Fixture.env Fixture.mul_1_proto (Impl.new Fixture.options true 0)
        = Load_model_uri Fixture.env "testdata/mul_1.pb" (Impl.new Fixture.options true 0) ∨
      Load_model_proto Fixture.env Fixture.mul_1_proto (Impl.new Fixture.options true 0)
        = Load_model_proto Fixture.env Fixture.mul_1_proto (Impl.new Fixture.options true 0) ∨
      Load_model_proto Fixture.env Fixture.mul_1_proto (Impl.new Fixture.options true 0)
        = Load_model_istream Fixture.env Fixture.mul_1_stream (Impl.new Fixture.options true 0) ∨
      Load_model_proto Fixture.env Fixture.mul_1_proto (Impl.new Fixture.options true 0)
        = Load_p_model none (Impl.new Fixture.options true 0)) ∧
    Load_model_proto Fixture.env Fixture.mul_1_proto (Impl.new Fixture.options true 0)
      = Outcome.ret Status.OK Fixture.loaded ∧
    Status.OK.IsOK = true ∧
    GetInputs Fixture.loaded = (Status.OK, some [Fixture.X]) ∧
    GetOutputs Fixture.loaded = (Status.OK, some [Fixture.Y]) ∧
    ∃ (model : Model) (inputs outputs : List NodeArg),
      Fixture.loaded.model_ = some model ∧
      model.MainGraph.Inputs = inputs.map some ∧
      model.MainGraph.Outputs = outputs.map some ∧
      GetInputs Fixture.loaded = (Status.OK,
        some (inputs.filter fun a => !model.MainGraph.AllInitializedTensors.count a.Name)) ∧
      GetOutputs Fixture.loaded = (Status.OK, some outputs) := by
  refine ⟨Or.inr (Or.inl rfl), rfl, rfl, rfl, rfl, ?_⟩
  obtain ⟨model, inputs, outputs, h1, _, h2, h3, h4, h5⟩ :=
    Load_fresh_snapshots_inputs_outputs Fixture.env Fixture.options true 0 "testdata/mul_1.pb"
      Fixture.mul_1_proto Fixture.mul_1_stream none
      (Load_model_proto Fixture.env Fixture.mul_1_proto (Impl.new Fixture.options true 0))
      Status.OK Fixture.loaded (Or.inr (Or.inl rfl)) rfl rfl
  exact ⟨model, inputs, outputs, h1, h2, h3, h4, h5⟩

/-- With the flags set for a first initialization and a model held, `Initialize` is the handlers
around the stages started from `Initialize_entry`. -/
theorem Initialize_eq_transform (env : Env) (s : Impl) (hl : s.is_model_loaded_ = true)
    (hi : s.is_inited_ = false) (hm : s.model_.isSome = true) :
    Initialize env s = Initialize_catch (Initialize_transform env (Initialize_entry s)) := by
  unfold Initialize Initialize_try
  rw [if_neg (by simp [hl]), if_neg (by simp [hi])]
  cases h : s.model_ with
  | none => simp [h] at hm
  | some model => rfl

/-- `TransformGraph` returns only when a model is held. -/
theorem TransformGraph_ret_model (env : Env) (s : Impl) (st : Status) (s' : Impl)
    (h : TransformGraph env s = Outcome.ret st s') : s.model_.isSome = true := by
  cases hm : s.model_ with
  | none => simp [TransformGraph, hm] at h
  | some model => rfl

theorem Initialize_catch_ret (st : Status) (s : Impl) :
    Initialize_catch (Outcome.ret st s) = Outcome.ret st s := rfl

/-! ### Initialize returns -/

theorem Framed_ret {α : Type} {s s1 : Impl} {o : Outcome Impl α} {a : α} (h : Framed s o)
    (ho : o = Outcome.ret a s1) : Frame s s1 := by
  subst ho
  exact h

theorem ofCall_defined {α : Type} (c : Call α) (s : Impl) :
    Outcome.ofCall c s ≠ Outcome.undefined := by
  cases c <;> simp [Outcome.ofCall]

theorem andThen_defined {α β : Type} {o : Outcome Impl α} {k : α → Impl → Outcome Impl β}
    (ho : o ≠ Outcome.undefined) (hk : ∀ a s1, o = Outcome.ret a s1 → k a s1 ≠ Outcome.undefined) :
    o.andThen k ≠ Outcome.undefined := by
  cases o with
  | ret a s1 => exact hk a s1 rfl
  | raise e s1 => simp [Outcome.andThen]
  | undefined => exact absurd rfl ho

theorem RETURN_IF_ERROR_defined {o : Outcome Impl Status} {k : Impl → Outcome Impl Status}
    (ho : o ≠ Outcome.undefined) (hk : ∀ st s1, o = Outcome.ret st s1 → k s1 ≠ Outcome.undefined) :
    LOTUS_RETURN_IF_ERROR o k ≠ Outcome.undefined := by
  unfold LOTUS_RETURN_IF_ERROR
  refine andThen_defined ho fun st s1 h => ?_
  split
  · exact hk st s1 h
  · simp

theorem ENFORCE_defined {α : Type} {env : Env} {c : Bool} {text : String} {s : Impl}
    {k : Outcome Impl α} (hk : k ≠ Outcome.undefined) :
    LOTUS_ENFORCE env c text s k ≠ Outcome.undefined := by
  unfold LOTUS_ENFORCE
  split
  · exact hk
  · simp

theorem TransformGraph_providers_defined (env : Env) (eps : List IExecutionProvider) (s : Impl)
    (hm : s.model_.isSome = true) : TransformGraph_providers env eps s ≠ Outcome.undefined := by
  induction eps generalizing s with
  | nil => simp [TransformGraph_providers]
  | cons ep rest ih =>
    unfold TransformGraph_providers
    cases hmod : s.model_ with
    | none => simp [hmod] at hm
    | some model =>
      simp only []
      refine RETURN_IF_ERROR_defined (ofCall_defined _ _) fun st s1 h => ih s1 ?_
      have hf : Frame s s1 := Framed_ret (Framed.ofCall s _ _ (Frame.withGraph s _)) h
      rw [hf.model_isSome]
      exact hm

theorem TransformGraph_defined (env : Env) (s : Impl) (hm : s.model_.isSome = true) :
    TransformGraph env s ≠ Outcome.undefined := by
  unfold TransformGraph
  cases hmod : s.model_ with
  | none => simp [hmod] at hm
  | some model =>
    simp only []
    refine RETURN_IF_ERROR_defined (ofCall_defined _ _)
      fun st s1 h => TransformGraph_providers_defined env _ s1 ?_
    have hf : Frame s s1 := Framed_ret (Framed.ofCall s _ _ (Frame.withGraph s _)) h
    rw [hf.model_isSome]
    exact hm

theorem CreateOpKernelInternal_defined (env : Env) (node : Node) (allocator_info : AllocatorInfo)
    (exec_provider : IExecutionProvider) (p_op_kernel : Option OpKernel) (s : Impl) :
    CreateOpKernelInternal env node allocator_info exec_provider p_op_kernel s ≠ Outcome.undefined := by
  unfold CreateOpKernelInternal
  refine andThen_defined (ofCall_defined _ _) fun r s1 _ => ?_
  split
  · exact ofCall_defined _ _
  · simp

theorem CreateOpKernel_defined (env : Env) (node : Node) (p_op_kernel : Option OpKernel) (s : Impl) :
    CreateOpKernel env node p_op_kernel s ≠ Outcome.undefined := by
  unfold CreateOpKernel
  simp only []
  split
  · simp
  · rename_i hc
    cases hp : s.session_state_.GetExecutionProvider node.ExecutionProvider with
    | none => simp [hp] at hc
    | some exec_provider => exact CreateOpKernelInternal_defined env node _ _ p_op_kernel s

theorem SaveKernelsAndMLValueNameIndexMapping_nodes_defined (env : Env) (graph : Graph)
    (nodes : List Node) (curr_idx : Int) (s : Impl) :
    SaveKernelsAndMLValueNameIndexMapping_nodes env graph nodes curr_idx s ≠ Outcome.undefined := by
  induction nodes generalizing curr_idx s with
  | nil => simp [SaveKernelsAndMLValueNameIndexMapping_nodes]
  | cons node rest ih =>
    unfold SaveKernelsAndMLValueNameIndexMapping_nodes
    split
    · exact ih _ _
    · refine andThen_defined (CreateOpKernel_defined env node none s) fun r s1 _ => ?_
      split
      · simp
      · exact ih _ _

theorem SaveKernelsAndMLValueNameIndexMapping_defined (env : Env) (s : Impl)
    (hm : s.model_.isSome = true) :
    SaveKernelsAndMLValueNameIndexMapping env s ≠ Outcome.undefined := by
  unfold SaveKernelsAndMLValueNameIndexMapping
  cases hmod : s.model_ with
  | none => simp [hmod] at hm
  | some model => exact SaveKernelsAndMLValueNameIndexMapping_nodes_defined env _ _ _ _

theorem SaveInitializedTensorsWithSeperateBuffer_entries_defined (env : Env) (alloc : AllocatorInfo)
    (entries : List (String × TensorProto)) (s : Impl) :
    SaveInitializedTensorsWithSeperateBuffer_entries env alloc entries s ≠ Outcome.undefined := by
  induction entries generalizing s with
  | nil => simp [SaveInitializedTensorsWithSeperateBuffer_entries]
  | cons entry rest ih =>
    unfold SaveInitializedTensorsWithSeperateBuffer_entries
    simp only []
    split
    · simp
    · refine andThen_defined (ofCall_defined _ _) fun r s1 _ => ?_
      split
      · simp
      · exact ih _

theorem SaveInitializedTensorsWithSeperateBuffer_defined (env : Env) (s : Impl)
    (hm : s.model_.isSome = true) :
    SaveInitializedTensorsWithSeperateBuffer env s ≠ Outcome.undefined := by
  unfold SaveInitializedTensorsWithSeperateBuffer
  cases hmod : s.model_ with
  | none => simp [hmod] at hm
  | some model =>
    simp only []
    refine ENFORCE_defined ?_
    split
    · simp
    · exact SaveInitializedTensorsWithSeperateBuffer_entries_defined env _ _ _

/-- With memory patterns disabled and a model held, the stages of `Initialize` from the allocation
planning on have defined behaviour. -/
theorem Initialize_plan_defined (env : Env) (s : Impl) (hm : s.model_.isSome = true)
    (hmem : s.session_state_.enable_mem_pattern_ = false) :
    Initialize_plan env s ≠ Outcome.undefined := by
  unfold Initialize_plan
  split
  · cases hmod : s.model_ with
    | none => simp [hmod] at hm
    | some model =>
      simp only []
      refine andThen_defined (ofCall_defined _ _) fun r s1 h => ?_
      have hs1 : s1 = s := by
        cases hc : env.AllocationPlanner_CreatePlan s.session_options_.allocation_planner_type
            s.session_state_ model.MainGraph with
        | ret a =>
          rw [hc] at h
          simp only [Outcome.ofCall] at h
          injection h with _ h2
          exact h2.symm
        | throw e =>
          rw [hc] at h
          simp [Outcome.ofCall] at h
      subst hs1
      split
      · simp
      · unfold Initialize_materialize
        refine RETURN_IF_ERROR_defined ?_ fun st s2 h2 => ?_
        · unfold SaveInitializedTensors
          simp only [SessionState.GetEnableMemoryPattern, SessionState.SetExecutionPlan, hmem,
            Bool.false_and, Bool.false_eq_true, if_false]
          exact SaveInitializedTensorsWithSeperateBuffer_defined env _ (by simpa using hm)
        · have hf : Frame _ s2 := Framed_ret (SaveInitializedTensors_framed env _) h2
          have hm2 : s2.model_.isSome = true := by
            rw [hf.model_isSome]
            simpa using hm
          cases hmod2 : s2.model_ with
          | none => simp [hmod2] at hm2
          | some model2 => simp
  · simp [LOTUS_NOT_IMPLEMENTED]

/-- What `Initialize_entry` changes in the session state leaves the memory-pattern option alone. -/
theorem Initialize_entry_enable_mem_pattern (s : Impl) :
    (Initialize_entry s).session_state_.enable_mem_pattern_ = s.session_state_.enable_mem_pattern_ := by
  unfold Initialize_entry
  simp only []
  split <;> rfl

/-- On a loaded session that is not initialized, holds a model and has memory patterns disabled,
`Initialize` returns: every path through it has defined behaviour and no exception escapes. -/
theorem Initialize_returns (env : Env) (s : Impl) (hl : s.is_model_loaded_ = true)
    (hi : s.is_inited_ = false) (hm : s.model_.isSome = true)
    (hmem : s.session_state_.enable_mem_pattern_ = false) :
    ∃ st s', Initialize env s = Outcome.ret st s' := by
  have hfe := Initialize_entry_frame s
  have hm0 : (Initialize_entry s).model_.isSome = true := by rw [hfe.2.2.1]; exact hm
  have hmem0 : (Initialize_entry s).session_state_.enable_mem_pattern_ = false := by
    rw [Initialize_entry_enable_mem_pattern]
    exact hmem
  have hdef : Initialize_transform env (Initialize_entry s) ≠ Outcome.undefined := by
    unfold Initialize_transform
    refine RETURN_IF_ERROR_defined (TransformGraph_defined env _ hm0) fun st1 s1 h1 => ?_
    have hf1 : Frame _ s1 := Framed_ret (TransformGraph_framed env _) h1
    have hm1 : s1.model_.isSome = true := by rw [hf1.model_isSome]; exact hm0
    unfold Initialize_resolve
    cases hmod1 : s1.model_ with
    | none => simp [hmod1] at hm1
    | some model1 =>
      simp only []
      refine RETURN_IF_ERROR_defined (ofCall_defined _ _) fun st2 s2 h2 => ?_
      have hf2 : Frame s1 s2 := Framed_ret (Framed.ofCall s1 _ _ (Frame.withGraph s1 _)) h2
      have hm2 : s2.model_.isSome = true := by rw [hf2.model_isSome]; exact hm1
      unfold Initialize_kernels
      refine RETURN_IF_ERROR_defined (SaveKernelsAndMLValueNameIndexMapping_defined env s2 hm2)
        fun st3 s3 h3 => ?_
      have hf3 : Frame s2 s3 := Framed_ret (SaveKernelsAndMLValueNameIndexMapping_framed env s2) h3
      refine Initialize_plan_defined env s3 (by rw [hf3.model_isSome]; exact hm2) ?_
      rw [hf3.enable_mem_pattern_, hf2.enable_mem_pattern_, hf1.enable_mem_pattern_]
      exact hmem0
  rw [Initialize_eq_transform env s hl hi hm]
  cases ho : Initialize_transform env (Initialize_entry s) with
  | ret st s' => exact ⟨st, s', rfl⟩
  | raise e s' => cases e <;> exact ⟨_, s', rfl⟩
  | undefined => exact absurd ho hdef

/-- The error a step of `Initialize` reports is the status `Initialize` returns: the graph
transformation, else the resolve, else the kernel and value-index construction, else the allocation
planning, else the weight materialization. -/
theorem Initialize_step_errors (env : Env) (s : Impl)
    (hl : s.is_model_loaded_ = true) (hi : s.is_inited_ = false) :
    ∀ e1 sa, TransformGraph env (Initialize_entry s) = Outcome.ret e1 sa →
      (e1.IsOK = false → Initialize env s = Outcome.ret e1 sa) ∧
      (e1.IsOK = true → ∀ model, sa.model_ = some model →
        ∀ e2, (env.Graph_Resolve model.MainGraph).2 = Call.ret e2 →
        (e2.IsOK = false →
          Initialize env s = Outcome.ret e2 (sa.withGraph (env.Graph_Resolve model.MainGraph).1)) ∧
        (e2.IsOK = true → ∀ e3 sc,
          SaveKernelsAndMLValueNameIndexMapping env (sa.withGraph (env.Graph_Resolve model.MainGraph).1)
            = Outcome.ret e3 sc →
          (e3.IsOK = false → Initialize env s = Outcome.ret e3 sc) ∧
          (e3.IsOK = true → sc.session_options_.enable_sequential_execution = true →
            ∀ model2, sc.model_ = some model2 → ∀ e4 plan,
            env.AllocationPlanner_CreatePlan sc.session_options_.allocation_planner_type
              sc.session_state_ model2.MainGraph = Call.ret (e4, plan) →
            (e4.IsOK = false → Initialize env s = Outcome.ret e4 sc) ∧
            (e4.IsOK = true → ∀ e5 se,
              SaveInitializedTensors env
                { sc with session_state_ := sc.session_state_.SetExecutionPlan plan }
                = Outcome.ret e5 se →
              e5.IsOK = false → Initialize env s = Outcome.ret e5 se)))) := by
  intro e1 sa hTG
  have hm : s.model_.isSome = true := by
    have := TransformGraph_ret_model env _ e1 sa hTG
    rwa [(Initialize_entry_frame s).2.2.1] at this
  have h0 := Initialize_eq_transform env s hl hi hm
  unfold Initialize_transform at h0
  rw [hTG, LOTUS_RETURN_IF_ERROR_ret] at h0
  refine ⟨fun he => ?_, fun he model hsa e2 hres => ?_⟩
  · rw [h0, if_neg (by simp [he])]
    rfl
  · rw [if_pos he] at h0
    unfold Initialize_resolve at h0
    simp only [hsa, hres, Outcome.ofCall, LOTUS_RETURN_IF_ERROR_ret] at h0
    refine ⟨fun he2 => ?_, fun he2 e3 sc hSK => ?_⟩
    · rw [h0, if_neg (by simp [he2])]
      rfl
    · rw [if_pos he2] at h0
      unfold Initialize_kernels at h0
      rw [hSK, LOTUS_RETURN_IF_ERROR_ret] at h0
      refine ⟨fun he3 => ?_, fun he3 hseq model2 hsc e4 plan hplan => ?_⟩
      · rw [h0, if_neg (by simp [he3])]
        rfl
      · rw [if_pos he3] at h0
        unfold Initialize_plan at h0
        rw [if_pos hseq] at h0
        simp only [hsc, hplan, Outcome.ofCall, Outcome.andThen] at h0
        refine ⟨fun he4 => ?_, fun he4 e5 se hSI he5 => ?_⟩
        · rw [h0, if_pos (by simp [he4])]
          rfl
        · rw [if_neg (by simp [he4])] at h0
          unfold Initialize_materialize at h0
          simp only [hsc] at hSI
          rw [hSI, LOTUS_RETURN_IF_ERROR_ret, if_neg (by simp [he5])] at h0
          exact h0

/-- C8: on a loaded session that is not initialized, `Initialize` lets no exception escape; when it
returns, its status is success exactly when the initialized flag is set afterwards, and after a
failure every `Run` overload returns the not-initialized status (the overload taking its names from
the graph outputs: whenever those can be read).  Whenever a step reports an error status, that very
status is what `Initialize` returns: the graph transformation, else the resolve, else the kernel and
value-index construction, else the allocation planning, else the weight materialization.  With a
model held and memory patterns disabled `Initialize` does return. -/
theorem Initialize_success_iff_initialized (env env2 : Env) (s : Impl)
    (hl : s.is_model_loaded_ = true) (hi : s.is_inited_ = false) :
    (∀ e s', Initialize env s ≠ Outcome.raise e s') ∧
    (∀ st s', Initialize env s = Outcome.ret st s' →
      (st.IsOK = true ↔ s'.is_inited_ = true) ∧
      (st.IsOK = false → ∀ run_options feeds output_names p_fetches,
        Run env2 run_options feeds output_names p_fetches s'
          = Outcome.ret Session_not_initialized (s', p_fetches) ∧
        Run_feeds_output_names env2 feeds output_names p_fetches s'
          = Outcome.ret Session_not_initialized (s', p_fetches) ∧
        (∀ model names, s'.model_ = some model →
          Run_feeds_output_names_of model.MainGraph.Outputs = some names →
          Run_feeds env2 feeds p_fetches s' = Outcome.ret Session_not_initialized (s', p_fetches)))) ∧
    (∀ e1 sa, TransformGraph env (Initialize_entry s) = Outcome.ret e1 sa →
      (e1.IsOK = false → Initialize env s = Outcome.ret e1 sa) ∧
      (e1.IsOK = true → ∀ model, sa.model_ = some model →
        ∀ e2, (env.Graph_Resolve model.MainGraph).2 = Call.ret e2 →
        (e2.IsOK = false →
          Initialize env s = Outcome.ret e2 (sa.withGraph (env.Graph_Resolve model.MainGraph).1)) ∧
        (e2.IsOK = true → ∀ e3 sc,
          SaveKernelsAndMLValueNameIndexMapping env (sa.withGraph (env.Graph_Resolve model.MainGraph).1)
            = Outcome.ret e3 sc →
          (e3.IsOK = false → Initialize env s = Outcome.ret e3 sc) ∧
          (e3.IsOK = true → sc.session_options_.enable_sequential_execution = true →
            ∀ model2, sc.model_ = some model2 → ∀ e4 plan,
            env.AllocationPlanner_CreatePlan sc.session_options_.allocation_planner_type
              sc.session_state_ model2.MainGraph = Call.ret (e4, plan) →
            (e4.IsOK = false → Initialize env s = Outcome.ret e4 sc) ∧
            (e4.IsOK = true → ∀ e5 se,
              SaveInitializedTensors env
                { sc with session_state_ := sc.session_state_.SetExecutionPlan plan }
                = Outcome.ret e5 se →
              e5.IsOK = false → Initialize env s = Outcome.ret e5 se))))) ∧
    (s.model_.isSome = true → s.session_state_.GetEnableMemoryPattern = false →
      ∃ st s', Initialize env s = Outcome.ret st s') := by
  have hends := Initialize_ends env s hl hi
  refine ⟨hends.1, fun st s' hr => ?_, Initialize_step_errors env s hl hi,
    fun hm hmem => Initialize_returns env s hl hi hm hmem⟩
  obtain ⟨hflag, _, hm', _⟩ := hends.2 st s' hr
  have hiff : st.IsOK = true ↔ s'.is_inited_ = true := by
    rcases hflag with ⟨h1, h2⟩ | ⟨h1, h2⟩
    · subst h1
      exact ⟨fun _ => h2, fun _ => rfl⟩
    · simp [h1, h2]
  refine ⟨hiff, fun hst ro feeds names pf => ?_⟩
  have hni : s'.is_inited_ = false := by
    cases h : s'.is_inited_ with
    | false => rfl
    | true =>
      have := hiff.2 h
      simp [hst] at this
  have hrun := fun ro names => Run_when_not_inited env2 ro feeds names pf s' hni
  refine ⟨(hrun ro names).1, (hrun ro names).2, fun model names2 hmod hnames => ?_⟩
  unfold Run_feeds
  simp only [hmod, hnames]
  exact (hrun RunOptions.default names2).1

/-- C8 at the sessions of the tests: on the loaded mul_1 session `Initialize` succeeds and sets the
flag; on the loaded mul_16 session, whose operator has no kernel, it fails and leaves the flag unset. -/
theorem Initialize_success_iff_initialized_witness :
    Fixture.loaded.is_model_loaded_ = true ∧ Fixture.loaded.is_inited_ = false ∧
    Initialize Fixture.env Fixture.loaded = Outcome.ret Status.OK Fixture.initialized ∧
    (Status.OK.IsOK = true ↔ Fixture.initialized.is_inited_ = true) ∧
    Fixture.loaded_16.is_model_loaded_ = true ∧ Fixture.loaded_16.is_inited_ = false ∧
    (∀ st s', Initialize Fixture.env Fixture.loaded_16 = Outcome.ret st s' →
      (st.IsOK = true ↔ s'.is_inited_ = true)) :=
  ⟨rfl, rfl, rfl,
    ((Initialize_success_iff_initialized Fixture.env Fixture.env Fixture.loaded rfl rfl).2.1
      Status.OK Fixture.initialized rfl).1,
    rfl, rfl,
    fun st s' h =>
      ((Initialize_success_iff_initialized Fixture.env Fixture.env Fixture.loaded_16 rfl rfl).2.1
        st s' h).1⟩

/-! ### Kernel resolution -/

theorem CreateOpKernelInternal_local_ok (env : Env) (node : Node) (allocator_info : AllocatorInfo)
    (exec_provider : IExecutionProvider) (p_op_kernel : Option OpKernel) (s : Impl) (st : Status)
    (kernel : Option OpKernel)
    (hlocal : env.KernelRegistry_CreateKernel s.local_kernel_registry node allocator_info exec_provider
      p_op_kernel = Call.ret (st, kernel))
    (hok : st.IsOK = true) :
    CreateOpKernelInternal env node allocator_info exec_provider p_op_kernel s
      = Outcome.ret (st, kernel) (s.logCall (CollaboratorCall.LocalCreateKernel node.Index)) := by
  unfold CreateOpKernelInternal
  rw [hlocal]
  simp [Outcome.ofCall, Outcome.andThen, hok]

theorem CreateOpKernelInternal_local_fail (env : Env) (node : Node) (allocator_info : AllocatorInfo)
    (exec_provider : IExecutionProvider) (p_op_kernel : Option OpKernel) (s : Impl) (st : Status)
    (kernel : Option OpKernel)
    (hlocal : env.KernelRegistry_CreateKernel s.local_kernel_registry node allocator_info exec_provider
      p_op_kernel = Call.ret (st, kernel))
    (hfail : st.IsOK = false) :
    CreateOpKernelInternal env node allocator_info exec_provider p_op_kernel s
      = Outcome.ofCall
          (env.KernelRegistry_CreateKernel env.KernelRegistry_Instance node allocator_info exec_provider
            kernel)
          ((s.logCall (CollaboratorCall.LocalCreateKernel node.Index)).logCall
            (CollaboratorCall.GlobalCreateKernel node.Index)) := by
  unfold CreateOpKernelInternal
  rw [hlocal]
  simp [Outcome.ofCall, Outcome.andThen, hfail]

/-- With a registered provider assigned to the node, `CreateOpKernel` is `CreateOpKernelInternal`
for that provider and its allocator. -/
theorem CreateOpKernel_registered (env : Env) (node : Node) (p_op_kernel : Option OpKernel) (s : Impl)
    (exec_provider : IExecutionProvider) (hname : node.ExecutionProvider.isEmpty = false)
    (hprov : s.session_state_.GetExecutionProvider node.ExecutionProvider = some exec_provider) :
    CreateOpKernel env node p_op_kernel s
      = CreateOpKernelInternal env node exec_provider.allocator_info exec_provider p_op_kernel s := by
  unfold CreateOpKernel
  simp [hname, hprov]

/-- The provider lookup reads only the registered providers. -/
theorem GetExecutionProvider_congr (ss1 ss2 : SessionState) (h : ss2.exec_providers = ss1.exec_providers)
    (name : String) : ss2.GetExecutionProvider name = ss1.GetExecutionProvider name := by
  unfold SessionState.GetExecutionProvider
  rw [h]

/-- The status and kernel that `CreateOpKernelInternal` returns depend on the session only through
the local kernel registry. -/
theorem CreateOpKernelInternal_congr (env : Env) (node : Node) (allocator_info : AllocatorInfo)
    (exec_provider : IExecutionProvider) (p_op_kernel : Option OpKernel) (s1 s2 : Impl)
    (hreg : s2.local_kernel_registry = s1.local_kernel_registry)
    (r : Status × Option OpKernel) (s1' : Impl)
    (h : CreateOpKernelInternal env node allocator_info exec_provider p_op_kernel s1 = Outcome.ret r s1') :
    ∃ s2', CreateOpKernelInternal env node allocator_info exec_provider p_op_kernel s2
      = Outcome.ret r s2' := by
  cases hc : env.KernelRegistry_CreateKernel s1.local_kernel_registry node allocator_info exec_provider
      p_op_kernel with
  | throw e =>
    unfold CreateOpKernelInternal at h
    rw [hc] at h
    simp [Outcome.ofCall, Outcome.andThen] at h
  | ret r1 =>
    have hc2 : env.KernelRegistry_CreateKernel s2.local_kernel_registry node allocator_info exec_provider
        p_op_kernel = Call.ret (r1.1, r1.2) := by rw [hreg]; exact hc
    have hc1 : env.KernelRegistry_CreateKernel s1.local_kernel_registry node allocator_info exec_provider
        p_op_kernel = Call.ret (r1.1, r1.2) := hc
    cases hok : r1.1.IsOK with
    | true =>
      rw [CreateOpKernelInternal_local_ok env node allocator_info exec_provider p_op_kernel s1 r1.1 r1.2
        hc1 hok] at h
      injection h with h1 h2
      exact ⟨_, by
        rw [CreateOpKernelInternal_local_ok env node allocator_info exec_provider p_op_kernel s2 r1.1
          r1.2 hc2 hok, h1]⟩
    | false =>
      rw [CreateOpKernelInternal_local_fail env node allocator_info exec_provider p_op_kernel s1 r1.1
        r1.2 hc1 hok] at h
      rw [CreateOpKernelInternal_local_fail env node allocator_info exec_provider p_op_kernel s2 r1.1
        r1.2 hc2 hok]
      cases hg : env.KernelRegistry_CreateKernel env.KernelRegistry_Instance node allocator_info
          exec_provider r1.2 with
      | throw e =>
        rw [hg] at h
        simp [Outcome.ofCall] at h
      | ret r2 =>
        rw [hg] at h
        simp only [Outcome.ofCall] at h ⊢
        injection h with h1 h2
        exact ⟨_, by rw [h1]⟩

/-- The status and kernel that `CreateOpKernel` returns depend on the session only through the
registered providers and the local kernel registry. -/
theorem CreateOpKernel_congr (env : Env) (node : Node) (p_op_kernel : Option OpKernel) (s1 s2 : Impl)
    (hprov : s2.session_state_.exec_providers = s1.session_state_.exec_providers)
    (hreg : s2.local_kernel_registry = s1.local_kernel_registry)
    (r : Status × Option OpKernel) (s1' : Impl)
    (h : CreateOpKernel env node p_op_kernel s1 = Outcome.ret r s1') :
    ∃ s2', CreateOpKernel env node p_op_kernel s2 = Outcome.ret r s2' := by
  unfold CreateOpKernel at h ⊢
  simp only [] at h ⊢
  rw [GetExecutionProvider_congr _ _ hprov]
  split at h
  · rename_i hc
    rw [if_pos hc]
    injection h with h1 h2
    exact ⟨_, by rw [h1]⟩
  · rename_i hc
    rw [if_neg hc]
    cases hp : s1.session_state_.GetExecutionProvider node.ExecutionProvider with
    | none => simp [hp] at h
    | some exec_provider =>
      simp only [hp] at h ⊢
      exact CreateOpKernelInternal_congr env node _ _ p_op_kernel s1 s2 hreg r s1' h

/-- The kernel loop skips the source and the sink node. -/
theorem SaveKernelsAndMLValueNameIndexMapping_nodes_skip (env : Env) (graph : Graph) (node : Node)
    (rest : List Node) (curr_idx : Int) (s : Impl)
    (hskip : (graph.IsSourceNode node.Index || graph.IsSinkNode node.Index) = true) :
    SaveKernelsAndMLValueNameIndexMapping_nodes env graph (node :: rest) curr_idx s
      = SaveKernelsAndMLValueNameIndexMapping_nodes env graph rest curr_idx s := by
  rw [SaveKernelsAndMLValueNameIndexMapping_nodes, if_pos hskip]

/-- The kernel loop at a node whose kernel is created: the kernel is stored under the node index,
the names of the node are indexed, and the loop goes on. -/
theorem SaveKernelsAndMLValueNameIndexMapping_nodes_ok (env : Env) (graph : Graph) (node : Node)
    (rest : List Node) (curr_idx : Int) (s : Impl) (st : Status) (kernel : Option OpKernel) (s' : Impl)
    (hskip : (graph.IsSourceNode node.Index || graph.IsSinkNode node.Index) = false)
    (hk : CreateOpKernel env node none s = Outcome.ret (st, kernel) s') (hok : st.IsOK = true) :
    SaveKernelsAndMLValueNameIndexMapping_nodes env graph (node :: rest) curr_idx s
      = SaveKernelsAndMLValueNameIndexMapping_nodes env graph rest
          (SaveKernelsAndMLValueNameIndexMapping_defs node.OutputDefs
            (SaveKernelsAndMLValueNameIndexMapping_defs node.InputDefs curr_idx
              (s'.session_state_.AddKernel node.Index kernel)).1
            (SaveKernelsAndMLValueNameIndexMapping_defs node.InputDefs curr_idx
              (s'.session_state_.AddKernel node.Index kernel)).2).1
          { s' with session_state_ :=
              (SaveKernelsAndMLValueNameIndexMapping_defs node.OutputDefs
                (SaveKernelsAndMLValueNameIndexMapping_defs node.InputDefs curr_idx
                  (s'.session_state_.AddKernel node.Index kernel)).1
                (SaveKernelsAndMLValueNameIndexMapping_defs node.InputDefs curr_idx
                  (s'.session_state_.AddKernel node.Index kernel)).2).2 } := by
  rw [SaveKernelsAndMLValueNameIndexMapping_nodes, if_neg (by simp [hskip]), hk]
  simp [Outcome.andThen, hok]

/-- The kernel loop at a node whose kernel cannot be created returns the error of `CreateOpKernel`. -/
theorem SaveKernelsAndMLValueNameIndexMapping_nodes_fail (env : Env) (graph : Graph) (node : Node)
    (rest : List Node) (curr_idx : Int) (s : Impl) (st : Status) (kernel : Option OpKernel) (s' : Impl)
    (hskip : (graph.IsSourceNode node.Index || graph.IsSinkNode node.Index) = false)
    (hk : CreateOpKernel env node none s = Outcome.ret (st, kernel) s') (hfail : st.IsOK = false) :
    SaveKernelsAndMLValueNameIndexMapping_nodes env graph (node :: rest) curr_idx s
      = Outcome.ret st s' := by
  rw [SaveKernelsAndMLValueNameIndexMapping_nodes, if_neg (by simp [hskip]), hk]
  simp [Outcome.andThen, hfail]

/-- The kernel loop gets past a prefix of nodes each of which is skipped or gets a kernel, staying
within the frame of the state `sb` in which those nodes were judged. -/
theorem SaveKernelsAndMLValueNameIndexMapping_nodes_prefix (env : Env) (graph : Graph) (sb : Impl)
    (pre : List Node) (hpre : ∀ n ∈ pre, NodeBinds env graph sb n) :
    ∀ (curr_idx : Int) (s1 : Impl), Frame sb s1 →
      ∃ (curr_idx' : Int) (s1' : Impl), Frame sb s1' ∧
        ∀ rest, SaveKernelsAndMLValueNameIndexMapping_nodes env graph (pre ++ rest) curr_idx s1
          = SaveKernelsAndMLValueNameIndexMapping_nodes env graph rest curr_idx' s1' := by
  induction pre with
  | nil => exact fun curr_idx s1 h => ⟨curr_idx, s1, h, fun rest => rfl⟩
  | cons n pre' ih =>
    intro curr_idx s1 h1
    have ih' := ih fun m hm => hpre m (List.mem_cons_of_mem n hm)
    cases hskip : (graph.IsSourceNode n.Index || graph.IsSinkNode n.Index) with
    | true =>
      obtain ⟨c', s', hf, hloop⟩ := ih' curr_idx s1 h1
      refine ⟨c', s', hf, fun rest => ?_⟩
      rw [List.cons_append, SaveKernelsAndMLValueNameIndexMapping_nodes_skip env graph n _ _ _ hskip]
      exact hloop rest
    | false =>
      rcases hpre n (List.mem_cons_self n pre') with hs | ⟨st, kernel, sb', hk, hok⟩
      · rw [hskip] at hs
        cases hs
      · obtain ⟨s2, hk2⟩ := CreateOpKernel_congr env n none sb s1 h1.exec_providers
          h1.local_kernel_registry (st, kernel) sb' hk
        have hf2 : Frame s1 s2 := by
          have := CreateOpKernel_framed env n none s1
          rw [hk2] at this
          exact this
        have hf3 : Frame sb
            { s2 with session_state_ :=
                (SaveKernelsAndMLValueNameIndexMapping_defs n.OutputDefs
                  (SaveKernelsAndMLValueNameIndexMapping_defs n.InputDefs curr_idx
                    (s2.session_state_.AddKernel n.Index kernel)).1
                  (SaveKernelsAndMLValueNameIndexMapping_defs n.InputDefs curr_idx
                    (s2.session_state_.AddKernel n.Index kernel)).2).2 } := by
          refine (h1.trans hf2).trans (Frame.session_state s2 _ ?_)
          rw [SaveKernelsAndMLValueNameIndexMapping_defs_config,
            SaveKernelsAndMLValueNameIndexMapping_defs_config]
          rfl
        obtain ⟨c', s', hf, hloop⟩ := ih' _ _ hf3
        refine ⟨c', s', hf, fun rest => ?_⟩
        rw [List.cons_append,
          SaveKernelsAndMLValueNameIndexMapping_nodes_ok env graph n _ curr_idx s1 st kernel s2 hskip
            hk2 hok]
        exact hloop rest

/-- With a model held, `SaveKernelsAndMLValueNameIndexMapping` is the loop over the nodes of its
graph, started at index 0 once the kernel vector is sized. -/
theorem SaveKernelsAndMLValueNameIndexMapping_eq (env : Env) (s : Impl) (model : Model)
    (hm : s.model_ = some model) :
    SaveKernelsAndMLValueNameIndexMapping env s
      = SaveKernelsAndMLValueNameIndexMapping_nodes env model.MainGraph model.MainGraph.Nodes 0
          { s with session_state_ :=
              s.session_state_.SetKernelVectorSize model.MainGraph.NumberOfNodes } := by
  obtain ⟨_, _, _, model_, _, _, _, _, _, _, _, _, _, _⟩ := s
  simp only at hm
  subst hm
  rfl

theorem SaveKernelsAndMLValueNameIndexMapping_defs_session_kernels (defs : List NodeArg)
    (curr_idx : Int) (ss : SessionState) :
    (SaveKernelsAndMLValueNameIndexMapping_defs defs curr_idx ss).2.session_kernels_
      = ss.session_kernels_ := by
  induction defs generalizing curr_idx ss with
  | nil => rfl
  | cons d rest ih =>
    unfold SaveKernelsAndMLValueNameIndexMapping_defs
    split
    · exact ih _ _
    · rw [ih]
      unfold SessionState.AddMLValueNameIdx
      split <;> rfl

/-- After `AddKernel` the kernel table holds the given kernel under the node index. -/
theorem AddKernel_find (ss : SessionState) (node_id : Nat) (p_kernel : Option OpKernel) :
    ((ss.AddKernel node_id p_kernel).session_kernels_.find? fun e => decide (e.1 = node_id))
      = some (node_id, p_kernel) := by
  unfold SessionState.AddKernel
  simp only [List.find?_append]
  have hnone : ((ss.session_kernels_.filter fun e => !decide (e.1 = node_id)).find?
      fun e => decide (e.1 = node_id)) = none := by
    rw [List.find?_eq_none]
    intro x hx
    have := (List.mem_filter.1 hx).2
    simpa using this
  rw [hnone]
  simp

/-- C9: the local registry takes precedence.  When the session-local registry creates a kernel for a
node (its `CreateKernel` returns success), `CreateOpKernelInternal` returns that status and kernel
and the only registry consulted is the local one: the record of collaborator calls grows by the one
local lookup, whatever the global registry implements.  For a node assigned to a registered provider
`CreateOpKernel` returns the same, and the kernel loop stores that kernel under the node index. -/
theorem local_registry_takes_precedence (env : Env) (node : Node) (allocator_info : AllocatorInfo)
    (exec_provider : IExecutionProvider) (p_op_kernel : Option OpKernel) (s : Impl) (st : Status)
    (kernel : Option OpKernel)
    (hlocal : env.KernelRegistry_CreateKernel s.local_kernel_registry node allocator_info exec_provider
      p_op_kernel = Call.ret (st, kernel))
    (hok : st.IsOK = true) :
    CreateOpKernelInternal env node allocator_info exec_provider p_op_kernel s
      = Outcome.ret (st, kernel) (s.logCall (CollaboratorCall.LocalCreateKernel node.Index)) ∧
    (s.logCall (CollaboratorCall.LocalCreateKernel node.Index)).calls_
      = s.calls_ ++ [CollaboratorCall.LocalCreateKernel node.Index] ∧
    (node.ExecutionProvider.isEmpty = false →
      s.session_state_.GetExecutionProvider node.ExecutionProvider = some exec_provider →
      allocator_info = exec_provider.allocator_info →
      CreateOpKernel env node p_op_kernel s
        = Outcome.ret (st, kernel) (s.logCall (CollaboratorCall.LocalCreateKernel node.Index)) ∧
      (p_op_kernel = none → ∀ (graph : Graph) (rest : List Node) (curr_idx : Int),
        (graph.IsSourceNode node.Index || graph.IsSinkNode node.Index) = false →
        ∃ (curr_idx' : Int) (ss : SessionState),
          (ss.session_kernels_.find? fun e => decide (e.1 = node.Index)) = some (node.Index, kernel) ∧
          SaveKernelsAndMLValueNameIndexMapping_nodes env graph (node :: rest) curr_idx s
            = SaveKernelsAndMLValueNameIndexMapping_nodes env graph rest curr_idx'
                { s.logCall (CollaboratorCall.LocalCreateKernel node.Index) with
                  session_state_ := ss })) := by
  have h1 := CreateOpKernelInternal_local_ok env node allocator_info exec_provider p_op_kernel s st
    kernel hlocal hok
  refine ⟨h1, rfl, fun hname hprov halloc => ?_⟩
  have h2 : CreateOpKernel env node p_op_kernel s
      = Outcome.ret (st, kernel) (s.logCall (CollaboratorCall.LocalCreateKernel node.Index)) := by
    rw [CreateOpKernel_registered env node p_op_kernel s exec_provider hname hprov, ← halloc]
    exact h1
  refine ⟨h2, fun hp graph rest curr_idx hskip => ?_⟩
  subst hp
  refine ⟨_, _, ?_, SaveKernelsAndMLValueNameIndexMapping_nodes_ok env graph node rest curr_idx s st
    kernel _ hskip h2 hok⟩
  rw [SaveKernelsAndMLValueNameIndexMapping_defs_session_kernels,
    SaveKernelsAndMLValueNameIndexMapping_defs_session_kernels]
  exact AddKernel_find _ _ _

/-- C9 at the session of the tests with a custom Mul kernel registered: the global registry
implements Mul as well, yet the kernel returned is the custom one and only the local registry is
consulted. -/
theorem local_registry_takes_precedence_witness :
    Fixture.env.KernelRegistry_CreateKernel Fixture.custom_loaded.local_kernel_registry
        Fixture.mul_node Fixture.cpu_location CPUExecutionProvider none
      = Call.ret (Status.OK, some { creator := "CreateABIMulFP16Kernel", node_index := 1 }) ∧
    Status.OK.IsOK = true ∧
    Fixture.env.KernelRegistry_CreateKernel Fixture.env.KernelRegistry_Instance
        Fixture.mul_node Fixture.cpu_location CPUExecutionProvider none
      = Call.ret (Status.OK, some { creator := "builtin", node_index := 1 }) ∧
    CreateOpKernelInternal Fixture.env Fixture.mul_node Fixture.cpu_location CPUExecutionProvider none
        Fixture.custom_loaded
      = Outcome.ret (Status.OK, some { creator := "CreateABIMulFP16Kernel", node_index := 1 })
          (Fixture.custom_loaded.logCall (CollaboratorCall.LocalCreateKernel 1)) :=
  ⟨rfl, rfl, rfl,
    (local_registry_takes_precedence Fixture.env Fixture.mul_node Fixture.cpu_location
      CPUExecutionProvider none Fixture.custom_loaded Status.OK
      (some { creator := "CreateABIMulFP16Kernel", node_index := 1 }) rfl rfl).1⟩

/-- C10: the global registry is the fallback.  When the lookup in the session-local registry for a
node does not succeed, `CreateOpKernelInternal` consults the global registry next and returns
exactly what it returns: its kernel on success, its error otherwise; so does `CreateOpKernel` for a
node assigned to a registered provider.  When that node is reached by the kernel loop of
`Initialize` (transformation and resolve succeeded and every node before it is skipped or gets a
kernel) and the global registry reports an error, `Initialize` returns that error and the session
stays uninitialized. -/
theorem global_registry_is_fallback (env : Env) (node : Node) (allocator_info : AllocatorInfo)
    (exec_provider : IExecutionProvider) (p_op_kernel : Option OpKernel) (s : Impl) (st : Status)
    (kernel : Option OpKernel)
    (hlocal : env.KernelRegistry_CreateKernel s.local_kernel_registry node allocator_info exec_provider
      p_op_kernel = Call.ret (st, kernel))
    (hfail : st.IsOK = false) :
    CreateOpKernelInternal env node allocator_info exec_provider p_op_kernel s
      = Outcome.ofCall
          (env.KernelRegistry_CreateKernel env.KernelRegistry_Instance node allocator_info exec_provider
            kernel)
          ((s.logCall (CollaboratorCall.LocalCreateKernel node.Index)).logCall
            (CollaboratorCall.GlobalCreateKernel node.Index)) ∧
    (node.ExecutionProvider.isEmpty = false →
      s.session_state_.GetExecutionProvider node.ExecutionProvider = some exec_provider →
      allocator_info = exec_provider.allocator_info →
      CreateOpKernel env node p_op_kernel s
        = Outcome.ofCall
            (env.KernelRegistry_CreateKernel env.KernelRegistry_Instance node allocator_info
              exec_provider kernel)
            ((s.logCall (CollaboratorCall.LocalCreateKernel node.Index)).logCall
              (CollaboratorCall.GlobalCreateKernel node.Index)) ∧
      (p_op_kernel = none → ∀ (s0 : Impl) (e1 : Status) (sa : Impl) (model : Model) (e2 : Status)
          (pre rest : List Node) (e : Status) (kernel2 : Option OpKernel),
        s0.is_model_loaded_ = true → s0.is_inited_ = false →
        TransformGraph env (Initialize_entry s0) = Outcome.ret e1 sa → e1.IsOK = true →
        sa.model_ = some model →
        (env.Graph_Resolve model.MainGraph).2 = Call.ret e2 → e2.IsOK = true →
        sa.withGraph (env.Graph_Resolve model.MainGraph).1 = s →
        (env.Graph_Resolve model.MainGraph).1.Nodes = pre ++ node :: rest →
        (∀ n ∈ pre, NodeBinds env (env.Graph_Resolve model.MainGraph).1 s n) →
        ((env.Graph_Resolve model.MainGraph).1.IsSourceNode node.Index ||
          (env.Graph_Resolve model.MainGraph).1.IsSinkNode node.Index) = false →
        env.KernelRegistry_CreateKernel env.KernelRegistry_Instance node allocator_info exec_provider
          kernel = Call.ret (e, kernel2) →
        e.IsOK = false →
        ∃ sc, Initialize env s0 = Outcome.ret e sc ∧ sc.is_inited_ = false)) := by
  have h1 := CreateOpKernelInternal_local_fail env node allocator_info exec_provider p_op_kernel s st
    kernel hlocal hfail
  refine ⟨h1, fun hname hprov halloc => ?_⟩
  refine ⟨?_, ?_⟩
  · rw [CreateOpKernel_registered env node p_op_kernel s exec_provider hname hprov, ← halloc]
    exact h1
  · intro hp s0 e1 sa model e2 pre rest e kernel2 hl hi hTG he1 hsa hres he2 hs hnodes hpre hskip
      hglobal he
    subst hp
    have hsm : s.model_ = some { model with MainGraph := (env.Graph_Resolve model.MainGraph).1 } := by
      rw [← hs]
      simp [Impl.withGraph, hsa]
    -- the loop reaches `node` in a state framed by `s`
    have hframe0 : Frame s
        { s with session_state_ :=
            (s.session_state_.SetKernelVectorSize (env.Graph_Resolve model.MainGraph).1.NumberOfNodes) } :=
      Frame.session_state s _ rfl
    obtain ⟨c', s1, hf1, hloop⟩ := SaveKernelsAndMLValueNameIndexMapping_nodes_prefix env
      (env.Graph_Resolve model.MainGraph).1 s pre hpre 0 _ hframe0
    have hprov1 : s1.session_state_.GetExecutionProvider node.ExecutionProvider = some exec_provider := by
      rw [GetExecutionProvider_congr _ _ hf1.exec_providers]
      exact hprov
    have hlocal1 : env.KernelRegistry_CreateKernel s1.local_kernel_registry node
        exec_provider.allocator_info exec_provider none = Call.ret (st, kernel) := by
      rw [hf1.local_kernel_registry, ← halloc]
      exact hlocal
    have hk1 : CreateOpKernel env node none s1
        = Outcome.ret (e, kernel2)
            ((s1.logCall (CollaboratorCall.LocalCreateKernel node.Index)).logCall
              (CollaboratorCall.GlobalCreateKernel node.Index)) := by
      rw [CreateOpKernel_registered env node none s1 exec_provider hname hprov1,
        CreateOpKernelInternal_local_fail env node _ exec_provider none s1 st kernel hlocal1 hfail,
        ← halloc, hglobal]
      rfl
    have hSK : SaveKernelsAndMLValueNameIndexMapping env s
        = Outcome.ret e ((s1.logCall (CollaboratorCall.LocalCreateKernel node.Index)).logCall
              (CollaboratorCall.GlobalCreateKernel node.Index)) := by
      rw [SaveKernelsAndMLValueNameIndexMapping_eq env s _ hsm]
      simp only []
      rw [hnodes, hloop (node :: rest)]
      exact SaveKernelsAndMLValueNameIndexMapping_nodes_fail env _ node rest c' s1 e kernel2 _ hskip
        hk1 he
    have hinit := (((Initialize_step_errors env s0 hl hi e1 sa hTG).2 he1 model hsa e2 hres).2 he2 e _
      (by rw [hs]; exact hSK)).1 he
    refine ⟨_, hinit, ?_⟩
    obtain ⟨hflag, _⟩ := (Initialize_ends env s0 hl hi).2 _ _ hinit
    rcases hflag with ⟨h3, _⟩ | ⟨_, h3⟩
    · rw [h3] at he
      cases he
    · exact h3

/-- C10 at the session of the tests loaded with mul_16: neither registry has a kernel for Mul16,
the global registry was consulted after the local one, and `Initialize` returns its error. -/
theorem global_registry_is_fallback_witness :
    Fixture.env.KernelRegistry_CreateKernel Fixture.loaded_16.local_kernel_registry
        Fixture.mul16_node Fixture.cpu_location CPUExecutionProvider none
      = Call.ret (Fixture.kernel_not_found, none) ∧
    Fixture.kernel_not_found.IsOK = false ∧
    CreateOpKernelInternal Fixture.env Fixture.mul16_node Fixture.cpu_location CPUExecutionProvider none
        Fixture.loaded_16
      = Outcome.ret (Fixture.kernel_not_found, none)
          ((Fixture.loaded_16.logCall (CollaboratorCall.LocalCreateKernel 1)).logCall
            (CollaboratorCall.GlobalCreateKernel 1)) ∧
    (∃ sc, Initialize Fixture.env Fixture.loaded_16 = Outcome.ret Fixture.kernel_not_found sc ∧
      sc.is_inited_ = false) :=
  ⟨rfl, rfl,
    (global_registry_is_fallback Fixture.env Fixture.mul16_node Fixture.cpu_location
      CPUExecutionProvider none Fixture.loaded_16 Fixture.kernel_not_found none rfl rfl).1,
    ⟨_, rfl, rfl⟩⟩

/-! ### The loaded flag -/

/-- The metadata `SaveModelMetadata` stores is that of the model, whatever its status. -/
theorem SaveModelMetadata_metadata (model : Model) (s : Impl) :
    (SaveModelMetadata model s).2.model_metadata_ =
      { producer_name := model.ProducerName, graph_name := model.MainGraph.Name,
        domain := model.Domain, description := model.DocString, version := model.ModelVersion,
        custom_metadata_map := model.MetaData } := by
  unfold SaveModelMetadata
  simp only []
  split <;> [skip; split] <;> rfl

/-- A returned outcome is no escaping exception, and its state is the returned one. -/
theorem Run_flags_of_ret (s s2 : Impl) (status : Status) (f : Option (List MLValue))
    (h1 : s2.is_model_loaded_ = s.is_model_loaded_) (h2 : s2.is_inited_ = s.is_inited_) :
    (∀ e st, (Outcome.ret status (s2, f) : Outcome (Impl × Option (List MLValue)) Status)
      ≠ Outcome.raise e st) ∧
    (∀ status2 st, (Outcome.ret status (s2, f) : Outcome (Impl × Option (List MLValue)) Status)
        = Outcome.ret status2 st →
      st.1.is_model_loaded_ = s.is_model_loaded_ ∧ st.1.is_inited_ = s.is_inited_) := by
  refine ⟨fun e st h => ?_, fun status2 st h => ?_⟩
  · cases h
  · cases h
    exact ⟨h1, h2⟩

/-- `Run` lets no exception escape, and the session it returns has the lifecycle flags it found. -/
theorem Run_flags (env : Env) (run_options : RunOptions) (feeds : NameMLValMap)
    (output_names : List String) (p_fetches : Option (List MLValue)) (s : Impl) :
    (∀ e st, Run env run_options feeds output_names p_fetches s ≠ Outcome.raise e st) ∧
    (∀ status st, Run env run_options feeds output_names p_fetches s = Outcome.ret status st →
      st.1.is_model_loaded_ = s.is_model_loaded_ ∧ st.1.is_inited_ = s.is_inited_) := by
  unfold Run
  split
  · exact Run_flags_of_ret s s _ _ rfl rfl
  · split
    · exact Run_flags_of_ret s s _ _ rfl rfl
    · cases p_fetches with
      | none =>
        refine ⟨fun e st h => ?_, fun status st h => ?_⟩
        · cases h
        · cases h
      | some fetches =>
        simp only []
        unfold Run_execute
        split
        · cases env.NewSequentialExecutor s.session_state_ feeds output_names fetches with
          | throw e => cases e <;> exact Run_flags_of_ret s _ _ _ rfl rfl
          | ret p_exec =>
            simp only [Outcome.ofCall, Outcome.andThen]
            cases (env.Execute p_exec
                (Impl.logCall
                  { s with current_num_runs_ := wrapInt32 (s.current_num_runs_ + 1) }
                  CollaboratorCall.NewSequentialExecutor).session_state_
                run_options feeds output_names fetches).2 with
            | throw e => cases e <;> exact Run_flags_of_ret s _ _ _ rfl rfl
            | ret status => exact Run_flags_of_ret s _ _ _ rfl rfl
        · exact Run_flags_of_ret s _ _ _ rfl rfl

/-- The three registration operations leave the lifecycle flags as they found them. -/
theorem Register_flags (env : Env) (p_exec_provider : Option IExecutionProvider)
    (kernel_def_builder : KernelDefBuilder) (kernel_creator : Option String)
    (p_graph_transformer : Option GraphTransformer) (s : Impl) (o : Outcome Impl Status)
    (ho : o = RegisterExecutionProvider p_exec_provider s ∨
      o = RegisterCustomKernel env kernel_def_builder kernel_creator s ∨
      o = RegisterGraphTransformer env p_graph_transformer s) :
    ∀ s', ((∃ st, o = Outcome.ret st s') ∨ (∃ e, o = Outcome.raise e s')) →
      s'.is_model_loaded_ = s.is_model_loaded_ ∧ s'.is_inited_ = s.is_inited_ := by
  intro s' hs'
  rcases ho with rfl | rfl | rfl
  · cases p_exec_provider with
    | none => rcases hs' with ⟨st, h⟩ | ⟨e, h⟩ <;> (cases h; try exact ⟨rfl, rfl⟩)
    | some p => rcases hs' with ⟨st, h⟩ | ⟨e, h⟩ <;> (cases h; try exact ⟨rfl, rfl⟩)
  · unfold RegisterCustomKernel at hs'
    simp only [] at hs'
    cases hc : (env.KernelRegistry_Register s.local_kernel_registry kernel_def_builder
        { abi_kernel_creator := kernel_creator }).2 with
    | ret st0 =>
      rw [hc] at hs'
      rcases hs' with ⟨st, h⟩ | ⟨e, h⟩ <;> (cases h; try exact ⟨rfl, rfl⟩)
    | throw e0 =>
      rw [hc] at hs'
      rcases hs' with ⟨st, h⟩ | ⟨e, h⟩ <;> (cases h; try exact ⟨rfl, rfl⟩)
  · cases p_graph_transformer with
    | none => rcases hs' with ⟨st, h⟩ | ⟨e, h⟩ <;> (cases h; try exact ⟨rfl, rfl⟩)
    | some t =>
      unfold RegisterGraphTransformer at hs'
      simp only [] at hs'
      cases hc : (env.GraphTransformerManager_Register s.graph_transformation_mgr_ t).2 with
      | ret st0 =>
        rw [hc] at hs'
        rcases hs' with ⟨st, h⟩ | ⟨e, h⟩ <;> (cases h; try exact ⟨rfl, rfl⟩)
      | throw e0 =>
        rw [hc] at hs'
        rcases hs' with ⟨st, h⟩ | ⟨e, h⟩ <;> (cases h; try exact ⟨rfl, rfl⟩)

/-- C6: while the loaded flag is unset, which is so in a fresh session and stays so until a `Load`
returns success (a failing `Load`, the registrations, `Initialize` and `Run` leave it unset),
`GetModelMetadata`, `GetInputs` and `GetOutputs` return the status "Model was not loaded." with a
null data pointer and `Initialize` returns that status leaving the session unchanged.  After a `Load`
of any form has returned success, the three accessors return success together with the stored
metadata and lists, the metadata being that of the model held. -/
theorem accessors_and_Initialize_require_loaded_model (env : Env) (s : Impl)
    (h : s.is_model_loaded_ = false) (model_uri : String)
    (model_proto : ModelProto) (model_istream : IStream) (p_model : Option Model) :
    (GetModelMetadata s = (Model_not_loaded, none) ∧ GetInputs s = (Model_not_loaded, none) ∧
      GetOutputs s = (Model_not_loaded, none) ∧ Initialize env s = Outcome.ret Model_not_loaded s ∧
      Model_not_loaded.IsOK = false) ∧
    (∀ o st s', (o = Load_model_uri env model_uri s ∨ o = Load_model_proto env model_proto s ∨
        o = Load_model_istream env model_istream s ∨ o = Load_p_model p_model s) →
      o = Outcome.ret st s' →
      (st.IsOK = false → s'.is_model_loaded_ = false) ∧
      (st.IsOK = true →
        GetModelMetadata s' = (Status.OK, some s'.model_metadata_) ∧
        GetInputs s' = (Status.OK, some s'.input_def_list_) ∧
        GetOutputs s' = (Status.OK, some s'.output_def_list_) ∧
        ∃ model, s'.model_ = some model ∧
          s'.model_metadata_ =
            { producer_name := model.ProducerName, graph_name := model.MainGraph.Name,
              domain := model.Domain, description := model.DocString,
              version := model.ModelVersion, custom_metadata_map := model.MetaData })) ∧
    (∀ run_options feeds output_names p_fetches status st,
      Run env run_options feeds output_names p_fetches s = Outcome.ret status st →
      st.1.is_model_loaded_ = false) ∧
    (∀ p_exec_provider kernel_def_builder kernel_creator p_graph_transformer o s',
      (o = RegisterExecutionProvider p_exec_provider s ∨
        o = RegisterCustomKernel env kernel_def_builder kernel_creator s ∨
        o = RegisterGraphTransformer env p_graph_transformer s) →
      ((∃ st, o = Outcome.ret st s') ∨ (∃ e, o = Outcome.raise e s')) →
      s'.is_model_loaded_ = false) := by
  refine ⟨?_, fun o st s' ho hr => ?_, fun ro feeds names pf status st hr => ?_,
    fun pp kb kc pt o s' ho hs' => ?_⟩
  · simp [GetModelMetadata, GetInputs, GetOutputs, Initialize, Initialize_try, Initialize_catch, h,
      Outcome.catchAll, Model_not_loaded, Status.IsOK]
  · have hf := Load_ret_flag env s model_uri model_proto model_istream p_model o st s' ho hr
    refine ⟨fun hc => (hf.2 hc).trans h, fun hok => ?_⟩
    refine ⟨by simp [GetModelMetadata, hf.1 hok], by simp [GetInputs, hf.1 hok],
      by simp [GetOutputs, hf.1 hok], ?_⟩
    rcases Load_unloaded_cases env s h model_uri model_proto model_istream p_model o ho with
      ⟨st2, hst2, ho2⟩ | ⟨pm, ho2⟩
    · rw [ho2] at hr
      injection hr with h2 h3
      subst h2
      simp [hst2] at hok
    · rw [ho2] at hr
      obtain ⟨_, _, hmodel, model, hm, _, _, _, hmeta⟩ := (Load_post_ret _ st s' hr).1 hok
      exact ⟨model, by rw [hmodel]; exact hm, by rw [hmeta]; exact SaveModelMetadata_metadata _ _⟩
  · exact ((Run_flags env ro feeds names pf s).2 status st hr).1.trans h
  · exact ((Register_flags env pp kb kc pt s o ho) s' hs').1.trans h

/-- C6 at the sessions of the tests: the fresh session has no model loaded and the accessors fail;
after `Load(model_proto)` of mul_1 they return the snapshot. -/
theorem accessors_and_Initialize_require_loaded_model_witness :
    Fixture.fresh.is_model_loaded_ = false ∧
    (GetModelMetadata Fixture.fresh = (Model_not_loaded, none) ∧
      GetInputs Fixture.fresh = (Model_not_loaded, none) ∧
      GetOutputs Fixture.fresh = (Model_not_loaded, none) ∧
      Initialize Fixture.env Fixture.fresh = Outcome.ret Model_not_loaded Fixture.fresh ∧
      Model_not_loaded.IsOK = false) ∧
    Load_model_proto Fixture.env Fixture.mul_1_proto Fixture.fresh
      = Outcome.ret Status.OK Fixture.loaded ∧
    GetModelMetadata Fixture.loaded = (Status.OK, some Fixture.loaded.model_metadata_) ∧
    GetInputs Fixture.loaded = (Status.OK, some [Fixture.X]) ∧
    GetOutputs Fixture.loaded = (Status.OK, some [Fixture.Y]) :=
  ⟨rfl,
    (accessors_and_Initialize_require_loaded_model Fixture.env Fixture.fresh rfl "testdata/mul_1.pb"
      Fixture.mul_1_proto Fixture.mul_1_stream none).1,
    rfl,
    (((accessors_and_Initialize_require_loaded_model Fixture.env Fixture.fresh rfl "testdata/mul_1.pb"
      Fixture.mul_1_proto Fixture.mul_1_stream none).2.1 _ Status.OK Fixture.loaded
        (Or.inr (Or.inl rfl)) rfl).2 rfl).1,
    rfl, rfl⟩

/-! ### Registration -/

/-- C13: `RegisterExecutionProvider` given a null provider and `RegisterGraphTransformer` given a
null transformer each return a FAIL status ("Received nullptr for ...") and leave every member of
the session as it was; a non-null provider is appended to the providers of the session state under
its own `Type()`, where a lookup finds it unless that name was taken before, everything else is
unchanged and `Status::OK()` is returned. -/
theorem Register_null_fails_and_provider_added (env : Env) (s : Impl) (p : IExecutionProvider) :
    RegisterExecutionProvider none s
      = Outcome.ret ⟨StatusCategory.LOTUS, StatusCode.FAIL, "Received nullptr for exec provider"⟩ s ∧
    RegisterGraphTransformer env none s
      = Outcome.ret ⟨StatusCategory.LOTUS, StatusCode.FAIL, "Received nullptr for graph transformer"⟩ s ∧
    (⟨StatusCategory.LOTUS, StatusCode.FAIL, "Received nullptr for exec provider"⟩ : Status).IsOK = false ∧
    (⟨StatusCategory.LOTUS, StatusCode.FAIL, "Received nullptr for graph transformer"⟩ : Status).IsOK = false ∧
    RegisterExecutionProvider (some p) s
      = Outcome.ret Status.OK
          { s with session_state_ :=
              { s.session_state_ with
                exec_providers := s.session_state_.exec_providers ++ [(p.Type_, p)] } } ∧
    ((s.session_state_.AddExecutionProvider p.Type_ p).GetExecutionProvider p.Type_
      = match s.session_state_.GetExecutionProvider p.Type_ with
        | some earlier => some earlier
        | none => some p) := by
  refine ⟨rfl, rfl, rfl, rfl, rfl, ?_⟩
  unfold SessionState.GetExecutionProvider SessionState.AddExecutionProvider
  simp only [List.find?_append]
  cases h : s.session_state_.exec_providers.find? fun e => e.1 == p.Type_ with
  | some e => simp
  | none => simp

/-- C14, at the failing input: `RegisterCustomKernel` tests neither the callback nor the builder.  For
every registry it hands `Register` the builder and a lambda capturing the callback, null or not, and
returns what `Register` returns; with the registry of the fixture, which stores what it is given,
a null callback is registered in the session-local registry and `Status::OK()` is returned. -/
theorem RegisterCustomKernel_null_callback_registered (env : Env)
    (kernel_def_builder : KernelDefBuilder) (s : Impl) :
    RegisterCustomKernel env kernel_def_builder none s
      = Outcome.ofCall
          (env.KernelRegistry_Register s.local_kernel_registry kernel_def_builder
            { abi_kernel_creator := none }).2
          { s with local_kernel_registry :=
              (env.KernelRegistry_Register s.local_kernel_registry kernel_def_builder
                { abi_kernel_creator := none }).1 } ∧
    RegisterCustomKernel Fixture.env Fixture.Mul_def none Fixture.fresh
      = Outcome.ret Status.OK
          { Fixture.fresh with local_kernel_registry :=
              { entries := [(Fixture.Mul_def, { abi_kernel_creator := none })] } } ∧
    (RegisterExecutionProvider none Fixture.fresh
      = Outcome.ret ⟨StatusCategory.LOTUS, StatusCode.FAIL, "Received nullptr for exec provider"⟩
          Fixture.fresh) :=
  ⟨rfl, rfl, rfl⟩

/-! ### Waiting with a timeout -/

/-- C16, counterexample: with the timeout -1, which is not zero, `WaitForNotification` waits on the
notification and returns `Status::OK()`; it raises no not-implemented fault. -/
theorem WaitForNotification_negative_timeout_waits :
    (-1 : Int) ≠ 0 ∧
    WaitForNotification Fixture.env (some { waits := 0 }) (-1) Fixture.fresh
      = Outcome.ret Status.OK (Fixture.fresh, some { waits := 1 }) ∧
    ¬ ∃ what st, WaitForNotification Fixture.env (some { waits := 0 }) (-1) Fixture.fresh
      = Outcome.raise (Thrown.std_exception what) st := by
  refine ⟨by decide, rfl, ?_⟩
  rintro ⟨what, st, h⟩
  have h0 : WaitForNotification Fixture.env (some { waits := 0 }) (-1) Fixture.fresh
      = Outcome.ret Status.OK (Fixture.fresh, some { waits := 1 }) := rfl
  rw [h0] at h
  cases h

/-- C16, amended: `WaitForNotification` with a positive timeout raises the not-implemented fault
without waiting (session and notification are as before); with a timeout of zero or below it waits
on the notification without bound and returns `Status::OK()`. -/
theorem WaitForNotification_positive_timeout_not_implemented (env : Env)
    (p_executor_done : Option Notification) (notification : Notification) (timeout_in_ms : Int)
    (s : Impl) :
    (0 < timeout_in_ms →
      WaitForNotification env p_executor_done timeout_in_ms s
        = Outcome.raise
            (Thrown.std_exception
              (env.LOTUS_NOT_IMPLEMENTED_what "WaitForNotificationtimeout_in_ms >0 is not supported"))
            (s, p_executor_done)) ∧
    (timeout_in_ms ≤ 0 →
      WaitForNotification env (some notification) timeout_in_ms s
        = Outcome.ret Status.OK (s, some { waits := notification.waits + 1 })) := by
  constructor
  · intro h
    simp [WaitForNotification, LOTUS_NOT_IMPLEMENTED, h]
  · intro h
    have h2 : ¬ timeout_in_ms > 0 := not_lt.mpr h
    simp [WaitForNotification, h2, Notification.WaitForNotification]

/-- C16 at the fresh session of the tests: with a timeout of 5 ms the not-implemented fault is raised
and the notification is not waited on; with the timeout 0 the wait completes and success is returned. -/
theorem WaitForNotification_positive_timeout_not_implemented_witness :
    (0 : Int) < 5 ∧
    WaitForNotification Fixture.env (some { waits := 0 }) 5 Fixture.fresh
      = Outcome.raise
          (Thrown.std_exception
            (Fixture.env.LOTUS_NOT_IMPLEMENTED_what "WaitForNotificationtimeout_in_ms >0 is not supported"))
          (Fixture.fresh, some { waits := 0 }) ∧
    (0 : Int) ≤ 0 ∧
    WaitForNotification Fixture.env (some { waits := 0 }) 0 Fixture.fresh
      = Outcome.ret Status.OK (Fixture.fresh, some { waits := 0 + 1 }) :=
  ⟨by decide,
    (WaitForNotification_positive_timeout_not_implemented Fixture.env (some { waits := 0 })
      { waits := 0 } 5 Fixture.fresh).1 (by decide),
    by decide,
    (WaitForNotification_positive_timeout_not_implemented Fixture.env (some { waits := 0 })
      { waits := 0 } 0 Fixture.fresh).2 (by decide)⟩

/-! ### Relations kept by the steps of Initialize -/

theorem Keeps_of_rel {α : Type} {R : Impl → Impl → Prop}
    (ht : ∀ a b c, R a b → R b c → R a c) {s s1 : Impl} {o : Outcome Impl α}
    (h : R s s1) (ho : Keeps R s1 o) : Keeps R s o := by
  cases o with
  | ret a s' => exact ht _ _ _ h ho
  | raise e s' => exact ht _ _ _ h ho
  | undefined => trivial

theorem Keeps_ofCall {α : Type} {R : Impl → Impl → Prop} (s s1 : Impl) (c : Call α) (h : R s s1) :
    Keeps R s (Outcome.ofCall c s1) := by
  cases c <;> exact h

theorem Keeps_andThen {α β : Type} {R : Impl → Impl → Prop} {s : Impl} {o : Outcome Impl α}
    {k : α → Impl → Outcome Impl β} (ho : Keeps R s o)
    (hk : ∀ a s1, o = Outcome.ret a s1 → R s s1 → Keeps R s (k a s1)) : Keeps R s (o.andThen k) := by
  cases o with
  | ret a s' => exact hk a s' rfl ho
  | raise e s' => exact ho
  | undefined => trivial

theorem Keeps_RETURN_IF_ERROR {R : Impl → Impl → Prop} {s : Impl} {o : Outcome Impl Status}
    {k : Impl → Outcome Impl Status} (ho : Keeps R s o)
    (hk : ∀ st s1, o = Outcome.ret st s1 → R s s1 → Keeps R s (k s1)) :
    Keeps R s (LOTUS_RETURN_IF_ERROR o k) := by
  unfold LOTUS_RETURN_IF_ERROR
  refine Keeps_andThen ho fun st s1 h h1 => ?_
  split
  · exact hk st s1 h h1
  · exact h1

theorem Keeps_ENFORCE {α : Type} {R : Impl → Impl → Prop} {env : Env} {s s1 : Impl} {c : Bool}
    {text : String} {k : Outcome Impl α} (h1 : R s s1) (hk : Keeps R s k) :
    Keeps R s (LOTUS_ENFORCE env c text s1 k) := by
  unfold LOTUS_ENFORCE
  split
  · exact hk
  · exact h1

theorem Keeps_mono {α : Type} {R R2 : Impl → Impl → Prop} (h : ∀ a b, R a b → R2 a b) {s : Impl}
    {o : Outcome Impl α} (ho : Keeps R s o) : Keeps R2 s o := by
  cases o with
  | ret a s' => exact h _ _ ho
  | raise e s' => exact h _ _ ho
  | undefined => trivial

theorem Keeps_ret {α : Type} {R : Impl → Impl → Prop} {s s1 : Impl} {o : Outcome Impl α} {a : α}
    (h : Keeps R s o) (ho : o = Outcome.ret a s1) : R s s1 := by
  subst ho
  exact h

theorem Keeps_raise {α : Type} {R : Impl → Impl → Prop} {s s1 : Impl} {o : Outcome Impl α} {e : Thrown}
    (h : Keeps R s o) (ho : o = Outcome.raise e s1) : R s s1 := by
  subst ho
  exact h

theorem OnlyGraph_refl (s : Impl) : OnlyGraph s s := ⟨rfl, rfl⟩

theorem OnlyGraph_trans (a b c : Impl) (hab : OnlyGraph a b) (hbc : OnlyGraph b c) : OnlyGraph a c := by
  obtain ⟨h1, h2⟩ := hab
  obtain ⟨h3, h4⟩ := hbc
  refine ⟨?_, h4.trans h2⟩
  rw [h1] at h3
  exact h3

theorem OnlyGraph_withGraph (s : Impl) (g : Graph) : OnlyGraph s (s.withGraph g) :=
  ⟨rfl, by cases h : s.model_ <;> simp [Impl.withGraph, h]⟩

theorem OnlyKernels_refl (s : Impl) : OnlyKernels s s :=
  ⟨rfl, [], by simp, fun c hc => by cases hc⟩

theorem OnlyKernels_trans (a b c : Impl) (hab : OnlyKernels a b) (hbc : OnlyKernels b c) :
    OnlyKernels a c := by
  obtain ⟨h1, n1, hc1, hk1⟩ := hab
  obtain ⟨h3, n2, hc2, hk2⟩ := hbc
  refine ⟨?_, n1 ++ n2, by rw [hc2, hc1, List.append_assoc], fun x hx => ?_⟩
  · rw [h1] at h3
    exact h3
  · rcases List.mem_append.1 hx with h | h
    · exact hk1 x h
    · exact hk2 x h

theorem OnlyWeights_refl (s : Impl) : OnlyWeights s s :=
  ⟨rfl, [], by simp, fun c hc => by cases hc⟩

theorem OnlyWeights_trans (a b c : Impl) (hab : OnlyWeights a b) (hbc : OnlyWeights b c) :
    OnlyWeights a c := by
  obtain ⟨h1, n1, hc1, hk1⟩ := hab
  obtain ⟨h3, n2, hc2, hk2⟩ := hbc
  refine ⟨?_, n1 ++ n2, by rw [hc2, hc1, List.append_assoc], fun x hx => ?_⟩
  · rw [h1] at h3
    exact h3
  · rcases List.mem_append.1 hx with h | h
    · exact hk1 x h
    · exact hk2 x h

theorem TransformGraph_providers_only_graph (env : Env) (eps : List IExecutionProvider) (s : Impl) :
    Keeps OnlyGraph s (TransformGraph_providers env eps s) := by
  induction eps generalizing s with
  | nil => exact OnlyGraph_refl s
  | cons ep rest ih =>
    unfold TransformGraph_providers
    cases hm : s.model_ with
    | none => trivial
    | some model =>
      simp only []
      exact Keeps_RETURN_IF_ERROR (Keeps_ofCall _ _ _ (OnlyGraph_withGraph s _))
        fun _ s1 _ h1 => Keeps_of_rel OnlyGraph_trans h1 (ih s1)

theorem TransformGraph_only_graph (env : Env) (s : Impl) : Keeps OnlyGraph s (TransformGraph env s) := by
  unfold TransformGraph
  cases hm : s.model_ with
  | none => trivial
  | some model =>
    simp only []
    exact Keeps_RETURN_IF_ERROR (Keeps_ofCall _ _ _ (OnlyGraph_withGraph s _))
      fun _ s1 _ h1 => Keeps_of_rel OnlyGraph_trans h1 (TransformGraph_providers_only_graph env _ s1)

theorem OnlyKernels_logCall (s : Impl) (c : CollaboratorCall) (hc : KernelCall c) :
    OnlyKernels s (s.logCall c) :=
  ⟨rfl, [c], rfl, fun x hx => by
    rw [List.mem_singleton] at hx
    rw [hx]
    exact hc⟩

/-- Replacing the session state by one that differs in the kernel and index tables only. -/
theorem OnlyKernels_session_state (s : Impl) (ss : SessionState)
    (h : ss = { s.session_state_ with
                kernel_vector_size := ss.kernel_vector_size
                session_kernels_ := ss.session_kernels_
                mlvalue_name_idx_map_ := ss.mlvalue_name_idx_map_ }) :
    OnlyKernels s { s with session_state_ := ss } := by
  refine ⟨?_, [], by simp, fun c hc => by cases hc⟩
  show ({ s with session_state_ := ss } : Impl) = { s with session_state_ := _ }
  rw [← h]

theorem CreateOpKernelInternal_only_kernels (env : Env) (node : Node) (allocator_info : AllocatorInfo)
    (exec_provider : IExecutionProvider) (p_op_kernel : Option OpKernel) (s : Impl) :
    Keeps OnlyKernels s (CreateOpKernelInternal env node allocator_info exec_provider p_op_kernel s) := by
  unfold CreateOpKernelInternal
  refine Keeps_andThen (Keeps_ofCall _ _ _ (OnlyKernels_logCall s _ ⟨_, Or.inl rfl⟩))
    fun r s1 _ h1 => ?_
  split
  · exact Keeps_ofCall _ _ _
      (OnlyKernels_trans _ _ _ h1 (OnlyKernels_logCall s1 _ ⟨_, Or.inr rfl⟩))
  · exact h1

theorem CreateOpKernel_only_kernels (env : Env) (node : Node) (p_op_kernel : Option OpKernel)
    (s : Impl) : Keeps OnlyKernels s (CreateOpKernel env node p_op_kernel s) := by
  unfold CreateOpKernel
  simp only []
  split
  · exact OnlyKernels_refl s
  · split
    · trivial
    · exact CreateOpKernelInternal_only_kernels env node _ _ p_op_kernel s

theorem AddMLValueNameIdx_only_table (ss : SessionState) (name : String) (idx : Int) :
    ss.AddMLValueNameIdx name idx
      = { ss with mlvalue_name_idx_map_ := (ss.AddMLValueNameIdx name idx).mlvalue_name_idx_map_ } := by
  unfold SessionState.AddMLValueNameIdx
  split <;> rfl

theorem only_table_trans (a b c : SessionState)
    (hab : b = { a with mlvalue_name_idx_map_ := b.mlvalue_name_idx_map_ })
    (hbc : c = { b with mlvalue_name_idx_map_ := c.mlvalue_name_idx_map_ }) :
    c = { a with mlvalue_name_idx_map_ := c.mlvalue_name_idx_map_ } := by
  rw [hbc, hab]

theorem SaveKernelsAndMLValueNameIndexMapping_defs_only_table (defs : List NodeArg) (curr_idx : Int)
    (ss : SessionState) :
    (SaveKernelsAndMLValueNameIndexMapping_defs defs curr_idx ss).2
      = { ss with mlvalue_name_idx_map_ :=
            (SaveKernelsAndMLValueNameIndexMapping_defs defs curr_idx ss).2.mlvalue_name_idx_map_ } := by
  induction defs generalizing curr_idx ss with
  | nil => rfl
  | cons d rest ih =>
    unfold SaveKernelsAndMLValueNameIndexMapping_defs
    split
    · exact ih _ _
    · exact only_table_trans _ _ _ (AddMLValueNameIdx_only_table ss d.Name curr_idx) (ih _ _)

theorem SaveKernelsAndMLValueNameIndexMapping_nodes_only_kernels (env : Env) (graph : Graph)
    (nodes : List Node) (curr_idx : Int) (s : Impl) :
    Keeps OnlyKernels s (SaveKernelsAndMLValueNameIndexMapping_nodes env graph nodes curr_idx s) := by
  induction nodes generalizing curr_idx s with
  | nil => exact OnlyKernels_refl s
  | cons node rest ih =>
    unfold SaveKernelsAndMLValueNameIndexMapping_nodes
    split
    · exact ih _ _
    · refine Keeps_andThen (CreateOpKernel_only_kernels env node none s) fun r s1 _ h1 => ?_
      split
      · exact h1
      · refine Keeps_of_rel OnlyKernels_trans
          (OnlyKernels_trans _ _ _ h1 (OnlyKernels_session_state s1 _ ?_)) (ih _ _)
        have h2 := only_table_trans _ _ _
          (SaveKernelsAndMLValueNameIndexMapping_defs_only_table node.InputDefs curr_idx
            (s1.session_state_.AddKernel node.Index r.2))
          (SaveKernelsAndMLValueNameIndexMapping_defs_only_table node.OutputDefs
            (SaveKernelsAndMLValueNameIndexMapping_defs node.InputDefs curr_idx
              (s1.session_state_.AddKernel node.Index r.2)).1
            (SaveKernelsAndMLValueNameIndexMapping_defs node.InputDefs curr_idx
              (s1.session_state_.AddKernel node.Index r.2)).2)
        rw [h2]
        rfl

theorem SaveKernelsAndMLValueNameIndexMapping_only_kernels (env : Env) (s : Impl) :
    Keeps OnlyKernels s (SaveKernelsAndMLValueNameIndexMapping env s) := by
  unfold SaveKernelsAndMLValueNameIndexMapping
  cases hm : s.model_ with
  | none => trivial
  | some model =>
    simp only []
    refine Keeps_of_rel OnlyKernels_trans ?_
      (SaveKernelsAndMLValueNameIndexMapping_nodes_only_kernels env _ _ _ _)
    refine ⟨?_, [], by simp, fun c hc => by cases hc⟩
    simp [SessionState.SetKernelVectorSize, hm]

theorem AddInitializedTensor_only_tensors (ss : SessionState) (idx : Int) (v : MLValue) :
    ss.AddInitializedTensor idx v
      = { ss with initialized_tensors_ := (ss.AddInitializedTensor idx v).initialized_tensors_ } := by
  unfold SessionState.AddInitializedTensor
  split <;> rfl

/-- Replacing the session state by one that differs in the stored weights only. -/
theorem OnlyWeights_session_state (s : Impl) (ss : SessionState)
    (h : ss = { s.session_state_ with initialized_tensors_ := ss.initialized_tensors_ }) :
    OnlyWeights s { s with session_state_ := ss } := by
  refine ⟨?_, [], by simp, fun c hc => by cases hc⟩
  show ({ s with session_state_ := ss } : Impl) = { s with session_state_ := _ }
  rw [← h]

theorem OnlyWeights_logCall (s : Impl) (location : AllocatorInfo) (size : Nat) :
    OnlyWeights s (s.logCall (CollaboratorCall.Alloc location size)) :=
  ⟨rfl, [CollaboratorCall.Alloc location size], rfl, fun x hx => by
    rw [List.mem_singleton] at hx
    exact ⟨location, size, hx⟩⟩

theorem OnlyWeights_weights_buffers (s : Impl) (b : List (AllocatorInfo × BufferUniquePtr)) :
    OnlyWeights s { s with weights_buffers_ := b } :=
  ⟨rfl, [], by simp, fun c hc => by cases hc⟩

theorem SaveInitializedTensorsWithSeperateBuffer_entries_only_weights (env : Env)
    (alloc : AllocatorInfo) (entries : List (String × TensorProto)) (s : Impl) :
    Keeps OnlyWeights s (SaveInitializedTensorsWithSeperateBuffer_entries env alloc entries s) := by
  induction entries generalizing s with
  | nil => exact OnlyWeights_refl s
  | cons entry rest ih =>
    unfold SaveInitializedTensorsWithSeperateBuffer_entries
    simp only []
    split
    · exact OnlyWeights_refl s
    · refine Keeps_andThen (Keeps_ofCall _ _ _ (OnlyWeights_refl s)) fun r s1 _ h1 => ?_
      split
      · exact h1
      · exact Keeps_of_rel OnlyWeights_trans
          (OnlyWeights_trans _ _ _ h1
            (OnlyWeights_session_state s1 _ (AddInitializedTensor_only_tensors _ _ _))) (ih _)

theorem SaveInitializedTensorsWithSeperateBuffer_only_weights (env : Env) (s : Impl) :
    Keeps OnlyWeights s (SaveInitializedTensorsWithSeperateBuffer env s) := by
  unfold SaveInitializedTensorsWithSeperateBuffer
  split
  · trivial
  · simp only []
    refine Keeps_ENFORCE (OnlyWeights_refl s) ?_
    split
    · exact OnlyWeights_refl s
    · exact SaveInitializedTensorsWithSeperateBuffer_entries_only_weights env _ _ s

theorem SaveInitializedTensorsWithMemPattern_trace_only_weights (env : Env)
    (entries : List (String × TensorProto)) (planner : List (Int × TensorProto)) (s : Impl) :
    Keeps OnlyWeights s (SaveInitializedTensorsWithMemPattern_trace env entries planner s) := by
  induction entries generalizing planner s with
  | nil => exact OnlyWeights_refl s
  | cons entry rest ih =>
    unfold SaveInitializedTensorsWithMemPattern_trace
    simp only []
    split
    · exact OnlyWeights_refl s
    · refine Keeps_andThen (Keeps_ofCall _ _ _ (OnlyWeights_refl s)) fun r s1 _ h1 => ?_
      split
      · exact h1
      · exact Keeps_of_rel OnlyWeights_trans h1 (ih _ _)

theorem SaveInitializedTensorsWithMemPattern_alloc_only_weights (env : Env)
    (mem_patterns : MemoryPatternGroup) (i : Nat) (locations : List AllocatorInfo) (s : Impl) :
    Keeps OnlyWeights s (SaveInitializedTensorsWithMemPattern_alloc env mem_patterns i locations s) := by
  induction locations generalizing i s with
  | nil => exact OnlyWeights_refl s
  | cons location rest ih =>
    unfold SaveInitializedTensorsWithMemPattern_alloc
    refine Keeps_ENFORCE (OnlyWeights_refl s) ?_
    split
    · exact OnlyWeights_refl s
    · split
      · trivial
      · refine Keeps_andThen (Keeps_ofCall _ _ _ (OnlyWeights_logCall s _ _)) fun buffer s1 _ h1 => ?_
        exact Keeps_of_rel OnlyWeights_trans
          (OnlyWeights_trans _ _ _ h1 (OnlyWeights_weights_buffers s1 _)) (ih _ _)

theorem SaveInitializedTensorsWithMemPattern_create_only_weights (env : Env)
    (execution_plan : SequentialExecutionPlan) (mem_patterns : MemoryPatternGroup)
    (entries : List (String × TensorProto)) (s : Impl) :
    Keeps OnlyWeights s
      (SaveInitializedTensorsWithMemPattern_create env execution_plan mem_patterns entries s) := by
  induction entries generalizing s with
  | nil => exact OnlyWeights_refl s
  | cons entry rest ih =>
    unfold SaveInitializedTensorsWithMemPattern_create
    simp only []
    split
    · exact OnlyWeights_refl s
    · split
      · trivial
      · split
        · trivial
        · split
          · exact OnlyWeights_refl s
          · split
            · trivial
            · refine Keeps_andThen ?_ fun r s1 _ h1 => ?_
              · split
                · split
                  · exact OnlyWeights_refl s
                  · refine Keeps_andThen (Keeps_ofCall _ _ _ (OnlyWeights_refl s)) fun r s1 _ h1 => ?_
                    split <;> exact h1
                · exact Keeps_ofCall _ _ _ (OnlyWeights_refl s)
              · split
                · exact h1
                · exact Keeps_of_rel OnlyWeights_trans
                    (OnlyWeights_trans _ _ _ h1
                      (OnlyWeights_session_state s1 _ (AddInitializedTensor_only_tensors _ _ _)))
                    (ih _)

theorem SaveInitializedTensorsWithMemPattern_only_weights (env : Env) (s : Impl) :
    Keeps OnlyWeights s (SaveInitializedTensorsWithMemPattern env s) := by
  unfold SaveInitializedTensorsWithMemPattern
  split
  · trivial
  · simp only []
    refine Keeps_ENFORCE (OnlyWeights_refl s) ?_
    split
    · exact OnlyWeights_refl s
    · refine Keeps_andThen (SaveInitializedTensorsWithMemPattern_trace_only_weights env _ _ s)
        fun t s1 _ h1 => ?_
      split
      · exact h1
      · refine Keeps_andThen (Keeps_ofCall _ _ _ h1) fun g s2 _ h2 => ?_
        split
        · exact h2
        · exact Keeps_RETURN_IF_ERROR
            (Keeps_of_rel OnlyWeights_trans h2
              (SaveInitializedTensorsWithMemPattern_alloc_only_weights env _ _ _ s2))
            fun _ s3 _ h3 =>
              Keeps_of_rel OnlyWeights_trans h3
                (SaveInitializedTensorsWithMemPattern_create_only_weights env _ _ _ s3)

theorem SaveInitializedTensors_only_weights (env : Env) (s : Impl) :
    Keeps OnlyWeights s (SaveInitializedTensors env s) := by
  unfold SaveInitializedTensors
  simp only []
  split
  · exact SaveInitializedTensorsWithMemPattern_only_weights env s
  · exact SaveInitializedTensorsWithSeperateBuffer_only_weights env s


/-! ### Relations kept by Initialize as a whole -/

theorem Keeps_Initialize_catch {R : Impl → Impl → Prop} {s : Impl} {o : Outcome Impl Status}
    (ho : Keeps R s o) : Keeps R s (Initialize_catch o) := by
  unfold Initialize_catch
  cases o with
  | ret a s' => exact ho
  | raise e s' => cases e <;> exact ho
  | undefined => trivial

/-- A transitive relation that holds across graph rewrites and across kernel binding, and is kept by
the planning part of `Initialize`, is kept by the `try` block from `TransformGraph` on. -/
theorem Initialize_transform_keeps_of_plan {R : Impl → Impl → Prop} (env : Env)
    (ht : ∀ a b c, R a b → R b c → R a c)
    (hG : ∀ a b, OnlyGraph a b → R a b) (hK : ∀ a b, OnlyKernels a b → R a b) (s : Impl)
    (hplan : ∀ a, R s a → Keeps R a (Initialize_plan env a)) :
    Keeps R s (Initialize_transform env s) := by
  unfold Initialize_transform
  refine Keeps_RETURN_IF_ERROR (Keeps_mono hG (TransformGraph_only_graph env s)) fun _ s1 _ h1 => ?_
  unfold Initialize_resolve
  split
  · trivial
  · simp only []
    refine Keeps_RETURN_IF_ERROR (Keeps_ofCall _ _ _ (ht _ _ _ h1 (hG _ _ (OnlyGraph_withGraph s1 _))))
      fun _ s2 _ h2 => ?_
    unfold Initialize_kernels
    refine Keeps_RETURN_IF_ERROR
      (Keeps_of_rel ht h2 (Keeps_mono hK (SaveKernelsAndMLValueNameIndexMapping_only_kernels env s2)))
      fun _ s3 _ h3 => Keeps_of_rel ht h3 (hplan s3 h3)

/-- A reflexive, transitive relation that holds across graph rewrites, weight materialization, the
storing of a plan and the setting of the initialized flag is kept by the planning part of
`Initialize`. -/
theorem Initialize_plan_keeps {R : Impl → Impl → Prop} (env : Env)
    (hr : ∀ a, R a a) (ht : ∀ a b c, R a b → R b c → R a c)
    (hG : ∀ a b, OnlyGraph a b → R a b) (hW : ∀ a b, OnlyWeights a b → R a b)
    (hP : ∀ a plan, R a { a with session_state_ := a.session_state_.SetExecutionPlan plan })
    (hI : ∀ a, R a { a with is_inited_ := true }) (s : Impl) :
    Keeps R s (Initialize_plan env s) := by
  unfold Initialize_plan
  split
  · split
    · trivial
    · refine Keeps_andThen (Keeps_ofCall _ _ _ (hr s)) fun r s1 _ h1 => ?_
      split
      · exact h1
      · unfold Initialize_materialize
        refine Keeps_RETURN_IF_ERROR
          (Keeps_of_rel ht (ht _ _ _ h1 (hP s1 r.2))
            (Keeps_mono hW (SaveInitializedTensors_only_weights env _)))
          fun _ s2 _ h2 => ?_
        split
        · trivial
        · exact ht _ _ _ h2 (ht _ _ _ (hG _ _ (OnlyGraph_withGraph s2 _)) (hI _))
  · unfold LOTUS_NOT_IMPLEMENTED
    exact hr s

/-- What every step of `Initialize` keeps is kept, from the session as it stands after the default
provider was registered, by `Initialize` on a loaded session that is not initialized. -/
theorem Initialize_keeps {R : Impl → Impl → Prop} (env : Env)
    (hr : ∀ a, R a a) (ht : ∀ a b c, R a b → R b c → R a c)
    (hG : ∀ a b, OnlyGraph a b → R a b) (hK : ∀ a b, OnlyKernels a b → R a b)
    (hW : ∀ a b, OnlyWeights a b → R a b)
    (hP : ∀ a plan, R a { a with session_state_ := a.session_state_.SetExecutionPlan plan })
    (hI : ∀ a, R a { a with is_inited_ := true }) (s : Impl)
    (hl : s.is_model_loaded_ = true) (hi : s.is_inited_ = false) :
    Keeps R (Initialize_entry s) (Initialize env s) := by
  unfold Initialize Initialize_try
  rw [if_neg (by simp [hl]), if_neg (by simp [hi])]
  refine Keeps_Initialize_catch ?_
  split
  · trivial
  · exact Initialize_transform_keeps_of_plan env ht hG hK _
      fun a _ => Initialize_plan_keeps env hr ht hG hW hP hI a


/-! ### The default CPU provider -/

theorem SameProviders_of_only_graph (a b : Impl) (h : OnlyGraph a b) :
    b.session_state_.exec_providers = a.session_state_.exec_providers := by
  rw [h.1]

theorem SameProviders_of_only_kernels (a b : Impl) (h : OnlyKernels a b) :
    b.session_state_.exec_providers = a.session_state_.exec_providers := by
  rw [h.1]

theorem SameProviders_of_only_weights (a b : Impl) (h : OnlyWeights a b) :
    b.session_state_.exec_providers = a.session_state_.exec_providers := by
  rw [h.1]

/-- The providers `Initialize` leaves registered are those in place once its default-provider step
has run. -/
theorem Initialize_providers (env : Env) (s : Impl) (hl : s.is_model_loaded_ = true)
    (hi : s.is_inited_ = false) (st : Status) (s' : Impl)
    (h : Initialize env s = Outcome.ret st s') :
    s'.session_state_.exec_providers = (Initialize_entry s).session_state_.exec_providers := by
  have hk := Initialize_keeps
    (R := fun a b => b.session_state_.exec_providers = a.session_state_.exec_providers) env
    (fun _ => rfl) (fun _ _ _ hab hbc => hbc.trans hab)
    SameProviders_of_only_graph SameProviders_of_only_kernels SameProviders_of_only_weights
    (fun _ _ => rfl) (fun _ => rfl) s hl hi
  rw [h] at hk
  exact hk

theorem Initialize_entry_providers (s : Impl) :
    (Initialize_entry s).session_state_.exec_providers
      = if (s.session_state_.GetExecutionProvider kCpuExecutionProvider).isNone then
          s.session_state_.exec_providers ++ [(kCpuExecutionProvider, CPUExecutionProvider)]
        else s.session_state_.exec_providers := by
  unfold Initialize_entry
  simp only []
  split <;> rfl

/-- C18: on a loaded session that is not initialized and holds a model, `Initialize` is its handlers
around the graph transformation started on `Initialize_entry s`, so the default-provider step comes
before the transformation.  With no provider registered, the providers after that step are exactly the
default CPU provider.  With no provider under the CPU name the default CPU provider is appended to the
registered ones; with a provider `p` under the CPU name the registered providers are unchanged and the
CPU name still resolves to `p`.  After the step the CPU name always resolves.  A session that has these
providers binds a node assigned to the CPU name through the kernel registries rather than failing for
want of a provider; the session handed on by the graph transformation, whatever its graph, has these
providers, and so has the session `Initialize` returns with. -/
theorem Initialize_registers_default_cpu_provider (env : Env) (s : Impl)
    (hl : s.is_model_loaded_ = true) (hi : s.is_inited_ = false) (hm : s.model_.isSome = true) :
    Initialize env s = Initialize_catch (Initialize_transform env (Initialize_entry s)) ∧
    (s.session_state_.exec_providers = [] →
      (Initialize_entry s).session_state_.exec_providers
        = [(kCpuExecutionProvider, CPUExecutionProvider)]) ∧
    (s.session_state_.GetExecutionProvider kCpuExecutionProvider = none →
      (Initialize_entry s).session_state_.exec_providers
        = s.session_state_.exec_providers ++ [(kCpuExecutionProvider, CPUExecutionProvider)]) ∧
    (∀ p, s.session_state_.GetExecutionProvider kCpuExecutionProvider = some p →
      (Initialize_entry s).session_state_.exec_providers = s.session_state_.exec_providers ∧
      (Initialize_entry s).session_state_.GetExecutionProvider kCpuExecutionProvider = some p) ∧
    (∃ p, (Initialize_entry s).session_state_.GetExecutionProvider kCpuExecutionProvider = some p ∧
      ∀ a : Impl,
        a.session_state_.exec_providers = (Initialize_entry s).session_state_.exec_providers →
        ∀ node p_op_kernel, node.ExecutionProvider = kCpuExecutionProvider →
          CreateOpKernel env node p_op_kernel a
            = CreateOpKernelInternal env node p.allocator_info p p_op_kernel a) ∧
    (∀ st s1, TransformGraph env (Initialize_entry s) = Outcome.ret st s1 → ∀ g,
      (s1.withGraph g).session_state_.exec_providers
        = (Initialize_entry s).session_state_.exec_providers) ∧
    (∀ st s', Initialize env s = Outcome.ret st s' →
      s'.session_state_.exec_providers = (Initialize_entry s).session_state_.exec_providers) := by
  have hent := Initialize_entry_providers s
  have hsome : ∃ p, (Initialize_entry s).session_state_.GetExecutionProvider kCpuExecutionProvider
      = some p := by
    cases hc : s.session_state_.GetExecutionProvider kCpuExecutionProvider with
    | none =>
      refine ⟨CPUExecutionProvider, ?_⟩
      rw [hc] at hent
      simp only [Option.isNone_none, if_true] at hent
      unfold SessionState.GetExecutionProvider at hc ⊢
      rw [hent]
      rw [Option.map_eq_none'] at hc
      rw [List.find?_append, hc]
      rfl
    | some p =>
      refine ⟨p, ?_⟩
      rw [hc] at hent
      simp only [Option.isNone_some, Bool.false_eq_true, if_false] at hent
      rw [GetExecutionProvider_congr _ _ hent]
      exact hc
  refine ⟨Initialize_eq_transform env s hl hi hm, fun h0 => ?_, fun hn => ?_, fun p hp => ?_, ?_,
    fun st s1 h1 g => ?_, fun st s' h => Initialize_providers env s hl hi st s' h⟩
  · have hn : s.session_state_.GetExecutionProvider kCpuExecutionProvider = none := by
      unfold SessionState.GetExecutionProvider
      rw [h0]
      rfl
    rw [hent, hn, h0]
    rfl
  · rw [hent, hn]
    rfl
  · rw [hp] at hent
    simp only [Option.isNone_some, Bool.false_eq_true, if_false] at hent
    refine ⟨hent, ?_⟩
    rw [GetExecutionProvider_congr _ _ hent]
    exact hp
  · obtain ⟨p, hp⟩ := hsome
    refine ⟨p, hp, fun a ha node k hnode => ?_⟩
    refine CreateOpKernel_registered env node k a p (by rw [hnode]; decide) ?_
    rw [hnode, GetExecutionProvider_congr _ _ ha]
    exact hp
  · have hf : Frame _ s1 := Framed_ret (TransformGraph_framed env _) h1
    exact (hf.trans (Frame.withGraph s1 g)).exec_providers

/-- C18 at the loaded mul_1 session of the tests, on which no provider was registered: the
default-provider step registers exactly the default CPU provider, and the session `Initialize`
returns with still has it. -/
theorem Initialize_registers_default_cpu_provider_witness :
    Fixture.loaded.is_model_loaded_ = true ∧ Fixture.loaded.is_inited_ = false ∧
    Fixture.loaded.model_.isSome = true ∧ Fixture.loaded.session_state_.exec_providers = [] ∧
    (Initialize_entry Fixture.loaded).session_state_.exec_providers
      = [(kCpuExecutionProvider, CPUExecutionProvider)] ∧
    Fixture.initialized.session_state_.exec_providers
      = (Initialize_entry Fixture.loaded).session_state_.exec_providers :=
  ⟨rfl, rfl, rfl, rfl,
    (Initialize_registers_default_cpu_provider Fixture.env Fixture.loaded rfl rfl rfl).2.1 rfl,
    (Initialize_registers_default_cpu_provider Fixture.env Fixture.loaded rfl rfl rfl).2.2.2.2.2.2
      Status.OK Fixture.initialized rfl⟩


/-! ### Nodes without a usable execution provider -/

/-- When transformation and resolve succeed and the kernel loop reaches a node (every node before it
is skipped or gets a kernel) for which `CreateOpKernel` returns the error `e`, `Initialize` returns
`e` and the session stays uninitialized. -/
theorem Initialize_fails_at_node (env : Env) (s0 : Impl) (e1 : Status) (sa : Impl) (model : Model)
    (e2 : Status) (pre rest : List Node) (node : Node) (e : Status)
    (hl : s0.is_model_loaded_ = true) (hi : s0.is_inited_ = false)
    (hTG : TransformGraph env (Initialize_entry s0) = Outcome.ret e1 sa) (he1 : e1.IsOK = true)
    (hsa : sa.model_ = some model)
    (hres : (env.Graph_Resolve model.MainGraph).2 = Call.ret e2) (he2 : e2.IsOK = true)
    (hnodes : (env.Graph_Resolve model.MainGraph).1.Nodes = pre ++ node :: rest)
    (hpre : ∀ n ∈ pre, NodeBinds env (env.Graph_Resolve model.MainGraph).1
      (sa.withGraph (env.Graph_Resolve model.MainGraph).1) n)
    (hskip : ((env.Graph_Resolve model.MainGraph).1.IsSourceNode node.Index ||
      (env.Graph_Resolve model.MainGraph).1.IsSinkNode node.Index) = false)
    (hk : ∀ s1, Frame (sa.withGraph (env.Graph_Resolve model.MainGraph).1) s1 →
      ∃ kernel2 s2, CreateOpKernel env node none s1 = Outcome.ret (e, kernel2) s2)
    (he : e.IsOK = false) :
    ∃ sc, Initialize env s0 = Outcome.ret e sc ∧ sc.is_inited_ = false := by
  have hsm : (sa.withGraph (env.Graph_Resolve model.MainGraph).1).model_
      = some { model with MainGraph := (env.Graph_Resolve model.MainGraph).1 } := by
    simp [Impl.withGraph, hsa]
  obtain ⟨c', s1, hf1, hloop⟩ := SaveKernelsAndMLValueNameIndexMapping_nodes_prefix env
    (env.Graph_Resolve model.MainGraph).1 (sa.withGraph (env.Graph_Resolve model.MainGraph).1) pre hpre 0
    { sa.withGraph (env.Graph_Resolve model.MainGraph).1 with session_state_ :=
        ((sa.withGraph (env.Graph_Resolve model.MainGraph).1).session_state_.SetKernelVectorSize
          (env.Graph_Resolve model.MainGraph).1.NumberOfNodes) }
    (Frame.session_state _ _ rfl)
  obtain ⟨kernel2, s2, hk1⟩ := hk s1 hf1
  have hSK : SaveKernelsAndMLValueNameIndexMapping env
      (sa.withGraph (env.Graph_Resolve model.MainGraph).1) = Outcome.ret e s2 := by
    rw [SaveKernelsAndMLValueNameIndexMapping_eq env _ _ hsm]
    simp only []
    rw [hnodes, hloop (node :: rest)]
    exact SaveKernelsAndMLValueNameIndexMapping_nodes_fail env _ node rest c' s1 e kernel2 _ hskip
      hk1 he
  have hinit := (((Initialize_step_errors env s0 hl hi e1 sa hTG).2 he1 model hsa e2 hres).2 he2 e _
    hSK).1 he
  refine ⟨_, hinit, ?_⟩
  obtain ⟨hflag, _⟩ := (Initialize_ends env s0 hl hi).2 _ _ hinit
  rcases hflag with ⟨h3, _⟩ | ⟨_, h3⟩
  · rw [h3] at he
    cases he
  · exact h3

theorem CreateOpKernel_no_provider (env : Env) (node : Node) (p_op_kernel : Option OpKernel) (s : Impl)
    (h : node.ExecutionProvider.isEmpty = true ∨
      s.session_state_.GetExecutionProvider node.ExecutionProvider = none) :
    CreateOpKernel env node p_op_kernel s = Outcome.ret (Fixture.no_provider node, p_op_kernel) s := by
  unfold CreateOpKernel
  simp only []
  rw [if_pos]
  · rfl
  · rcases h with h | h
    · simp [h]
    · simp [h]

/-- C11: for a node whose execution-provider name is empty or names no registered provider,
`CreateOpKernel` returns the status "Could not create kernel for node: <name> as there's no
execution provider allocated." (category LOTUS, code FAIL), which is an error, and leaves the session
as it was, so that no kernel registry call is recorded.  When the kernel loop of `Initialize` reaches
such a node that is neither source nor sink (transformation and resolve succeeded and every node
before it is skipped or gets a kernel), `Initialize` returns that status and the session stays
uninitialized.  For a node whose provider name is not empty and resolves to a registered provider,
`CreateOpKernel` is the registry lookup `CreateOpKernelInternal` with that provider. -/
theorem no_provider_assigned_fails (env : Env) (node : Node) (p_op_kernel : Option OpKernel)
    (s : Impl) :
    ((node.ExecutionProvider.isEmpty = true ∨
        s.session_state_.GetExecutionProvider node.ExecutionProvider = none) →
      CreateOpKernel env node p_op_kernel s
        = Outcome.ret
            (⟨StatusCategory.LOTUS, StatusCode.FAIL,
              "Could not create kernel for node: " ++ node.Name ++
                " as there's no execution provider allocated."⟩, p_op_kernel) s ∧
      (Fixture.no_provider node).IsOK = false ∧
      ∀ (s0 : Impl) (e1 : Status) (sa : Impl) (model : Model) (e2 : Status) (pre rest : List Node),
        s0.is_model_loaded_ = true → s0.is_inited_ = false →
        TransformGraph env (Initialize_entry s0) = Outcome.ret e1 sa → e1.IsOK = true →
        sa.model_ = some model →
        (env.Graph_Resolve model.MainGraph).2 = Call.ret e2 → e2.IsOK = true →
        sa.withGraph (env.Graph_Resolve model.MainGraph).1 = s →
        (env.Graph_Resolve model.MainGraph).1.Nodes = pre ++ node :: rest →
        (∀ n ∈ pre, NodeBinds env (env.Graph_Resolve model.MainGraph).1 s n) →
        ((env.Graph_Resolve model.MainGraph).1.IsSourceNode node.Index ||
          (env.Graph_Resolve model.MainGraph).1.IsSinkNode node.Index) = false →
        ∃ sc, Initialize env s0 = Outcome.ret (Fixture.no_provider node) sc ∧
          sc.is_inited_ = false) ∧
    (∀ exec_provider, node.ExecutionProvider.isEmpty = false →
      s.session_state_.GetExecutionProvider node.ExecutionProvider = some exec_provider →
      CreateOpKernel env node p_op_kernel s
        = CreateOpKernelInternal env node exec_provider.allocator_info exec_provider p_op_kernel s) := by
  refine ⟨fun h => ⟨CreateOpKernel_no_provider env node p_op_kernel s h, rfl, ?_⟩,
    fun p hname hprov => CreateOpKernel_registered env node p_op_kernel s p hname hprov⟩
  intro s0 e1 sa model e2 pre rest hl hi hTG he1 hsa hres he2 hs hnodes hpre hskip
  subst hs
  refine Initialize_fails_at_node env s0 e1 sa model e2 pre rest node (Fixture.no_provider node)
    hl hi hTG he1 hsa hres he2 hnodes hpre hskip (fun s1 hf1 => ⟨none, s1, ?_⟩) rfl
  refine CreateOpKernel_no_provider env node none s1 ?_
  rcases h with h | h
  · exact Or.inl h
  · right
    rw [GetExecutionProvider_congr _ _ hf1.exec_providers]
    exact h

/-- C11 at the sessions of the tests: the node of mul_unassigned has an empty provider name, so
`CreateOpKernel` fails for it leaving the session as it was and `Initialize` returns that error;
the node of mul_1 is assigned to the CPU provider, and once that provider is registered the check
passes. -/
theorem no_provider_assigned_fails_witness :
    Fixture.unassigned_node.ExecutionProvider.isEmpty = true ∧
    CreateOpKernel Fixture.env Fixture.unassigned_node none (Initialize_entry Fixture.loaded_unassigned)
      = Outcome.ret (Fixture.no_provider Fixture.unassigned_node, none)
          (Initialize_entry Fixture.loaded_unassigned) ∧
    (∃ sc, Initialize Fixture.env Fixture.loaded_unassigned
        = Outcome.ret (Fixture.no_provider Fixture.unassigned_node) sc ∧ sc.is_inited_ = false) ∧
    CreateOpKernel Fixture.env Fixture.mul_node none (Initialize_entry Fixture.loaded)
      = CreateOpKernelInternal Fixture.env Fixture.mul_node CPUExecutionProvider.allocator_info
          CPUExecutionProvider none (Initialize_entry Fixture.loaded) ∧
    (Initialize_entry Fixture.loaded_cuda).session_state_.GetExecutionProvider
        Fixture.cuda_node.ExecutionProvider = none ∧
    CreateOpKernel Fixture.env Fixture.cuda_node none (Initialize_entry Fixture.loaded_cuda)
      = Outcome.ret (Fixture.no_provider Fixture.cuda_node, none)
          (Initialize_entry Fixture.loaded_cuda) :=
  ⟨rfl,
    ((no_provider_assigned_fails Fixture.env Fixture.unassigned_node none
      (Initialize_entry Fixture.loaded_unassigned)).1 (Or.inl rfl)).1,
    ((no_provider_assigned_fails Fixture.env Fixture.unassigned_node none
      (Initialize_entry Fixture.loaded_unassigned)).1 (Or.inl rfl)).2.2
      Fixture.loaded_unassigned Status.OK (Initialize_entry Fixture.loaded_unassigned)
      Fixture.mul_unassigned Status.OK [Fixture.source_node] [Fixture.sink_node]
      rfl rfl rfl rfl rfl rfl rfl rfl rfl
      (fun n hn => by
        rw [List.mem_singleton] at hn
        subst hn
        exact Or.inl rfl)
      rfl,
    (no_provider_assigned_fails Fixture.env Fixture.mul_node none
      (Initialize_entry Fixture.loaded)).2 CPUExecutionProvider rfl rfl,
    rfl,
    ((no_provider_assigned_fails Fixture.env Fixture.cuda_node none
      (Initialize_entry Fixture.loaded_cuda)).1 (Or.inr rfl)).1⟩


/-! ### The run counter -/

theorem wrapInt32_of_int (x : Int) (h1 : -2 ^ 31 ≤ x) (h2 : x < 2 ^ 31) : wrapInt32 x = x := by
  unfold wrapInt32
  norm_num at h1 h2 ⊢
  omega

theorem wrapInt32_increment_decrement (x : Int) (h1 : -2 ^ 31 ≤ x) (h2 : x < 2 ^ 31) :
    wrapInt32 (wrapInt32 (x + 1) - 1) = x := by
  unfold wrapInt32
  norm_num at h1 h2 ⊢
  omega

/-- The executor part of `Run` leaves the counter as it finds it, and any `Execute` it records
carries that value. -/
theorem Run_execute_counter (env : Env) (run_options : RunOptions) (feeds : NameMLValMap)
    (output_names : List String) (fetches : List MLValue) (s : Impl)
    (P : Impl × Option (List MLValue) → Prop)
    (hP : ∀ st : Impl × Option (List MLValue), st.1.current_num_runs_ = s.current_num_runs_ →
      (∃ new, st.1.calls_ = s.calls_ ++ new ∧
        ∀ n, CollaboratorCall.Execute n ∈ new → n = s.current_num_runs_) → P st) :
    (∀ a st, Run_execute env run_options feeds output_names fetches s = Outcome.ret a st → P st) ∧
    (∀ e st, Run_execute env run_options feeds output_names fetches s = Outcome.raise e st → P st) := by
  have hone : P (s.logCall CollaboratorCall.NewSequentialExecutor, some fetches) :=
    hP _ rfl ⟨[CollaboratorCall.NewSequentialExecutor], rfl, fun n hn => by simp at hn⟩
  have htwo : ∀ f, P ((s.logCall CollaboratorCall.NewSequentialExecutor).logCall
      (CollaboratorCall.Execute (s.logCall CollaboratorCall.NewSequentialExecutor).current_num_runs_),
      f) := fun f =>
    hP _ rfl ⟨[CollaboratorCall.NewSequentialExecutor, CollaboratorCall.Execute s.current_num_runs_],
      by simp [Impl.logCall], fun n hn => by
        simp at hn
        exact hn⟩
  have hzero : P (s, some fetches) := hP _ rfl ⟨[], by simp, fun n hn => by cases hn⟩
  unfold Run_execute
  by_cases hseq : s.session_options_.enable_sequential_execution = true
  · rw [if_pos hseq]
    cases hN : env.NewSequentialExecutor s.session_state_ feeds output_names fetches with
    | throw e =>
      simp only [Outcome.ofCall, Outcome.andThen]
      refine ⟨(fun a st h => by cases h), fun e st h => ?_⟩
      injection h with _ h
      subst h
      exact hone
    | ret p_exec =>
      simp only [Outcome.ofCall, Outcome.andThen]
      cases (env.Execute p_exec (s.logCall CollaboratorCall.NewSequentialExecutor).session_state_
          run_options feeds output_names fetches).2 with
      | ret a =>
        refine ⟨fun a st h => ?_, fun e st h => by cases h⟩
        injection h with _ h
        subst h
        exact htwo _
      | throw e =>
        refine ⟨(fun a st h => by cases h), fun e st h => ?_⟩
        injection h with _ h
        subst h
        exact htwo _
  · rw [if_neg hseq]
    refine ⟨(fun a st h => by cases h), fun e st h => ?_⟩
    unfold LOTUS_NOT_IMPLEMENTED at h
    injection h with _ h
    subst h
    exact hzero

/-- When the counter holds an `int`, `Run` lets no exception escape and returns with the counter at
the value it had before the call; any `Execute` made in between was made with the counter
incremented. -/
theorem Run_counter_balanced (env : Env) (run_options : RunOptions) (feeds : NameMLValMap)
    (output_names : List String) (p_fetches : Option (List MLValue)) (s : Impl)
    (h1 : -2 ^ 31 ≤ s.current_num_runs_) (h2 : s.current_num_runs_ < 2 ^ 31) :
    (∀ e st, Run env run_options feeds output_names p_fetches s ≠ Outcome.raise e st) ∧
    ∀ status st, Run env run_options feeds output_names p_fetches s = Outcome.ret status st →
      GetCurrentNumRuns st.1 = GetCurrentNumRuns s ∧
      ∃ new, st.1.calls_ = s.calls_ ++ new ∧
        ∀ n, CollaboratorCall.Execute n ∈ new → n = wrapInt32 (s.current_num_runs_ + 1) := by
  unfold Run
  split_ifs with hi hv
  · refine ⟨(fun e st h => by cases h), fun status st h => ?_⟩
    injection h with _ h
    subst h
    exact ⟨rfl, [], by simp, fun n hn => by cases hn⟩
  · refine ⟨(fun e st h => by cases h), fun status st h => ?_⟩
    injection h with _ h
    subst h
    exact ⟨rfl, [], by simp, fun n hn => by cases hn⟩
  · cases p_fetches with
    | none => exact ⟨(fun e st h => by cases h), fun status st h => by cases h⟩
    | some fetches =>
      simp only []
      have hx := Run_execute_counter env run_options feeds output_names fetches
        { s with current_num_runs_ := wrapInt32 (s.current_num_runs_ + 1) }
        (fun st => wrapInt32 (st.1.current_num_runs_ - 1) = s.current_num_runs_ ∧
          ∃ new, st.1.calls_ = s.calls_ ++ new ∧
            ∀ n, CollaboratorCall.Execute n ∈ new → n = wrapInt32 (s.current_num_runs_ + 1))
        (fun st hc hn => ⟨by rw [hc]; exact wrapInt32_increment_decrement _ h1 h2, hn⟩)
      cases hr : Run_execute env run_options feeds output_names fetches
          { s with current_num_runs_ := wrapInt32 (s.current_num_runs_ + 1) } with
      | ret a st0 =>
        have hx0 := hx.1 a st0 hr
        refine ⟨(fun e st h => by cases h), fun status st h => ?_⟩
        simp only [Outcome.catchAll, Outcome.andThen] at h
        injection h with _ h
        subst h
        exact hx0
      | raise e0 st0 =>
        have hx0 := hx.2 e0 st0 hr
        refine ⟨(fun e st h => by cases e0 <;> cases h), fun status st h => ?_⟩
        cases e0 with
        | std_exception w =>
          simp only [Outcome.catchAll, Outcome.andThen] at h
          injection h with _ h
          subst h
          exact hx0
        | unknown =>
          simp only [Outcome.catchAll, Outcome.andThen] at h
          injection h with _ h
          subst h
          exact hx0
      | undefined =>
        exact ⟨(fun e st h => by cases h), fun status st h => by cases h⟩

/-- With the statements before the increment completing, as `Run` has them: let the counter hold an
`int` when a `Run` overload is called.  The call lets no exception escape, and whenever it returns,
with success, with an error status of the executor, with the not-initialized or the validation
error, or with the status made of an exception raised by the executor construction or by `Execute`,
`GetCurrentNumRuns` gives the value it gave before the call.  Every `Execute` recorded among the
collaborator calls of the call was made while the counter was the result of incrementing that
value: one higher, except that incrementing the largest `int` wraps around. -/
theorem Run_counter_balanced_all_overloads (env : Env) (run_options : RunOptions)
    (feeds : NameMLValMap) (output_names : List String) (p_fetches : Option (List MLValue)) (s : Impl)
    (h1 : -2 ^ 31 ≤ s.current_num_runs_) (h2 : s.current_num_runs_ < 2 ^ 31) :
    (∀ e st, Run env run_options feeds output_names p_fetches s ≠ Outcome.raise e st) ∧
    (∀ e st, Run_feeds_output_names env feeds output_names p_fetches s ≠ Outcome.raise e st) ∧
    (∀ e st, Run_feeds env feeds p_fetches s ≠ Outcome.raise e st) ∧
    (∀ status st,
      (Run env run_options feeds output_names p_fetches s = Outcome.ret status st ∨
        Run_feeds_output_names env feeds output_names p_fetches s = Outcome.ret status st ∨
        Run_feeds env feeds p_fetches s = Outcome.ret status st) →
      GetCurrentNumRuns st.1 = GetCurrentNumRuns s ∧
      ∃ new, st.1.calls_ = s.calls_ ++ new ∧
        ∀ n, CollaboratorCall.Execute n ∈ new →
          n = wrapInt32 (GetCurrentNumRuns s + 1) ∧
          (GetCurrentNumRuns s < 2 ^ 31 - 1 → n = GetCurrentNumRuns s + 1)) := by
  have hwrap : s.current_num_runs_ < 2 ^ 31 - 1 →
      wrapInt32 (s.current_num_runs_ + 1) = s.current_num_runs_ + 1 := fun h3 =>
    wrapInt32_of_int _ (by linarith) (by linarith)
  have hfin : ∀ (ro : RunOptions) (names : List String) status st,
      Run env ro feeds names p_fetches s = Outcome.ret status st →
      GetCurrentNumRuns st.1 = GetCurrentNumRuns s ∧
      ∃ new, st.1.calls_ = s.calls_ ++ new ∧
        ∀ n, CollaboratorCall.Execute n ∈ new →
          n = wrapInt32 (GetCurrentNumRuns s + 1) ∧
          (GetCurrentNumRuns s < 2 ^ 31 - 1 → n = GetCurrentNumRuns s + 1) := by
    intro ro names status st h
    obtain ⟨hc, new, hn, hex⟩ := (Run_counter_balanced env ro feeds names p_fetches s h1 h2).2 status st h
    exact ⟨hc, new, hn, fun n hmem => ⟨hex n hmem, fun h3 => by rw [hex n hmem]; exact hwrap h3⟩⟩
  have hfeeds : ∀ (P : Outcome (Impl × Option (List MLValue)) Status → Prop),
      P Outcome.undefined → (∀ names, P (Run env RunOptions.default feeds names p_fetches s)) →
      P (Run_feeds env feeds p_fetches s) := by
    intro P hu hr
    unfold Run_feeds
    simp only []
    split
    · exact hu
    · split
      · exact hu
      · exact hr _
  refine ⟨(Run_counter_balanced env run_options feeds output_names p_fetches s h1 h2).1,
    (Run_counter_balanced env RunOptions.default feeds output_names p_fetches s h1 h2).1, ?_, ?_⟩
  · exact hfeeds (fun o => ∀ e st, o ≠ Outcome.raise e st) (fun e st h => by cases h)
      fun names => (Run_counter_balanced env RunOptions.default feeds names p_fetches s h1 h2).1
  · intro status st h
    rcases h with h | h | h
    · exact hfin run_options output_names status st h
    · exact hfin RunOptions.default output_names status st h
    · exact hfeeds (fun o => o = Outcome.ret status st →
        GetCurrentNumRuns st.1 = GetCurrentNumRuns s ∧
        ∃ new, st.1.calls_ = s.calls_ ++ new ∧
          ∀ n, CollaboratorCall.Execute n ∈ new →
            n = wrapInt32 (GetCurrentNumRuns s + 1) ∧
            (GetCurrentNumRuns s < 2 ^ 31 - 1 → n = GetCurrentNumRuns s + 1))
        (fun h => by cases h) (fun names h => hfin RunOptions.default names status st h) h

/-! ### What a successful Initialize went through -/

theorem andThen_ret_inv {σ α β : Type} {o : Outcome σ α} {k : α → σ → Outcome σ β} {b : β} {s' : σ}
    (h : o.andThen k = Outcome.ret b s') : ∃ a s1, o = Outcome.ret a s1 ∧ k a s1 = Outcome.ret b s' := by
  cases o with
  | ret a s1 => exact ⟨a, s1, rfl, h⟩
  | raise e s1 => cases h
  | undefined => cases h

theorem ofCall_ret_inv {σ α : Type} {c : Call α} {s s1 : σ} {a : α}
    (h : Outcome.ofCall c s = Outcome.ret a s1) : c = Call.ret a ∧ s1 = s := by
  cases c with
  | ret a0 =>
    simp only [Outcome.ofCall] at h
    injection h with h1 h2
    exact ⟨by rw [h1], h2.symm⟩
  | throw e => cases h

theorem RETURN_IF_ERROR_ok_inv {σ : Type} {o : Outcome σ Status} {k : σ → Outcome σ Status}
    {st : Status} {s' : σ} (h : LOTUS_RETURN_IF_ERROR o k = Outcome.ret st s') (hok : st.IsOK = true) :
    ∃ e1 s1, o = Outcome.ret e1 s1 ∧ e1.IsOK = true ∧ k s1 = Outcome.ret st s' := by
  obtain ⟨e1, s1, ho, hk⟩ := andThen_ret_inv h
  refine ⟨e1, s1, ho, ?_⟩
  by_cases he : e1.IsOK = true
  · rw [if_pos he] at hk
    exact ⟨he, hk⟩
  · rw [if_neg he] at hk
    injection hk with h1 _
    rw [h1] at he
    exact absurd hok he

theorem Initialize_catch_ok_inv {o : Outcome Impl Status} {st : Status} {s' : Impl}
    (h : Initialize_catch o = Outcome.ret st s') (hok : st.IsOK = true) : o = Outcome.ret st s' := by
  unfold Initialize_catch at h
  cases o with
  | ret a s1 => exact h
  | raise e s1 =>
    cases e with
    | std_exception what =>
      simp only [Outcome.catchAll] at h
      injection h with h1 _
      rw [← h1] at hok
      cases hok
    | unknown =>
      simp only [Outcome.catchAll] at h
      injection h with h1 _
      rw [← h1] at hok
      cases hok
  | undefined => cases h

/-- A successful `Initialize` on a loaded session that was not initialized went through every step
with success: the graph transformation, the resolve, the kernel and value-index construction, the
sequential planner and the weight materialization; the session it returns is the one left by the
materialization, with the graph's weights cleaned and the initialized flag set. -/
theorem Initialize_ok_inv (env : Env) (s : Impl) (st : Status) (s' : Impl)
    (hl : s.is_model_loaded_ = true) (hi : s.is_inited_ = false)
    (h : Initialize env s = Outcome.ret st s') (hok : st.IsOK = true) :
    ∃ e1 sa model e2 e3 sc model2 e4 plan e5 se model3,
      TransformGraph env (Initialize_entry s) = Outcome.ret e1 sa ∧ e1.IsOK = true ∧
      sa.model_ = some model ∧
      (env.Graph_Resolve model.MainGraph).2 = Call.ret e2 ∧ e2.IsOK = true ∧
      SaveKernelsAndMLValueNameIndexMapping env (sa.withGraph (env.Graph_Resolve model.MainGraph).1)
        = Outcome.ret e3 sc ∧ e3.IsOK = true ∧
      sc.session_options_.enable_sequential_execution = true ∧
      sc.model_ = some model2 ∧
      env.AllocationPlanner_CreatePlan sc.session_options_.allocation_planner_type sc.session_state_
        model2.MainGraph = Call.ret (e4, plan) ∧ e4.IsOK = true ∧
      SaveInitializedTensors env { sc with session_state_ := sc.session_state_.SetExecutionPlan plan }
        = Outcome.ret e5 se ∧ e5.IsOK = true ∧
      se.model_ = some model3 ∧
      st = Status.OK ∧
      s' = { se.withGraph model3.MainGraph.CleanAllInitializedTensors with is_inited_ := true } := by
  have hm : s.model_.isSome = true := ((Initialize_ends env s hl hi).2 st s' h).2.2.2
  rw [Initialize_eq_transform env s hl hi hm] at h
  have h0 := Initialize_catch_ok_inv h hok
  unfold Initialize_transform at h0
  obtain ⟨e1, sa, hTG, he1, h1⟩ := RETURN_IF_ERROR_ok_inv h0 hok
  unfold Initialize_resolve at h1
  cases hsa : sa.model_ with
  | none =>
    rw [hsa] at h1
    cases h1
  | some model =>
    rw [hsa] at h1
    simp only [] at h1
    obtain ⟨e2, sb, hres, he2, h2⟩ := RETURN_IF_ERROR_ok_inv h1 hok
    obtain ⟨hres2, hsb⟩ := ofCall_ret_inv hres
    subst hsb
    unfold Initialize_kernels at h2
    obtain ⟨e3, sc, hSK, he3, h3⟩ := RETURN_IF_ERROR_ok_inv h2 hok
    unfold Initialize_plan at h3
    by_cases hseq : sc.session_options_.enable_sequential_execution = true
    · rw [if_pos hseq] at h3
      cases hsc : sc.model_ with
      | none =>
        rw [hsc] at h3
        cases h3
      | some model2 =>
        rw [hsc] at h3
        simp only [] at h3
        obtain ⟨r, sd, hplan, h4⟩ := andThen_ret_inv h3
        obtain ⟨hplan2, hsd⟩ := ofCall_ret_inv hplan
        rw [hsd] at h4
        by_cases he4 : r.1.IsOK = true
        · rw [if_neg (by simp [he4])] at h4
          unfold Initialize_materialize at h4
          obtain ⟨e5, se, hSI, he5, h5⟩ := RETURN_IF_ERROR_ok_inv h4 hok
          cases hse : se.model_ with
          | none =>
            rw [hse] at h5
            cases h5
          | some model3 =>
            rw [hse] at h5
            simp only [] at h5
            injection h5 with h5a h5b
            exact ⟨e1, sa, model, e2, e3, sc, model2, r.1, r.2, e5, se, model3, hTG, he1, hsa, hres2,
              he2, hSK, he3, hseq, hsc, hplan2, he4, hSI, he5, hse, h5a.symm, h5b.symm⟩
        · rw [if_pos (by simp [he4])] at h4
          injection h4 with h4a _
          rw [h4a] at he4
          exact absurd hok he4
    · rw [if_neg hseq] at h3
      cases h3


/-! ### Execution modes other than the sequential one -/

/-- What `Initialize_entry` leaves alone in the session state and the weight buffers. -/
theorem Initialize_entry_storage (s : Impl) :
    (Initialize_entry s).session_state_.p_seq_exec_plan_ = s.session_state_.p_seq_exec_plan_ ∧
    (Initialize_entry s).session_state_.initialized_tensors_ = s.session_state_.initialized_tensors_ ∧
    (Initialize_entry s).session_state_.mlvalue_name_idx_map_ = s.session_state_.mlvalue_name_idx_map_ ∧
    (Initialize_entry s).weights_buffers_ = s.weights_buffers_ := by
  unfold Initialize_entry
  simp only []
  split <;> exact ⟨rfl, rfl, rfl, rfl⟩

/-- C15, as it fails: on the session built for a non-sequential mode and loaded with mul_16, whose
operator has no kernel, `Initialize` returns the error of the kernel construction, "Kernel not found",
which comes before the test of the execution mode, and not the not-implemented error. -/
theorem Initialize_non_sequential_kernel_error_first :
    Fixture.loaded_16_nonseq.is_model_loaded_ = true ∧
    Fixture.loaded_16_nonseq.is_inited_ = false ∧
    Fixture.loaded_16_nonseq.session_options_.enable_sequential_execution = false ∧
    (∃ sc, Initialize Fixture.env Fixture.loaded_16_nonseq
      = Outcome.ret Fixture.kernel_not_found sc) ∧
    Fixture.kernel_not_found ≠ Fixture.not_implemented Fixture.env :=
  ⟨rfl, rfl, rfl, ⟨_, rfl⟩, by decide⟩

/-- C15, amended: on a loaded session that is not initialized and is configured with
`enable_sequential_execution = false`, whenever `Initialize` returns it returns an error, the session
stays uninitialized, and the stored plan, the stored weights and the weight buffers are as before the
call.  When the graph transformation, the resolve and the kernel and value-index construction
succeed, the status is (LOTUS, FAIL, "Exception during initialization: " followed by the text of
the not-implemented exception for "non sequential execution is not implemented").  With the option
true, a successful `Initialize` has called the sequential planner on the session left by the kernel
construction, and the plan the planner returned is the plan stored afterwards. -/
theorem Initialize_non_sequential_not_implemented (env : Env) (s : Impl)
    (hl : s.is_model_loaded_ = true) (hi : s.is_inited_ = false)
    (hn : s.session_options_.enable_sequential_execution = false) :
    (∀ st s', Initialize env s = Outcome.ret st s' →
      st.IsOK = false ∧ s'.is_inited_ = false ∧
      s'.session_state_.p_seq_exec_plan_ = s.session_state_.p_seq_exec_plan_ ∧
      s'.session_state_.initialized_tensors_ = s.session_state_.initialized_tensors_ ∧
      s'.weights_buffers_ = s.weights_buffers_) ∧
    (∀ e1 sa model e2 e3 sc,
      TransformGraph env (Initialize_entry s) = Outcome.ret e1 sa → e1.IsOK = true →
      sa.model_ = some model →
      (env.Graph_Resolve model.MainGraph).2 = Call.ret e2 → e2.IsOK = true →
      SaveKernelsAndMLValueNameIndexMapping env (sa.withGraph (env.Graph_Resolve model.MainGraph).1)
        = Outcome.ret e3 sc → e3.IsOK = true →
      Initialize env s
        = Outcome.ret
            ⟨StatusCategory.LOTUS, StatusCode.FAIL,
              "Exception during initialization: " ++
                env.LOTUS_NOT_IMPLEMENTED_what "non sequential execution is not implemented"⟩ sc) ∧
    (∀ t : Impl, t.is_model_loaded_ = true → t.is_inited_ = false →
      t.session_options_.enable_sequential_execution = true →
      ∀ st s', Initialize env t = Outcome.ret st s' → st.IsOK = true →
        ∃ (sc : Impl) (model2 : Model) (e4 : Status) (plan : SequentialExecutionPlan),
          sc.model_ = some model2 ∧
          env.AllocationPlanner_CreatePlan t.session_options_.allocation_planner_type
            sc.session_state_ model2.MainGraph = Call.ret (e4, plan) ∧
          e4.IsOK = true ∧
          s'.session_state_.p_seq_exec_plan_ = some plan) := by
  have hent := Initialize_entry_frame s
  have hsto := Initialize_entry_storage s
  refine ⟨fun st s' h => ?_, ?_, ?_⟩
  · have hk : Keeps (fun a b : Impl =>
        b.is_inited_ = a.is_inited_ ∧ b.session_options_ = a.session_options_ ∧
        b.session_state_.p_seq_exec_plan_ = a.session_state_.p_seq_exec_plan_ ∧
        b.session_state_.initialized_tensors_ = a.session_state_.initialized_tensors_ ∧
        b.weights_buffers_ = a.weights_buffers_) (Initialize_entry s) (Initialize env s) := by
      have hm : s.model_.isSome = true := ((Initialize_ends env s hl hi).2 st s' h).2.2.2
      rw [Initialize_eq_transform env s hl hi hm]
      refine Keeps_Initialize_catch (Initialize_transform_keeps_of_plan env
        (fun a b c hab hbc => ⟨hbc.1.trans hab.1, hbc.2.1.trans hab.2.1, hbc.2.2.1.trans hab.2.2.1,
          hbc.2.2.2.1.trans hab.2.2.2.1, hbc.2.2.2.2.trans hab.2.2.2.2⟩)
        (fun a b hab => by rw [hab.1]; exact ⟨rfl, rfl, rfl, rfl, rfl⟩)
        (fun a b hab => by rw [hab.1]; exact ⟨rfl, rfl, rfl, rfl, rfl⟩) _ fun a ha => ?_)
      unfold Initialize_plan
      rw [if_neg (by rw [ha.2.1, hent.2.2.2.1, hn]; simp)]
      exact ⟨rfl, rfl, rfl, rfl, rfl⟩
    rw [h] at hk
    obtain ⟨k1, _, k3, k4, k5⟩ := hk
    have hni : s'.is_inited_ = false := by rw [k1, hent.1, hi]
    refine ⟨?_, hni, by rw [k3, hsto.1], by rw [k4, hsto.2.1], by rw [k5, hsto.2.2.2]⟩
    rcases ((Initialize_ends env s hl hi).2 st s' h).1 with ⟨_, h2⟩ | ⟨h1, _⟩
    · rw [hni] at h2
      cases h2
    · exact h1
  · intro e1 sa model e2 e3 sc hTG he1 hsa hres he2 hSK he3
    have hm : s.model_.isSome = true := by
      have := TransformGraph_ret_model env _ e1 sa hTG
      rwa [hent.2.2.1] at this
    have hf1 : Frame _ sa := Framed_ret (TransformGraph_framed env _) hTG
    have hf3 : Frame _ sc := Framed_ret (SaveKernelsAndMLValueNameIndexMapping_framed env _) hSK
    have hopt : sc.session_options_.enable_sequential_execution = false := by
      rw [hf3.session_options_, (Frame.withGraph sa _).session_options_, hf1.session_options_,
        hent.2.2.2.1, hn]
    have h0 := Initialize_eq_transform env s hl hi hm
    unfold Initialize_transform at h0
    rw [hTG, LOTUS_RETURN_IF_ERROR_ret, if_pos he1] at h0
    unfold Initialize_resolve at h0
    simp only [hsa, hres, Outcome.ofCall, LOTUS_RETURN_IF_ERROR_ret] at h0
    rw [if_pos he2] at h0
    unfold Initialize_kernels at h0
    rw [hSK, LOTUS_RETURN_IF_ERROR_ret, if_pos he3] at h0
    unfold Initialize_plan at h0
    rw [if_neg (by rw [hopt]; simp)] at h0
    exact h0
  · intro t htl hti hseq st s' h hok
    obtain ⟨e1, sa, model, e2, e3, sc, model2, e4, plan, e5, se, model3, hTG, he1, hsa, hres, he2,
      hSK, he3, _, hsc, hplan, he4, hSI, he5, hse, _, hs'⟩ := Initialize_ok_inv env t st s' htl hti h hok
    have hf1 : Frame _ sa := Framed_ret (TransformGraph_framed env _) hTG
    have hf3 : Frame _ sc := Framed_ret (SaveKernelsAndMLValueNameIndexMapping_framed env _) hSK
    have hopt : sc.session_options_ = t.session_options_ := by
      rw [hf3.session_options_, (Frame.withGraph sa _).session_options_, hf1.session_options_,
        (Initialize_entry_frame t).2.2.2.1]
    refine ⟨sc, model2, e4, plan, hsc, by rw [← hopt]; exact hplan, he4, ?_⟩
    have hw : OnlyWeights _ se := Keeps_ret (SaveInitializedTensors_only_weights env _) hSI
    rw [hs', hw.1]
    rfl

/-- C15 at the session of the tests built for a non-sequential mode and loaded with mul_1:
`Initialize` returns the not-implemented error, stores no plan and no weights, and the session stays
uninitialized. -/
theorem Initialize_non_sequential_not_implemented_witness :
    Fixture.loaded_nonseq.is_model_loaded_ = true ∧ Fixture.loaded_nonseq.is_inited_ = false ∧
    Fixture.loaded_nonseq.session_options_.enable_sequential_execution = false ∧
    (∃ sc, Initialize Fixture.env Fixture.loaded_nonseq
        = Outcome.ret (Fixture.not_implemented Fixture.env) sc ∧
      (Fixture.not_implemented Fixture.env).IsOK = false ∧ sc.is_inited_ = false ∧
      sc.session_state_.p_seq_exec_plan_ = Fixture.loaded_nonseq.session_state_.p_seq_exec_plan_ ∧
      sc.session_state_.initialized_tensors_
        = Fixture.loaded_nonseq.session_state_.initialized_tensors_ ∧
      sc.weights_buffers_ = Fixture.loaded_nonseq.weights_buffers_) :=
  ⟨rfl, rfl, rfl, _, rfl,
    (Initialize_non_sequential_not_implemented Fixture.env Fixture.loaded_nonseq rfl rfl rfl).1
      (Fixture.not_implemented Fixture.env) _ rfl⟩


/-! ### The fallback of the memory-pattern strategy -/

/-- C19, at the failing input: the session of the tests loaded with mul_1, memory patterns enabled,
and a planner whose pattern for the CPU location has no block for the weight W (value index 1).
`Initialize` succeeds, the arena of the location was allocated, the payload of W was deserialized
into a CPU buffer, and yet the value stored for index 1 holds a null tensor: the tensor went to the
`MLValue` local to the fallback branch, and the outer `mlvalue.Init(p_tensor.release(), ...)` found
`p_tensor` empty.  The separate-buffer strategy stores the deserialized tensor for the same weight. -/
theorem MemPattern_fallback_stores_null_tensor :
    Fixture.env_no_block.GeneratePatterns Fixture.loaded.session_state_ [(1, Fixture.W_proto)]
      = Call.ret (Status.OK,
          { locations := [Fixture.cpu_location], patterns := [{ patterns := [], peak_size_ := 0 }] }) ∧
    (({ patterns := [], peak_size_ := 0 } : MemoryPattern).GetBlock 1 = none) ∧
    Fixture.env_no_block.GetTensorFromTensorProto Fixture.W_proto Fixture.cpu_location
      = Call.ret (Status.OK, some Fixture.W_tensor) ∧
    (∃ s', Initialize Fixture.env_no_block Fixture.loaded = Outcome.ret Status.OK s' ∧
      s'.session_state_.GetMLValueIdx "W" = Except.ok 1 ∧
      (weights_buffers_find s'.weights_buffers_ Fixture.cpu_location).isSome = true ∧
      s'.session_state_.initialized_tensors_ = [(1, { pData := none })]) ∧
    (∃ s', Initialize Fixture.env Fixture.loaded_separate = Outcome.ret Status.OK s' ∧
      s'.session_state_.initialized_tensors_ = [(1, { pData := some Fixture.W_tensor })]) ∧
    (∃ s', Initialize Fixture.env Fixture.loaded = Outcome.ret Status.OK s' ∧
      s'.session_state_.initialized_tensors_ = [(1, { pData := some Fixture.W_tensor })]) :=
  ⟨rfl, rfl, rfl, ⟨_, rfl, rfl, rfl, rfl⟩, ⟨_, rfl, rfl⟩, ⟨_, rfl, rfl⟩⟩


/-! ### One arena per location -/

theorem ArenaKept_refl (L : AllocatorInfo) (s : Impl) : ArenaKept L s s :=
  ⟨rfl, [], by simp, fun _ h => by cases h⟩

theorem ArenaKept_trans (L : AllocatorInfo) (a b c : Impl) (hab : ArenaKept L a b)
    (hbc : ArenaKept L b c) : ArenaKept L a c := by
  obtain ⟨h1, n1, hc1, hn1⟩ := hab
  obtain ⟨h2, n2, hc2, hn2⟩ := hbc
  refine ⟨h2.trans h1, n1 ++ n2, by rw [hc2, hc1, List.append_assoc], fun size h => ?_⟩
  rcases List.mem_append.1 h with h | h
  · exact hn1 size h
  · exact hn2 size h

theorem SameBuffers_refl (s : Impl) : SameBuffers s s := ⟨rfl, rfl⟩

theorem SameBuffers_trans (a b c : Impl) (hab : SameBuffers a b) (hbc : SameBuffers b c) :
    SameBuffers a c :=
  ⟨hbc.1.trans hab.1, hbc.2.trans hab.2⟩

theorem ArenaKept_of_same (L : AllocatorInfo) (a b : Impl) (h : SameBuffers a b) : ArenaKept L a b :=
  ⟨by rw [h.1], [], by rw [h.2]; simp, fun _ h => by cases h⟩

theorem ArenaKept_of_only_graph (L : AllocatorInfo) (a b : Impl) (h : OnlyGraph a b) :
    ArenaKept L a b :=
  ArenaKept_of_same L a b ⟨by rw [h.1], by rw [h.1]⟩

theorem ArenaKept_of_only_kernels (L : AllocatorInfo) (a b : Impl) (h : OnlyKernels a b) :
    ArenaKept L a b := by
  obtain ⟨h1, new, hc, hn⟩ := h
  refine ⟨by rw [h1], new, hc, fun size hmem => ?_⟩
  obtain ⟨n, hk | hk⟩ := hn _ hmem
  · cases hk
  · cases hk

/-- The allocator `GetAllocator` finds for a location is tied to that location. -/
theorem GetAllocator_location (ss : SessionState) (location alloc : AllocatorInfo)
    (h : ss.GetAllocator location = some alloc) : alloc = location := by
  unfold SessionState.GetAllocator at h
  rw [Option.map_eq_some'] at h
  obtain ⟨p, hp, hpa⟩ := h
  have := List.find?_some hp
  rw [← hpa]
  simpa using this

theorem weights_buffers_find_assign_ne (m : List (AllocatorInfo × BufferUniquePtr))
    (location L : AllocatorInfo) (b : BufferUniquePtr) (hne : location ≠ L) :
    weights_buffers_find (weights_buffers_assign m location b) L = weights_buffers_find m L := by
  unfold weights_buffers_find weights_buffers_assign
  congr 1
  induction m with
  | nil => simp [hne]
  | cons e rest ih =>
    obtain ⟨k, v⟩ := e
    by_cases h1 : k = location
    · subst h1
      simp only [List.filter_cons, decide_True, Bool.not_true, Bool.false_eq_true, if_false,
        List.find?_cons, hne, decide_False]
      exact ih
    · by_cases h3 : k = L
      · subst h3
        simp [List.filter_cons, h1]
      · simp only [List.filter_cons, h1, decide_False, Bool.not_false, if_true, List.cons_append,
          List.find?_cons, h3]
        exact ih


theorem SaveInitializedTensorsWithSeperateBuffer_entries_same_buffers (env : Env)
    (alloc : AllocatorInfo) (entries : List (String × TensorProto)) (s : Impl) :
    Keeps SameBuffers s (SaveInitializedTensorsWithSeperateBuffer_entries env alloc entries s) := by
  induction entries generalizing s with
  | nil => exact SameBuffers_refl s
  | cons entry rest ih =>
    unfold SaveInitializedTensorsWithSeperateBuffer_entries
    simp only []
    split
    · exact SameBuffers_refl s
    · refine Keeps_andThen (Keeps_ofCall _ _ _ (SameBuffers_refl s)) fun r s1 _ h1 => ?_
      split
      · exact h1
      · exact Keeps_of_rel SameBuffers_trans (SameBuffers_trans _ _ _ h1 ⟨rfl, rfl⟩) (ih _)

theorem SaveInitializedTensorsWithSeperateBuffer_same_buffers (env : Env) (s : Impl) :
    Keeps SameBuffers s (SaveInitializedTensorsWithSeperateBuffer env s) := by
  unfold SaveInitializedTensorsWithSeperateBuffer
  split
  · trivial
  · simp only []
    refine Keeps_ENFORCE (SameBuffers_refl s) ?_
    split
    · exact SameBuffers_refl s
    · exact SaveInitializedTensorsWithSeperateBuffer_entries_same_buffers env _ _ s

theorem SaveInitializedTensorsWithMemPattern_trace_same_buffers (env : Env)
    (entries : List (String × TensorProto)) (planner : List (Int × TensorProto)) (s : Impl) :
    Keeps SameBuffers s (SaveInitializedTensorsWithMemPattern_trace env entries planner s) := by
  induction entries generalizing planner s with
  | nil => exact SameBuffers_refl s
  | cons entry rest ih =>
    unfold SaveInitializedTensorsWithMemPattern_trace
    simp only []
    split
    · exact SameBuffers_refl s
    · refine Keeps_andThen (Keeps_ofCall _ _ _ (SameBuffers_refl s)) fun r s1 _ h1 => ?_
      split
      · exact h1
      · exact Keeps_of_rel SameBuffers_trans h1 (ih _ _)

theorem SaveInitializedTensorsWithMemPattern_create_same_buffers (env : Env)
    (execution_plan : SequentialExecutionPlan) (mem_patterns : MemoryPatternGroup)
    (entries : List (String × TensorProto)) (s : Impl) :
    Keeps SameBuffers s
      (SaveInitializedTensorsWithMemPattern_create env execution_plan mem_patterns entries s) := by
  induction entries generalizing s with
  | nil => exact SameBuffers_refl s
  | cons entry rest ih =>
    unfold SaveInitializedTensorsWithMemPattern_create
    simp only []
    split
    · exact SameBuffers_refl s
    · split
      · trivial
      · split
        · trivial
        · split
          · exact SameBuffers_refl s
          · split
            · trivial
            · refine Keeps_andThen ?_ fun r s1 _ h1 => ?_
              · split
                · split
                  · exact SameBuffers_refl s
                  · refine Keeps_andThen (Keeps_ofCall _ _ _ (SameBuffers_refl s)) fun r s1 _ h1 => ?_
                    split <;> exact h1
                · exact Keeps_ofCall _ _ _ (SameBuffers_refl s)
              · split
                · exact h1
                · exact Keeps_of_rel SameBuffers_trans (SameBuffers_trans _ _ _ h1 ⟨rfl, rfl⟩) (ih _)

/-- The allocation loop leaves alone the arena of a location that already has one. -/
theorem SaveInitializedTensorsWithMemPattern_alloc_arena_kept (env : Env)
    (mem_patterns : MemoryPatternGroup) (L : AllocatorInfo) (i : Nat) (locations : List AllocatorInfo)
    (s : Impl) (hL : (weights_buffers_find s.weights_buffers_ L).isSome = true) :
    Keeps (ArenaKept L) s (SaveInitializedTensorsWithMemPattern_alloc env mem_patterns i locations s) := by
  induction locations generalizing i s with
  | nil => exact ArenaKept_refl L s
  | cons location rest ih =>
    unfold SaveInitializedTensorsWithMemPattern_alloc
    by_cases hloc : (weights_buffers_find s.weights_buffers_ location).isNone = true
    · have hne : location ≠ L := by
        intro h
        rw [h] at hloc
        rw [Option.isNone_iff_eq_none] at hloc
        rw [hloc] at hL
        cases hL
      refine Keeps_ENFORCE (ArenaKept_refl L s) ?_
      cases hall : s.session_state_.GetAllocator location with
      | none => exact ArenaKept_refl L s
      | some alloc =>
        have halloc := GetAllocator_location _ _ _ hall
        subst halloc
        simp only []
        cases hpat : mem_patterns.patterns[i]? with
        | none => trivial
        | some pattern =>
          simp only []
          have hlog : ArenaKept L s (s.logCall (CollaboratorCall.Alloc alloc pattern.peak_size)) :=
            ⟨rfl, [CollaboratorCall.Alloc alloc pattern.peak_size], rfl, fun size hmem => by
              rw [List.mem_singleton] at hmem
              injection hmem with h1 _
              exact hne h1.symm⟩
          refine Keeps_andThen (Keeps_ofCall _ _ _ hlog) fun buffer s1 ho h1 => ?_
          have hstep : ArenaKept L s1
              { s1 with weights_buffers_ :=
                  weights_buffers_assign s1.weights_buffers_ alloc { buffer := buffer, alloc := alloc } } :=
            ⟨weights_buffers_find_assign_ne _ _ _ _ hne, [], by simp, fun _ h => by cases h⟩
          refine Keeps_of_rel (ArenaKept_trans L) (ArenaKept_trans L _ _ _ h1 hstep) (ih _ _ ?_)
          rw [hstep.1, h1.1]
          exact hL
    · unfold LOTUS_ENFORCE
      rw [if_neg hloc]
      exact ArenaKept_refl L s

/-- The allocation loop over locations one of which already has an arena does not return success. -/
theorem SaveInitializedTensorsWithMemPattern_alloc_never_ok (env : Env)
    (mem_patterns : MemoryPatternGroup) (L : AllocatorInfo) (i : Nat) (locations : List AllocatorInfo)
    (s : Impl) (hmem : L ∈ locations)
    (hL : (weights_buffers_find s.weights_buffers_ L).isSome = true) (st : Status) (s' : Impl)
    (h : SaveInitializedTensorsWithMemPattern_alloc env mem_patterns i locations s
      = Outcome.ret st s') : st.IsOK = false := by
  induction locations generalizing i s with
  | nil => cases hmem
  | cons location rest ih =>
    unfold SaveInitializedTensorsWithMemPattern_alloc at h
    by_cases hloc : (weights_buffers_find s.weights_buffers_ location).isNone = true
    · have hne : location ≠ L := by
        intro h
        rw [h] at hloc
        rw [Option.isNone_iff_eq_none] at hloc
        rw [hloc] at hL
        cases hL
      unfold LOTUS_ENFORCE at h
      rw [if_pos hloc] at h
      cases hall : s.session_state_.GetAllocator location with
      | none =>
        rw [hall] at h
        injection h with h1 _
        rw [← h1]
        rfl
      | some alloc =>
        rw [hall] at h
        have halloc := GetAllocator_location _ _ _ hall
        subst halloc
        simp only [] at h
        cases hpat : mem_patterns.patterns[i]? with
        | none =>
          rw [hpat] at h
          cases h
        | some pattern =>
          rw [hpat] at h
          simp only [] at h
          obtain ⟨buffer, s1, ho, hk⟩ := andThen_ret_inv h
          obtain ⟨_, hs1⟩ := ofCall_ret_inv ho
          refine ih (i + 1) _ ?_ ?_ hk
          · rcases List.mem_cons.1 hmem with h | h
            · exact absurd h.symm hne
            · exact h
          · rw [hs1]
            show (weights_buffers_find (weights_buffers_assign s.weights_buffers_ alloc _) L).isSome = true
            rw [weights_buffers_find_assign_ne _ _ _ _ hne]
            exact hL
    · unfold LOTUS_ENFORCE at h
      rw [if_neg hloc] at h
      cases h

/-- The allocation loop that starts at a location which already has an arena enforce-fails there,
with the session as it was. -/
theorem SaveInitializedTensorsWithMemPattern_alloc_conflict (env : Env)
    (mem_patterns : MemoryPatternGroup) (L : AllocatorInfo) (i : Nat) (rest : List AllocatorInfo)
    (s : Impl) (hL : (weights_buffers_find s.weights_buffers_ L).isSome = true) :
    SaveInitializedTensorsWithMemPattern_alloc env mem_patterns i (L :: rest) s
      = Outcome.raise
          (Thrown.std_exception
            (env.LOTUS_ENFORCE_what "weights_buffers_.find(location) == weights_buffers_.end()")) s := by
  unfold SaveInitializedTensorsWithMemPattern_alloc LOTUS_ENFORCE
  rw [if_neg]
  rw [Option.isSome_iff_exists] at hL
  obtain ⟨b, hb⟩ := hL
  rw [hb]
  simp


theorem SaveInitializedTensorsWithMemPattern_arena_kept (env : Env) (L : AllocatorInfo) (s : Impl)
    (hL : (weights_buffers_find s.weights_buffers_ L).isSome = true) :
    Keeps (ArenaKept L) s (SaveInitializedTensorsWithMemPattern env s) := by
  unfold SaveInitializedTensorsWithMemPattern
  split
  · trivial
  · simp only []
    refine Keeps_ENFORCE (ArenaKept_refl L s) ?_
    split
    · exact ArenaKept_refl L s
    · refine Keeps_andThen
        (Keeps_mono (ArenaKept_of_same L) (SaveInitializedTensorsWithMemPattern_trace_same_buffers env _ _ s))
        fun t s1 _ h1 => ?_
      split
      · exact h1
      · refine Keeps_andThen (Keeps_ofCall _ _ _ h1) fun g s2 _ h2 => ?_
        split
        · exact h2
        · refine Keeps_RETURN_IF_ERROR
            (Keeps_of_rel (ArenaKept_trans L) h2
              (SaveInitializedTensorsWithMemPattern_alloc_arena_kept env _ L _ _ s2
                (by rw [h2.1]; exact hL)))
            fun _ s3 _ h3 =>
              Keeps_of_rel (ArenaKept_trans L) h3
                (Keeps_mono (ArenaKept_of_same L)
                  (SaveInitializedTensorsWithMemPattern_create_same_buffers env _ _ _ s3))

theorem SaveInitializedTensors_arena_kept (env : Env) (L : AllocatorInfo) (s : Impl)
    (hL : (weights_buffers_find s.weights_buffers_ L).isSome = true) :
    Keeps (ArenaKept L) s (SaveInitializedTensors env s) := by
  unfold SaveInitializedTensors
  simp only []
  split
  · exact SaveInitializedTensorsWithMemPattern_arena_kept env L s hL
  · exact Keeps_mono (ArenaKept_of_same L) (SaveInitializedTensorsWithSeperateBuffer_same_buffers env s)

/-- A memory-pattern materialization that returns success generated a pattern group none of whose
locations had an arena before. -/
theorem SaveInitializedTensorsWithMemPattern_ok_inv (env : Env) (s : Impl) (st : Status) (s' : Impl)
    (h : SaveInitializedTensorsWithMemPattern env s = Outcome.ret st s') (hok : st.IsOK = true) :
    ∃ (ss : SessionState) (traced : List (Int × TensorProto)) (e : Status) (g : MemoryPatternGroup),
      env.GeneratePatterns ss traced = Call.ret (e, g) ∧ e.IsOK = true ∧
      ∀ L ∈ g.locations, weights_buffers_find s.weights_buffers_ L = none := by
  unfold SaveInitializedTensorsWithMemPattern at h
  cases hm : s.model_ with
  | none =>
    rw [hm] at h
    cases h
  | some model =>
    rw [hm] at h
    simp only [] at h
    unfold LOTUS_ENFORCE at h
    by_cases hn : decide (s.session_state_.GetNumMLValues > 0) = true
    · rw [if_pos hn] at h
      cases hp : s.session_state_.GetExecutionPlan with
      | none =>
        rw [hp] at h
        cases h
      | some execution_plan =>
        rw [hp] at h
        simp only [] at h
        obtain ⟨t, s1, htr, h1⟩ := andThen_ret_inv h
        have hs1 : SameBuffers s s1 :=
          Keeps_ret (SaveInitializedTensorsWithMemPattern_trace_same_buffers env _ _ s) htr
        by_cases ht : t.1.IsOK = true
        · rw [if_neg (by simp [ht])] at h1
          obtain ⟨g, s2, hg, h2⟩ := andThen_ret_inv h1
          obtain ⟨hg2, hs2⟩ := ofCall_ret_inv hg
          by_cases hgok : g.1.IsOK = true
          · rw [if_neg (by simp [hgok])] at h2
            obtain ⟨e3, s3, hal, he3, _⟩ := RETURN_IF_ERROR_ok_inv h2 hok
            refine ⟨s1.session_state_, t.2, g.1, g.2, hg2, hgok, fun L hLmem => ?_⟩
            cases hf : weights_buffers_find s.weights_buffers_ L with
            | none => rfl
            | some b =>
              have hsome : (weights_buffers_find s2.weights_buffers_ L).isSome = true := by
                rw [hs2, hs1.1, hf]
                rfl
              have hno := SaveInitializedTensorsWithMemPattern_alloc_never_ok env g.2 L 0
                g.2.locations s2 hLmem hsome e3 s3 hal
              rw [he3] at hno
              cases hno
          · rw [if_pos (by simp [hgok])] at h2
            injection h2 with h2a _
            rw [h2a] at hgok
            exact absurd hok hgok
        · rw [if_pos (by simp [ht])] at h1
          injection h1 with h1a _
          rw [h1a] at ht
          exact absurd hok ht
    · rw [if_neg hn] at h
      cases h

/-- A transitive relation kept by the weight materialization on every session related to `s`, by the
storing of a plan, by graph rewrites and by the setting of the initialized flag is kept by the
planning part of `Initialize`. -/
theorem Initialize_plan_keeps_of_weights {R : Impl → Impl → Prop} (env : Env)
    (hr : ∀ a, R a a) (ht : ∀ a b c, R a b → R b c → R a c)
    (hG : ∀ a b, OnlyGraph a b → R a b)
    (hP : ∀ a plan, R a { a with session_state_ := a.session_state_.SetExecutionPlan plan })
    (hI : ∀ a, R a { a with is_inited_ := true }) (s : Impl)
    (hW : ∀ b, R s b → Keeps R b (SaveInitializedTensors env b)) :
    Keeps R s (Initialize_plan env s) := by
  unfold Initialize_plan
  split
  · split
    · trivial
    · refine Keeps_andThen (Keeps_ofCall _ _ _ (hr s)) fun r s1 _ h1 => ?_
      split
      · exact h1
      · unfold Initialize_materialize
        refine Keeps_RETURN_IF_ERROR
          (Keeps_of_rel ht (ht _ _ _ h1 (hP s1 r.2)) (hW _ (ht _ _ _ h1 (hP s1 r.2))))
          fun _ s2 _ h2 => ?_
        split
        · trivial
        · exact ht _ _ _ h2 (ht _ _ _ (hG _ _ (OnlyGraph_withGraph s2 _)) (hI _))
  · unfold LOTUS_NOT_IMPLEMENTED
    exact hr s

/-- A location that has an arena when `Initialize` is called keeps it: `Initialize` neither replaces
its buffer nor calls `Alloc` on it. -/
theorem Initialize_arena_kept (env : Env) (L : AllocatorInfo) (s : Impl)
    (hl : s.is_model_loaded_ = true) (hi : s.is_inited_ = false)
    (hL : (weights_buffers_find s.weights_buffers_ L).isSome = true) :
    Keeps (ArenaKept L) s (Initialize env s) := by
  have hE : ArenaKept L s (Initialize_entry s) :=
    ArenaKept_of_same L _ _ ⟨(Initialize_entry_storage s).2.2.2, (Initialize_entry_frame s).2.2.2.2.2.2⟩
  refine Keeps_of_rel (ArenaKept_trans L) hE ?_
  unfold Initialize Initialize_try
  rw [if_neg (by simp [hl]), if_neg (by simp [hi])]
  refine Keeps_Initialize_catch ?_
  split
  · trivial
  · refine Initialize_transform_keeps_of_plan env (ArenaKept_trans L) (ArenaKept_of_only_graph L)
      (ArenaKept_of_only_kernels L) _ fun a ha => ?_
    have hLa : (weights_buffers_find a.weights_buffers_ L).isSome = true := by
      rw [ha.1, hE.1]
      exact hL
    refine Initialize_plan_keeps_of_weights env (ArenaKept_refl L) (ArenaKept_trans L)
      (ArenaKept_of_only_graph L) (fun _ _ => ArenaKept_of_same L _ _ ⟨rfl, rfl⟩)
      (fun _ => ArenaKept_of_same L _ _ ⟨rfl, rfl⟩) a fun b hb => ?_
    exact SaveInitializedTensors_arena_kept env L b (by rw [hb.1]; exact hLa)


/-- A successful `Initialize` with memory patterns enabled generated a pattern group none of whose
locations had an arena when `Initialize` was called. -/
theorem Initialize_mem_pattern_ok_inv (env : Env) (s : Impl) (st : Status) (s' : Impl)
    (hl : s.is_model_loaded_ = true) (hi : s.is_inited_ = false)
    (hmem : s.session_state_.enable_mem_pattern_ = true)
    (h : Initialize env s = Outcome.ret st s') (hok : st.IsOK = true) :
    ∃ (ss : SessionState) (traced : List (Int × TensorProto)) (e : Status) (g : MemoryPatternGroup),
      env.GeneratePatterns ss traced = Call.ret (e, g) ∧ e.IsOK = true ∧
      ∀ L ∈ g.locations, weights_buffers_find s.weights_buffers_ L = none := by
  obtain ⟨e1, sa, model, e2, e3, sc, model2, e4, plan, e5, se, model3, hTG, he1, hsa, hres, he2,
    hSK, he3, _, hsc, hplan, he4, hSI, he5, hse, _, hs'⟩ := Initialize_ok_inv env s st s' hl hi h hok
  have hf1 : Frame _ sa := Framed_ret (TransformGraph_framed env _) hTG
  have hf3 : Frame _ sc := Framed_ret (SaveKernelsAndMLValueNameIndexMapping_framed env _) hSK
  have hg1 : OnlyGraph _ sa := Keeps_ret (TransformGraph_only_graph env _) hTG
  have hk3 : OnlyKernels _ sc :=
    Keeps_ret (SaveKernelsAndMLValueNameIndexMapping_only_kernels env _) hSK
  have hwb : sc.weights_buffers_ = s.weights_buffers_ := by
    have a1 : sc.weights_buffers_
        = (sa.withGraph (env.Graph_Resolve model.MainGraph).1).weights_buffers_ := by rw [hk3.1]
    have a2 : sa.weights_buffers_ = (Initialize_entry s).weights_buffers_ := by rw [hg1.1]
    rw [a1]
    exact a2.trans (Initialize_entry_storage s).2.2.2
  have hen : sc.session_state_.enable_mem_pattern_ = true := by
    rw [hf3.enable_mem_pattern_, (Frame.withGraph sa _).enable_mem_pattern_, hf1.enable_mem_pattern_,
      Initialize_entry_enable_mem_pattern, hmem]
  unfold SaveInitializedTensors at hSI
  simp only [] at hSI
  rw [if_pos (by
    simp only [SessionState.GetEnableMemoryPattern, SessionState.GetExecutionPlan,
      SessionState.SetExecutionPlan, hen]
    rfl)] at hSI
  obtain ⟨ss, traced, e, g, hgen, hge, hnone⟩ :=
    SaveInitializedTensorsWithMemPattern_ok_inv env _ e5 se hSI he5
  exact ⟨ss, traced, e, g, hgen, hge, fun L hLmem => by
    rw [← hwb]
    exact hnone L hLmem⟩

/-- When the weights are traced, the pattern group is generated and its first location already has
an arena, the memory-pattern materialization enforce-fails, leaving the session as the tracing left it. -/
theorem SaveInitializedTensorsWithMemPattern_conflict (env : Env) (s : Impl) (model : Model)
    (plan : SequentialExecutionPlan) (t : Status × List (Int × TensorProto)) (s1 : Impl) (e : Status)
    (g : MemoryPatternGroup) (L : AllocatorInfo) (rest : List AllocatorInfo)
    (hm : s.model_ = some model) (hn : s.session_state_.GetNumMLValues > 0)
    (hp : s.session_state_.GetExecutionPlan = some plan)
    (htr : SaveInitializedTensorsWithMemPattern_trace env model.MainGraph.AllInitializedTensors [] s
      = Outcome.ret t s1) (ht : t.1.IsOK = true)
    (hg : env.GeneratePatterns s1.session_state_ t.2 = Call.ret (e, g)) (he : e.IsOK = true)
    (hloc : g.locations = L :: rest)
    (hL : (weights_buffers_find s.weights_buffers_ L).isSome = true) :
    SaveInitializedTensorsWithMemPattern env s
      = Outcome.raise
          (Thrown.std_exception
            (env.LOTUS_ENFORCE_what "weights_buffers_.find(location) == weights_buffers_.end()")) s1 := by
  have hs1 : SameBuffers s s1 :=
    Keeps_ret (SaveInitializedTensorsWithMemPattern_trace_same_buffers env _ _ s) htr
  unfold SaveInitializedTensorsWithMemPattern
  rw [hm]
  simp only []
  unfold LOTUS_ENFORCE
  rw [if_pos (by simpa using hn), hp]
  simp only []
  rw [htr]
  simp only [Outcome.andThen, ht, Bool.not_true, Bool.false_eq_true, if_false, hg, Outcome.ofCall, he,
    hloc]
  rw [SaveInitializedTensorsWithMemPattern_alloc_conflict env g L 0 rest s1 (by rw [hs1.1]; exact hL)]
  rfl

/-- An exception of the weight materialization becomes the status `Initialize` returns. -/
theorem Initialize_weights_exception (env : Env) (s : Impl)
    (hl : s.is_model_loaded_ = true) (hi : s.is_inited_ = false)
    (e1 : Status) (sa : Impl) (model : Model) (e2 e3 : Status) (sc : Impl) (model2 : Model)
    (e4 : Status) (plan : SequentialExecutionPlan) (what : String) (se : Impl)
    (hTG : TransformGraph env (Initialize_entry s) = Outcome.ret e1 sa) (he1 : e1.IsOK = true)
    (hsa : sa.model_ = some model)
    (hres : (env.Graph_Resolve model.MainGraph).2 = Call.ret e2) (he2 : e2.IsOK = true)
    (hSK : SaveKernelsAndMLValueNameIndexMapping env
      (sa.withGraph (env.Graph_Resolve model.MainGraph).1) = Outcome.ret e3 sc) (he3 : e3.IsOK = true)
    (hseq : sc.session_options_.enable_sequential_execution = true)
    (hsc : sc.model_ = some model2)
    (hplan : env.AllocationPlanner_CreatePlan sc.session_options_.allocation_planner_type
      sc.session_state_ model2.MainGraph = Call.ret (e4, plan)) (he4 : e4.IsOK = true)
    (hSI : SaveInitializedTensors env
      { sc with session_state_ := sc.session_state_.SetExecutionPlan plan }
      = Outcome.raise (Thrown.std_exception what) se) :
    Initialize env s
      = Outcome.ret
          ⟨StatusCategory.LOTUS, StatusCode.FAIL, "Exception during initialization: " ++ what⟩ se := by
  have hm : s.model_.isSome = true := by
    have := TransformGraph_ret_model env _ e1 sa hTG
    rwa [(Initialize_entry_frame s).2.2.1] at this
  have h0 := Initialize_eq_transform env s hl hi hm
  unfold Initialize_transform at h0
  rw [hTG, LOTUS_RETURN_IF_ERROR_ret, if_pos he1] at h0
  unfold Initialize_resolve at h0
  simp only [hsa, hres, Outcome.ofCall, LOTUS_RETURN_IF_ERROR_ret] at h0
  rw [if_pos he2] at h0
  unfold Initialize_kernels at h0
  rw [hSK, LOTUS_RETURN_IF_ERROR_ret, if_pos he3] at h0
  unfold Initialize_plan at h0
  rw [if_pos hseq] at h0
  simp only [hsc, hplan, Outcome.ofCall, Outcome.andThen] at h0
  rw [if_neg (by simp [he4])] at h0
  unfold Initialize_materialize at h0
  simp only [hsc] at hSI
  rw [hSI, LOTUS_RETURN_IF_ERROR_raise] at h0
  exact h0


/-- The allocation loop over locations one of which already has an arena enforce-fails, at that
location or before, when every location has an allocator and a pattern and `Alloc` returns. -/
theorem SaveInitializedTensorsWithMemPattern_alloc_enforce_fails (env : Env)
    (mem_patterns : MemoryPatternGroup) (L : AllocatorInfo) (i : Nat) (locations : List AllocatorInfo)
    (s : Impl) (hmem : L ∈ locations)
    (hL : (weights_buffers_find s.weights_buffers_ L).isSome = true)
    (hall : ∀ loc ∈ locations, (s.session_state_.GetAllocator loc).isSome = true)
    (hAlloc : ∀ alloc size, ∃ b, env.Alloc alloc size = Call.ret b)
    (hpat : i + locations.length ≤ mem_patterns.patterns.length) :
    ∃ s', SaveInitializedTensorsWithMemPattern_alloc env mem_patterns i locations s
      = Outcome.raise
          (Thrown.std_exception
            (env.LOTUS_ENFORCE_what "weights_buffers_.find(location) == weights_buffers_.end()")) s' := by
  induction locations generalizing i s with
  | nil => cases hmem
  | cons location rest ih =>
    unfold SaveInitializedTensorsWithMemPattern_alloc LOTUS_ENFORCE
    by_cases hloc : (weights_buffers_find s.weights_buffers_ location).isNone = true
    · have hne : location ≠ L := by
        intro h
        rw [h] at hloc
        rw [Option.isNone_iff_eq_none] at hloc
        rw [hloc] at hL
        cases hL
      rw [if_pos hloc]
      have hsome := hall location (List.mem_cons_self _ _)
      rw [Option.isSome_iff_exists] at hsome
      obtain ⟨alloc, halloc⟩ := hsome
      rw [halloc]
      simp only []
      have hi : i < mem_patterns.patterns.length := by
        simp only [List.length_cons] at hpat
        omega
      rw [List.getElem?_eq_getElem hi]
      simp only []
      obtain ⟨b, hb⟩ := hAlloc alloc mem_patterns.patterns[i].peak_size
      rw [hb]
      simp only [Outcome.ofCall, Outcome.andThen]
      refine ih (i + 1) _ ?_ ?_ (fun loc hl => hall loc (List.mem_cons_of_mem _ hl)) ?_
      · rcases List.mem_cons.1 hmem with h | h
        · exact absurd h.symm hne
        · exact h
      · show (weights_buffers_find (weights_buffers_assign s.weights_buffers_ location _) L).isSome = true
        rw [weights_buffers_find_assign_ne _ _ _ _ hne]
        exact hL
      · simp only [List.length_cons] at hpat
        omega
    · rw [if_neg hloc]
      exact ⟨s, rfl⟩

/-- When the weights are traced and the pattern group is generated with a location that already has
an arena, every location having an allocator and a pattern and `Alloc` returning, the memory-pattern
materialization enforce-fails. -/
theorem SaveInitializedTensorsWithMemPattern_enforce_fails (env : Env) (s : Impl) (model : Model)
    (plan : SequentialExecutionPlan) (t : Status × List (Int × TensorProto)) (s1 : Impl) (e : Status)
    (g : MemoryPatternGroup) (L : AllocatorInfo)
    (hm : s.model_ = some model) (hn : s.session_state_.GetNumMLValues > 0)
    (hp : s.session_state_.GetExecutionPlan = some plan)
    (htr : SaveInitializedTensorsWithMemPattern_trace env model.MainGraph.AllInitializedTensors [] s
      = Outcome.ret t s1) (ht : t.1.IsOK = true)
    (hg : env.GeneratePatterns s1.session_state_ t.2 = Call.ret (e, g)) (he : e.IsOK = true)
    (hmem : L ∈ g.locations)
    (hL : (weights_buffers_find s.weights_buffers_ L).isSome = true)
    (hall : ∀ loc ∈ g.locations, (s1.session_state_.GetAllocator loc).isSome = true)
    (hAlloc : ∀ alloc size, ∃ b, env.Alloc alloc size = Call.ret b)
    (hpat : g.locations.length ≤ g.patterns.length) :
    ∃ s', SaveInitializedTensorsWithMemPattern env s
      = Outcome.raise
          (Thrown.std_exception
            (env.LOTUS_ENFORCE_what "weights_buffers_.find(location) == weights_buffers_.end()")) s' := by
  have hs1 : SameBuffers s s1 :=
    Keeps_ret (SaveInitializedTensorsWithMemPattern_trace_same_buffers env _ _ s) htr
  obtain ⟨s', hs'⟩ := SaveInitializedTensorsWithMemPattern_alloc_enforce_fails env g L 0 g.locations s1
    hmem (by rw [hs1.1]; exact hL) hall hAlloc (by omega)
  refine ⟨s', ?_⟩
  unfold SaveInitializedTensorsWithMemPattern
  rw [hm]
  simp only []
  unfold LOTUS_ENFORCE
  rw [if_pos (by simpa using hn), hp]
  simp only []
  rw [htr]
  simp only [Outcome.andThen, ht, Bool.not_true, Bool.false_eq_true, if_false, hg, Outcome.ofCall, he]
  rw [hs']
  rfl

/-- The weight buffers and the memory-pattern option that the weight materialization of `Initialize`
starts from are those of the session `Initialize` was called on. -/
theorem Initialize_chain_buffers (env : Env) (s : Impl) (e1 : Status) (sa : Impl) (g : Graph)
    (e3 : Status) (sc : Impl)
    (hTG : TransformGraph env (Initialize_entry s) = Outcome.ret e1 sa)
    (hSK : SaveKernelsAndMLValueNameIndexMapping env (sa.withGraph g) = Outcome.ret e3 sc) :
    sc.weights_buffers_ = s.weights_buffers_ ∧
    sc.session_state_.enable_mem_pattern_ = s.session_state_.enable_mem_pattern_ := by
  have hf1 : Frame _ sa := Framed_ret (TransformGraph_framed env _) hTG
  have hf3 : Frame _ sc := Framed_ret (SaveKernelsAndMLValueNameIndexMapping_framed env _) hSK
  have hg1 : OnlyGraph _ sa := Keeps_ret (TransformGraph_only_graph env _) hTG
  have hk3 : OnlyKernels _ sc :=
    Keeps_ret (SaveKernelsAndMLValueNameIndexMapping_only_kernels env _) hSK
  constructor
  · have a1 : sc.weights_buffers_ = (sa.withGraph g).weights_buffers_ := by rw [hk3.1]
    have a2 : sa.weights_buffers_ = (Initialize_entry s).weights_buffers_ := by rw [hg1.1]
    rw [a1]
    exact a2.trans (Initialize_entry_storage s).2.2.2
  · rw [hf3.enable_mem_pattern_, (Frame.withGraph sa _).enable_mem_pattern_, hf1.enable_mem_pattern_,
      Initialize_entry_enable_mem_pattern]

/-! ### The value-index table -/

theorem indexFrom_length (k : Int) (l : List String) : (indexFrom k l).length = l.length := by
  induction l generalizing k with
  | nil => rfl
  | cons n rest ih => simp [indexFrom, ih]

theorem indexFrom_fst (k : Int) (l : List String) : (indexFrom k l).map Prod.fst = l := by
  induction l generalizing k with
  | nil => rfl
  | cons n rest ih => simp [indexFrom, ih]

theorem indexFrom_snd (k : Int) (l : List String) :
    (indexFrom k l).map Prod.snd = (List.range l.length).map fun (j : Nat) => k + (j : Int) := by
  induction l generalizing k with
  | nil => rfl
  | cons n rest ih =>
    simp only [indexFrom, List.map_cons, List.length_cons, List.range_succ_eq_map, ih, List.map_map,
      Nat.cast_zero, add_zero, List.cons.injEq, true_and]
    apply List.map_congr_left
    intro j _
    simp only [Function.comp, Nat.cast_succ]
    ring

theorem mem_firstOccurrences (names : List String) (m : String) :
    m ∈ firstOccurrences names ↔ m ∈ names := by
  induction names with
  | nil => simp [firstOccurrences]
  | cons n rest ih =>
    simp only [firstOccurrences, List.mem_cons, List.mem_filter, ih, bne_iff_ne, ne_eq]
    by_cases h : m = n
    · simp [h]
    · simp [h]

theorem firstOccurrences_nodup (names : List String) : (firstOccurrences names).Nodup := by
  induction names with
  | nil => simp [firstOccurrences]
  | cons n rest ih =>
    simp only [firstOccurrences, List.nodup_cons, List.mem_filter, bne_self_eq_false,
      Bool.false_eq_true, and_false, not_false_eq_true, true_and]
    exact ih.filter _

theorem indexNames_eq (names : List String) (c : Int) (t : List (String × Int)) :
    indexNames names c t
      = (c + (((firstOccurrences names).filter fun m => !(t.any fun e => e.1 == m)).length : Int),
         t ++ indexFrom c ((firstOccurrences names).filter fun m => !(t.any fun e => e.1 == m))) := by
  induction names generalizing c t with
  | nil => simp [indexNames, firstOccurrences, indexFrom]
  | cons n rest ih =>
    unfold indexNames
    by_cases h : (t.any fun e => e.1 == n) = true
    · rw [if_pos h, ih]
      have hf : ((firstOccurrences (n :: rest)).filter fun m => !(t.any fun e => e.1 == m))
          = ((firstOccurrences rest).filter fun m => !(t.any fun e => e.1 == m)) := by
        simp only [firstOccurrences, List.filter_cons, h, Bool.not_true, Bool.false_eq_true, if_false,
          List.filter_filter]
        apply List.filter_congr
        intro m _
        by_cases hm : m = n
        · subst hm
          simp [h]
        · simp [hm]
      rw [hf]
    · rw [if_neg h, ih]
      have hf : ((firstOccurrences (n :: rest)).filter fun m => !(t.any fun e => e.1 == m))
          = n :: ((firstOccurrences rest).filter fun m => !((t ++ [(n, c)]).any fun e => e.1 == m)) := by
        simp only [firstOccurrences, List.filter_cons, h, Bool.not_false, if_true,
          List.filter_filter, List.cons.injEq, true_and]
        apply List.filter_congr
        intro m _
        simp only [List.any_append, List.any_cons, List.any_nil, Bool.or_false, Bool.not_or]
        by_cases hm : m = n
        · subst hm
          simp
        · have : (n == m) = false := by simpa using fun h => hm h.symm
          simp [hm, this]
      rw [hf]
      simp only [List.length_cons, indexFrom, List.append_assoc, List.singleton_append, Nat.cast_succ]
      congr 1
      ring

theorem indexNames_fresh (names : List String) :
    (indexNames names 0 []).2 = firstSeenTable names := by
  rw [indexNames_eq]
  simp [firstSeenTable]

theorem indexNames_append (a b : List String) (c : Int) (t : List (String × Int)) :
    indexNames (a ++ b) c t = indexNames b (indexNames a c t).1 (indexNames a c t).2 := by
  induction a generalizing c t with
  | nil => rfl
  | cons n rest ih =>
    simp only [List.cons_append, indexNames]
    split
    · exact ih _ _
    · exact ih _ _

theorem find_indexFrom_none (l : List String) (c : Int) (m : String) (h : m ∉ l) :
    (indexFrom c l).find? (fun e => e.1 == m) = none := by
  induction l generalizing c with
  | nil => rfl
  | cons n rest ih =>
    have h1 : ¬ n = m := fun e => h (by rw [e]; exact List.mem_cons_self _ _)
    have h2 : m ∉ rest := fun e => h (List.mem_cons_of_mem _ e)
    have hb : (n == m) = false := by simpa using h1
    simp only [indexFrom, List.find?_cons, hb]
    exact ih (c + 1) h2

theorem find_indexFrom (l : List String) (hnd : l.Nodup) (c : Int) (k : Nat) (hk : k < l.length) :
    (indexFrom c l).find? (fun e => e.1 == l[k]) = some (l[k], c + (k : Int)) := by
  induction l generalizing c k with
  | nil => cases hk
  | cons n rest ih =>
    rw [List.nodup_cons] at hnd
    cases k with
    | zero => simp [indexFrom]
    | succ j =>
      have hj : j < rest.length := by simpa using hk
      have hne : ¬ n = rest[j] := fun e => hnd.1 (by rw [e]; exact List.getElem_mem _)
      simp only [indexFrom, List.getElem_cons_succ, List.find?_cons]
      have hb : (n == rest[j]) = false := by simpa using hne
      rw [hb]
      simp only []
      rw [ih hnd.2 (c + 1) j hj]
      simp only [Nat.cast_succ, Option.some.injEq, Prod.mk.injEq, true_and]
      ring


theorem SaveKernelsAndMLValueNameIndexMapping_defs_eq_indexNames (defs : List NodeArg)
    (curr_idx : Int) (ss : SessionState) :
    SaveKernelsAndMLValueNameIndexMapping_defs defs curr_idx ss
      = ((indexNames (defs.map NodeArg.Name) curr_idx ss.mlvalue_name_idx_map_).1,
         { ss with mlvalue_name_idx_map_ :=
            (indexNames (defs.map NodeArg.Name) curr_idx ss.mlvalue_name_idx_map_).2 }) := by
  induction defs generalizing curr_idx ss with
  | nil => rfl
  | cons d rest ih =>
    unfold SaveKernelsAndMLValueNameIndexMapping_defs
    simp only [List.map_cons, indexNames]
    cases hf : ss.mlvalue_name_idx_map_.find? (fun e => e.1 == d.Name) with
    | some e =>
      have hp : (fun x : String × Int => x.1 == d.Name) e = true :=
        List.find?_some (p := fun x : String × Int => x.1 == d.Name) hf
      have hany : (ss.mlvalue_name_idx_map_.any fun e => e.1 == d.Name) = true :=
        List.any_eq_true.2 ⟨e, List.mem_of_find?_eq_some hf, hp⟩
      have hg : ss.GetMLValueIdx d.Name = Except.ok e.2 := by
        unfold SessionState.GetMLValueIdx
        rw [hf]
      rw [hg, if_pos hany]
      exact ih _ _
    | none =>
      have hany : ¬ (ss.mlvalue_name_idx_map_.any fun e => e.1 == d.Name) = true := by
        intro h
        obtain ⟨x, hx, hp⟩ := List.any_eq_true.1 h
        exact (List.find?_eq_none.1 hf) x hx hp
      have hg : ss.GetMLValueIdx d.Name
          = Except.error ⟨StatusCategory.LOTUS, StatusCode.FAIL,
              "Could not find MLValue with name: " ++ d.Name⟩ := by
        unfold SessionState.GetMLValueIdx
        rw [hf]
      have ha : ss.AddMLValueNameIdx d.Name curr_idx
          = { ss with mlvalue_name_idx_map_ := ss.mlvalue_name_idx_map_ ++ [(d.Name, curr_idx)] } := by
        unfold SessionState.AddMLValueNameIdx
        rw [if_neg hany]
      rw [hg, if_neg hany]
      simp only []
      rw [ha, ih]

theorem CreateOpKernelInternal_session_state (env : Env) (node : Node) (allocator_info : AllocatorInfo)
    (exec_provider : IExecutionProvider) (p_op_kernel : Option OpKernel) (s : Impl) :
    Keeps (fun a b : Impl => b.session_state_ = a.session_state_) s
      (CreateOpKernelInternal env node allocator_info exec_provider p_op_kernel s) := by
  unfold CreateOpKernelInternal
  refine Keeps_andThen (Keeps_ofCall _ _ _ rfl) fun r s1 _ h1 => ?_
  split
  · exact Keeps_ofCall _ _ _ h1
  · exact h1

theorem CreateOpKernel_session_state (env : Env) (node : Node) (p_op_kernel : Option OpKernel)
    (s : Impl) :
    Keeps (fun a b : Impl => b.session_state_ = a.session_state_) s
      (CreateOpKernel env node p_op_kernel s) := by
  unfold CreateOpKernel
  simp only []
  split
  · exact rfl
  · split
    · trivial
    · exact CreateOpKernelInternal_session_state env node _ _ p_op_kernel s

/-- The table a successful kernel loop leaves is the table it started from, extended by the names of
the traversed nodes in first-seen order. -/
theorem SaveKernelsAndMLValueNameIndexMapping_nodes_table (env : Env) (graph : Graph)
    (nodes : List Node) (curr_idx : Int) (s : Impl) (st : Status) (s' : Impl)
    (h : SaveKernelsAndMLValueNameIndexMapping_nodes env graph nodes curr_idx s = Outcome.ret st s')
    (hok : st.IsOK = true) :
    s'.session_state_.mlvalue_name_idx_map_
      = (indexNames (traversedNames graph nodes) curr_idx s.session_state_.mlvalue_name_idx_map_).2 := by
  induction nodes generalizing curr_idx s with
  | nil =>
    unfold SaveKernelsAndMLValueNameIndexMapping_nodes at h
    injection h with _ h2
    rw [← h2]
    rfl
  | cons node rest ih =>
    unfold SaveKernelsAndMLValueNameIndexMapping_nodes at h
    unfold traversedNames
    by_cases hskip : (graph.IsSourceNode node.Index || graph.IsSinkNode node.Index) = true
    · rw [if_pos hskip] at h
      rw [if_pos hskip]
      exact ih _ _ h
    · rw [if_neg hskip] at h
      rw [if_neg hskip]
      obtain ⟨r, s1, hk, hcont⟩ := andThen_ret_inv h
      have hss : s1.session_state_ = s.session_state_ :=
        Keeps_ret (CreateOpKernel_session_state env node none s) hk
      by_cases hr : r.1.IsOK = true
      · rw [if_neg (by simp [hr])] at hcont
        have := ih _ _ hcont
        rw [this]
        simp only [SaveKernelsAndMLValueNameIndexMapping_defs_eq_indexNames, hss,
          indexNames_append]
        rfl
      · rw [if_pos (by simp [hr])] at hcont
        injection hcont with h1 _
        rw [h1] at hr
        exact absurd hok hr


theorem traversedNames_congr (g g2 : Graph) (h1 : g2.source_node_index = g.source_node_index)
    (h2 : g2.sink_node_index = g.sink_node_index) (nodes : List Node) :
    traversedNames g2 nodes = traversedNames g nodes := by
  induction nodes with
  | nil => rfl
  | cons node rest ih =>
    unfold traversedNames
    rw [ih]
    simp only [Graph.IsSourceNode, Graph.IsSinkNode, h1, h2]

/-- After a successful `Initialize` on a loaded session whose value-index table was empty, the table
is the first-seen table of the names traversed in the resolved graph, and the session holds that
graph with its weights cleaned. -/
theorem Initialize_table_of_resolved (env : Env) (s : Impl) (st : Status) (s' : Impl)
    (hl : s.is_model_loaded_ = true) (hi : s.is_inited_ = false)
    (hfresh : s.session_state_.mlvalue_name_idx_map_ = [])
    (h : Initialize env s = Outcome.ret st s') (hok : st.IsOK = true) :
    ∃ (e1 : Status) (sa : Impl) (model : Model),
      TransformGraph env (Initialize_entry s) = Outcome.ret e1 sa ∧ sa.model_ = some model ∧
      s'.model_ = some { model with
        MainGraph := (env.Graph_Resolve model.MainGraph).1.CleanAllInitializedTensors } ∧
      s'.session_state_.mlvalue_name_idx_map_
        = firstSeenTable (traversedNames (env.Graph_Resolve model.MainGraph).1
            (env.Graph_Resolve model.MainGraph).1.Nodes) := by
  obtain ⟨e1, sa, model, e2, e3, sc, model2, e4, plan, e5, se, model3, hTG, he1, hsa, hres, he2,
    hSK, he3, _, hsc, hplan, he4, hSI, he5, hse, _, hs'⟩ := Initialize_ok_inv env s st s' hl hi h hok
  have hg1 : OnlyGraph _ sa := Keeps_ret (TransformGraph_only_graph env _) hTG
  have hk3 : OnlyKernels _ sc :=
    Keeps_ret (SaveKernelsAndMLValueNameIndexMapping_only_kernels env _) hSK
  have hw : OnlyWeights _ se := Keeps_ret (SaveInitializedTensors_only_weights env _) hSI
  have hsm : (sa.withGraph (env.Graph_Resolve model.MainGraph).1).model_
      = some { model with MainGraph := (env.Graph_Resolve model.MainGraph).1 } := by
    simp [Impl.withGraph, hsa]
  have htab0 : sa.session_state_.mlvalue_name_idx_map_ = [] := by
    have a2 : sa.session_state_ = (Initialize_entry s).session_state_ := by rw [hg1.1]
    rw [a2, (Initialize_entry_storage s).2.2.1, hfresh]
  rw [SaveKernelsAndMLValueNameIndexMapping_eq env _ _ hsm] at hSK
  have htab := SaveKernelsAndMLValueNameIndexMapping_nodes_table env _ _ _ _ e3 sc hSK he3
  have htab1 : sc.session_state_.mlvalue_name_idx_map_
      = firstSeenTable (traversedNames (env.Graph_Resolve model.MainGraph).1
          (env.Graph_Resolve model.MainGraph).1.Nodes) := by
    rw [htab, ← indexNames_fresh]
    show (indexNames _ 0 sa.session_state_.mlvalue_name_idx_map_).2 = _
    rw [htab0]
  have hscm : sc.model_ = some { model with MainGraph := (env.Graph_Resolve model.MainGraph).1 } := by
    have a1 : sc.model_ = (sa.withGraph (env.Graph_Resolve model.MainGraph).1).model_ := by rw [hk3.1]
    rw [a1, hsm]
  have hsem : se.model_ = sc.model_ := by rw [hw.1]
  have hset : se.session_state_.mlvalue_name_idx_map_ = sc.session_state_.mlvalue_name_idx_map_ := by
    rw [hw.1]
    rfl
  have hm3 : model3 = { model with MainGraph := (env.Graph_Resolve model.MainGraph).1 } := by
    rw [hsem, hscm] at hse
    injection hse with hse
    exact hse.symm
  refine ⟨e1, sa, model, hTG, hsa, ?_, ?_⟩
  · rw [hs']
    simp [Impl.withGraph, hse, hm3]
  · have a3 : s'.session_state_.mlvalue_name_idx_map_ = se.session_state_.mlvalue_name_idx_map_ := by
      rw [hs']
      rfl
    rw [a3, hset, htab1]

theorem Initialize_table (env : Env) (s : Impl) (st : Status) (s' : Impl)
    (hl : s.is_model_loaded_ = true) (hi : s.is_inited_ = false)
    (hfresh : s.session_state_.mlvalue_name_idx_map_ = [])
    (h : Initialize env s = Outcome.ret st s') (hok : st.IsOK = true) :
    ∃ model2 : Model, s'.model_ = some model2 ∧
      s'.session_state_.mlvalue_name_idx_map_
        = firstSeenTable (traversedNames model2.MainGraph model2.MainGraph.Nodes) := by
  obtain ⟨e1, sa, model, _, _, hm, htab⟩ := Initialize_table_of_resolved env s st s' hl hi hfresh h hok
  refine ⟨_, hm, ?_⟩
  rw [htab]
  exact congrArg firstSeenTable
    (traversedNames_congr (env.Graph_Resolve model.MainGraph).1
      (env.Graph_Resolve model.MainGraph).1.CleanAllInitializedTensors rfl rfl
      (env.Graph_Resolve model.MainGraph).1.Nodes).symm

theorem TransformGraph_providers_model_congr (env : Env) (eps : List IExecutionProvider) (a b : Impl)
    (hm : b.model_ = a.model_) (e : Status) (sa : Impl)
    (h : TransformGraph_providers env eps a = Outcome.ret e sa) :
    ∃ sb, TransformGraph_providers env eps b = Outcome.ret e sb ∧ sb.model_ = sa.model_ := by
  induction eps generalizing a b with
  | nil =>
    unfold TransformGraph_providers at h ⊢
    injection h with h1 h2
    exact ⟨b, by rw [h1], by rw [hm, h2]⟩
  | cons ep rest ih =>
    unfold TransformGraph_providers at h ⊢
    rw [hm]
    cases hmod : a.model_ with
    | none =>
      rw [hmod] at h
      cases h
    | some model =>
      rw [hmod] at h
      simp only [] at h ⊢
      have hw : (b.withGraph (env.Provider_Transformer_Apply ep model.MainGraph).1).model_
          = (a.withGraph (env.Provider_Transformer_Apply ep model.MainGraph).1).model_ := by
        simp [Impl.withGraph, hm]
      cases hc : (env.Provider_Transformer_Apply ep model.MainGraph).2 with
      | throw x =>
        rw [hc] at h
        cases h
      | ret st1 =>
        rw [hc] at h
        simp only [Outcome.ofCall, LOTUS_RETURN_IF_ERROR_ret] at h ⊢
        by_cases hok : st1.IsOK = true
        · rw [if_pos hok] at h ⊢
          exact ih _ _ hw h
        · rw [if_neg hok] at h ⊢
          injection h with h1 h2
          exact ⟨_, by rw [h1], by rw [hw, h2]⟩

/-- What `TransformGraph` returns and the model it leaves depend on the session only through the
model, the transformer manager and the registered providers. -/
theorem TransformGraph_model_congr (env : Env) (a b : Impl) (hm : b.model_ = a.model_)
    (hg : b.graph_transformation_mgr_ = a.graph_transformation_mgr_)
    (hp : b.session_state_.exec_providers = a.session_state_.exec_providers) (e : Status) (sa : Impl)
    (h : TransformGraph env a = Outcome.ret e sa) :
    ∃ sb, TransformGraph env b = Outcome.ret e sb ∧ sb.model_ = sa.model_ := by
  unfold TransformGraph at h ⊢
  rw [hm, hg]
  cases hmod : a.model_ with
  | none =>
    rw [hmod] at h
    cases h
  | some model =>
    rw [hmod] at h
    simp only [] at h ⊢
    have hw : (b.withGraph
          (env.GraphTransformerManager_ApplyAll a.graph_transformation_mgr_ model.MainGraph).1).model_
        = (a.withGraph
          (env.GraphTransformerManager_ApplyAll a.graph_transformation_mgr_ model.MainGraph).1).model_ := by
      simp [Impl.withGraph, hm]
    cases hc : (env.GraphTransformerManager_ApplyAll a.graph_transformation_mgr_ model.MainGraph).2 with
    | throw x =>
      rw [hc] at h
      cases h
    | ret st1 =>
      rw [hc] at h
      simp only [Outcome.ofCall, LOTUS_RETURN_IF_ERROR_ret] at h ⊢
      by_cases hok : st1.IsOK = true
      · rw [if_pos hok] at h ⊢
        have hps : (b.withGraph (env.GraphTransformerManager_ApplyAll a.graph_transformation_mgr_
              model.MainGraph).1).session_state_.GetExecutionProviders
            = (a.withGraph (env.GraphTransformerManager_ApplyAll a.graph_transformation_mgr_
              model.MainGraph).1).session_state_.GetExecutionProviders := by
          show b.session_state_.GetExecutionProviders = a.session_state_.GetExecutionProviders
          unfold SessionState.GetExecutionProviders
          rw [hp]
        rw [hps]
        exact TransformGraph_providers_model_congr env _ _ _ hw e sa h
      · rw [if_neg hok] at h ⊢
        injection h with h1 h2
        exact ⟨_, by rw [h1], by rw [hw, h2]⟩


theorem Initialize_entry_transformers (s : Impl) :
    (Initialize_entry s).graph_transformation_mgr_ = s.graph_transformation_mgr_ := by
  unfold Initialize_entry
  simp only []
  split <;> rfl

/-- C12: let `Initialize` succeed on a loaded session that was not initialized and whose value-index
table was empty, as in a fresh session.  Then the table of the session is the first-seen table of the
names traversed in the graph it holds: nodes in graph order with source and sink left out, per node
the input names then the output names.  The k-th distinct name has index k; the indices are exactly
0, ..., n-1 and the keys exactly the n distinct names; a name that is not met in the traversal, such
as one occurring only on the source or sink node, has no index.  The table is determined by the
graph: a second session, whatever its collaborators, that ends with a graph of the same nodes and
the same source and sink has the same table, and so has a second session that starts from the same
model, transformers and providers with the same collaborators. -/
theorem value_index_first_seen (env : Env) (s : Impl) (st : Status) (s' : Impl)
    (hl : s.is_model_loaded_ = true) (hi : s.is_inited_ = false)
    (hfresh : s.session_state_.mlvalue_name_idx_map_ = [])
    (h : Initialize env s = Outcome.ret st s') (hok : st.IsOK = true) :
    ∃ model2 : Model, s'.model_ = some model2 ∧
      s'.session_state_.mlvalue_name_idx_map_
        = firstSeenTable (traversedNames model2.MainGraph model2.MainGraph.Nodes) ∧
      (∀ (k : Nat)
        (hk : k < (firstOccurrences (traversedNames model2.MainGraph model2.MainGraph.Nodes)).length),
        s'.session_state_.GetMLValueIdx
            ((firstOccurrences (traversedNames model2.MainGraph model2.MainGraph.Nodes))[k])
          = Except.ok (k : Int)) ∧
      s'.session_state_.mlvalue_name_idx_map_.map Prod.snd
        = (List.range
            (firstOccurrences (traversedNames model2.MainGraph model2.MainGraph.Nodes)).length).map
            (fun (j : Nat) => (j : Int)) ∧
      s'.session_state_.mlvalue_name_idx_map_.map Prod.fst
        = firstOccurrences (traversedNames model2.MainGraph model2.MainGraph.Nodes) ∧
      (∀ name, name ∉ traversedNames model2.MainGraph model2.MainGraph.Nodes →
        s'.session_state_.GetMLValueIdx name
          = Except.error ⟨StatusCategory.LOTUS, StatusCode.FAIL,
              "Could not find MLValue with name: " ++ name⟩) ∧
      (∀ (env2 : Env) (t : Impl) (st2 : Status) (t' : Impl) (model3 : Model),
        t.is_model_loaded_ = true → t.is_inited_ = false →
        t.session_state_.mlvalue_name_idx_map_ = [] →
        Initialize env2 t = Outcome.ret st2 t' → st2.IsOK = true →
        t'.model_ = some model3 →
        model3.MainGraph.Nodes = model2.MainGraph.Nodes →
        model3.MainGraph.source_node_index = model2.MainGraph.source_node_index →
        model3.MainGraph.sink_node_index = model2.MainGraph.sink_node_index →
        t'.session_state_.mlvalue_name_idx_map_ = s'.session_state_.mlvalue_name_idx_map_) ∧
      (∀ (t : Impl) (st2 : Status) (t' : Impl),
        t.is_model_loaded_ = true → t.is_inited_ = false →
        t.session_state_.mlvalue_name_idx_map_ = [] →
        t.model_ = s.model_ → t.graph_transformation_mgr_ = s.graph_transformation_mgr_ →
        t.session_state_.exec_providers = s.session_state_.exec_providers →
        Initialize env t = Outcome.ret st2 t' → st2.IsOK = true →
        t'.session_state_.mlvalue_name_idx_map_ = s'.session_state_.mlvalue_name_idx_map_) := by
  obtain ⟨model2, hm2, htab⟩ := Initialize_table env s st s' hl hi hfresh h hok
  refine ⟨model2, hm2, htab, fun k hk => ?_, ?_, ?_, fun name hname => ?_, ?_, ?_⟩
  · unfold SessionState.GetMLValueIdx
    rw [htab]
    unfold firstSeenTable
    rw [find_indexFrom _ (firstOccurrences_nodup _) 0 k hk]
    simp
  · rw [htab]
    unfold firstSeenTable
    rw [indexFrom_snd]
    simp
  · rw [htab]
    unfold firstSeenTable
    rw [indexFrom_fst]
  · unfold SessionState.GetMLValueIdx
    rw [htab]
    unfold firstSeenTable
    rw [find_indexFrom_none _ 0 name (fun hmem => hname ((mem_firstOccurrences _ _).1 hmem))]
  · intro env2 t st2 t' model3 htl hti htf ht hok2 hm3 hnodes hsrc hsnk
    obtain ⟨model4, hm4, htab2⟩ := Initialize_table env2 t st2 t' htl hti htf ht hok2
    rw [hm3] at hm4
    injection hm4 with hm4
    subst hm4
    rw [htab, htab2, hnodes, traversedNames_congr model2.MainGraph model3.MainGraph hsrc hsnk]
  · intro t st2 t' htl hti htf htm htg htp ht hok2
    obtain ⟨e1, sa, model, hTG, hsa, _, htabs⟩ :=
      Initialize_table_of_resolved env s st s' hl hi hfresh h hok
    obtain ⟨e1b, sb, modelb, hTGb, hsb, _, htabt⟩ :=
      Initialize_table_of_resolved env t st2 t' htl hti htf ht hok2
    have hpe : (Initialize_entry t).session_state_.exec_providers
        = (Initialize_entry s).session_state_.exec_providers := by
      rw [Initialize_entry_providers, Initialize_entry_providers,
        GetExecutionProvider_congr _ _ htp, htp]
    obtain ⟨sb2, hTGb2, hmb2⟩ := TransformGraph_model_congr env (Initialize_entry s)
      (Initialize_entry t)
      (by rw [(Initialize_entry_frame t).2.2.1, (Initialize_entry_frame s).2.2.1, htm])
      (by rw [Initialize_entry_transformers, Initialize_entry_transformers, htg])
      hpe e1 sa hTG
    rw [hTGb] at hTGb2
    injection hTGb2 with _ hsb2
    rw [← hsb2, hsb, hsa] at hmb2
    injection hmb2 with hmb2
    rw [htabs, htabt, hmb2]

/-- C12 at the session of the tests: after `Load` of mul_1 and `Initialize`, the names X, W and Y of
the one operator node have the indices 0, 1 and 2. -/
theorem value_index_first_seen_witness :
    Fixture.loaded.is_model_loaded_ = true ∧ Fixture.loaded.is_inited_ = false ∧
    Fixture.loaded.session_state_.mlvalue_name_idx_map_ = [] ∧
    Initialize Fixture.env Fixture.loaded = Outcome.ret Status.OK Fixture.initialized ∧
    Fixture.initialized.session_state_.mlvalue_name_idx_map_ = [("X", 0), ("W", 1), ("Y", 2)] ∧
    ∃ model2 : Model, Fixture.initialized.model_ = some model2 ∧
      Fixture.initialized.session_state_.mlvalue_name_idx_map_
        = firstSeenTable (traversedNames model2.MainGraph model2.MainGraph.Nodes) :=
  ⟨rfl, rfl, rfl, rfl, rfl,
    (value_index_first_seen Fixture.env Fixture.loaded Status.OK Fixture.initialized rfl rfl rfl rfl
      rfl).imp fun _ hx => ⟨hx.1, hx.2.1⟩⟩


/-! ### Fault boundaries -/

theorem catchAll_never_raises {σ : Type} (o : Outcome σ Status) (onStd : String → Status)
    (onOther : Status) (e : Thrown) (s : σ) : o.catchAll onStd onOther ≠ Outcome.raise e s := by
  cases o with
  | ret a s1 => exact fun h => by cases h
  | raise e1 s1 => cases e1 <;> exact fun h => by cases h
  | undefined => exact fun h => by cases h

/-- C23, at the failing input: the four `Load` overloads, `Initialize` and the three `Run` overloads
let no exception escape, whatever the collaborators do; their handlers turn a standard exception
into a FAIL status carrying its message and any other exception into the RUNTIME_EXCEPTION status;
`RegisterExecutionProvider` calls no collaborator that is modelled as throwing.
`RegisterCustomKernel` and `RegisterGraphTransformer` have no handlers: when the kernel registry
throws `std::bad_alloc` or the transformer manager throws something else, the exception escapes to
the caller. -/
theorem Register_operations_let_faults_escape :
    (∀ (env : Env) (model_uri : String) (model_proto : ModelProto) (model_istream : IStream)
        (p_model : Option Model) (s : Impl) (e : Thrown) (s' : Impl),
      Load_model_uri env model_uri s ≠ Outcome.raise e s' ∧
      Load_model_proto env model_proto s ≠ Outcome.raise e s' ∧
      Load_model_istream env model_istream s ≠ Outcome.raise e s' ∧
      Load_p_model p_model s ≠ Outcome.raise e s' ∧
      Initialize env s ≠ Outcome.raise e s') ∧
    (∀ (env : Env) (run_options : RunOptions) (feeds : NameMLValMap) (output_names : List String)
        (p_fetches : Option (List MLValue)) (s : Impl) (e : Thrown) (st : Impl × Option (List MLValue)),
      Run env run_options feeds output_names p_fetches s ≠ Outcome.raise e st ∧
      Run_feeds_output_names env feeds output_names p_fetches s ≠ Outcome.raise e st ∧
      Run_feeds env feeds p_fetches s ≠ Outcome.raise e st) ∧
    (∀ (what : String) (s : Impl),
      Load_catch (Outcome.raise (Thrown.std_exception what) s)
        = Outcome.ret ⟨StatusCategory.LOTUS, StatusCode.FAIL, "Exception during loading: " ++ what⟩ s ∧
      Load_catch (Outcome.raise Thrown.unknown s)
        = Outcome.ret
            ⟨StatusCategory.LOTUS, StatusCode.RUNTIME_EXCEPTION, "Encountered unknown exception in Load()"⟩
            s ∧
      Initialize_catch (Outcome.raise (Thrown.std_exception what) s)
        = Outcome.ret
            ⟨StatusCategory.LOTUS, StatusCode.FAIL, "Exception during initialization: " ++ what⟩ s ∧
      Initialize_catch (Outcome.raise Thrown.unknown s)
        = Outcome.ret
            ⟨StatusCategory.LOTUS, StatusCode.RUNTIME_EXCEPTION,
              "Encountered unknown exception in Initialize()"⟩ s) ∧
    (∀ (p_exec_provider : Option IExecutionProvider) (s : Impl) (e : Thrown) (s' : Impl),
      RegisterExecutionProvider p_exec_provider s ≠ Outcome.raise e s') ∧
    RegisterCustomKernel Fixture.env_throwing_register Fixture.Mul_def (some "CreateABIMulFP16Kernel")
        Fixture.fresh
      = Outcome.raise (Thrown.std_exception "std::bad_alloc") Fixture.fresh ∧
    RegisterGraphTransformer Fixture.env_throwing_register (some { Name := "transformer" }) Fixture.fresh
      = Outcome.raise Thrown.unknown Fixture.fresh := by
  refine ⟨fun env model_uri model_proto model_istream p_model s e s' => ⟨?_, ?_, ?_, ?_, ?_⟩,
    fun env run_options feeds output_names p_fetches s e st => ⟨?_, ?_, ?_⟩,
    fun what s => ⟨rfl, rfl, rfl, rfl⟩, fun p s e s' => ?_, rfl, rfl⟩
  · exact catchAll_never_raises _ _ _ e s'
  · exact catchAll_never_raises _ _ _ e s'
  · exact catchAll_never_raises _ _ _ e s'
  · exact catchAll_never_raises _ _ _ e s'
  · exact catchAll_never_raises _ _ _ e s'
  · exact (Run_flags env run_options feeds output_names p_fetches s).1 e st
  · exact (Run_flags env RunOptions.default feeds output_names p_fetches s).1 e st
  · unfold Run_feeds
    simp only []
    split
    · exact fun h => by cases h
    · split
      · exact fun h => by cases h
      · exact (Run_flags env RunOptions.default feeds _ p_fetches s).1 e st
  · cases p <;> exact fun h => by cases h

/-! ### Retrying after a failure -/

/-- C24, at the failing input: the session of the tests loaded with the model two_ops, whose second
operator Mul16 has no kernel.  A first `Initialize` indexes the names X, W, Y of the first node with
0, 1, 2 and then fails with "Kernel not found"; after `RegisterCustomKernel` for Mul16 a second
`Initialize` succeeds, and because its counter starts at 0 again while the table has kept the three
names, the new names V and Z get the indices 0 and 1: X and V share the index 0, and W and Z the
index 1. -/
theorem Initialize_retry_reuses_indices :
    (∃ s1, Initialize Fixture.env Fixture.loaded_two_ops
        = Outcome.ret Fixture.kernel_not_found s1 ∧
      s1 = Fixture.two_ops_failed ∧ s1.is_inited_ = false ∧
      s1.session_state_.mlvalue_name_idx_map_ = [("X", 0), ("W", 1), ("Y", 2)]) ∧
    RegisterCustomKernel Fixture.env Fixture.Mul16_def (some "CreateABIMul16Kernel")
        Fixture.two_ops_failed
      = Outcome.ret Status.OK Fixture.two_ops_registered ∧
    (∃ s2, Initialize Fixture.env Fixture.two_ops_registered = Outcome.ret Status.OK s2 ∧
      s2.is_inited_ = true ∧
      s2.session_state_.mlvalue_name_idx_map_
        = [("X", 0), ("W", 1), ("Y", 2), ("V", 0), ("Z", 1)] ∧
      s2.session_state_.GetMLValueIdx "X" = Except.ok 0 ∧
      s2.session_state_.GetMLValueIdx "V" = Except.ok 0 ∧
      s2.session_state_.GetMLValueIdx "W" = Except.ok 1 ∧
      s2.session_state_.GetMLValueIdx "Z" = Except.ok 1) ∧
    "X" ≠ "V" ∧ "W" ≠ "Z" :=
  ⟨⟨_, rfl, rfl, rfl, rfl⟩, rfl, ⟨_, rfl, rfl, rfl, rfl, rfl, rfl, rfl⟩, by decide, by decide⟩

/-- C27, at the failing input: on a fresh session a `Load` of a model whose graph lists a null entry
after its output Y fails with "Got null output nodearg ptr", having appended X to the inputs and Y
to the outputs kept by the session; a following `Load` of mul_1 succeeds and appends again, so that
`GetInputs` gives X twice and `GetOutputs` gives Y twice, where a `Load` of mul_1 on a fresh session
gives X and Y once. -/
theorem Load_after_failed_Load_keeps_stale_entries :
    Load_p_model (some Fixture.mul_1_null_output) Fixture.fresh
      = Outcome.ret ⟨StatusCategory.LOTUS, StatusCode.FAIL, "Got null output nodearg ptr"⟩
          Fixture.load_failed ∧
    Fixture.load_failed.is_model_loaded_ = false ∧
    Fixture.load_failed.input_def_list_ = [Fixture.X] ∧
    Fixture.load_failed.output_def_list_ = [Fixture.Y] ∧
    (∃ s', Load_p_model (some Fixture.mul_1) Fixture.load_failed = Outcome.ret Status.OK s' ∧
      GetInputs s' = (Status.OK, some [Fixture.X, Fixture.X]) ∧
      GetOutputs s' = (Status.OK, some [Fixture.Y, Fixture.Y])) ∧
    (∃ s', Load_p_model (some Fixture.mul_1) Fixture.fresh = Outcome.ret Status.OK s' ∧
      GetInputs s' = (Status.OK, some [Fixture.X]) ∧
      GetOutputs s' = (Status.OK, some [Fixture.Y])) :=
  ⟨rfl, rfl, rfl, rfl, ⟨_, rfl, rfl, rfl⟩, ⟨_, rfl, rfl, rfl⟩⟩


/-! ### The lifecycle of a session -/

theorem SaveModelMetadata_options (model : Model) (s : Impl) :
    (SaveModelMetadata model s).2.session_options_ = s.session_options_ := by
  unfold SaveModelMetadata
  simp only []
  split <;> [skip; split] <;> simp

/-- A `Load` of any form leaves the options and the initialized flag alone and does not unset the
loaded flag. -/
theorem Load_lifecycle (env : Env) (s : Impl) (model_uri : String) (model_proto : ModelProto)
    (model_istream : IStream) (p_model : Option Model) (o : Outcome Impl Status) (st : Status) (s' : Impl)
    (ho : o = Load_model_uri env model_uri s ∨ o = Load_model_proto env model_proto s ∨
      o = Load_model_istream env model_istream s ∨ o = Load_p_model p_model s)
    (hr : o = Outcome.ret st s') :
    s'.session_options_ = s.session_options_ ∧ s'.is_inited_ = s.is_inited_ ∧
    (s.is_model_loaded_ = true → s'.is_model_loaded_ = true) := by
  cases hl : s.is_model_loaded_ with
  | true =>
    have h1 := Load_loaded_eq env s hl model_uri model_proto model_istream p_model
    have : o = Outcome.ret Load_already_loaded s := by
      rcases ho with rfl | rfl | rfl | rfl
      · exact h1.1
      · exact h1.2.1
      · exact h1.2.2.1
      · exact h1.2.2.2
    rw [this] at hr
    injection hr with _ h3
    subst h3
    exact ⟨rfl, rfl, fun _ => hl⟩
  | false =>
    refine (fun h : s'.session_options_ = s.session_options_ ∧ s'.is_inited_ = s.is_inited_ =>
      ⟨h.1, h.2, fun hc => by cases hc⟩) ?_
    rcases Load_unloaded_cases env s hl model_uri model_proto model_istream p_model o ho with
      ⟨st2, _, ho2⟩ | ⟨pm, ho2⟩
    · rw [ho2] at hr
      injection hr with _ h3
      subst h3
      exact ⟨rfl, rfl⟩
    · rw [ho2] at hr
      cases pm with
      | none => simp [Load_post] at hr
      | some model =>
        rw [Load_post_some _ model rfl] at hr
        split at hr
        · injection hr with _ h3
          subst h3
          exact ⟨SaveModelMetadata_options model _, (SaveModelMetadata_frame model _).2.1⟩
        · injection hr with _ h3
          subst h3
          exact ⟨SaveModelMetadata_options model _, (SaveModelMetadata_frame model _).2.1⟩

/-- `Initialize` leaves the options and the loaded flag alone; it sets the initialized flag only on a
loaded session configured for sequential execution, and never unsets it. -/
theorem Initialize_lifecycle (env : Env) (s : Impl) (st : Status) (s' : Impl)
    (h : Initialize env s = Outcome.ret st s') :
    s'.session_options_ = s.session_options_ ∧ s'.is_model_loaded_ = s.is_model_loaded_ ∧
    (s'.is_inited_ = s.is_inited_ ∨
      (s'.is_inited_ = true ∧ s.is_model_loaded_ = true ∧
        s.session_options_.enable_sequential_execution = true)) := by
  cases hl : s.is_model_loaded_ with
  | false =>
    rw [Initialize_when_not_loaded env s hl] at h
    injection h with _ h2
    subst h2
    exact ⟨rfl, hl, Or.inl rfl⟩
  | true =>
    cases hi : s.is_inited_ with
    | true =>
      rw [Initialize_when_inited env s hl hi] at h
      injection h with _ h2
      subst h2
      exact ⟨rfl, hl, Or.inl hi⟩
    | false =>
      have hopt : s'.session_options_ = s.session_options_ := by
        have hk := Initialize_keeps (R := fun a b => b.session_options_ = a.session_options_) env
          (fun _ => rfl) (fun _ _ _ hab hbc => hbc.trans hab)
          (fun a b hab => by rw [hab.1]) (fun a b hab => by rw [hab.1]) (fun a b hab => by rw [hab.1])
          (fun _ _ => rfl) (fun _ => rfl) s hl hi
        rw [h] at hk
        exact hk.trans (Initialize_entry_frame s).2.2.2.1
      obtain ⟨hflag, hl', _, _⟩ := (Initialize_ends env s hl hi).2 st s' h
      refine ⟨hopt, hl', ?_⟩
      rcases hflag with ⟨hst, hin⟩ | ⟨_, hin⟩
      · right
        refine ⟨hin, rfl, ?_⟩
        obtain ⟨e1, sa, model, e2, e3, sc, model2, e4, plan, e5, se, model3, hTG, _, _, _, _, hSK, _,
          hseq, _⟩ := Initialize_ok_inv env s st s' hl hi h (by rw [hst]; rfl)
        have hf1 : Frame _ sa := Framed_ret (TransformGraph_framed env _) hTG
        have hf3 : Frame _ sc := Framed_ret (SaveKernelsAndMLValueNameIndexMapping_framed env _) hSK
        rw [hf3.session_options_, (Frame.withGraph sa _).session_options_, hf1.session_options_,
          (Initialize_entry_frame s).2.2.2.1] at hseq
        exact hseq
      · exact Or.inl hin


/-- `Run` returns the session with the options it found. -/
theorem Run_options (env : Env) (run_options : RunOptions) (feeds : NameMLValMap)
    (output_names : List String) (p_fetches : Option (List MLValue)) (s : Impl) :
    ∀ status st, Run env run_options feeds output_names p_fetches s = Outcome.ret status st →
      st.1.session_options_ = s.session_options_ := by
  unfold Run
  split_ifs with hi hv
  · intro status st h
    cases h
    rfl
  · intro status st h
    cases h
    rfl
  · cases p_fetches with
    | none => exact fun status st h => by cases h
    | some fetches =>
      simp only []
      unfold Run_execute
      split
      · cases env.NewSequentialExecutor s.session_state_ feeds output_names fetches with
        | throw e => cases e <;> (intro status st h; cases h; rfl)
        | ret p_exec =>
          simp only [Outcome.ofCall, Outcome.andThen]
          cases (env.Execute p_exec
              (Impl.logCall
                { s with current_num_runs_ := wrapInt32 (s.current_num_runs_ + 1) }
                CollaboratorCall.NewSequentialExecutor).session_state_
              run_options feeds output_names fetches).2 with
          | throw e => cases e <;> (intro status st h; cases h; rfl)
          | ret status => intro status st h; cases h; rfl
      · intro status st h
        cases h
        rfl

/-- The three registration operations leave the options as they found them. -/
theorem Register_options (env : Env) (p_exec_provider : Option IExecutionProvider)
    (kernel_def_builder : KernelDefBuilder) (kernel_creator : Option String)
    (p_graph_transformer : Option GraphTransformer) (s : Impl) (o : Outcome Impl Status)
    (ho : o = RegisterExecutionProvider p_exec_provider s ∨
      o = RegisterCustomKernel env kernel_def_builder kernel_creator s ∨
      o = RegisterGraphTransformer env p_graph_transformer s) :
    ∀ s', ((∃ st, o = Outcome.ret st s') ∨ (∃ e, o = Outcome.raise e s')) →
      s'.session_options_ = s.session_options_ := by
  intro s' hs'
  rcases ho with rfl | rfl | rfl
  · cases p_exec_provider with
    | none => rcases hs' with ⟨st, h⟩ | ⟨e, h⟩ <;> (cases h; try rfl)
    | some p => rcases hs' with ⟨st, h⟩ | ⟨e, h⟩ <;> (cases h; try rfl)
  · unfold RegisterCustomKernel at hs'
    simp only [] at hs'
    cases hc : (env.KernelRegistry_Register s.local_kernel_registry kernel_def_builder
        { abi_kernel_creator := kernel_creator }).2 with
    | ret st0 =>
      rw [hc] at hs'
      rcases hs' with ⟨st, h⟩ | ⟨e, h⟩ <;> (cases h; try rfl)
    | throw e0 =>
      rw [hc] at hs'
      rcases hs' with ⟨st, h⟩ | ⟨e, h⟩ <;> (cases h; try rfl)
  · cases p_graph_transformer with
    | none => rcases hs' with ⟨st, h⟩ | ⟨e, h⟩ <;> (cases h; try rfl)
    | some t =>
      unfold RegisterGraphTransformer at hs'
      simp only [] at hs'
      cases hc : (env.GraphTransformerManager_Register s.graph_transformation_mgr_ t).2 with
      | ret st0 =>
        rw [hc] at hs'
        rcases hs' with ⟨st, h⟩ | ⟨e, h⟩ <;> (cases h; try rfl)
      | throw e0 =>
        rw [hc] at hs'
        rcases hs' with ⟨st, h⟩ | ⟨e, h⟩ <;> (cases h; try rfl)

/-- `Run(feeds, p_fetches)` and `Run(feeds, output_names, p_fetches)` end as the `Run` they call. -/
theorem Run_feeds_ret (env : Env) (feeds : NameMLValMap) (p_fetches : Option (List MLValue))
    (s : Impl) (status : Status) (st : Impl × Option (List MLValue))
    (h : Run_feeds env feeds p_fetches s = Outcome.ret status st) :
    ∃ output_names, Run env RunOptions.default feeds output_names p_fetches s = Outcome.ret status st := by
  unfold Run_feeds at h
  simp only [] at h
  cases hm : s.model_ with
  | none => rw [hm] at h; cases h
  | some model =>
    rw [hm] at h
    simp only [] at h
    cases hn : Run_feeds_output_names_of model.MainGraph.Outputs with
    | none => rw [hn] at h; cases h
    | some names =>
      rw [hn] at h
      exact ⟨names, h⟩

/-- What one call of a public operation does to the options and the two lifecycle flags. -/
theorem Step_lifecycle (s s' : Impl) (h : Step s s') :
    s'.session_options_ = s.session_options_ ∧
    (s.is_model_loaded_ = true → s'.is_model_loaded_ = true) ∧
    (s.is_inited_ = true → s'.is_inited_ = true) ∧
    (s'.is_inited_ = true → s.is_inited_ = true ∨
      (s.is_model_loaded_ = true ∧ s.session_options_.enable_sequential_execution = true)) := by
  have same : ∀ a b : Impl, b.session_options_ = a.session_options_ →
      b.is_model_loaded_ = a.is_model_loaded_ → b.is_inited_ = a.is_inited_ →
      b.session_options_ = a.session_options_ ∧
      (a.is_model_loaded_ = true → b.is_model_loaded_ = true) ∧
      (a.is_inited_ = true → b.is_inited_ = true) ∧
      (b.is_inited_ = true → a.is_inited_ = true ∨
        (a.is_model_loaded_ = true ∧ a.session_options_.enable_sequential_execution = true)) :=
    fun a b h1 h2 h3 => ⟨h1, fun h => h2.trans h, fun h => h3.trans h, fun h => Or.inl (h3 ▸ h)⟩
  have load : ∀ a b : Impl, b.session_options_ = a.session_options_ ∧ b.is_inited_ = a.is_inited_ ∧
      (a.is_model_loaded_ = true → b.is_model_loaded_ = true) →
      b.session_options_ = a.session_options_ ∧
      (a.is_model_loaded_ = true → b.is_model_loaded_ = true) ∧
      (a.is_inited_ = true → b.is_inited_ = true) ∧
      (b.is_inited_ = true → a.is_inited_ = true ∨
        (a.is_model_loaded_ = true ∧ a.session_options_.enable_sequential_execution = true)) :=
    fun a b h => ⟨h.1, h.2.2, fun hi => h.2.1.trans hi, fun hi => Or.inl (h.2.1 ▸ hi)⟩
  cases h with
  | Load_model_uri env model_uri _ st _ hr =>
    exact load _ _ (Load_lifecycle env s model_uri Fixture.mul_1_proto Fixture.mul_1_stream none _ st s' (Or.inl rfl) hr)
  | Load_model_proto env model_proto _ st _ hr =>
    exact load _ _ (Load_lifecycle env s "" model_proto Fixture.mul_1_stream none _ st s' (Or.inr (Or.inl rfl)) hr)
  | Load_model_istream env model_istream _ st _ hr =>
    exact load _ _
      (Load_lifecycle env s "" Fixture.mul_1_proto model_istream none _ st s' (Or.inr (Or.inr (Or.inl rfl))) hr)
  | Load_p_model p_model _ st _ hr =>
    exact load _ _
      (Load_lifecycle Fixture.env s "" Fixture.mul_1_proto Fixture.mul_1_stream p_model _ st s' (Or.inr (Or.inr (Or.inr rfl))) hr)
  | Initialize env _ st _ hr =>
    obtain ⟨h1, h2, h3⟩ := Initialize_lifecycle env s st s' hr
    refine ⟨h1, fun h => h2.trans h, fun h => ?_, fun h => ?_⟩
    · rcases h3 with h3 | h3
      · exact h3.trans h
      · exact h3.1
    · rcases h3 with h3 | h3
      · exact Or.inl (h3 ▸ h)
      · exact Or.inr h3.2
  | Run env run_options feeds output_names p_fetches _ st after hr =>
    have hf := (Run_flags env run_options feeds output_names p_fetches s).2 st after hr
    exact same _ _ (Run_options env run_options feeds output_names p_fetches s st after hr) hf.1 hf.2
  | Run_feeds_output_names env feeds output_names p_fetches _ st after hr =>
    have hf := (Run_flags env RunOptions.default feeds output_names p_fetches s).2 st after hr
    exact same _ _ (Run_options env RunOptions.default feeds output_names p_fetches s st after hr)
      hf.1 hf.2
  | Run_feeds env feeds p_fetches _ st after hr =>
    obtain ⟨output_names, hr2⟩ := Run_feeds_ret env feeds p_fetches s st after hr
    have hf := (Run_flags env RunOptions.default feeds output_names p_fetches s).2 st after hr2
    exact same _ _ (Run_options env RunOptions.default feeds output_names p_fetches s st after hr2)
      hf.1 hf.2
  | RegisterExecutionProvider p_exec_provider _ _ hr =>
    have hf := Register_flags Fixture.env p_exec_provider Fixture.Mul_def none none s _ (Or.inl rfl) s' hr
    exact same _ _
      (Register_options Fixture.env p_exec_provider Fixture.Mul_def none none s _ (Or.inl rfl) s' hr) hf.1 hf.2
  | RegisterCustomKernel env kernel_def_builder kernel_creator _ _ hr =>
    have hf := Register_flags env none kernel_def_builder kernel_creator none s _ (Or.inr (Or.inl rfl))
      s' hr
    exact same _ _
      (Register_options env none kernel_def_builder kernel_creator none s _ (Or.inr (Or.inl rfl)) s' hr)
      hf.1 hf.2
  | RegisterGraphTransformer env p_graph_transformer _ _ hr =>
    have hf := Register_flags env none Fixture.Mul_def none p_graph_transformer s _ (Or.inr (Or.inr rfl)) s' hr
    exact same _ _
      (Register_options env none Fixture.Mul_def none p_graph_transformer s _ (Or.inr (Or.inr rfl)) s' hr)
      hf.1 hf.2
  | accessor _ => exact same _ _ rfl rfl rfl


theorem Steps_lifecycle (s s' : Impl) (h : Relation.ReflTransGen Step s s') :
    (s.is_model_loaded_ = true → s'.is_model_loaded_ = true) ∧
    (s.is_inited_ = true → s'.is_inited_ = true) := by
  induction h with
  | refl => exact ⟨id, id⟩
  | tail _ hstep ih =>
    have h2 := Step_lifecycle _ _ hstep
    exact ⟨fun h => h2.2.1 (ih.1 h), fun h => h2.2.2.1 (ih.2 h)⟩

theorem Reachable_invariant (s : Impl) (h : Reachable s) :
    s.is_inited_ = true →
      s.is_model_loaded_ = true ∧ s.session_options_.enable_sequential_execution = true := by
  induction h with
  | fresh session_options logging_manager indeterminate_num_runs => exact fun h => by cases h
  | step a b _ hstep ih =>
    intro hb
    obtain ⟨hopt, hl, _, hi⟩ := Step_lifecycle a b hstep
    rcases hi hb with ha | ⟨hla, hseq⟩
    · exact ⟨hl (ih ha).1, by rw [hopt]; exact (ih ha).2⟩
    · exact ⟨hl hla, by rw [hopt]; exact hseq⟩

/-- C26: in every session reachable from a freshly constructed one by calls of `Load` (any form),
`Initialize`, `Run` (any form), the registrations and the accessors, an initialized session has its
model loaded and sequential execution enabled, so the executor part of `Run`, entered with the
counter incremented, takes the sequential branch and never the "not implemented" one; and along any
further sequence of calls neither the loaded flag nor the initialized flag goes from true back to
false. -/
theorem lifecycle_invariant (s : Impl) (h : Reachable s) :
    (s.is_inited_ = true →
      s.is_model_loaded_ = true ∧ s.session_options_.enable_sequential_execution = true) ∧
    (s.is_inited_ = true → ∀ (env : Env) (run_options : RunOptions) (feeds : NameMLValMap)
      (output_names : List String) (fetches : List MLValue),
      Run_execute env run_options feeds output_names fetches
          { s with current_num_runs_ := wrapInt32 (s.current_num_runs_ + 1) } =
        (Outcome.ofCall (env.NewSequentialExecutor s.session_state_ feeds output_names fetches)
          (Impl.logCall { s with current_num_runs_ := wrapInt32 (s.current_num_runs_ + 1) }
            CollaboratorCall.NewSequentialExecutor, some fetches)).andThen fun p_exec st =>
          Outcome.ofCall
            (env.Execute p_exec st.1.session_state_ run_options feeds output_names fetches).2
            (st.1.logCall (CollaboratorCall.Execute st.1.current_num_runs_),
              some (env.Execute p_exec st.1.session_state_ run_options feeds output_names fetches).1)) ∧
    (∀ s', Relation.ReflTransGen Step s s' →
      (s.is_model_loaded_ = true → s'.is_model_loaded_ = true) ∧
      (s.is_inited_ = true → s'.is_inited_ = true) ∧
      Reachable s') := by
  refine ⟨Reachable_invariant s h, fun hi env run_options feeds output_names fetches => ?_,
    fun s' hs => ⟨(Steps_lifecycle s s' hs).1, (Steps_lifecycle s s' hs).2, ?_⟩⟩
  · unfold Run_execute
    exact if_pos (Reachable_invariant s h hi).2
  · induction hs with
    | refl => exact h
    | tail _ hstep ih => exact Reachable.step _ _ ih hstep

theorem lifecycle_invariant_witness :
    Reachable Fixture.initialized ∧
    Fixture.initialized.is_inited_ = true ∧
    Fixture.initialized.is_model_loaded_ = true ∧
    Fixture.initialized.session_options_.enable_sequential_execution = true ∧
    (∀ s', Relation.ReflTransGen Step Fixture.initialized s' →
      s'.is_model_loaded_ = true ∧ s'.is_inited_ = true) :=
  have hr : Reachable Fixture.initialized :=
    Reachable.step Fixture.loaded Fixture.initialized
      (Reachable.step Fixture.fresh Fixture.loaded (Reachable.fresh Fixture.options true 0)
        (Step.Load_model_proto Fixture.env Fixture.mul_1_proto Fixture.fresh Status.OK Fixture.loaded rfl))
      (Step.Initialize Fixture.env Fixture.loaded Status.OK Fixture.initialized rfl)
  ⟨hr, rfl, ((lifecycle_invariant Fixture.initialized hr).1 rfl).1,
    ((lifecycle_invariant Fixture.initialized hr).1 rfl).2,
    fun s' hs => ⟨((lifecycle_invariant Fixture.initialized hr).2.2 s' hs).1 rfl,
      ((lifecycle_invariant Fixture.initialized hr).2.2 s' hs).2.1 rfl⟩⟩


/-! ### One arena per location -/

theorem weights_buffers_filter_of_find_none (m : List (AllocatorInfo × BufferUniquePtr))
    (L : AllocatorInfo) (h : weights_buffers_find m L = none) :
    (m.filter fun e => !decide (e.1 = L)) = m := by
  unfold weights_buffers_find at h
  rw [Option.map_eq_none', List.find?_eq_none] at h
  rw [List.filter_eq_self]
  intro a ha
  have := h a ha
  simpa using this

theorem weights_buffers_find_assign_self (m : List (AllocatorInfo × BufferUniquePtr))
    (L : AllocatorInfo) (b : BufferUniquePtr) :
    weights_buffers_find (weights_buffers_assign m L b) L = some b := by
  unfold weights_buffers_find weights_buffers_assign
  have hnone : (m.filter fun e => !decide (e.1 = L)).find? (fun e => decide (e.1 = L)) = none := by
    rw [List.find?_eq_none]
    intro a ha
    have := (List.mem_filter.1 ha).2
    simpa using this
  rw [List.find?_append, hnone]
  simp

theorem weights_buffers_find_append_none (m added : List (AllocatorInfo × BufferUniquePtr))
    (L : AllocatorInfo) (h : weights_buffers_find (m ++ added) L = none) :
    weights_buffers_find m L = none := by
  unfold weights_buffers_find at h ⊢
  rw [Option.map_eq_none', List.find?_eq_none] at h ⊢
  exact fun a ha => h a (List.mem_append_left _ ha)

/-- An allocation loop that returns success visited distinct locations none of which had an arena,
found an allocator and a pattern for each, and appended one arena per location, in order, each
allocated with the peak size of the pattern at the location's position; it made those allocations
and changed nothing else. -/
theorem SaveInitializedTensorsWithMemPattern_alloc_ok_inv (env : Env)
    (mem_patterns : MemoryPatternGroup) (i : Nat) (locations : List AllocatorInfo) (s : Impl)
    (st : Status) (s' : Impl)
    (h : SaveInitializedTensorsWithMemPattern_alloc env mem_patterns i locations s = Outcome.ret st s')
    (hok : st.IsOK = true) :
    locations.Nodup ∧ (∀ L ∈ locations, weights_buffers_find s.weights_buffers_ L = none) ∧
    (∀ L ∈ locations, s.session_state_.GetAllocator L = some L) ∧
    ∃ added, added.map Prod.fst = locations ∧ List.Forall₂ (ArenaFor env s.session_state_)
        (locations.zip (mem_patterns.patterns.drop i)) added ∧
      s' = { s with
              weights_buffers_ := s.weights_buffers_ ++ added
              calls_ := s.calls_ ++ (locations.zip (mem_patterns.patterns.drop i)).map fun lp =>
                CollaboratorCall.Alloc lp.1 lp.2.peak_size } := by
  induction locations generalizing i s with
  | nil =>
    unfold SaveInitializedTensorsWithMemPattern_alloc at h
    injection h with _ h
    subst h
    refine ⟨List.nodup_nil, (fun L hL => by cases hL), (fun L hL => by cases hL), [], rfl, ?_, ?_⟩
    · simp
    · simp
  | cons location rest ih =>
    unfold SaveInitializedTensorsWithMemPattern_alloc LOTUS_ENFORCE at h
    by_cases hloc : (weights_buffers_find s.weights_buffers_ location).isNone = true
    · rw [if_pos hloc] at h
      rw [Option.isNone_iff_eq_none] at hloc
      cases ha : s.session_state_.GetAllocator location with
      | none =>
        rw [ha] at h
        injection h with h _
        rw [← h] at hok
        cases hok
      | some alloc =>
        rw [ha] at h
        simp only [] at h
        have hal := GetAllocator_location _ _ _ ha
        subst hal
        cases hp : mem_patterns.patterns[i]? with
        | none =>
          rw [hp] at h
          cases h
        | some pattern =>
          rw [hp] at h
          simp only [] at h
          obtain ⟨b, s1, hb, h1⟩ := andThen_ret_inv h
          obtain ⟨hb2, hs1⟩ := ofCall_ret_inv hb
          subst hs1
          obtain ⟨hnd, hnone, hallocs, added, hkeys, hfa, hs'⟩ := ih (i + 1) _ h1
          have hi : i < mem_patterns.patterns.length := by
            by_contra hc
            rw [List.getElem?_eq_none (Nat.le_of_not_lt hc)] at hp
            cases hp
          have hpe : mem_patterns.patterns[i] = pattern := by
            rw [List.getElem?_eq_getElem hi] at hp
            exact Option.some.inj hp
          have hdrop : mem_patterns.patterns.drop i = pattern :: mem_patterns.patterns.drop (i + 1) := by
            rw [← hpe]
            exact List.drop_eq_getElem_cons hi
          have hnotin : alloc ∉ rest := by
            intro hin
            have := hnone alloc hin
            simp only [Impl.logCall] at this
            rw [weights_buffers_find_assign_self] at this
            cases this
          have hfilter := weights_buffers_filter_of_find_none _ _ hloc
          refine ⟨List.nodup_cons.2 ⟨hnotin, hnd⟩, ?_, ?_, ?_⟩
          · intro L hL
            rcases List.mem_cons.1 hL with hL | hL
            · rw [hL]
              exact hloc
            · have hne : alloc ≠ L := fun hc => hnotin (hc ▸ hL)
              have := hnone L hL
              simp only [Impl.logCall] at this
              rw [weights_buffers_find_assign_ne _ _ _ _ hne] at this
              exact this
          · intro L hL
            rcases List.mem_cons.1 hL with hL | hL
            · rw [hL]
              exact ha
            · exact hallocs L hL
          · refine ⟨(alloc, { buffer := b, alloc := alloc }) :: added, ?_, ?_, ?_⟩
            · rw [List.map_cons, hkeys]
            · rw [hdrop, List.zip_cons_cons]
              exact List.Forall₂.cons ⟨ha, hb2, rfl⟩ hfa
            · rw [hs', hdrop, List.zip_cons_cons]
              simp only [Impl.logCall, weights_buffers_assign, hfilter, List.map_cons,
                List.append_assoc, List.singleton_append]
    · rw [if_neg hloc] at h
      cases h


/-- The allocation loop over locations one of which has no allocator does not return success. -/
theorem SaveInitializedTensorsWithMemPattern_alloc_missing_never_ok (env : Env)
    (mem_patterns : MemoryPatternGroup) (L : AllocatorInfo) (i : Nat) (locations : List AllocatorInfo)
    (s : Impl) (hmem : L ∈ locations) (hL : s.session_state_.GetAllocator L = none) (st : Status)
    (s' : Impl)
    (h : SaveInitializedTensorsWithMemPattern_alloc env mem_patterns i locations s = Outcome.ret st s') :
    st.IsOK = false := by
  cases hok : st.IsOK with
  | false => rfl
  | true =>
    have := (SaveInitializedTensorsWithMemPattern_alloc_ok_inv env mem_patterns i locations s st s' h
      hok).2.2.1 L hmem
    rw [hL] at this
    cases this

/-- The allocation loop returns the "Allocator ... not found." error of the first location without an
allocator, when the locations up to it are distinct and without an arena, each of the earlier ones
has an allocator and a pattern, and `Alloc` returns. -/
theorem SaveInitializedTensorsWithMemPattern_alloc_missing (env : Env)
    (mem_patterns : MemoryPatternGroup) (L : AllocatorInfo) (i : Nat) (pre post : List AllocatorInfo)
    (s : Impl) (hnd : (pre ++ [L]).Nodup)
    (hnone : ∀ loc ∈ pre ++ [L], weights_buffers_find s.weights_buffers_ loc = none)
    (hall : ∀ loc ∈ pre, (s.session_state_.GetAllocator loc).isSome = true)
    (hL : s.session_state_.GetAllocator L = none)
    (hAlloc : ∀ alloc size, ∃ b, env.Alloc alloc size = Call.ret b)
    (hpat : i + pre.length ≤ mem_patterns.patterns.length) :
    ∃ s', SaveInitializedTensorsWithMemPattern_alloc env mem_patterns i (pre ++ L :: post) s
      = Outcome.ret ⟨StatusCategory.LOTUS, StatusCode.FAIL,
          "Allocator for location: " ++ L.name ++ " not found."⟩ s' := by
  induction pre generalizing i s with
  | nil =>
    rw [List.nil_append]
    unfold SaveInitializedTensorsWithMemPattern_alloc LOTUS_ENFORCE
    have h0 := hnone L (by simp)
    rw [if_pos (by rw [h0]; rfl), hL]
    exact ⟨s, rfl⟩
  | cons location rest ih =>
    rw [List.cons_append]
    unfold SaveInitializedTensorsWithMemPattern_alloc LOTUS_ENFORCE
    have h0 := hnone location (by simp)
    rw [if_pos (by rw [h0]; rfl)]
    have hsome := hall location (List.mem_cons_self _ _)
    rw [Option.isSome_iff_exists] at hsome
    obtain ⟨alloc, halloc⟩ := hsome
    rw [halloc]
    simp only []
    have hi : i < mem_patterns.patterns.length := by
      simp only [List.length_cons] at hpat
      omega
    rw [List.getElem?_eq_getElem hi]
    simp only []
    obtain ⟨b, hb⟩ := hAlloc alloc mem_patterns.patterns[i].peak_size
    rw [hb]
    simp only [Outcome.ofCall, Outcome.andThen]
    rw [List.cons_append] at hnd
    have hnd2 := List.nodup_cons.1 hnd
    refine ih (i + 1) _ hnd2.2 ?_ (fun loc hl => hall loc (List.mem_cons_of_mem _ hl)) hL ?_
    · intro loc hloc
      have hne : location ≠ loc := fun hc => hnd2.1 (hc ▸ hloc)
      show weights_buffers_find (weights_buffers_assign s.weights_buffers_ location _) loc = none
      rw [weights_buffers_find_assign_ne _ _ _ _ hne]
      exact hnone loc (List.mem_cons_of_mem _ hloc)
    · simp only [List.length_cons] at hpat
      omega

theorem SaveInitializedTensorsWithMemPattern_trace_state (env : Env)
    (entries : List (String × TensorProto)) (planner : List (Int × TensorProto)) (s : Impl)
    (t : Status × List (Int × TensorProto)) (s1 : Impl)
    (h : SaveInitializedTensorsWithMemPattern_trace env entries planner s = Outcome.ret t s1) :
    s1 = s := by
  induction entries generalizing planner with
  | nil =>
    unfold SaveInitializedTensorsWithMemPattern_trace at h
    injection h with _ h
    exact h.symm
  | cons entry rest ih =>
    unfold SaveInitializedTensorsWithMemPattern_trace at h
    simp only [] at h
    split at h
    · injection h with _ h
      exact h.symm
    · obtain ⟨a, s2, h1, h2⟩ := andThen_ret_inv h
      obtain ⟨_, hs2⟩ := ofCall_ret_inv h1
      subst hs2
      split at h2
      · injection h2 with _ h2
        exact h2.symm
      · exact ih _ h2


/-- A memory-pattern materialization that returns success on a session without arenas generated a
pattern group with distinct locations and left exactly one arena per location, each from the
allocator of the location with the peak size of its pattern; the allocations it made are those. -/
theorem SaveInitializedTensorsWithMemPattern_arenas (env : Env) (s : Impl) (st : Status) (s' : Impl)
    (hw : s.weights_buffers_ = [])
    (h : SaveInitializedTensorsWithMemPattern env s = Outcome.ret st s') (hok : st.IsOK = true) :
    ∃ (traced : List (Int × TensorProto)) (e : Status) (g : MemoryPatternGroup),
      env.GeneratePatterns s.session_state_ traced = Call.ret (e, g) ∧ e.IsOK = true ∧
      g.locations.Nodup ∧
      (∀ L ∈ g.locations, s.session_state_.GetAllocator L = some L) ∧
      s'.weights_buffers_.map Prod.fst = g.locations ∧
      List.Forall₂ (ArenaFor env s.session_state_) (g.locations.zip g.patterns) s'.weights_buffers_ ∧
      s'.calls_ = s.calls_ ++ (g.locations.zip g.patterns).map fun lp =>
        CollaboratorCall.Alloc lp.1 lp.2.peak_size := by
  unfold SaveInitializedTensorsWithMemPattern at h
  cases hm : s.model_ with
  | none =>
    rw [hm] at h
    cases h
  | some model =>
    rw [hm] at h
    simp only [] at h
    unfold LOTUS_ENFORCE at h
    by_cases hn : decide (s.session_state_.GetNumMLValues > 0) = true
    · rw [if_pos hn] at h
      cases hp : s.session_state_.GetExecutionPlan with
      | none =>
        rw [hp] at h
        cases h
      | some execution_plan =>
        rw [hp] at h
        simp only [] at h
        obtain ⟨t, s1, htr, h1⟩ := andThen_ret_inv h
        have hs1 := SaveInitializedTensorsWithMemPattern_trace_state env _ _ s t s1 htr
        subst hs1
        by_cases ht : t.1.IsOK = true
        · rw [if_neg (by simp [ht])] at h1
          obtain ⟨g, s2, hg, h2⟩ := andThen_ret_inv h1
          obtain ⟨hg2, hs2⟩ := ofCall_ret_inv hg
          subst hs2
          by_cases hgok : g.1.IsOK = true
          · rw [if_neg (by simp [hgok])] at h2
            obtain ⟨e3, s3, hal, he3, hcr⟩ := RETURN_IF_ERROR_ok_inv h2 hok
            obtain ⟨hnd, _, hallocs, added, hkeys, hfa, hs3⟩ :=
              SaveInitializedTensorsWithMemPattern_alloc_ok_inv env g.2 0 g.2.locations s2 e3 s3 hal he3
            have hsame : SameBuffers s3 s' :=
              Keeps_ret (SaveInitializedTensorsWithMemPattern_create_same_buffers env _ _ _ s3) hcr
            have hwb : s'.weights_buffers_ = added := by
              rw [hsame.1, hs3, hw]
              rfl
            have hcalls : s'.calls_ = s2.calls_ ++ (g.2.locations.zip g.2.patterns).map fun lp =>
                CollaboratorCall.Alloc lp.1 lp.2.peak_size := by
              rw [hsame.2, hs3]
              rfl
            rw [List.drop_zero] at hfa
            exact ⟨t.2, g.1, g.2, hg2, hgok, hnd, hallocs, by rw [hwb, hkeys], by rw [hwb]; exact hfa,
              hcalls⟩
          · rw [if_pos (by simp [hgok])] at h2
            injection h2 with h2a _
            rw [h2a] at hgok
            exact absurd hok hgok
        · rw [if_pos (by simp [ht])] at h1
          injection h1 with h1a _
          rw [h1a] at ht
          exact absurd hok ht
    · rw [if_neg hn] at h
      cases h


/-- C21: on a session that holds no weight arena, as a fresh session does, a memory-pattern
materialization that returns success generated a pattern group with distinct locations and leaves
the weight-buffer map with exactly one arena per location of the group, in order and no others, each
keyed by the location, owned by the allocator found for it and returned by `Alloc` on that allocator
with the peak size of the pattern at the location's position, these being the allocations made; the
same holds for the map a successful `Initialize` with memory patterns enabled leaves.  When a
location of the group has no allocator the allocation loop never returns success, and it returns the
error "Allocator for location: ... not found." of the first such location when the locations up to
it are distinct, the earlier ones have an allocator and a pattern, and `Alloc` returns. -/
theorem one_arena_per_pattern_location (env : Env) (s : Impl) (hw : s.weights_buffers_ = []) :
    (∀ st s', SaveInitializedTensorsWithMemPattern env s = Outcome.ret st s' → st.IsOK = true →
      ∃ (traced : List (Int × TensorProto)) (e : Status) (g : MemoryPatternGroup),
        env.GeneratePatterns s.session_state_ traced = Call.ret (e, g) ∧ e.IsOK = true ∧
        g.locations.Nodup ∧
        (∀ L ∈ g.locations, s.session_state_.GetAllocator L = some L) ∧
        s'.weights_buffers_.map Prod.fst = g.locations ∧
        List.Forall₂ (ArenaFor env s.session_state_) (g.locations.zip g.patterns) s'.weights_buffers_ ∧
        s'.calls_ = s.calls_ ++ (g.locations.zip g.patterns).map fun lp =>
          CollaboratorCall.Alloc lp.1 lp.2.peak_size) ∧
    (∀ st s', s.is_model_loaded_ = true → s.is_inited_ = false →
      s.session_state_.enable_mem_pattern_ = true →
      Initialize env s = Outcome.ret st s' → st.IsOK = true →
      ∃ (ss : SessionState) (traced : List (Int × TensorProto)) (e : Status) (g : MemoryPatternGroup),
        env.GeneratePatterns ss traced = Call.ret (e, g) ∧ e.IsOK = true ∧
        g.locations.Nodup ∧
        (∀ L ∈ g.locations, ss.GetAllocator L = some L) ∧
        s'.weights_buffers_.map Prod.fst = g.locations ∧
        List.Forall₂ (ArenaFor env ss) (g.locations.zip g.patterns) s'.weights_buffers_) ∧
    (∀ (g : MemoryPatternGroup) (L : AllocatorInfo), L ∈ g.locations →
      s.session_state_.GetAllocator L = none →
      ∀ st s', SaveInitializedTensorsWithMemPattern_alloc env g 0 g.locations s = Outcome.ret st s' →
        st.IsOK = false) ∧
    (∀ (g : MemoryPatternGroup) (pre : List AllocatorInfo) (L : AllocatorInfo)
      (post : List AllocatorInfo), g.locations = pre ++ L :: post → (pre ++ [L]).Nodup →
      (∀ loc ∈ pre, (s.session_state_.GetAllocator loc).isSome = true) →
      s.session_state_.GetAllocator L = none →
      (∀ alloc size, ∃ b, env.Alloc alloc size = Call.ret b) →
      pre.length ≤ g.patterns.length →
      ∃ s', SaveInitializedTensorsWithMemPattern_alloc env g 0 g.locations s
        = Outcome.ret ⟨StatusCategory.LOTUS, StatusCode.FAIL,
            "Allocator for location: " ++ L.name ++ " not found."⟩ s') := by
  refine ⟨fun st s' h hok => SaveInitializedTensorsWithMemPattern_arenas env s st s' hw h hok,
    fun st s' hl hi hmem h hok => ?_,
    fun g L hmem hL st s' h =>
      SaveInitializedTensorsWithMemPattern_alloc_missing_never_ok env g L 0 g.locations s hmem hL st s' h,
    fun g pre L post hg hnd hall hL hAlloc hpat => ?_⟩
  · obtain ⟨e1, sa, model, e2, e3, sc, model2, e4, plan, e5, se, model3, hTG, he1, hsa, hres, he2,
      hSK, he3, _, hsc, hplan, he4, hSI, he5, hse, _, hs'⟩ := Initialize_ok_inv env s st s' hl hi h hok
    have hf1 : Frame _ sa := Framed_ret (TransformGraph_framed env _) hTG
    have hf3 : Frame _ sc := Framed_ret (SaveKernelsAndMLValueNameIndexMapping_framed env _) hSK
    have hg1 : OnlyGraph _ sa := Keeps_ret (TransformGraph_only_graph env _) hTG
    have hk3 : OnlyKernels _ sc :=
      Keeps_ret (SaveKernelsAndMLValueNameIndexMapping_only_kernels env _) hSK
    have hwb : sc.weights_buffers_ = s.weights_buffers_ := by
      have a1 : sc.weights_buffers_
          = (sa.withGraph (env.Graph_Resolve model.MainGraph).1).weights_buffers_ := by rw [hk3.1]
      have a2 : sa.weights_buffers_ = (Initialize_entry s).weights_buffers_ := by rw [hg1.1]
      rw [a1]
      exact a2.trans (Initialize_entry_storage s).2.2.2
    have hen : sc.session_state_.enable_mem_pattern_ = true := by
      rw [hf3.enable_mem_pattern_, (Frame.withGraph sa _).enable_mem_pattern_, hf1.enable_mem_pattern_,
        Initialize_entry_enable_mem_pattern, hmem]
    unfold SaveInitializedTensors at hSI
    simp only [] at hSI
    rw [if_pos (by
      simp only [SessionState.GetEnableMemoryPattern, SessionState.GetExecutionPlan,
        SessionState.SetExecutionPlan, hen]
      rfl)] at hSI
    obtain ⟨traced, e, g, hgen, hge, hnd, hallocs, hkeys, hfa, _⟩ :=
      SaveInitializedTensorsWithMemPattern_arenas env
        { sc with session_state_ := sc.session_state_.SetExecutionPlan plan } e5 se (hwb.trans hw)
        hSI he5
    have hfin : s'.weights_buffers_ = se.weights_buffers_ := by rw [hs']; rfl
    exact ⟨_, traced, e, g, hgen, hge, hnd, hallocs, by rw [hfin]; exact hkeys,
      by rw [hfin]; exact hfa⟩
  · rw [hg]
    exact SaveInitializedTensorsWithMemPattern_alloc_missing env g L 0 pre post s hnd
      (fun loc _ => by rw [hw]; rfl) hall hL hAlloc (by omega)

theorem one_arena_per_pattern_location_witness :
    Fixture.loaded.weights_buffers_ = [] ∧
    Initialize Fixture.env Fixture.loaded = Outcome.ret Status.OK Fixture.initialized ∧
    Fixture.initialized.weights_buffers_
      = [(Fixture.cpu_location, { buffer := some 4096, alloc := Fixture.cpu_location })] ∧
    (∃ (ss : SessionState) (traced : List (Int × TensorProto)) (e : Status) (g : MemoryPatternGroup),
      Fixture.env.GeneratePatterns ss traced = Call.ret (e, g) ∧ e.IsOK = true ∧
      g.locations.Nodup ∧
      (∀ L ∈ g.locations, ss.GetAllocator L = some L) ∧
      Fixture.initialized.weights_buffers_.map Prod.fst = g.locations ∧
      List.Forall₂ (ArenaFor Fixture.env ss) (g.locations.zip g.patterns)
        Fixture.initialized.weights_buffers_) :=
  ⟨rfl, rfl, rfl,
    (one_arena_per_pattern_location Fixture.env Fixture.loaded rfl).2.1 Status.OK Fixture.initialized
      rfl rfl rfl rfl rfl⟩


/-! ### Weights in separate buffers -/

theorem GetMLValueIdx_AddInitializedTensor (ss : SessionState) (mlvalue_index : Int)
    (mlvalue : MLValue) (name : String) :
    (ss.AddInitializedTensor mlvalue_index mlvalue).GetMLValueIdx name = ss.GetMLValueIdx name := by
  unfold SessionState.AddInitializedTensor
  split <;> rfl

/-- The loop over the weights returns success when every name has a value index and every
deserialization succeeds. -/
theorem SaveInitializedTensorsWithSeperateBuffer_entries_ok (env : Env) (alloc : AllocatorInfo)
    (entries : List (String × TensorProto)) (s : Impl)
    (hidx : ∀ e ∈ entries, ∃ idx, s.session_state_.GetMLValueIdx e.1 = Except.ok idx)
    (hdes : ∀ e ∈ entries, ∃ st t,
      env.GetTensorFromTensorProto e.2 alloc = Call.ret (st, t) ∧ st.IsOK = true) :
    ∃ s', SaveInitializedTensorsWithSeperateBuffer_entries env alloc entries s
      = Outcome.ret Status.OK s' := by
  induction entries generalizing s with
  | nil => exact ⟨s, rfl⟩
  | cons entry rest ih =>
    unfold SaveInitializedTensorsWithSeperateBuffer_entries
    simp only []
    obtain ⟨idx, hi⟩ := hidx entry (List.mem_cons_self _ _)
    obtain ⟨st, t, hd, hst⟩ := hdes entry (List.mem_cons_self _ _)
    rw [hi]
    simp only [hd, Outcome.ofCall, Outcome.andThen, hst, Bool.not_true, Bool.false_eq_true, if_false]
    refine ih _ (fun e he => ?_) (fun e he => hdes e (List.mem_cons_of_mem _ he))
    show ∃ idx2, (s.session_state_.AddInitializedTensor idx _).GetMLValueIdx e.1 = Except.ok idx2
    rw [GetMLValueIdx_AddInitializedTensor]
    exact hidx e (List.mem_cons_of_mem _ he)

/-- A loop over the weights that returns success found a value index for every name. -/
theorem SaveInitializedTensorsWithSeperateBuffer_entries_ok_inv (env : Env) (alloc : AllocatorInfo)
    (entries : List (String × TensorProto)) (s : Impl) (st : Status) (s' : Impl)
    (h : SaveInitializedTensorsWithSeperateBuffer_entries env alloc entries s = Outcome.ret st s')
    (hok : st.IsOK = true) :
    ∀ e ∈ entries, ∃ idx, s.session_state_.GetMLValueIdx e.1 = Except.ok idx := by
  induction entries generalizing s with
  | nil => exact fun e he => by cases he
  | cons entry rest ih =>
    unfold SaveInitializedTensorsWithSeperateBuffer_entries at h
    simp only [] at h
    cases hi : s.session_state_.GetMLValueIdx entry.1 with
    | error e0 =>
      rw [hi] at h
      injection h with h1 _
      have hne : e0.IsOK = false := by
        unfold SessionState.GetMLValueIdx at hi
        split at hi
        · cases hi
        · injection hi with hi
          rw [← hi]
          rfl
      rw [← h1, hne] at hok
      cases hok
    | ok idx =>
      rw [hi] at h
      simp only [] at h
      obtain ⟨r, s1, h1, h2⟩ := andThen_ret_inv h
      obtain ⟨_, hs1⟩ := ofCall_ret_inv h1
      subst hs1
      by_cases hr : r.1.IsOK = true
      · rw [if_neg (by simp [hr])] at h2
        have := ih _ h2
        intro e he
        rcases List.mem_cons.1 he with he | he
        · rw [he]
          exact ⟨idx, hi⟩
        · obtain ⟨idx2, h3⟩ := this e he
          rw [GetMLValueIdx_AddInitializedTensor] at h3
          exact ⟨idx2, h3⟩
      · rw [if_pos (by simp [hr])] at h2
        injection h2 with h2a _
        rw [h2a] at hr
        exact absurd hok hr


theorem AddInitializedTensor_free (ss : SessionState) (mlvalue_index : Int) (mlvalue : MLValue)
    (h : ∀ x ∈ ss.initialized_tensors_, x.1 ≠ mlvalue_index) :
    ss.AddInitializedTensor mlvalue_index mlvalue
      = { ss with initialized_tensors_ := ss.initialized_tensors_ ++ [(mlvalue_index, mlvalue)] } := by
  unfold SessionState.AddInitializedTensor
  rw [if_neg]
  intro hc
  rw [List.any_eq_true] at hc
  obtain ⟨x, hx, hd⟩ := hc
  exact h x hx (of_decide_eq_true hd)

/-- A loop over the weights that returns success, the names having distinct value indices none of
which holds a tensor yet, stored one tensor per entry, in order, each under the value index of its
name, and changed nothing else. -/
theorem SaveInitializedTensorsWithSeperateBuffer_entries_stored (env : Env) (alloc : AllocatorInfo)
    (entries : List (String × TensorProto)) (s : Impl) (st : Status) (s' : Impl)
    (h : SaveInitializedTensorsWithSeperateBuffer_entries env alloc entries s = Outcome.ret st s')
    (hok : st.IsOK = true)
    (hdist : entries.Pairwise fun a b =>
      s.session_state_.GetMLValueIdx a.1 ≠ s.session_state_.GetMLValueIdx b.1)
    (hfree : ∀ e ∈ entries, ∀ idx, s.session_state_.GetMLValueIdx e.1 = Except.ok idx →
      ∀ x ∈ s.session_state_.initialized_tensors_, x.1 ≠ idx) :
    ∃ added, List.Forall₂ (StoredWeight env s.session_state_ alloc) entries added ∧
      s' = { s with session_state_ :=
              { s.session_state_ with
                initialized_tensors_ := s.session_state_.initialized_tensors_ ++ added } } := by
  induction entries generalizing s with
  | nil =>
    unfold SaveInitializedTensorsWithSeperateBuffer_entries at h
    injection h with _ h
    subst h
    exact ⟨[], List.Forall₂.nil, by simp⟩
  | cons entry rest ih =>
    unfold SaveInitializedTensorsWithSeperateBuffer_entries at h
    simp only [] at h
    cases hi : s.session_state_.GetMLValueIdx entry.1 with
    | error e0 =>
      have := SaveInitializedTensorsWithSeperateBuffer_entries_ok_inv env alloc (entry :: rest) s st s'
        (by unfold SaveInitializedTensorsWithSeperateBuffer_entries; exact h) hok entry
        (List.mem_cons_self _ _)
      rw [hi] at this
      obtain ⟨_, hc⟩ := this
      cases hc
    | ok idx =>
      rw [hi] at h
      simp only [] at h
      obtain ⟨r, s1, h1, h2⟩ := andThen_ret_inv h
      obtain ⟨hr1, hs1⟩ := ofCall_ret_inv h1
      rw [hs1] at h2
      by_cases hr : r.1.IsOK = true
      · rw [if_neg (by simp [hr])] at h2
        rw [AddInitializedTensor_free _ _ _ (hfree entry (List.mem_cons_self _ _) idx hi)] at h2
        rw [List.pairwise_cons] at hdist
        obtain ⟨added, hfa, hs'⟩ := ih _ h2 hdist.2 (fun e he idx2 hidx2 x hx => by
          rcases List.mem_append.1 hx with hx | hx
          · exact hfree e (List.mem_cons_of_mem _ he) idx2 hidx2 x hx
          · rw [List.mem_singleton.1 hx]
            intro hc
            have hidx3 : s.session_state_.GetMLValueIdx e.1 = Except.ok idx2 := hidx2
            exact hdist.1 e he (by rw [hi, hidx3]; exact congrArg Except.ok hc))
        refine ⟨(idx, { pData := r.2 }) :: added, List.Forall₂.cons ⟨hi, r.1, hr1, hr⟩ hfa, ?_⟩
        rw [hs']
        simp only [List.append_assoc, List.singleton_append]
      · rw [if_pos (by simp [hr])] at h2
        injection h2 with h2a _
        rw [h2a] at hr
        exact absurd hok hr


/-- In a first-seen table a name has the value index `idx` exactly if it is the `idx`-th distinct name. -/
theorem GetMLValueIdx_firstSeenTable (ss : SessionState) (names : List String)
    (ht : ss.mlvalue_name_idx_map_ = firstSeenTable names) (n : String) (idx : Int) :
    ss.GetMLValueIdx n = Except.ok idx ↔
      ∃ (k : Nat) (hk : k < (firstOccurrences names).length),
        (firstOccurrences names)[k] = n ∧ idx = (k : Int) := by
  unfold SessionState.GetMLValueIdx
  rw [ht]
  unfold firstSeenTable
  by_cases hn : n ∈ firstOccurrences names
  · obtain ⟨k, hk, hkn⟩ := List.getElem_of_mem hn
    have hf := find_indexFrom (firstOccurrences names) (firstOccurrences_nodup names) 0 k hk
    rw [hkn] at hf
    rw [hf]
    simp only [zero_add]
    constructor
    · intro h
      injection h with h
      exact ⟨k, hk, hkn, h.symm⟩
    · rintro ⟨k2, hk2, hkn2, hidx⟩
      have : k2 = k := by
        have hnd := firstOccurrences_nodup names
        exact (List.Nodup.getElem_inj_iff hnd).1 (hkn2.trans hkn.symm)
      rw [hidx, this]
  · rw [find_indexFrom_none _ 0 n hn]
    constructor
    · intro h
      cases h
    · rintro ⟨k, hk, hkn, _⟩
      exact absurd (hkn ▸ List.getElem_mem hk) hn

theorem GetMLValueIdx_firstSeenTable_mem (ss : SessionState) (names : List String)
    (ht : ss.mlvalue_name_idx_map_ = firstSeenTable names) (n : String) :
    (∃ idx, ss.GetMLValueIdx n = Except.ok idx) ↔ n ∈ names := by
  rw [← mem_firstOccurrences]
  constructor
  · rintro ⟨idx, h⟩
    obtain ⟨k, hk, hkn, _⟩ := (GetMLValueIdx_firstSeenTable ss names ht n idx).1 h
    exact hkn ▸ List.getElem_mem hk
  · intro hn
    obtain ⟨k, hk, hkn⟩ := List.getElem_of_mem hn
    exact ⟨(k : Int), (GetMLValueIdx_firstSeenTable ss names ht n k).2 ⟨k, hk, hkn, rfl⟩⟩

theorem GetMLValueIdx_firstSeenTable_inj (ss : SessionState) (names : List String)
    (ht : ss.mlvalue_name_idx_map_ = firstSeenTable names) (n1 n2 : String) (idx : Int)
    (h1 : ss.GetMLValueIdx n1 = Except.ok idx) (h2 : ss.GetMLValueIdx n2 = Except.ok idx) :
    n1 = n2 := by
  obtain ⟨k1, hk1, hkn1, hi1⟩ := (GetMLValueIdx_firstSeenTable ss names ht n1 idx).1 h1
  obtain ⟨k2, hk2, hkn2, hi2⟩ := (GetMLValueIdx_firstSeenTable ss names ht n2 idx).1 h2
  have : k1 = k2 := by
    rw [hi1] at hi2
    exact_mod_cast hi2
  subst this
  exact hkn1.symm.trans hkn2

/-- A tracing of the weights that returns success found a value index for every name. -/
theorem SaveInitializedTensorsWithMemPattern_trace_ok_inv (env : Env)
    (entries : List (String × TensorProto)) (planner : List (Int × TensorProto)) (s : Impl)
    (t : Status × List (Int × TensorProto)) (s1 : Impl)
    (h : SaveInitializedTensorsWithMemPattern_trace env entries planner s = Outcome.ret t s1)
    (hok : t.1.IsOK = true) :
    ∀ e ∈ entries, ∃ idx, s.session_state_.GetMLValueIdx e.1 = Except.ok idx := by
  induction entries generalizing planner with
  | nil => exact fun e he => by cases he
  | cons entry rest ih =>
    unfold SaveInitializedTensorsWithMemPattern_trace at h
    simp only [] at h
    cases hi : s.session_state_.GetMLValueIdx entry.1 with
    | error e0 =>
      rw [hi] at h
      injection h with h1 _
      have hne : e0.IsOK = false := by
        unfold SessionState.GetMLValueIdx at hi
        split at hi
        · cases hi
        · injection hi with hi
          rw [← hi]
          rfl
      rw [← h1] at hok
      rw [hne] at hok
      cases hok
    | ok idx =>
      rw [hi] at h
      simp only [] at h
      obtain ⟨a, s2, h1, h2⟩ := andThen_ret_inv h
      obtain ⟨_, hs2⟩ := ofCall_ret_inv h1
      rw [hs2] at h2
      by_cases ha : a.IsOK = true
      · rw [if_neg (by simp [ha])] at h2
        intro e he
        rcases List.mem_cons.1 he with he | he
        · rw [he]
          exact ⟨idx, hi⟩
        · exact ih _ h2 e he
      · rw [if_pos (by simp [ha])] at h2
        injection h2 with h2a _
        rw [← h2a] at hok
        exact absurd hok ha


/-- With a model held, a value indexed and the CPU provider registered, the separate-buffer
materialization is the loop over the weights of the graph. -/
theorem SaveInitializedTensorsWithSeperateBuffer_eq (env : Env) (s : Impl) (model : Model)
    (cpu_provider : IExecutionProvider) (hm : s.model_ = some model)
    (hn : s.session_state_.GetNumMLValues > 0)
    (hcpu : s.session_state_.GetExecutionProvider kCpuExecutionProvider = some cpu_provider) :
    SaveInitializedTensorsWithSeperateBuffer env s
      = SaveInitializedTensorsWithSeperateBuffer_entries env cpu_provider.allocator_info
          model.MainGraph.AllInitializedTensors s := by
  unfold SaveInitializedTensorsWithSeperateBuffer LOTUS_ENFORCE
  rw [hm]
  simp only []
  rw [if_pos (decide_eq_true hn), hcpu]

/-- A separate-buffer materialization that returns found a value indexed. -/
theorem SaveInitializedTensorsWithSeperateBuffer_ret_inv (env : Env) (s : Impl) (st : Status)
    (s' : Impl) (h : SaveInitializedTensorsWithSeperateBuffer env s = Outcome.ret st s') :
    s.session_state_.GetNumMLValues > 0 := by
  unfold SaveInitializedTensorsWithSeperateBuffer LOTUS_ENFORCE at h
  cases hm : s.model_ with
  | none =>
    rw [hm] at h
    cases h
  | some model =>
    rw [hm] at h
    simp only [] at h
    by_cases hn : decide (s.session_state_.GetNumMLValues > 0) = true
    · exact of_decide_eq_true hn
    · rw [if_neg hn] at h
      cases h

/-- A weight materialization that returns success, by either path, found a value index for the name
of every initializer of the graph. -/
theorem SaveInitializedTensors_ok_indexed (env : Env) (s : Impl) (model : Model) (st : Status)
    (s' : Impl) (hm : s.model_ = some model)
    (h : SaveInitializedTensors env s = Outcome.ret st s') (hok : st.IsOK = true) :
    ∀ e ∈ model.MainGraph.AllInitializedTensors,
      ∃ idx, s.session_state_.GetMLValueIdx e.1 = Except.ok idx := by
  unfold SaveInitializedTensors at h
  simp only [] at h
  split at h
  · unfold SaveInitializedTensorsWithMemPattern LOTUS_ENFORCE at h
    rw [hm] at h
    simp only [] at h
    by_cases hn : decide (s.session_state_.GetNumMLValues > 0) = true
    · rw [if_pos hn] at h
      cases hp : s.session_state_.GetExecutionPlan with
      | none =>
        rw [hp] at h
        cases h
      | some execution_plan =>
        rw [hp] at h
        simp only [] at h
        obtain ⟨t, s1, htr, h1⟩ := andThen_ret_inv h
        by_cases ht : t.1.IsOK = true
        · exact SaveInitializedTensorsWithMemPattern_trace_ok_inv env _ _ s t s1 htr ht
        · rw [if_pos (by simp [ht])] at h1
          injection h1 with h1a _
          rw [h1a] at ht
          exact absurd hok ht
    · rw [if_neg hn] at h
      cases h
  · have hn := SaveInitializedTensorsWithSeperateBuffer_ret_inv env s st s' h
    unfold SaveInitializedTensorsWithSeperateBuffer LOTUS_ENFORCE at h
    rw [hm] at h
    simp only [] at h
    rw [if_pos (decide_eq_true hn)] at h
    cases hc : s.session_state_.GetExecutionProvider kCpuExecutionProvider with
    | none =>
      rw [hc] at h
      cases h
    | some cpu_provider =>
      rw [hc] at h
      exact SaveInitializedTensorsWithSeperateBuffer_entries_ok_inv env _ _ s st s' h hok

/-- A successful `Initialize` on a loaded session whose value-index table was empty resolved a graph
every initializer of which is named by some traversed node. -/
theorem Initialize_initializers_traversed (env : Env) (s : Impl) (st : Status) (s' : Impl)
    (hl : s.is_model_loaded_ = true) (hi : s.is_inited_ = false)
    (hfresh : s.session_state_.mlvalue_name_idx_map_ = [])
    (h : Initialize env s = Outcome.ret st s') (hok : st.IsOK = true) :
    ∃ (e1 : Status) (sa : Impl) (model : Model),
      TransformGraph env (Initialize_entry s) = Outcome.ret e1 sa ∧ sa.model_ = some model ∧
      ∀ e ∈ (env.Graph_Resolve model.MainGraph).1.AllInitializedTensors,
        e.1 ∈ traversedNames (env.Graph_Resolve model.MainGraph).1
          (env.Graph_Resolve model.MainGraph).1.Nodes := by
  obtain ⟨e1, sa, model, e2, e3, sc, model2, e4, plan, e5, se, model3, hTG, he1, hsa, hres, he2,
    hSK, he3, _, hsc, hplan, he4, hSI, he5, hse, _, hs'⟩ := Initialize_ok_inv env s st s' hl hi h hok
  have hg1 : OnlyGraph _ sa := Keeps_ret (TransformGraph_only_graph env _) hTG
  have hk3 : OnlyKernels _ sc :=
    Keeps_ret (SaveKernelsAndMLValueNameIndexMapping_only_kernels env _) hSK
  have hsm : (sa.withGraph (env.Graph_Resolve model.MainGraph).1).model_
      = some { model with MainGraph := (env.Graph_Resolve model.MainGraph).1 } := by
    simp [Impl.withGraph, hsa]
  have htab0 : sa.session_state_.mlvalue_name_idx_map_ = [] := by
    have a2 : sa.session_state_ = (Initialize_entry s).session_state_ := by rw [hg1.1]
    rw [a2, (Initialize_entry_storage s).2.2.1, hfresh]
  rw [SaveKernelsAndMLValueNameIndexMapping_eq env _ _ hsm] at hSK
  have htab := SaveKernelsAndMLValueNameIndexMapping_nodes_table env _ _ _ _ e3 sc hSK he3
  have htab1 : sc.session_state_.mlvalue_name_idx_map_
      = firstSeenTable (traversedNames (env.Graph_Resolve model.MainGraph).1
          (env.Graph_Resolve model.MainGraph).1.Nodes) := by
    rw [htab, ← indexNames_fresh]
    show (indexNames _ 0 sa.session_state_.mlvalue_name_idx_map_).2 = _
    rw [htab0]
  have hscm : sc.model_ = some { model with MainGraph := (env.Graph_Resolve model.MainGraph).1 } := by
    have a1 : sc.model_ = (sa.withGraph (env.Graph_Resolve model.MainGraph).1).model_ := by rw [hk3.1]
    rw [a1, hsm]
  refine ⟨e1, sa, model, hTG, hsa, fun e he => ?_⟩
  have hidx := SaveInitializedTensors_ok_indexed env
    { sc with session_state_ := sc.session_state_.SetExecutionPlan plan }
    { model with MainGraph := (env.Graph_Resolve model.MainGraph).1 } e5 se hscm hSI he5 e he
  exact (GetMLValueIdx_firstSeenTable_mem sc.session_state_ _ htab1 e.1).1 hidx


/-- C28: with a model held, a CPU provider registered and the deserialization of every weight of the
graph succeeding, the separate-buffer weight materialization returns success exactly if at least
one value is indexed and the name of every initializer of the graph has a value index.  When the
table is the first-seen table of the graph, as `SaveKernelsAndMLValueNameIndexMapping` builds it on
an empty table, a name has a value index exactly if it is an input or output name of a node other
than source and sink, so the materialization does not return success when some initializer is named
by no such node; and when moreover the initializers have distinct names and no tensor is stored
yet, a materialization that returns success leaves exactly one stored tensor per initializer, in
order, each under the value index of its initializer and holding the deserialized tensor, and
changes nothing else.  A successful `Initialize` on a loaded session with an empty table therefore
resolved a graph every initializer of which is named by such a node. -/
theorem separate_buffer_weights_need_indices (env : Env) (s : Impl) (model : Model)
    (cpu_provider : IExecutionProvider) (hm : s.model_ = some model)
    (hcpu : s.session_state_.GetExecutionProvider kCpuExecutionProvider = some cpu_provider)
    (hdes : ∀ e ∈ model.MainGraph.AllInitializedTensors, ∃ st t,
      env.GetTensorFromTensorProto e.2 cpu_provider.allocator_info = Call.ret (st, t) ∧
      st.IsOK = true) :
    ((∃ st s', SaveInitializedTensorsWithSeperateBuffer env s = Outcome.ret st s' ∧ st.IsOK = true) ↔
      (s.session_state_.GetNumMLValues > 0 ∧
        ∀ e ∈ model.MainGraph.AllInitializedTensors,
          ∃ idx, s.session_state_.GetMLValueIdx e.1 = Except.ok idx)) ∧
    (s.session_state_.mlvalue_name_idx_map_
        = firstSeenTable (traversedNames model.MainGraph model.MainGraph.Nodes) →
      (∀ name, (∃ idx, s.session_state_.GetMLValueIdx name = Except.ok idx) ↔
        name ∈ traversedNames model.MainGraph model.MainGraph.Nodes) ∧
      (∀ e ∈ model.MainGraph.AllInitializedTensors,
        e.1 ∉ traversedNames model.MainGraph model.MainGraph.Nodes →
        ∀ st s', SaveInitializedTensorsWithSeperateBuffer env s = Outcome.ret st s' →
          st.IsOK = false) ∧
      ((model.MainGraph.AllInitializedTensors.map Prod.fst).Nodup →
        s.session_state_.initialized_tensors_ = [] →
        ∀ st s', SaveInitializedTensorsWithSeperateBuffer env s = Outcome.ret st s' →
          st.IsOK = true →
          ∃ stored,
            List.Forall₂ (StoredWeight env s.session_state_ cpu_provider.allocator_info)
              model.MainGraph.AllInitializedTensors stored ∧
            s' = { s with session_state_ :=
                    { s.session_state_ with initialized_tensors_ := stored } })) ∧
    (∀ (t : Impl) (st : Status) (t' : Impl), t.is_model_loaded_ = true → t.is_inited_ = false →
      t.session_state_.mlvalue_name_idx_map_ = [] →
      Initialize env t = Outcome.ret st t' → st.IsOK = true →
      ∃ (e1 : Status) (sa : Impl) (model2 : Model),
        TransformGraph env (Initialize_entry t) = Outcome.ret e1 sa ∧ sa.model_ = some model2 ∧
        ∀ e ∈ (env.Graph_Resolve model2.MainGraph).1.AllInitializedTensors,
          e.1 ∈ traversedNames (env.Graph_Resolve model2.MainGraph).1
            (env.Graph_Resolve model2.MainGraph).1.Nodes) := by
  have hiff : (∃ st s', SaveInitializedTensorsWithSeperateBuffer env s = Outcome.ret st s' ∧
        st.IsOK = true) ↔
      (s.session_state_.GetNumMLValues > 0 ∧
        ∀ e ∈ model.MainGraph.AllInitializedTensors,
          ∃ idx, s.session_state_.GetMLValueIdx e.1 = Except.ok idx) := by
    constructor
    · rintro ⟨st, s', h, hok⟩
      have hn := SaveInitializedTensorsWithSeperateBuffer_ret_inv env s st s' h
      rw [SaveInitializedTensorsWithSeperateBuffer_eq env s model cpu_provider hm hn hcpu] at h
      exact ⟨hn, SaveInitializedTensorsWithSeperateBuffer_entries_ok_inv env _ _ s st s' h hok⟩
    · rintro ⟨hn, hidx⟩
      rw [SaveInitializedTensorsWithSeperateBuffer_eq env s model cpu_provider hm hn hcpu]
      obtain ⟨s', hs'⟩ := SaveInitializedTensorsWithSeperateBuffer_entries_ok env
        cpu_provider.allocator_info _ s hidx hdes
      exact ⟨Status.OK, s', hs', rfl⟩
  refine ⟨hiff, fun htab => ⟨fun name => GetMLValueIdx_firstSeenTable_mem _ _ htab name,
    fun e he hnot st s' h => ?_, fun hnames hinit st s' h hok => ?_⟩,
    fun t st t' hl hi hfresh h hok => Initialize_initializers_traversed env t st t' hl hi hfresh h hok⟩
  · cases hok : st.IsOK with
    | false => rfl
    | true =>
      have := (hiff.1 ⟨st, s', h, hok⟩).2 e he
      exact absurd ((GetMLValueIdx_firstSeenTable_mem _ _ htab e.1).1 this) hnot
  · have hn := SaveInitializedTensorsWithSeperateBuffer_ret_inv env s st s' h
    rw [SaveInitializedTensorsWithSeperateBuffer_eq env s model cpu_provider hm hn hcpu] at h
    have hidx := SaveInitializedTensorsWithSeperateBuffer_entries_ok_inv env _ _ s st s' h hok
    obtain ⟨stored, hfa, hs'⟩ := SaveInitializedTensorsWithSeperateBuffer_entries_stored env _ _ s st
      s' h hok
      (by
        unfold List.Nodup at hnames
        rw [List.pairwise_map] at hnames
        refine hnames.imp_of_mem ?_
        intro a b ha hb hne hc
        obtain ⟨idx, hidxa⟩ := hidx a ha
        rw [hidxa] at hc
        exact hne (GetMLValueIdx_firstSeenTable_inj _ _ htab a.1 b.1 idx hidxa hc.symm))
      (fun e he idx _ x hx => by
        rw [hinit] at hx
        cases hx)
    refine ⟨stored, hfa, ?_⟩
    rw [hs', hinit, List.nil_append]

theorem separate_buffer_weights_need_indices_witness :
    Initialize_materialize Fixture.env Fixture.planned_separate
      = Initialize Fixture.env Fixture.loaded_separate ∧
    Fixture.planned_separate.model_ = some Fixture.mul_1 ∧
    (∃ st s', SaveInitializedTensorsWithSeperateBuffer Fixture.env Fixture.planned_separate
      = Outcome.ret st s' ∧ st.IsOK = true) ∧
    (∀ st s', SaveInitializedTensorsWithSeperateBuffer Fixture.env Fixture.planned_separate
        = Outcome.ret st s' → st.IsOK = true →
      ∃ stored,
        List.Forall₂
          (StoredWeight Fixture.env Fixture.planned_separate.session_state_ Fixture.cpu_location)
          [("W", Fixture.W_proto)] stored ∧
        s' = { Fixture.planned_separate with session_state_ :=
                { Fixture.planned_separate.session_state_ with initialized_tensors_ := stored } }) ∧
    (∃ st t', Initialize Fixture.env Fixture.loaded_unreferenced = Outcome.ret st t' ∧
      st.IsOK = false) :=
  ⟨rfl, rfl,
    (separate_buffer_weights_need_indices Fixture.env Fixture.planned_separate Fixture.mul_1
      CPUExecutionProvider rfl rfl (fun _ _ => ⟨Status.OK, _, rfl, rfl⟩)).1.2
      ⟨by decide, fun e he => by
        rw [List.mem_singleton.1 he]
        exact ⟨1, rfl⟩⟩,
    ((separate_buffer_weights_need_indices Fixture.env Fixture.planned_separate Fixture.mul_1
      CPUExecutionProvider rfl rfl (fun _ _ => ⟨Status.OK, _, rfl, rfl⟩)).2.1 rfl).2.2
      (by decide) rfl,
    ⟨_, _, rfl, rfl⟩⟩


/-! ### The run counter when a statement before the increment throws -/

/-- When the statements before the increment complete, `Run_with_prologue` is `Run`. -/
theorem Run_with_prologue_completes (env : Env) (run_options : RunOptions) (feeds : NameMLValMap)
    (output_names : List String) (p_fetches : Option (List MLValue)) (s : Impl) :
    Run_with_prologue RunPrologue.completes env run_options feeds output_names p_fetches s
      = Run env run_options feeds output_names p_fetches s := by
  unfold Run_with_prologue Run_try Run ValidateOutputs_call
  simp only [RunPrologue.completes, Outcome.ofCall, Outcome.andThen]
  by_cases hi : s.is_inited_ = true
  · have h1 : (!s.is_inited_) = false := by simp [hi]
    rw [h1]
    simp only [Bool.false_eq_true, if_false]
    by_cases hv : (ValidateOutputs output_names p_fetches).IsOK = true
    · simp only [hv, if_true, Bool.not_true, Bool.false_eq_true, if_false]
      have htag : (if run_options.run_tag.isEmpty = true then
            (Outcome.ret () (s, p_fetches) : Outcome (Impl × Option (List MLValue)) Unit)
          else Outcome.ret () (s, p_fetches)) = Outcome.ret () (s, p_fetches) := by
        split <;> rfl
      rw [htag]
      simp only []
      cases p_fetches with
      | none => rfl
      | some fetches =>
        simp only []
        cases Run_execute env run_options feeds output_names fetches
            { s with current_num_runs_ := wrapInt32 (s.current_num_runs_ + 1) } with
        | ret a st => rfl
        | raise e st => cases e <;> rfl
        | undefined => rfl
    · simp only [hv, Bool.false_eq_true, if_false, Bool.not_false, if_true]
  · have h1 : (!s.is_inited_) = true := by simp [hi]
    rw [h1]
    simp only [if_true]


/-- No exception escapes `Run_with_prologue`, whatever its statements and collaborators do. -/
theorem Run_with_prologue_never_raises (prologue : RunPrologue) (env : Env)
    (run_options : RunOptions) (feeds : NameMLValMap) (output_names : List String)
    (p_fetches : Option (List MLValue)) (s : Impl) (e : Thrown)
    (st : Impl × Option (List MLValue)) :
    Run_with_prologue prologue env run_options feeds output_names p_fetches s ≠ Outcome.raise e st := by
  unfold Run_with_prologue
  cases Run_try prologue env run_options feeds output_names p_fetches s with
  | ret r st0 =>
    simp only [Outcome.andThen]
    split <;> exact fun h => by cases h
  | raise e0 st0 =>
    cases e0 with
    | std_exception what => exact fun h => by cases h
    | unknown => exact fun h => by cases h
  | undefined => exact fun h => by cases h

/-- C17, at the failing input: `Run_with_prologue` is `Run` with the statements that precede
`++current_num_runs_` inside the `try` block free to throw, and is `Run` when they complete; no
exception escapes it.  When the constructor of the `lock_guard` throws, the handlers make a status of
the exception and the function goes on to `--current_num_runs_` although the increment was never
reached: it returns with the counter one lower than before the call (the decrement of the smallest
`int` wrapping), for every session and every argument.  On the initialized mul_1 session of the
tests, whose counter is 0, a `Run` during which locking the mutex throws, a tagged `Run` whose
log statement throws, and a `Run` with a wrongly sized fetch vector for which building the error
status throws each return a FAIL status carrying the text of the exception, leave the counter at -1
and call no executor; so does a `Run` on the session that is only loaded when the log statement of
the not-initialized branch throws.  With the statements completing the tagged `Run` succeeds and
leaves the counter at 0, its `Execute` having seen 1. -/
theorem Run_fault_before_increment_unbalances_counter :
    (∀ (env : Env) (run_options : RunOptions) (feeds : NameMLValMap) (output_names : List String)
      (p_fetches : Option (List MLValue)) (s : Impl),
      Run_with_prologue RunPrologue.completes env run_options feeds output_names p_fetches s
        = Run env run_options feeds output_names p_fetches s) ∧
    (∀ (prologue : RunPrologue) (env : Env) (run_options : RunOptions) (feeds : NameMLValMap)
      (output_names : List String) (p_fetches : Option (List MLValue)) (s : Impl) (e : Thrown)
      (st : Impl × Option (List MLValue)),
      Run_with_prologue prologue env run_options feeds output_names p_fetches s
        ≠ Outcome.raise e st) ∧
    (∀ (what : String) (LOGS Status_message : String → Call Unit) (env : Env)
      (run_options : RunOptions) (feeds : NameMLValMap) (output_names : List String)
      (p_fetches : Option (List MLValue)) (s : Impl),
      Run_with_prologue
          { lock_guard := Call.throw (Thrown.std_exception what), LOGS := LOGS,
            Status_message := Status_message }
          env run_options feeds output_names p_fetches s
        = Outcome.ret ⟨StatusCategory.LOTUS, StatusCode.FAIL, what⟩
            ({ s with current_num_runs_ := wrapInt32 (s.current_num_runs_ - 1) }, p_fetches)) ∧
    (∀ (LOGS Status_message : String → Call Unit) (env : Env)
      (run_options : RunOptions) (feeds : NameMLValMap) (output_names : List String)
      (p_fetches : Option (List MLValue)) (s : Impl),
      Run_with_prologue
          { lock_guard := Call.throw Thrown.unknown, LOGS := LOGS, Status_message := Status_message }
          env run_options feeds output_names p_fetches s
        = Outcome.ret
            ⟨StatusCategory.LOTUS, StatusCode.RUNTIME_EXCEPTION,
              "Encountered unknown exception in Run()"⟩
            ({ s with current_num_runs_ := wrapInt32 (s.current_num_runs_ - 1) }, p_fetches)) ∧
    Fixture.initialized.is_inited_ = true ∧
    GetCurrentNumRuns Fixture.initialized = 0 ∧
    (∃ st, Run_with_prologue Fixture.lock_throws Fixture.env RunOptions.default Fixture.feeds ["Y"]
        (some []) Fixture.initialized
        = Outcome.ret ⟨StatusCategory.LOTUS, StatusCode.FAIL, "Resource deadlock avoided"⟩ st ∧
      GetCurrentNumRuns st.1 = -1 ∧ st.1.calls_ = Fixture.initialized.calls_) ∧
    (∃ st, Run_with_prologue Fixture.log_throws Fixture.env Fixture.tagged Fixture.feeds ["Y"]
        (some []) Fixture.initialized
        = Outcome.ret ⟨StatusCategory.LOTUS, StatusCode.FAIL, "std::bad_alloc"⟩ st ∧
      GetCurrentNumRuns st.1 = -1 ∧ st.1.calls_ = Fixture.initialized.calls_) ∧
    (∃ st, Run_with_prologue Fixture.message_throws Fixture.env RunOptions.default Fixture.feeds ["Y"]
        (some [Fixture.X_value, Fixture.X_value]) Fixture.initialized
        = Outcome.ret ⟨StatusCategory.LOTUS, StatusCode.FAIL, "std::bad_alloc"⟩ st ∧
      GetCurrentNumRuns st.1 = -1 ∧ st.1.calls_ = Fixture.initialized.calls_) ∧
    Fixture.loaded.is_inited_ = false ∧
    GetCurrentNumRuns Fixture.loaded = 0 ∧
    (∃ st, Run_with_prologue Fixture.log_throws Fixture.env RunOptions.default Fixture.feeds ["Y"]
        (some []) Fixture.loaded
        = Outcome.ret ⟨StatusCategory.LOTUS, StatusCode.FAIL, "std::bad_alloc"⟩ st ∧
      GetCurrentNumRuns st.1 = -1) ∧
    (∃ st, Run_with_prologue RunPrologue.completes Fixture.env Fixture.tagged Fixture.feeds ["Y"]
        (some []) Fixture.initialized = Outcome.ret Status.OK st ∧
      GetCurrentNumRuns st.1 = 0 ∧
      st.1.calls_ = Fixture.initialized.calls_ ++
        [CollaboratorCall.NewSequentialExecutor, CollaboratorCall.Execute 1]) :=
  ⟨Run_with_prologue_completes, Run_with_prologue_never_raises,
    fun _ _ _ _ _ _ _ _ _ => rfl, fun _ _ _ _ _ _ _ _ => rfl, rfl, rfl,
    ⟨_, rfl, rfl, rfl⟩, ⟨_, rfl, rfl, rfl⟩, ⟨_, rfl, rfl, rfl⟩, rfl, rfl, ⟨_, rfl, rfl⟩,
    ⟨_, rfl, rfl, rfl⟩⟩


/-! ### A location that already has an arena -/

/-- The allocation loop enforce-fails, at a location that already has an arena or before it at
another such location, when every location before it has an allocator and a pattern and `Alloc`
returns. -/
theorem SaveInitializedTensorsWithMemPattern_alloc_enforce_fails_before (env : Env)
    (mem_patterns : MemoryPatternGroup) (L : AllocatorInfo) (i : Nat)
    (before after : List AllocatorInfo) (s : Impl)
    (hL : (weights_buffers_find s.weights_buffers_ L).isSome = true)
    (hall : ∀ loc ∈ before, (s.session_state_.GetAllocator loc).isSome = true)
    (hAlloc : ∀ alloc size, ∃ b, env.Alloc alloc size = Call.ret b)
    (hpat : i + before.length ≤ mem_patterns.patterns.length) :
    ∃ s', SaveInitializedTensorsWithMemPattern_alloc env mem_patterns i (before ++ L :: after) s
      = Outcome.raise
          (Thrown.std_exception
            (env.LOTUS_ENFORCE_what "weights_buffers_.find(location) == weights_buffers_.end()")) s' := by
  induction before generalizing i s with
  | nil =>
    rw [List.nil_append]
    exact ⟨s, SaveInitializedTensorsWithMemPattern_alloc_conflict env mem_patterns L i after s hL⟩
  | cons location rest ih =>
    rw [List.cons_append]
    unfold SaveInitializedTensorsWithMemPattern_alloc LOTUS_ENFORCE
    by_cases hloc : (weights_buffers_find s.weights_buffers_ location).isNone = true
    · have hne : location ≠ L := by
        intro h
        rw [h] at hloc
        rw [Option.isNone_iff_eq_none] at hloc
        rw [hloc] at hL
        cases hL
      rw [if_pos hloc]
      have hsome := hall location (List.mem_cons_self _ _)
      rw [Option.isSome_iff_exists] at hsome
      obtain ⟨alloc, halloc⟩ := hsome
      rw [halloc]
      simp only []
      have hi : i < mem_patterns.patterns.length := by
        simp only [List.length_cons] at hpat
        omega
      rw [List.getElem?_eq_getElem hi]
      simp only []
      obtain ⟨b, hb⟩ := hAlloc alloc mem_patterns.patterns[i].peak_size
      rw [hb]
      simp only [Outcome.ofCall, Outcome.andThen]
      refine ih (i + 1) _ ?_ (fun loc hl => hall loc (List.mem_cons_of_mem _ hl)) ?_
      · show (weights_buffers_find (weights_buffers_assign s.weights_buffers_ location _) L).isSome = true
        rw [weights_buffers_find_assign_ne _ _ _ _ hne]
        exact hL
      · simp only [List.length_cons] at hpat
        omega
    · rw [if_neg hloc]
      exact ⟨s, rfl⟩

/-- When the weights are traced and the pattern group is generated with a location that already has
an arena, the locations before it having an allocator and a pattern and `Alloc` returning, the
memory-pattern materialization enforce-fails. -/
theorem SaveInitializedTensorsWithMemPattern_enforce_fails_before (env : Env) (s : Impl)
    (model : Model) (plan : SequentialExecutionPlan) (t : Status × List (Int × TensorProto))
    (s1 : Impl) (e : Status) (g : MemoryPatternGroup) (L : AllocatorInfo)
    (before after : List AllocatorInfo)
    (hm : s.model_ = some model) (hn : s.session_state_.GetNumMLValues > 0)
    (hp : s.session_state_.GetExecutionPlan = some plan)
    (htr : SaveInitializedTensorsWithMemPattern_trace env model.MainGraph.AllInitializedTensors [] s
      = Outcome.ret t s1) (ht : t.1.IsOK = true)
    (hg : env.GeneratePatterns s1.session_state_ t.2 = Call.ret (e, g)) (he : e.IsOK = true)
    (hloc : g.locations = before ++ L :: after)
    (hL : (weights_buffers_find s.weights_buffers_ L).isSome = true)
    (hall : ∀ loc ∈ before, (s1.session_state_.GetAllocator loc).isSome = true)
    (hAlloc : ∀ alloc size, ∃ b, env.Alloc alloc size = Call.ret b)
    (hpat : before.length ≤ g.patterns.length) :
    ∃ s', SaveInitializedTensorsWithMemPattern env s
      = Outcome.raise
          (Thrown.std_exception
            (env.LOTUS_ENFORCE_what "weights_buffers_.find(location) == weights_buffers_.end()")) s' := by
  have hs1 : SameBuffers s s1 :=
    Keeps_ret (SaveInitializedTensorsWithMemPattern_trace_same_buffers env _ _ s) htr
  obtain ⟨s', hs'⟩ := SaveInitializedTensorsWithMemPattern_alloc_enforce_fails_before env g L 0 before
    after s1 (by rw [hs1.1]; exact hL) hall hAlloc (by omega)
  refine ⟨s', ?_⟩
  unfold SaveInitializedTensorsWithMemPattern
  rw [hm]
  simp only []
  unfold LOTUS_ENFORCE
  rw [if_pos (by simpa using hn), hp]
  simp only []
  rw [htr]
  simp only [Outcome.andThen, ht, Bool.not_true, Bool.false_eq_true, if_false, hg, Outcome.ofCall, he]
  rw [hloc, hs']
  rfl

/-- A memory-pattern materialization that returns success traced the weights of the graph held,
leaving the session as it was, and generated from them a pattern group none of whose locations had
an arena. -/
theorem SaveInitializedTensorsWithMemPattern_ok_run (env : Env) (s : Impl) (st : Status) (s' : Impl)
    (h : SaveInitializedTensorsWithMemPattern env s = Outcome.ret st s') (hok : st.IsOK = true) :
    ∃ (model : Model) (t : Status × List (Int × TensorProto)) (e : Status) (g : MemoryPatternGroup),
      s.model_ = some model ∧
      SaveInitializedTensorsWithMemPattern_trace env model.MainGraph.AllInitializedTensors [] s
        = Outcome.ret t s ∧ t.1.IsOK = true ∧
      env.GeneratePatterns s.session_state_ t.2 = Call.ret (e, g) ∧ e.IsOK = true ∧
      ∀ L ∈ g.locations, weights_buffers_find s.weights_buffers_ L = none := by
  have h0 := h
  unfold SaveInitializedTensorsWithMemPattern at h
  cases hm : s.model_ with
  | none =>
    rw [hm] at h
    cases h
  | some model =>
    rw [hm] at h
    simp only [] at h
    unfold LOTUS_ENFORCE at h
    by_cases hn : decide (s.session_state_.GetNumMLValues > 0) = true
    · rw [if_pos hn] at h
      cases hp : s.session_state_.GetExecutionPlan with
      | none =>
        rw [hp] at h
        cases h
      | some execution_plan =>
        rw [hp] at h
        simp only [] at h
        obtain ⟨t, s1, htr, h1⟩ := andThen_ret_inv h
        have hs1 := SaveInitializedTensorsWithMemPattern_trace_state env _ _ s t s1 htr
        rw [hs1] at htr h1
        by_cases ht : t.1.IsOK = true
        · rw [if_neg (by simp [ht])] at h1
          obtain ⟨g, s2, hg, h2⟩ := andThen_ret_inv h1
          obtain ⟨hg2, hs2⟩ := ofCall_ret_inv hg
          rw [hs2] at h2
          by_cases hgok : g.1.IsOK = true
          · rw [if_neg (by simp [hgok])] at h2
            obtain ⟨e3, s3, hal, he3, _⟩ := RETURN_IF_ERROR_ok_inv h2 hok
            refine ⟨model, t, g.1, g.2, rfl, htr, ht, hg2, hgok, fun L hLmem => ?_⟩
            exact (SaveInitializedTensorsWithMemPattern_alloc_ok_inv env g.2 0 g.2.locations s e3 s3 hal
              he3).2.1 L hLmem
          · rw [if_pos (by simp [hgok])] at h2
            injection h2 with h2a _
            rw [h2a] at hgok
            exact absurd hok hgok
        · rw [if_pos (by simp [ht])] at h1
          injection h1 with h1a _
          rw [h1a] at ht
          exact absurd hok ht
    · rw [if_neg hn] at h
      cases h


/-- A successful `Initialize` with memory patterns enabled went through the steps of `Initialize`,
traced the weights of the graph on the session that holds the plan, and generated from them a
pattern group that does not contain a location that had an arena when `Initialize` was called. -/
theorem Initialize_mem_pattern_ok_run (env : Env) (s : Impl) (L : AllocatorInfo) (st : Status)
    (s' : Impl) (hl : s.is_model_loaded_ = true) (hi : s.is_inited_ = false)
    (hL : (weights_buffers_find s.weights_buffers_ L).isSome = true)
    (hmem : s.session_state_.enable_mem_pattern_ = true)
    (h : Initialize env s = Outcome.ret st s') (hok : st.IsOK = true) :
    ∃ (e1 : Status) (sa : Impl) (model : Model) (e2 e3 : Status) (sc : Impl) (model2 : Model)
      (e4 : Status) (plan : SequentialExecutionPlan) (t : Status × List (Int × TensorProto))
      (e : Status) (g : MemoryPatternGroup),
      TransformGraph env (Initialize_entry s) = Outcome.ret e1 sa ∧ sa.model_ = some model ∧
      (env.Graph_Resolve model.MainGraph).2 = Call.ret e2 ∧
      SaveKernelsAndMLValueNameIndexMapping env (sa.withGraph (env.Graph_Resolve model.MainGraph).1)
        = Outcome.ret e3 sc ∧
      sc.model_ = some model2 ∧
      env.AllocationPlanner_CreatePlan sc.session_options_.allocation_planner_type sc.session_state_
        model2.MainGraph = Call.ret (e4, plan) ∧
      SaveInitializedTensorsWithMemPattern_trace env model2.MainGraph.AllInitializedTensors []
          { sc with session_state_ := sc.session_state_.SetExecutionPlan plan }
        = Outcome.ret t { sc with session_state_ := sc.session_state_.SetExecutionPlan plan } ∧
      t.1.IsOK = true ∧
      env.GeneratePatterns (sc.session_state_.SetExecutionPlan plan) t.2 = Call.ret (e, g) ∧
      e.IsOK = true ∧ L ∉ g.locations := by
  obtain ⟨e1, sa, model, e2, e3, sc, model2, e4, plan, e5, se, model3, hTG, he1, hsa, hres, he2,
    hSK, he3, _, hsc, hplan, he4, hSI, he5, hse, _, hs'⟩ := Initialize_ok_inv env s st s' hl hi h hok
  obtain ⟨hwb, hen⟩ := Initialize_chain_buffers env s e1 sa _ e3 sc hTG hSK
  unfold SaveInitializedTensors at hSI
  simp only [] at hSI
  rw [if_pos (by
    simp only [SessionState.GetEnableMemoryPattern, SessionState.GetExecutionPlan,
      SessionState.SetExecutionPlan, hen, hmem]
    rfl)] at hSI
  obtain ⟨model4, t, e, g, hm4, htr, ht, hgen, hge, hnone⟩ :=
    SaveInitializedTensorsWithMemPattern_ok_run env
      { sc with session_state_ := sc.session_state_.SetExecutionPlan plan } e5 se hSI he5
  have hmm : model4 = model2 := by
    have : sc.model_ = some model4 := hm4
    rw [hsc] at this
    exact (Option.some.inj this).symm
  subst hmm
  refine ⟨e1, sa, model, e2, e3, sc, model4, e4, plan, t, e, g, hTG, hsa, hres, hSK, hsc, hplan, htr,
    ht, hgen, hge, fun hLmem => ?_⟩
  have := hnone L hLmem
  have hsome : (weights_buffers_find sc.weights_buffers_ L).isSome = true := by
    rw [hwb]
    exact hL
  have h2 : weights_buffers_find sc.weights_buffers_ L = none := this
  rw [h2] at hsome
  cases hsome


/-- C20, the statement that holds: let `L` be a location that already has an arena in the
weight-buffer map of a loaded session that is not initialized.  Whenever `Initialize` returns, the
buffer recorded for `L` is the one recorded before and no `Alloc` on `L` is among the collaborator
calls made.  The allocation loop of the memory-pattern materialization, run over locations that
include `L` in a session where `L` has an arena, never returns success and leaves the arena of `L`
alone.  It enforce-fails, at `L` or at an earlier location that has an arena too, when every
location before `L` has an allocator and a pattern and `Alloc` returns, and on the spot when it
starts at `L`; when instead a location before `L` is the first without an allocator, the locations
up to it being distinct and without arena, it returns the error "Allocator for location: ... not
found." of that location.  With memory patterns enabled, an `Initialize` that returns success ran
its steps, traced the weights of the graph and generated from them a pattern group that does not
contain `L`; and when every earlier step succeeds and the generated group contains `L`, the
locations before `L` having allocators and patterns, `Initialize` returns the status made of the
enforce failure "weights_buffers_.find(location) == weights_buffers_.end()". -/
theorem weight_arena_allocated_at_most_once (env : Env) (s : Impl) (L : AllocatorInfo)
    (hl : s.is_model_loaded_ = true) (hi : s.is_inited_ = false)
    (hL : (weights_buffers_find s.weights_buffers_ L).isSome = true) :
    (∀ st s', Initialize env s = Outcome.ret st s' →
      weights_buffers_find s'.weights_buffers_ L = weights_buffers_find s.weights_buffers_ L ∧
      ∃ new, s'.calls_ = s.calls_ ++ new ∧ ∀ size, CollaboratorCall.Alloc L size ∉ new) ∧
    (∀ (mem_patterns : MemoryPatternGroup) (i : Nat) (locations : List AllocatorInfo) (a : Impl),
      L ∈ locations → (weights_buffers_find a.weights_buffers_ L).isSome = true →
      (∀ st a', SaveInitializedTensorsWithMemPattern_alloc env mem_patterns i locations a
        = Outcome.ret st a' → st.IsOK = false) ∧
      Keeps (ArenaKept L) a (SaveInitializedTensorsWithMemPattern_alloc env mem_patterns i locations a) ∧
      (∀ (before after : List AllocatorInfo), locations = before ++ L :: after →
        (∀ loc ∈ before, (a.session_state_.GetAllocator loc).isSome = true) →
        (∀ alloc size, ∃ b, env.Alloc alloc size = Call.ret b) →
        i + before.length ≤ mem_patterns.patterns.length →
        ∃ a', SaveInitializedTensorsWithMemPattern_alloc env mem_patterns i locations a
          = Outcome.raise
              (Thrown.std_exception
                (env.LOTUS_ENFORCE_what "weights_buffers_.find(location) == weights_buffers_.end()"))
              a') ∧
      (∀ (before : List AllocatorInfo) (M : AllocatorInfo) (after : List AllocatorInfo),
        locations = before ++ M :: after → (before ++ [M]).Nodup →
        (∀ loc ∈ before ++ [M], weights_buffers_find a.weights_buffers_ loc = none) →
        (∀ loc ∈ before, (a.session_state_.GetAllocator loc).isSome = true) →
        a.session_state_.GetAllocator M = none →
        (∀ alloc size, ∃ b, env.Alloc alloc size = Call.ret b) →
        i + before.length ≤ mem_patterns.patterns.length →
        ∃ a', SaveInitializedTensorsWithMemPattern_alloc env mem_patterns i locations a
          = Outcome.ret ⟨StatusCategory.LOTUS, StatusCode.FAIL,
              "Allocator for location: " ++ M.name ++ " not found."⟩ a')) ∧
    (∀ (mem_patterns : MemoryPatternGroup) (i : Nat) (rest : List AllocatorInfo) (a : Impl),
      (weights_buffers_find a.weights_buffers_ L).isSome = true →
      SaveInitializedTensorsWithMemPattern_alloc env mem_patterns i (L :: rest) a
        = Outcome.raise
            (Thrown.std_exception
              (env.LOTUS_ENFORCE_what "weights_buffers_.find(location) == weights_buffers_.end()")) a) ∧
    (s.session_state_.enable_mem_pattern_ = true →
      ∀ st s', Initialize env s = Outcome.ret st s' → st.IsOK = true →
        ∃ (e1 : Status) (sa : Impl) (model : Model) (e2 e3 : Status) (sc : Impl) (model2 : Model)
          (e4 : Status) (plan : SequentialExecutionPlan) (t : Status × List (Int × TensorProto))
          (e : Status) (g : MemoryPatternGroup),
          TransformGraph env (Initialize_entry s) = Outcome.ret e1 sa ∧ sa.model_ = some model ∧
          (env.Graph_Resolve model.MainGraph).2 = Call.ret e2 ∧
          SaveKernelsAndMLValueNameIndexMapping env
            (sa.withGraph (env.Graph_Resolve model.MainGraph).1) = Outcome.ret e3 sc ∧
          sc.model_ = some model2 ∧
          env.AllocationPlanner_CreatePlan sc.session_options_.allocation_planner_type
            sc.session_state_ model2.MainGraph = Call.ret (e4, plan) ∧
          SaveInitializedTensorsWithMemPattern_trace env model2.MainGraph.AllInitializedTensors []
              { sc with session_state_ := sc.session_state_.SetExecutionPlan plan }
            = Outcome.ret t { sc with session_state_ := sc.session_state_.SetExecutionPlan plan } ∧
          t.1.IsOK = true ∧
          env.GeneratePatterns (sc.session_state_.SetExecutionPlan plan) t.2 = Call.ret (e, g) ∧
          e.IsOK = true ∧ L ∉ g.locations) ∧
    (s.session_state_.enable_mem_pattern_ = true →
      ∀ (e1 : Status) (sa : Impl) (model : Model) (e2 e3 : Status) (sc : Impl) (model2 : Model)
        (e4 : Status) (plan : SequentialExecutionPlan) (t : Status × List (Int × TensorProto))
        (s1 : Impl) (e : Status) (g : MemoryPatternGroup) (before after : List AllocatorInfo),
      TransformGraph env (Initialize_entry s) = Outcome.ret e1 sa → e1.IsOK = true →
      sa.model_ = some model →
      (env.Graph_Resolve model.MainGraph).2 = Call.ret e2 → e2.IsOK = true →
      SaveKernelsAndMLValueNameIndexMapping env (sa.withGraph (env.Graph_Resolve model.MainGraph).1)
        = Outcome.ret e3 sc → e3.IsOK = true →
      sc.session_options_.enable_sequential_execution = true →
      sc.model_ = some model2 →
      env.AllocationPlanner_CreatePlan sc.session_options_.allocation_planner_type sc.session_state_
        model2.MainGraph = Call.ret (e4, plan) → e4.IsOK = true →
      sc.session_state_.GetNumMLValues > 0 →
      SaveInitializedTensorsWithMemPattern_trace env model2.MainGraph.AllInitializedTensors []
        { sc with session_state_ := sc.session_state_.SetExecutionPlan plan } = Outcome.ret t s1 →
      t.1.IsOK = true →
      env.GeneratePatterns s1.session_state_ t.2 = Call.ret (e, g) → e.IsOK = true →
      g.locations = before ++ L :: after →
      (∀ loc ∈ before, (s1.session_state_.GetAllocator loc).isSome = true) →
      (∀ alloc size, ∃ b, env.Alloc alloc size = Call.ret b) →
      before.length ≤ g.patterns.length →
      ∃ se, Initialize env s
        = Outcome.ret
            ⟨StatusCategory.LOTUS, StatusCode.FAIL,
              "Exception during initialization: " ++
                env.LOTUS_ENFORCE_what "weights_buffers_.find(location) == weights_buffers_.end()"⟩
            se) := by
  refine ⟨fun st s' h => ?_, fun mem_patterns i locations a hmem ha => ?_,
    fun mem_patterns i rest a ha =>
      SaveInitializedTensorsWithMemPattern_alloc_conflict env mem_patterns L i rest a ha,
    fun hmem st s' h hok => Initialize_mem_pattern_ok_run env s L st s' hl hi hL hmem h hok, ?_⟩
  · have hk := Initialize_arena_kept env L s hl hi hL
    rw [h] at hk
    exact hk
  · refine ⟨fun st a' h =>
      SaveInitializedTensorsWithMemPattern_alloc_never_ok env mem_patterns L i locations a hmem ha st a' h,
      SaveInitializedTensorsWithMemPattern_alloc_arena_kept env mem_patterns L i locations a ha,
      fun before after hloc hall hAlloc hpat => ?_,
      fun before M after hloc hnd hnone hall hM hAlloc hpat => ?_⟩
    · rw [hloc]
      exact SaveInitializedTensorsWithMemPattern_alloc_enforce_fails_before env mem_patterns L i before
        after a ha hall hAlloc hpat
    · rw [hloc]
      exact SaveInitializedTensorsWithMemPattern_alloc_missing env mem_patterns M i before after a hnd
        hnone hall hM hAlloc hpat
  · intro hmem e1 sa model e2 e3 sc model2 e4 plan t s1 e g before after hTG he1 hsa hres he2 hSK he3
      hseq hsc hplan he4 hnum htr ht hgen hge hloc hall hAlloc hpat
    obtain ⟨hwb, hen⟩ := Initialize_chain_buffers env s e1 sa _ e3 sc hTG hSK
    obtain ⟨se, hse⟩ := SaveInitializedTensorsWithMemPattern_enforce_fails_before env
      { sc with session_state_ := sc.session_state_.SetExecutionPlan plan } model2 plan t s1 e g L
      before after hsc hnum rfl htr ht hgen hge hloc
      (by
        show (weights_buffers_find sc.weights_buffers_ L).isSome = true
        rw [hwb]
        exact hL) hall hAlloc hpat
    refine ⟨se, Initialize_weights_exception env s hl hi e1 sa model e2 e3 sc model2 e4 plan _ se hTG
      he1 hsa hres he2 hSK he3 hseq hsc hplan he4 ?_⟩
    unfold SaveInitializedTensors
    simp only []
    rw [if_pos (by
      simp only [SessionState.GetEnableMemoryPattern, SessionState.GetExecutionPlan,
        SessionState.SetExecutionPlan, hen, hmem]
      rfl)]
    exact hse

/-- C20 at the session of the tests after a first `Initialize` that failed once the arena of the CPU
location was allocated: a second `Initialize` returns the status of the enforce failure, the buffer
recorded for the CPU location is the one of the first attempt, and no `Alloc` on it was made again. -/
theorem weight_arena_allocated_at_most_once_witness :
    Fixture.failed_after_alloc.is_model_loaded_ = true ∧
    Fixture.failed_after_alloc.is_inited_ = false ∧
    weights_buffers_find Fixture.failed_after_alloc.weights_buffers_ Fixture.cpu_location
      = some { buffer := some 4096, alloc := Fixture.cpu_location } ∧
    (∃ s', Initialize Fixture.env Fixture.failed_after_alloc
        = Outcome.ret (Fixture.allocation_conflict Fixture.env) s' ∧
      weights_buffers_find s'.weights_buffers_ Fixture.cpu_location
        = weights_buffers_find Fixture.failed_after_alloc.weights_buffers_ Fixture.cpu_location ∧
      ∃ new, s'.calls_ = Fixture.failed_after_alloc.calls_ ++ new ∧
        ∀ size, CollaboratorCall.Alloc Fixture.cpu_location size ∉ new) ∧
    (∃ se, Initialize Fixture.env Fixture.failed_after_alloc
        = Outcome.ret (Fixture.allocation_conflict Fixture.env) se) :=
  ⟨rfl, rfl, rfl,
    ⟨_, rfl,
      (weight_arena_allocated_at_most_once Fixture.env Fixture.failed_after_alloc Fixture.cpu_location
        rfl rfl rfl).1 (Fixture.allocation_conflict Fixture.env) _ rfl⟩,
    (weight_arena_allocated_at_most_once Fixture.env Fixture.failed_after_alloc Fixture.cpu_location
      rfl rfl rfl).2.2.2.2 rfl Status.OK _ Fixture.mul_1 Status.OK Status.OK _ Fixture.mul_1 Status.OK _
      (Status.OK, [(1, Fixture.W_proto)]) _ Status.OK _ [] []
      rfl rfl rfl rfl rfl rfl rfl rfl rfl rfl rfl (by decide) rfl rfl rfl rfl
      rfl
      (fun loc hloc => by cases hloc)
      (fun _ _ => ⟨some 4096, rfl⟩) (Nat.zero_le _)⟩

/-- C20 as claimed fails: on the session of the tests after a first `Initialize` that failed once
the arena of the CPU location was allocated, let the pattern group generated on the second attempt
list a device location, for which the session has no allocator, before the CPU location.  The CPU
location is in the group and has an arena, yet the allocation loop returns the error "Allocator for
location: Gpu not found." at the device location and never reaches the check on the CPU location:
`Initialize` returns that error, which is not the status of the enforce failure. -/
theorem Initialize_allocator_not_found_before_conflict :
    weights_buffers_find Fixture.failed_after_alloc.weights_buffers_ Fixture.cpu_location
      = some { buffer := some 4096, alloc := Fixture.cpu_location } ∧
    Fixture.env_gpu_first.GeneratePatterns Fixture.failed_after_alloc.session_state_
        [(1, Fixture.W_proto)] = Call.ret (Status.OK, Fixture.gpu_first_group) ∧
    Fixture.cpu_location ∈ Fixture.gpu_first_group.locations ∧
    SaveInitializedTensorsWithMemPattern_alloc Fixture.env_gpu_first Fixture.gpu_first_group 0
        Fixture.gpu_first_group.locations Fixture.failed_after_alloc
      = Outcome.ret (Fixture.allocator_not_found Fixture.gpu_location) Fixture.failed_after_alloc ∧
    (∃ s', Initialize Fixture.env_gpu_first Fixture.failed_after_alloc
        = Outcome.ret (Fixture.allocator_not_found Fixture.gpu_location) s' ∧
      s'.weights_buffers_ = Fixture.failed_after_alloc.weights_buffers_) ∧
    Fixture.allocator_not_found Fixture.gpu_location
      ≠ Fixture.allocation_conflict Fixture.env_gpu_first :=
  ⟨rfl, rfl, by decide, rfl, ⟨_, rfl, rfl⟩, by decide⟩

end Lotus

/-! ## Theorems on the tensor slicer -/

namespace onnxruntime

open MLValueTensorSlicer


theorem Create_of_allocated_tensor (tensor : Tensor) (dim0_size : Int) (rest : List Int)
    (slice_dimension dim0_offset : Int) :
    Create { type_is_tensor := true,
             data_ := some { tensor with Shape := { dims := dim0_size :: rest } } }
        slice_dimension dim0_offset
      = if slice_dimension < narrow_cast_int64 (rest.length + 1) then
          if dim0_offset < dim0_size then
            Result.ret
              { mlvalue_ :=
                  { type_is_tensor := true,
                    data_ := some { tensor with Shape := { dims := dim0_size :: rest } } }
                slice_dimension_ := slice_dimension
                dim0_offset_ := dim0_offset }
          else Result.throw "dim0_offset < dim0_size"
        else
          Result.throw "gsl::narrow_cast<int64_t>(tensor_shape.NumDimensions()) > slice_dimension" := by
  simp only [Create, ONNXRUNTIME_ENFORCE, MLValue.IsTensor, MLValue.IsAllocated, Option.isSome,
    if_true, TensorShape.NumDimensions, List.length_cons, List.getElem?_cons_zero, gt_iff_lt,
    decide_eq_true_eq]

/-- C29: `Create` rejects a value that is not a tensor and a tensor that is not allocated, and on an
allocated tensor with at least one dimension it returns a slicer exactly if `slice_dimension` is below
the rank and `dim0_offset` is below the size of dimension 0: no lower bound is tested.  On the
2 x 3 x 4 tensor it returns a slicer for slice dimension -1 and for dim0 offset -1, where the
iterator constructor, given these values converted to `size_t`, indexes the shape out of range or
throws "size overflow"; it rejects slice dimension 3 and dim0 offset 2. -/
theorem Create_tests_no_lower_bound :
    (∀ (data : Option Tensor) (slice_dimension dim0_offset : Int),
      Create { type_is_tensor := false, data_ := data } slice_dimension dim0_offset
        = Result.throw "mlvalue.IsTensor()") ∧
    (∀ (slice_dimension dim0_offset : Int),
      Create { type_is_tensor := true, data_ := none } slice_dimension dim0_offset
        = Result.throw "mlvalue.IsAllocated()") ∧
    (∀ (tensor : Tensor) (dim0_size : Int) (rest : List Int) (slice_dimension dim0_offset : Int),
      (∃ slicer,
        Create { type_is_tensor := true,
                 data_ := some { tensor with Shape := { dims := dim0_size :: rest } } }
            slice_dimension dim0_offset = Result.ret slicer) ↔
        (slice_dimension < narrow_cast_int64 (rest.length + 1) ∧ dim0_offset < dim0_size)) ∧
    Create Fixture.value_2_3_4 (-1) 0
      = Result.ret { mlvalue_ := Fixture.value_2_3_4, slice_dimension_ := -1, dim0_offset_ := 0 } ∧
    Create Fixture.value_2_3_4 1 (-1)
      = Result.ret { mlvalue_ := Fixture.value_2_3_4, slice_dimension_ := 1, dim0_offset_ := -1 } ∧
    Iterator.new Fixture.value_2_3_4 (to_size_t (-1)) 0 0 Direction.kForward = Result.undefined ∧
    Iterator.new Fixture.value_2_3_4 1 (to_size_t (-1)) 0 Direction.kForward
      = Result.throw "size overflow" ∧
    Create Fixture.value_2_3_4 3 0
      = Result.throw "gsl::narrow_cast<int64_t>(tensor_shape.NumDimensions()) > slice_dimension" ∧
    Create Fixture.value_2_3_4 1 2 = Result.throw "dim0_offset < dim0_size" := by
  refine ⟨fun _ _ _ => rfl, fun _ _ => rfl, fun tensor dim0_size rest slice_dimension dim0_offset => ?_,
    by decide, by decide, by decide, by decide, by decide, by decide⟩
  rw [Create_of_allocated_tensor]
  constructor
  · rintro ⟨slicer, h⟩
    split_ifs at h with h1 h2
    exact ⟨h1, h2⟩
  · rintro ⟨h1, h2⟩
    rw [if_pos h1, if_pos h2]
    exact ⟨_, rfl⟩


/-- The position a constructed iterator holds, by direction: the requested position bounded above
by the sequence length when forward, and brought into the range from -1 to the sequence length less
one (the lower bound winning) when reverse. -/
theorem Iterator_new_position (mlvalue : MLValue) (slice_dimension dim0_offset : Nat)
    (position : Int) (direction : Direction) :
    (Iterator.new mlvalue slice_dimension dim0_offset position direction).map Iterator.position_
      = (Iterator.new mlvalue slice_dimension dim0_offset position direction).map fun it =>
          if direction = Direction.kForward then min position it.sequence_length_
          else max (-1) (min position (it.sequence_length_ - 1)) := by
  unfold Iterator.new
  cases mlvalue.data_ with
  | none => rfl
  | some tensor =>
    simp only []
    cases tensor.Shape.dims[slice_dimension]? with
    | none => rfl
    | some sequence_length_ =>
      simp only []
      cases tensor.Shape.Slice ((slice_dimension + 1) % 2 ^ 64) with
      | throw what => rfl
      | undefined => rfl
      | ret per_iteration_shape_ =>
        simp only [Result.andThen]
        cases per_iteration_shape_.Size with
        | none => rfl
        | some per_iteration_shape_size =>
          simp only []
          cases CalcMemSizeForArray (to_size_t per_iteration_shape_size) tensor.DataType.Size with
          | none => rfl
          | some per_iteration_offset_ =>
            simp only []
            cases tensor.Shape.Slice slice_dimension with
            | throw what => rfl
            | undefined => rfl
            | ret sliced =>
              simp only []
              cases sliced.Size with
              | none => rfl
              | some slice_dimension_size =>
                simp only []
                cases CalcMemSizeForArray (to_size_t slice_dimension_size) tensor.DataType.Size with
                | none => rfl
                | some total_len =>
                  simp only []
                  cases CalcMemSizeForArray dim0_offset total_len with
                  | none => rfl
                  | some total_len2 =>
                    simp only [Result.map]
                    congr 1
                    by_cases hd : direction = Direction.kForward
                    · simp only [hd, if_true, min_def]
                      split_ifs <;> omega
                    · simp only [hd, if_false, min_def, max_def]
                      split_ifs <;> omega

/-- C25: the constructor of the iterator bounds the position of a forward iterator only from above:
the position held is the smaller of the requested position and the sequence length, so a negative
requested position is kept, as on the 2 x 3 x 4 tensor sliced on dimension 1, where the requested
position -5 gives a forward iterator at -5 with sequence length 3, whose materialized slice is at
address 4064 modulo 2 ^ 64, before the data of the tensor, which start at 4096.  The position of a reverse iterator is brought into the range from -1
to the sequence length less one, and a forward position above the sequence length is set to it. -/
theorem Iterator_forward_position_unbounded_below :
    (∀ (mlvalue : MLValue) (slice_dimension dim0_offset : Nat) (position : Int),
      (Iterator.new mlvalue slice_dimension dim0_offset position Direction.kForward).map
          Iterator.position_
        = (Iterator.new mlvalue slice_dimension dim0_offset position Direction.kForward).map
            fun it => min position it.sequence_length_) ∧
    (∀ (mlvalue : MLValue) (slice_dimension dim0_offset : Nat) (position : Int),
      (Iterator.new mlvalue slice_dimension dim0_offset position Direction.kReverse).map
          Iterator.position_
        = (Iterator.new mlvalue slice_dimension dim0_offset position Direction.kReverse).map
            fun it => max (-1) (min position (it.sequence_length_ - 1))) ∧
    (Iterator.new Fixture.value_2_3_4 1 1 (-5) Direction.kForward).map
        (fun it => (it.position_, it.sequence_length_)) = Result.ret (-5, 3) ∧
    (Iterator.new Fixture.value_2_3_4 1 1 (-5) Direction.kForward).map
        (fun it => it.MaterializeMLValue.current_.bind fun v => v.data_.map fun t => t.DataRaw)
      = Result.ret (some (4064 + 2 ^ 64)) ∧
    (Iterator.new Fixture.value_2_3_4 1 1 100 Direction.kForward).map
        (fun it => (it.position_, it.sequence_length_)) = Result.ret (3, 3) ∧
    (Iterator.new Fixture.value_2_3_4 1 1 (-5) Direction.kReverse).map
        (fun it => (it.position_, it.sequence_length_)) = Result.ret (-1, 3) ∧
    (Iterator.new Fixture.value_2_3_4 1 1 100 Direction.kReverse).map
        (fun it => (it.position_, it.sequence_length_)) = Result.ret (2, 3) := by
  refine ⟨fun mlvalue slice_dimension dim0_offset position => ?_,
    fun mlvalue slice_dimension dim0_offset position => ?_, by decide, by decide, by decide,
    by decide, by decide⟩
  · exact Iterator_new_position mlvalue slice_dimension dim0_offset position Direction.kForward
  · exact Iterator_new_position mlvalue slice_dimension dim0_offset position Direction.kReverse


/-! ### Slices stay inside the tensor -/

theorem to_size_t_cast (k : Nat) (h : k < 2 ^ 64) : to_size_t (k : Int) = k := by
  unfold to_size_t
  have h2 : ((k : Int) % 2 ^ 64) = (k : Int) := Int.emod_eq_of_lt (Int.ofNat_nonneg k) (by exact_mod_cast h)
  rw [h2]
  exact Int.toNat_ofNat k

/-- The element count of a shape of natural dimensions, computed from a smaller start value, when
the computation from the larger one does not overflow. -/
theorem SizeHelper_mono (l : List Nat) (acc acc2 n : Int) (h0 : 0 ≤ acc2) (hle : acc2 ≤ acc)
    (h : TensorShape.SizeHelper (l.map fun (k : Nat) => (k : Int)) acc = some n) :
    TensorShape.SizeHelper (l.map fun (k : Nat) => (k : Int)) acc2
      = some (acc2 * ((l.prod : Nat) : Int)) := by
  induction l generalizing acc acc2 with
  | nil => simp [TensorShape.SizeHelper]
  | cons d rest ih =>
    simp only [List.map_cons, TensorShape.SizeHelper] at h ⊢
    have hd : ¬ ((d : Int) < 0) := not_lt.2 (Int.ofNat_nonneg d)
    rw [if_neg hd] at h ⊢
    by_cases hlt : acc * (d : Int) < 2 ^ 63
    · rw [if_pos hlt] at h
      have hle2 : acc2 * (d : Int) ≤ acc * (d : Int) :=
        mul_le_mul_of_nonneg_right hle (Int.ofNat_nonneg d)
      rw [if_pos (lt_of_le_of_lt hle2 hlt),
        ih (acc * d) (acc2 * d) (mul_nonneg h0 (Int.ofNat_nonneg d)) hle2 h]
      simp only [List.prod_cons, Nat.cast_mul, mul_assoc]
    · rw [if_neg hlt] at h
      cases h

theorem SizeHelper_cast (l : List Nat) (acc n : Int) (h0 : 0 ≤ acc)
    (h : TensorShape.SizeHelper (l.map fun (k : Nat) => (k : Int)) acc = some n) :
    n = acc * ((l.prod : Nat) : Int) := by
  have := SizeHelper_mono l acc acc n h0 le_rfl h
  rw [h] at this
  exact Option.some.inj this

theorem SizeHelper_lt (l : List Nat) (acc n : Int) (hacc : acc < 2 ^ 63)
    (h : TensorShape.SizeHelper (l.map fun (k : Nat) => (k : Int)) acc = some n) :
    n < 2 ^ 63 := by
  induction l generalizing acc with
  | nil =>
    simp only [List.map_nil, TensorShape.SizeHelper, Option.some.injEq] at h
    rw [← h]
    exact hacc
  | cons d rest ih =>
    simp only [List.map_cons, TensorShape.SizeHelper] at h
    have hd : ¬ ((d : Int) < 0) := not_lt.2 (Int.ofNat_nonneg d)
    rw [if_neg hd] at h
    by_cases hlt : acc * (d : Int) < 2 ^ 63
    · rw [if_pos hlt] at h
      exact ih _ hlt h
    · rw [if_neg hlt] at h
      cases h

/-- The iterator that the constructor builds when the slice dimension is within the rank and none
of the sizes overflows. -/
theorem Iterator_new_eq (mlvalue : MLValue) (tensor : Tensor) (slice_dimension dim0_offset : Nat)
    (position : Int) (direction : Direction) (sequence_length : Int) (sh1 sh2 : TensorShape)
    (a b : Nat) (hm : mlvalue.data_ = some tensor)
    (hseq : tensor.Shape.dims[slice_dimension]? = some sequence_length)
    (h1 : tensor.Shape.Slice ((slice_dimension + 1) % 2 ^ 64) = Result.ret sh1)
    (ha : sh1.Size = some (a : Int))
    (h2 : tensor.Shape.Slice slice_dimension = Result.ret sh2)
    (hb : sh2.Size = some (b : Int))
    (ha64 : a < 2 ^ 64) (hb64 : b < 2 ^ 64)
    (hae : a * tensor.DataType.Size < 2 ^ 64) (hbe : b * tensor.DataType.Size < 2 ^ 64)
    (hoff : dim0_offset * (b * tensor.DataType.Size) < 2 ^ 64) (constrained : Int)
    (hpos : (if direction = Direction.kForward then
          if position > sequence_length then sequence_length else position
        else
          if (if position ≥ sequence_length then sequence_length - 1 else position) < -1 then -1
          else if position ≥ sequence_length then sequence_length - 1 else position) = constrained) :
    Iterator.new mlvalue slice_dimension dim0_offset position direction
      = Result.ret
          { mlvalue_ := mlvalue
            position_ := constrained
            increment_by_ := if direction = Direction.kForward then 1 else -1
            position_materialized_ := -1
            tensor_data_type_ := tensor.DataType
            tensor_location_ := tensor.Location
            sequence_length_ := sequence_length
            per_iteration_shape_ := sh1
            per_iteration_offset_ := a * tensor.DataType.Size
            tensor_data_raw_ := tensor.DataRaw + dim0_offset * (b * tensor.DataType.Size)
            current_ := none } := by
  unfold Iterator.new
  rw [hm]
  simp only []
  rw [hseq]
  simp only []
  rw [h1]
  simp only [Result.andThen]
  rw [ha]
  simp only []
  rw [to_size_t_cast a ha64, h2]
  simp only []
  rw [hb]
  simp only []
  rw [to_size_t_cast b hb64]
  simp only [CalcMemSizeForArray, if_pos hae, if_pos hbe, if_pos hoff]
  rw [hpos]


theorem SizeHelper_cons (d : Nat) (rest : List Nat) (acc n : Int)
    (h : TensorShape.SizeHelper ((d :: rest).map fun (k : Nat) => (k : Int)) acc = some n) :
    TensorShape.SizeHelper (rest.map fun (k : Nat) => (k : Int)) (acc * (d : Int)) = some n ∧
    acc * (d : Int) < 2 ^ 63 := by
  simp only [List.map_cons, TensorShape.SizeHelper] at h
  have hd : ¬ ((d : Int) < 0) := not_lt.2 (Int.ofNat_nonneg d)
  rw [if_neg hd] at h
  by_cases hlt : acc * (d : Int) < 2 ^ 63
  · rw [if_pos hlt] at h
    exact ⟨h, hlt⟩
  · rw [if_neg hlt] at h
    cases h

/-- The sub-tensor that `MaterializeMLValue` builds. -/
theorem MaterializeMLValue_current (it : Iterator) :
    it.MaterializeMLValue.current_
      = some { type_is_tensor := true
               data_ := some
                 { DataType := it.tensor_data_type_
                   Shape := it.per_iteration_shape_
                   DataRaw :=
                     it.tensor_data_raw_ + (to_size_t it.position_ * it.per_iteration_offset_) % 2 ^ 64
                   Location := it.tensor_location_ } } := rfl

/-- Slicing a tensor of natural dimensions `d0 :: d1 :: r` on dimension 1, at a position below `d1`
with a dim0 offset below `d0`, when no size overflows. -/
theorem slice_dimension_1 (mlvalue : MLValue) (tensor : Tensor) (d0 d1 : Nat) (r : List Nat)
    (dim0_offset p : Nat) (direction : Direction) (n : Int)
    (hm : mlvalue.data_ = some tensor)
    (hshape : tensor.Shape.dims = (d0 :: d1 :: r).map fun (k : Nat) => (k : Int))
    (hsize : tensor.Shape.Size = some n)
    (hbytes : n.toNat * tensor.DataType.Size < 2 ^ 64)
    (hd : dim0_offset < d0) (hp : p < d1) :
    ∃ it, Iterator.new mlvalue 1 dim0_offset p direction = Result.ret it ∧
      it.position_ = (p : Int) ∧ it.sequence_length_ = (d1 : Int) ∧
      it.MaterializeMLValue.current_
        = some { type_is_tensor := true
                 data_ := some
                   { DataType := tensor.DataType
                     Shape := { dims := r.map fun (k : Nat) => (k : Int) }
                     DataRaw :=
                       tensor.DataRaw + (dim0_offset * d1 + p) * r.prod * tensor.DataType.Size
                     Location := tensor.Location } } ∧
      (dim0_offset * d1 + p) * r.prod * tensor.DataType.Size + r.prod * tensor.DataType.Size
        ≤ d0 * d1 * r.prod * tensor.DataType.Size := by
  unfold TensorShape.Size at hsize
  rw [hshape] at hsize
  have hn := SizeHelper_cast _ 1 n (by norm_num) hsize
  have hn63 := SizeHelper_lt _ 1 n (by norm_num) hsize
  have hN : n = ((d0 * (d1 * r.prod) : Nat) : Int) := by
    rw [hn]
    simp only [List.prod_cons, one_mul]
  have hN63 : d0 * (d1 * r.prod) < 2 ^ 63 := by
    rw [hN] at hn63
    exact_mod_cast hn63
  rw [hN, Int.toNat_ofNat] at hbytes
  obtain ⟨hs1, _⟩ := SizeHelper_cons d0 (d1 :: r) 1 n hsize
  obtain ⟨hs2, hd01⟩ := SizeHelper_cons d1 r _ n hs1
  have hd0 : 1 ≤ d0 := by omega
  have hd1 : 1 ≤ d1 := by omega
  have hP1 : r.prod ≤ d1 * r.prod := Nat.le_mul_of_pos_left _ (by omega)
  have hP2 : d1 * r.prod ≤ d0 * (d1 * r.prod) := Nat.le_mul_of_pos_left _ (by omega)
  have hseq : tensor.Shape.dims[1]? = some (d1 : Int) := by
    rw [hshape]
    simp
  have h1 : tensor.Shape.Slice ((1 + 1) % 2 ^ 64)
      = Result.ret { dims := r.map fun (k : Nat) => (k : Int) } := by
    unfold TensorShape.Slice ONNXRUNTIME_ENFORCE
    rw [hshape]
    simp
  have ha : TensorShape.Size { dims := r.map fun (k : Nat) => (k : Int) }
      = some ((r.prod : Nat) : Int) := by
    unfold TensorShape.Size
    rw [SizeHelper_mono r _ 1 n (by norm_num) (by
      have : (1 : Int) ≤ (d0 : Int) * (d1 : Int) := by
        have : 1 ≤ d0 * d1 := Nat.one_le_iff_ne_zero.2 (Nat.mul_ne_zero (by omega) (by omega))
        exact_mod_cast this
      simpa using this) hs2]
    simp
  have h2 : tensor.Shape.Slice 1
      = Result.ret { dims := (d1 :: r).map fun (k : Nat) => (k : Int) } := by
    unfold TensorShape.Slice ONNXRUNTIME_ENFORCE
    rw [hshape]
    simp
  have hb : TensorShape.Size { dims := (d1 :: r).map fun (k : Nat) => (k : Int) }
      = some ((d1 * r.prod : Nat) : Int) := by
    unfold TensorShape.Size
    rw [SizeHelper_mono (d1 :: r) _ 1 n (by norm_num) (by
      have : (1 : Int) ≤ (d0 : Int) := by exact_mod_cast hd0
      simpa using this) hs1]
    simp
  have hbe : d1 * r.prod * tensor.DataType.Size < 2 ^ 64 :=
    lt_of_le_of_lt (Nat.mul_le_mul_right _ hP2) hbytes
  have hae : r.prod * tensor.DataType.Size < 2 ^ 64 :=
    lt_of_le_of_lt (Nat.mul_le_mul_right _ hP1) hbe
  have hoff : dim0_offset * (d1 * r.prod * tensor.DataType.Size) < 2 ^ 64 := by
    refine lt_of_le_of_lt ?_ hbytes
    rw [Nat.mul_assoc d0]
    exact Nat.mul_le_mul_right _ (le_of_lt hd)
  have hpos : p * (r.prod * tensor.DataType.Size) < 2 ^ 64 := by
    refine lt_of_le_of_lt ?_ hbe
    rw [Nat.mul_assoc d1]
    exact Nat.mul_le_mul_right _ (le_of_lt hp)
  have hp64 : p < 2 ^ 64 := by
    have h3 : d0 * d1 < 2 ^ 63 := by
      rw [one_mul] at hd01
      exact_mod_cast hd01
    have h4 : d1 ≤ d0 * d1 := Nat.le_mul_of_pos_left _ (by omega)
    omega
  have hposition : (if direction = Direction.kForward then
        if (p : Int) > (d1 : Int) then (d1 : Int) else (p : Int)
      else
        if (if (p : Int) ≥ (d1 : Int) then (d1 : Int) - 1 else (p : Int)) < -1 then -1
        else if (p : Int) ≥ (d1 : Int) then (d1 : Int) - 1 else (p : Int)) = (p : Int) := by
    have hpd : (p : Int) < (d1 : Int) := by exact_mod_cast hp
    have hp0 : (0 : Int) ≤ (p : Int) := Int.ofNat_nonneg p
    split_ifs <;> omega
  have hnew := Iterator_new_eq mlvalue tensor 1 dim0_offset p direction d1 _ _ r.prod (d1 * r.prod)
    hm hseq h1 ha h2 hb (by omega) (by omega) hae hbe hoff p hposition
  refine ⟨_, hnew, rfl, rfl, ?_, ?_⟩
  · have hraw : tensor.DataRaw + dim0_offset * (d1 * r.prod * tensor.DataType.Size)
        + p * (r.prod * tensor.DataType.Size)
        = tensor.DataRaw + (dim0_offset * d1 + p) * r.prod * tensor.DataType.Size := by ring
    rw [MaterializeMLValue_current]
    simp only [to_size_t_cast p hp64, Nat.mod_eq_of_lt hpos, hraw]
  · have hx : dim0_offset * d1 + p + 1 ≤ d0 * d1 := by
      have : (dim0_offset + 1) * d1 ≤ d0 * d1 := Nat.mul_le_mul_right _ hd
      have h3 : (dim0_offset + 1) * d1 = dim0_offset * d1 + d1 := by ring
      omega
    have := Nat.mul_le_mul_right (r.prod * tensor.DataType.Size) hx
    calc (dim0_offset * d1 + p) * r.prod * tensor.DataType.Size + r.prod * tensor.DataType.Size
        = (dim0_offset * d1 + p + 1) * (r.prod * tensor.DataType.Size) := by ring
      _ ≤ d0 * d1 * (r.prod * tensor.DataType.Size) := this
      _ = d0 * d1 * r.prod * tensor.DataType.Size := by ring


/-- Slicing a tensor of natural dimensions `d0 :: d1 :: r` on dimension 0 with dim0 offset 0, at a
position below `d0`, when no size overflows. -/
theorem slice_dimension_0 (mlvalue : MLValue) (tensor : Tensor) (d0 d1 : Nat) (r : List Nat)
    (p : Nat) (direction : Direction) (n : Int)
    (hm : mlvalue.data_ = some tensor)
    (hshape : tensor.Shape.dims = (d0 :: d1 :: r).map fun (k : Nat) => (k : Int))
    (hsize : tensor.Shape.Size = some n)
    (hbytes : n.toNat * tensor.DataType.Size < 2 ^ 64)
    (hp : p < d0) :
    ∃ it, Iterator.new mlvalue 0 0 p direction = Result.ret it ∧
      it.position_ = (p : Int) ∧ it.sequence_length_ = (d0 : Int) ∧
      it.MaterializeMLValue.current_
        = some { type_is_tensor := true
                 data_ := some
                   { DataType := tensor.DataType
                     Shape := { dims := (d1 :: r).map fun (k : Nat) => (k : Int) }
                     DataRaw := tensor.DataRaw + p * (d1 * r.prod) * tensor.DataType.Size
                     Location := tensor.Location } } ∧
      p * (d1 * r.prod) * tensor.DataType.Size + d1 * r.prod * tensor.DataType.Size
        ≤ d0 * d1 * r.prod * tensor.DataType.Size := by
  have hsize0 := hsize
  unfold TensorShape.Size at hsize
  rw [hshape] at hsize
  have hn := SizeHelper_cast _ 1 n (by norm_num) hsize
  have hn63 := SizeHelper_lt _ 1 n (by norm_num) hsize
  have hN : n = ((d0 * (d1 * r.prod) : Nat) : Int) := by
    rw [hn]
    simp only [List.prod_cons, one_mul]
  have hN63 : d0 * (d1 * r.prod) < 2 ^ 63 := by
    rw [hN] at hn63
    exact_mod_cast hn63
  rw [hN, Int.toNat_ofNat] at hbytes
  obtain ⟨hs1, hd063⟩ := SizeHelper_cons d0 (d1 :: r) 1 n hsize
  have hd0 : 1 ≤ d0 := by omega
  have hP2 : d1 * r.prod ≤ d0 * (d1 * r.prod) := Nat.le_mul_of_pos_left _ (by omega)
  have hseq : tensor.Shape.dims[0]? = some (d0 : Int) := by
    rw [hshape]
    simp
  have h1 : tensor.Shape.Slice ((0 + 1) % 2 ^ 64)
      = Result.ret { dims := (d1 :: r).map fun (k : Nat) => (k : Int) } := by
    unfold TensorShape.Slice ONNXRUNTIME_ENFORCE
    rw [hshape]
    simp
  have ha : TensorShape.Size { dims := (d1 :: r).map fun (k : Nat) => (k : Int) }
      = some ((d1 * r.prod : Nat) : Int) := by
    unfold TensorShape.Size
    rw [SizeHelper_mono (d1 :: r) _ 1 n (by norm_num) (by
      have : (1 : Int) ≤ (d0 : Int) := by exact_mod_cast hd0
      simpa using this) hs1]
    simp
  have h2 : tensor.Shape.Slice 0 = Result.ret tensor.Shape := by
    unfold TensorShape.Slice ONNXRUNTIME_ENFORCE
    simp
  have hb : tensor.Shape.Size = some ((d0 * (d1 * r.prod) : Nat) : Int) := by
    rw [hsize0, hN]
  have hae : d1 * r.prod * tensor.DataType.Size < 2 ^ 64 :=
    lt_of_le_of_lt (Nat.mul_le_mul_right _ hP2) hbytes
  have hoff : 0 * (d0 * (d1 * r.prod) * tensor.DataType.Size) < 2 ^ 64 := by
    rw [Nat.zero_mul]
    exact Nat.two_pow_pos 64
  have hpos : p * (d1 * r.prod * tensor.DataType.Size) < 2 ^ 64 := by
    refine lt_of_le_of_lt ?_ hbytes
    rw [Nat.mul_assoc d0]
    exact Nat.mul_le_mul_right _ (le_of_lt hp)
  have hp64 : p < 2 ^ 64 := by
    have h3 : d0 < 2 ^ 63 := by
      rw [one_mul] at hd063
      exact_mod_cast hd063
    omega
  have hposition : (if direction = Direction.kForward then
        if (p : Int) > (d0 : Int) then (d0 : Int) else (p : Int)
      else
        if (if (p : Int) ≥ (d0 : Int) then (d0 : Int) - 1 else (p : Int)) < -1 then -1
        else if (p : Int) ≥ (d0 : Int) then (d0 : Int) - 1 else (p : Int)) = (p : Int) := by
    have hpd : (p : Int) < (d0 : Int) := by exact_mod_cast hp
    have hp0 : (0 : Int) ≤ (p : Int) := Int.ofNat_nonneg p
    split_ifs <;> omega
  have hnew := Iterator_new_eq mlvalue tensor 0 0 p direction d0 _ _ (d1 * r.prod)
    (d0 * (d1 * r.prod)) hm hseq h1 ha h2 hb (by omega) (by omega) hae hbytes hoff p hposition
  refine ⟨_, hnew, rfl, rfl, ?_, ?_⟩
  · have hraw : tensor.DataRaw + 0 * (d0 * (d1 * r.prod) * tensor.DataType.Size)
        + p * (d1 * r.prod * tensor.DataType.Size)
        = tensor.DataRaw + p * (d1 * r.prod) * tensor.DataType.Size := by ring
    rw [MaterializeMLValue_current]
    simp only [to_size_t_cast p hp64, Nat.mod_eq_of_lt hpos, hraw]
  · have hx : p + 1 ≤ d0 := hp
    have := Nat.mul_le_mul_right (d1 * r.prod * tensor.DataType.Size) hx
    calc p * (d1 * r.prod) * tensor.DataType.Size + d1 * r.prod * tensor.DataType.Size
        = (p + 1) * (d1 * r.prod * tensor.DataType.Size) := by ring
      _ ≤ d0 * (d1 * r.prod * tensor.DataType.Size) := this
      _ = d0 * d1 * r.prod * tensor.DataType.Size := by ring

theorem Size_of_natural_dims (tensor : Tensor) (dims : List Nat) (n : Int)
    (hshape : tensor.Shape.dims = dims.map fun (k : Nat) => (k : Int))
    (hsize : tensor.Shape.Size = some n) : n = ((dims.prod : Nat) : Int) := by
  unfold TensorShape.Size at hsize
  rw [hshape] at hsize
  rw [SizeHelper_cast _ 1 n (by norm_num) hsize, one_mul]

/-- C30: for a tensor of shape `[d0, d1, r...]` with elements of `e` bytes whose element count and
byte size are computed without overflow, the count being `d0 * d1 * prod(r)`: the iterator built for
slice dimension 1 with `dim0_offset < d0` at a position `p < d1`, in either direction, stands at
`p`, and the sub-tensor it materializes has the element type and location of the tensor, shape
`[r...]` and its data at `(dim0_offset * d1 + p) * prod(r) * e` bytes from the data of the tensor, its
`prod(r) * e` bytes ending within the `d0 * d1 * prod(r) * e` bytes of the tensor; the iterator built
for slice dimension 0 with dim0 offset 0 at a position `p < d0` materializes the sub-tensor of shape
`[d1, r...]` at `p * d1 * prod(r) * e` bytes from the data of the tensor, again within its bytes. -/
theorem slices_stay_inside_tensor (mlvalue : MLValue) (tensor : Tensor) (d0 d1 : Nat) (r : List Nat)
    (direction : Direction) (n : Int)
    (hm : mlvalue.data_ = some tensor)
    (hshape : tensor.Shape.dims = (d0 :: d1 :: r).map fun (k : Nat) => (k : Int))
    (hsize : tensor.Shape.Size = some n)
    (hbytes : n.toNat * tensor.DataType.Size < 2 ^ 64) :
    n = ((d0 * d1 * r.prod : Nat) : Int) ∧
    (∀ dim0_offset p : Nat, dim0_offset < d0 → p < d1 →
      ∃ it, Iterator.new mlvalue 1 dim0_offset p direction = Result.ret it ∧
        it.position_ = (p : Int) ∧ it.sequence_length_ = (d1 : Int) ∧
        it.MaterializeMLValue.current_
          = some { type_is_tensor := true
                   data_ := some
                     { DataType := tensor.DataType
                       Shape := { dims := r.map fun (k : Nat) => (k : Int) }
                       DataRaw :=
                         tensor.DataRaw + (dim0_offset * d1 + p) * r.prod * tensor.DataType.Size
                       Location := tensor.Location } } ∧
        (dim0_offset * d1 + p) * r.prod * tensor.DataType.Size + r.prod * tensor.DataType.Size
          ≤ d0 * d1 * r.prod * tensor.DataType.Size) ∧
    (∀ p : Nat, p < d0 →
      ∃ it, Iterator.new mlvalue 0 0 p direction = Result.ret it ∧
        it.position_ = (p : Int) ∧ it.sequence_length_ = (d0 : Int) ∧
        it.MaterializeMLValue.current_
          = some { type_is_tensor := true
                   data_ := some
                     { DataType := tensor.DataType
                       Shape := { dims := (d1 :: r).map fun (k : Nat) => (k : Int) }
                       DataRaw := tensor.DataRaw + p * (d1 * r.prod) * tensor.DataType.Size
                       Location := tensor.Location } } ∧
        p * (d1 * r.prod) * tensor.DataType.Size + d1 * r.prod * tensor.DataType.Size
          ≤ d0 * d1 * r.prod * tensor.DataType.Size) := by
  refine ⟨?_, fun dim0_offset p hd hp =>
    slice_dimension_1 mlvalue tensor d0 d1 r dim0_offset p direction n hm hshape hsize hbytes hd hp,
    fun p hp => slice_dimension_0 mlvalue tensor d0 d1 r p direction n hm hshape hsize hbytes hp⟩
  rw [Size_of_natural_dims tensor (d0 :: d1 :: r) n hshape hsize]
  simp only [List.prod_cons, Nat.mul_assoc]

theorem slices_stay_inside_tensor_witness :
    Fixture.tensor_2_3_4.Shape.Size = some 24 ∧
    (∃ it, Iterator.new Fixture.value_2_3_4 1 1 2 Direction.kForward = Result.ret it ∧
      it.position_ = 2 ∧ it.sequence_length_ = 3 ∧
      it.MaterializeMLValue.current_
        = some { type_is_tensor := true
                 data_ := some
                   { DataType := { Size := 4 }, Shape := { dims := [4] }, DataRaw := 4096 + 80,
                     Location := "Cpu" } } ∧
      80 + 16 ≤ 96) ∧
    (∃ it, Iterator.new Fixture.value_2_3_4 0 0 1 Direction.kReverse = Result.ret it ∧
      it.position_ = 1 ∧ it.sequence_length_ = 2 ∧
      it.MaterializeMLValue.current_
        = some { type_is_tensor := true
                 data_ := some
                   { DataType := { Size := 4 }, Shape := { dims := [3, 4] }, DataRaw := 4096 + 48,
                     Location := "Cpu" } } ∧
      48 + 48 ≤ 96) :=
  ⟨rfl,
    (slices_stay_inside_tensor Fixture.value_2_3_4 Fixture.tensor_2_3_4 2 3 [4] Direction.kForward 24
      rfl rfl rfl (by decide)).2.1 1 2 (by decide) (by decide),
    (slices_stay_inside_tensor Fixture.value_2_3_4 Fixture.tensor_2_3_4 2 3 [4] Direction.kReverse 24
      rfl rfl rfl (by decide)).2.2 1 (by decide)⟩

end onnxruntime
